import Mathlib

/-!
Modified-IRR: root finder, bracket-search driver and NPV objective

A shallow embedding of `roots.h` (`RootFinder::SearchForRoot`), of
`modified_irr.cpp` (`CashFlowList::push_back`, `CashFlowList::calculateNPV`,
`CashFlowList::GetDaysInRange`, `Calculator::GetRate`), of `log.cpp` and of
`date_math.cpp` (day differences, `IsLeapYear`, `GetDaysInMonth`, `AddMonths`).

Modelling conventions.

* `RESULT_T`, `Rate_t`, `NPV_t` and `CashFlowAmt_t` (all `long double`) are
  modelled twice.  In the namespaces `roots`, `mirr`, `dates` and `logging`
  they are the rationals `ℚ` with exact arithmetic; a division by zero
  evaluates to `0` in `ℚ`, and the theorems say where the divisors are
  non-zero.  In the namespace `longdouble` the solver and the driver are
  parameterised by an `Arithmetic`: every `+`, `-`, `*` and `/` passes its
  exact result through `rnd`, while `abs`, the comparisons, the negation and
  the conversion of a `double` to `long double` are exact.
  `ieee.Format.round` is rounding to nearest, ties to even, with gradual
  underflow; `ieee.binary64` and `ieee.x87extended` are the two formats that
  `long double` has with the common compilers.  The literals `0.000000001`
  and `0.99999` are `double` constants, so in a binary format they are the
  binary64 numbers nearest to the decimal values.  With `Arithmetic.exact`
  the model of `longdouble` is the one over `ℚ` (`ld_exact_SearchForRoot`,
  `ld_exact_GetRateTrace`).  Overflow is outside both models;
  `longdouble.calculateNPV` has the infinity or NaN that a zero divisor
  gives, with `std::pow` at such an exponent as the C standard prescribes.
* The C arrays `estimate[4]`, `result[4]`, `parabolic_estimate[4]` are the
  fields `estimate_k*`, `result_k*`, `parabolic_k*` of `SolverState`, one per
  index `kBest`, `kCounter`, `kMinus1`, `kMinus2`.
* A thrown `RangeException` is `Except.error` carrying its
  `relative_position_`.
* The diagnostic log is write-only for the solver: `SearchForRoot` is modelled
  without it, and `SearchForRootLogged` threads the `Log` of `log.cpp` through
  the same steps.  The states carry a record of what happened: `evaluated`
  lists the arguments at which the objective was called, `attempts` lists the
  windows handed to the solver.  No branch reads either list.
* `int` and `long` values are integers `Int`; `/` and `%` on `int` are the
  truncating `Int.tdiv` and `Int.tmod`.  A failed `assert` is the result
  `none`.
* `std::pow` is a parameter `pw` of `calculateNPV` and `GetRate`; theorems state
  the laws of `std::pow` they rely on as hypotheses.
* Loops are structural recursions on a fuel argument that keep the guard of the
  source.  `SearchForRoot` supplies `kMaxIterations` fuel, which its guard
  `count < kMaxIterations` never outlasts.  `GetRate` takes the fuel from its
  caller and answers `none` when the fuel runs out with the loop still
  searching.
-/

namespace roots

/-- Position of a rejected pair of estimates relative to the solution
(`RangeException::relative_to_solution_e`). -/
inductive relative_to_solution_e where
  | within_range
  | too_low
  | too_high
  | unknown
  deriving DecidableEq, Repr

/-- Estimation method chosen in one iteration (`RootFinder::methods_available`). -/
inductive methods_available where
  | unknown
  | quadratic_interpolation
  | secant
  | bisection
  deriving DecidableEq, Repr

/-- The literal `estimate_tolerance = 0.000000001`. -/
def estimate_tolerance : ℚ := 1 / 1000000000

/-- The literal `result_tolerance = 0.000000001`. -/
def result_tolerance : ℚ := 1 / 1000000000

/-- The iteration cap `kMaxIterations` of `SearchForRoot`. -/
def kMaxIterations : Nat := 100

/-- `RootFinder::SecantEstimate`. -/
def SecantEstimate (in_prev_estimate in_earlier_estimate in_prev_result in_earlier_result : ℚ) : ℚ :=
  in_prev_estimate - (in_prev_result *
    ((in_prev_estimate - in_earlier_estimate) / (in_prev_result - in_earlier_result)))

/-- `RootFinder::QuadraticInterpolation`. -/
def QuadraticInterpolation (in_prev_estimate in_curr_estimate in_earlier_estimate
    in_prev_result in_curr_result in_earlier_result : ℚ) : ℚ :=
  (in_earlier_estimate * in_curr_result * in_prev_result)
      / ((in_earlier_result - in_curr_result) * (in_earlier_result - in_prev_result))
    + (in_curr_estimate * in_earlier_result * in_prev_result)
      / ((in_curr_result - in_earlier_result) * (in_curr_result - in_prev_result))
    + (in_prev_estimate * in_earlier_result * in_curr_result)
      / ((in_prev_result - in_earlier_result) * (in_prev_result - in_curr_result))

/-- Local variables of `SearchForRoot` that live across iterations. -/
structure SolverState where
  estimate_kBest : ℚ
  estimate_kCounter : ℚ
  estimate_kMinus1 : ℚ
  estimate_kMinus2 : ℚ
  result_kBest : ℚ
  result_kCounter : ℚ
  result_kMinus1 : ℚ
  result_kMinus2 : ℚ
  parabolic_kBest : ℚ
  parabolic_kMinus1 : ℚ
  parabolic_kMinus2 : ℚ
  count : Nat
  method_to_use : methods_available
  evaluated : List ℚ
  deriving DecidableEq

/-- State after the declarations and the two initial evaluations
(`roots.h` lines 98-125): the first argument is stored as `kBest`, the second as
`kCounter`. -/
def initialState (in_best_estimate in_counter_estimate : ℚ) (in_function : ℚ → ℚ) : SolverState where
  estimate_kBest := in_best_estimate
  estimate_kCounter := in_counter_estimate
  estimate_kMinus1 := in_counter_estimate
  estimate_kMinus2 := 0
  result_kBest := in_function in_best_estimate
  result_kCounter := in_function in_counter_estimate
  result_kMinus1 := in_function in_counter_estimate
  result_kMinus2 := in_function in_counter_estimate
  parabolic_kBest := 0
  parabolic_kMinus1 := 0
  parabolic_kMinus2 := 0
  count := 0
  method_to_use := methods_available.unknown
  evaluated := [in_best_estimate, in_counter_estimate]

/-- The conditional `std::swap` of the best and counter slots
(lines 145-149 and 252-256). -/
def swapIfCounterCloser (s : SolverState) : SolverState :=
  if |s.result_kCounter| < |s.result_kBest| then
    { s with
      estimate_kBest := s.estimate_kCounter
      estimate_kCounter := s.estimate_kBest
      result_kBest := s.result_kCounter
      result_kCounter := s.result_kBest }
  else s

/-- State on entry to the `while` loop (lines 145-151). -/
def prepare (s : SolverState) : SolverState :=
  let t := swapIfCounterCloser s
  { t with estimate_kMinus1 := t.estimate_kCounter }

/-- Interpolated or secant candidate and the method that produced it
(lines 173-183). -/
def candidate (s : SolverState) : ℚ × methods_available :=
  if s.result_kCounter ≠ s.result_kMinus1 ∧ s.result_kBest ≠ s.result_kMinus1 then
    (QuadraticInterpolation s.estimate_kCounter s.estimate_kBest s.estimate_kMinus1
        s.result_kCounter s.result_kBest s.result_kMinus1,
      methods_available.quadratic_interpolation)
  else
    (SecantEstimate s.estimate_kCounter s.estimate_kBest s.result_kCounter s.result_kBest,
      methods_available.secant)

/-- The threshold `under_shoot_threshold` (lines 189-191). -/
def under_shoot_threshold (s : SolverState) : ℚ :=
  (3 / 4) * |s.estimate_kMinus1 - s.estimate_kBest| - |s.estimate_kBest|

/-- Method in force after the bisection test (lines 195-214); `c` is the
candidate, which the source has just stored in `parabolic_estimate[kBest]` and
`parabolic_estimate[kMinus1]` after moving the old `parabolic_estimate[kMinus1]`
to `parabolic_estimate[kMinus2]`. -/
def chooseMethod (s : SolverState) (c : ℚ) (m : methods_available) : methods_available :=
  if c ≤ under_shoot_threshold s then methods_available.bisection
  else
    let estimate_delta_2 := |s.parabolic_kMinus1 - s.estimate_kMinus2|
    let estimate_delta_1 := |c - s.estimate_kBest|
    let prev_earlier_midpoint := |s.estimate_kMinus1 - s.estimate_kMinus2| / 2
    if estimate_delta_1 > prev_earlier_midpoint ∧ estimate_delta_2 > estimate_tolerance / 2 then
      methods_available.bisection
    else m

/-- The point at which the objective is evaluated in this iteration
(lines 173-222). -/
def nextEstimate (s : SolverState) : ℚ :=
  if chooseMethod s (candidate s).1 (candidate s).2 = methods_available.bisection then
    (s.estimate_kBest + s.estimate_kCounter) / 2
  else (candidate s).1

/-- One pass through the body of the `while` loop, up to the log entry
(lines 165-256). -/
def iterate (in_function : ℚ → ℚ) (s : SolverState) : SolverState :=
  let new_estimate := nextEstimate s
  let new_result := in_function new_estimate
  let placed : SolverState :=
    if new_result * s.result_kCounter < 0 then
      { s with estimate_kBest := new_estimate, result_kBest := new_result }
    else
      { s with estimate_kCounter := new_estimate, result_kCounter := new_result }
  swapIfCounterCloser
    { placed with
      estimate_kMinus2 := s.estimate_kMinus1
      result_kMinus2 := s.result_kMinus1
      estimate_kMinus1 := s.estimate_kBest
      result_kMinus1 := s.result_kBest
      parabolic_kMinus2 := s.parabolic_kMinus1
      parabolic_kMinus1 := (candidate s).1
      parabolic_kBest := (candidate s).1
      count := s.count + 1
      method_to_use := chooseMethod s (candidate s).1 (candidate s).2
      evaluated := s.evaluated ++ [new_estimate] }

/-- The two `break` tests at the end of the loop body (lines 288-298). -/
def converged (s : SolverState) : Bool :=
  decide (|s.estimate_kBest - s.estimate_kCounter| < estimate_tolerance)
    || decide (|s.result_kBest| < result_tolerance)

/-- The loop `while (count < kMaxIterations)` with its two `break`s. -/
def whileLoop (in_function : ℚ → ℚ) : Nat → SolverState → SolverState
  | 0, s => s
  | fuel + 1, s =>
    if s.count < kMaxIterations then
      let t := iterate in_function s
      if converged t then t else whileLoop in_function fuel t
    else s

/-- `RootFinder::SearchForRoot` together with the state it ends in: the state
at the `throw` when the estimates are rejected, the state at `return`
otherwise. -/
def SearchForRootTrace (in_best_estimate in_counter_estimate : ℚ) (in_function : ℚ → ℚ) :
    Except relative_to_solution_e ℚ × SolverState :=
  let s := initialState in_best_estimate in_counter_estimate in_function
  if s.result_kCounter * s.result_kBest ≥ 0 then
    if s.result_kBest < 0 then (Except.error relative_to_solution_e.too_low, s)
    else (Except.error relative_to_solution_e.too_high, s)
  else
    let t := whileLoop in_function kMaxIterations (prepare s)
    (Except.ok t.estimate_kBest, t)

/-- `RootFinder::SearchForRoot`: the returned estimate, or the direction of the
`RangeException`. -/
def SearchForRoot (in_best_estimate in_counter_estimate : ℚ) (in_function : ℚ → ℚ) :
    Except relative_to_solution_e ℚ :=
  (SearchForRootTrace in_best_estimate in_counter_estimate in_function).1

end roots

namespace dates

/-- The constant `kSecondsPerDay`. -/
def kSecondsPerDay : Int := 60 * 60 * 24

/-- `GetDifferenceSeconds`: `std::difftime` of two `time_t` values. -/
def GetDifferenceSeconds (in_lhs in_rhs : Int) : ℚ := ((in_lhs - in_rhs : Int) : ℚ)

/-- `GetDifferenceDays`. -/
def GetDifferenceDays (in_lhs in_rhs : Int) : ℚ :=
  GetDifferenceSeconds in_lhs in_rhs / (kSecondsPerDay : ℚ)

/-- `std::lround`: nearest integer, halfway cases away from zero. -/
def lround (x : ℚ) : Int :=
  if 0 ≤ x then ⌊x + 1 / 2⌋ else ⌈x - 1 / 2⌉

end dates

namespace mirr

open roots

/-- `mirr::CashFlow`; `date_` is a `time_t` in seconds. -/
structure CashFlow where
  date_ : Int
  amount_ : ℚ
  days_from_start_ : Int
  deriving DecidableEq

/-- The constructor `CashFlow(in_date, in_amount)`. -/
def CashFlow.make (in_date : Int) (in_amount : ℚ) : CashFlow :=
  { date_ := in_date, amount_ := in_amount, days_from_start_ := 0 }

/-- `CashFlow::operator<`. -/
def CashFlow.lt (a b : CashFlow) : Bool :=
  decide (dates.GetDifferenceSeconds a.date_ b.date_ < 0)

/-- `mirr::CashFlowList`: the vector of entries and the cached dates. -/
structure CashFlowList where
  entries : List CashFlow
  start_date_ : Int
  end_date_ : Int
  deriving DecidableEq

/-- A default-constructed list; the two cached dates are not read before
`push_back` or `GetDaysInRange` has set them. -/
def CashFlowList.empty : CashFlowList :=
  { entries := [], start_date_ := 0, end_date_ := 0 }

/-- `CashFlowList::push_back`. -/
def CashFlowList.push_back (l : CashFlowList) (in_new : CashFlow) : CashFlowList :=
  if l.entries.length = 0 then
    { l with entries := l.entries ++ [in_new], start_date_ := in_new.date_ }
  else
    let days_from_start := dates.lround (dates.GetDifferenceDays in_new.date_ l.start_date_)
    if days_from_start < 0 then
      { l with
        start_date_ := in_new.date_
        entries :=
          l.entries.map (fun cash_flow =>
              { cash_flow with
                days_from_start_ :=
                  dates.lround (dates.GetDifferenceDays cash_flow.date_ in_new.date_) })
            ++ [{ in_new with days_from_start_ := days_from_start }] }
    else
      { l with entries := l.entries ++ [{ in_new with days_from_start_ := days_from_start }] }

/-- `std::max_element` over the entries with `CashFlow::operator<`: the first
entry that no later one exceeds. -/
def max_element : List CashFlow → Option CashFlow
  | [] => none
  | c :: cs => some (cs.foldl (fun largest x => if CashFlow.lt largest x then x else largest) c)

/-- `CashFlowList::calculateNPV`; `pw` stands for `std::pow`. -/
def CashFlowList.calculateNPV (pw : ℚ → ℚ → ℚ) (l : CashFlowList)
    (in_daily_discount_rate : ℚ) : ℚ :=
  let power_rate := 1 + in_daily_discount_rate
  if in_daily_discount_rate = -1 then 0
  else
    match max_element l.entries with
    | none => 0
    | some last_cash_flow =>
      l.entries.foldl
        (fun result cash_flow =>
          let discount_exponent :=
            (cash_flow.days_from_start_ : ℚ) / (last_cash_flow.days_from_start_ : ℚ)
          let discount_denom := pw power_rate discount_exponent
          if discount_denom ≠ 0 then result + cash_flow.amount_ / discount_denom else result)
        0

/-- The retry budget `kMaxIterations` declared in `Calculator::GetRate`. -/
def kMaxIterations : Nat := 100

/-- Local variables of `Calculator::GetRate`. -/
structure DriverState where
  result : ℚ
  low_estimate : ℚ
  high_estimate : ℚ
  count : Nat
  searching : Bool
  err_cause : relative_to_solution_e
  attempts : List (ℚ × ℚ)
  deriving DecidableEq

/-- State of `GetRate` on entry to its loop (lines 196-206). -/
def driverStart : DriverState where
  result := 0
  low_estimate := -99999 / 100000
  high_estimate := 1
  count := 0
  searching := true
  err_cause := relative_to_solution_e.unknown
  attempts := []

/-- The test that sets `searching` at the end of the loop body
(lines 249-251). -/
def stillSearching (count : Nat) (err_cause : relative_to_solution_e) : Bool :=
  decide (count < kMaxIterations)
    && decide (err_cause ≠ relative_to_solution_e.unknown)
    && decide (err_cause ≠ relative_to_solution_e.within_range)

/-- One pass through the body of `while (searching)` (lines 215-251). -/
def driverBody (f : ℚ → ℚ) (s : DriverState) : DriverState :=
  let tried := s.attempts ++ [(s.low_estimate, s.high_estimate)]
  match SearchForRoot s.low_estimate s.high_estimate f with
  | Except.ok r =>
    { s with
      result := r
      err_cause := relative_to_solution_e.unknown
      attempts := tried
      searching := stillSearching s.count relative_to_solution_e.unknown }
  | Except.error relative_position_ =>
    let difference := |s.high_estimate - s.low_estimate|
    if relative_position_ = relative_to_solution_e.too_low then
      { s with
        low_estimate := s.high_estimate
        high_estimate := s.high_estimate + difference
        err_cause := relative_position_
        attempts := tried
        searching := stillSearching s.count relative_position_ }
    else
      { s with
        high_estimate := s.low_estimate
        low_estimate := s.low_estimate - difference
        err_cause := relative_position_
        attempts := tried
        searching := stillSearching s.count relative_position_ }

/-- The loop `while (searching)` of `GetRate`, followed for at most `fuel`
passes through its body. -/
def driverRun (f : ℚ → ℚ) : Nat → DriverState → DriverState
  | 0, s => s
  | fuel + 1, s => if s.searching then driverRun f fuel (driverBody f s) else s

/-- State of `Calculator::GetRate`, for an arbitrary objective, after at most
`fuel` passes through its loop. -/
def GetRateTrace (f : ℚ → ℚ) (fuel : Nat) : DriverState :=
  driverRun f fuel driverStart

/-- `Calculator::GetRate` for an arbitrary objective: the returned `result`, or
`none` when the loop is still searching after `fuel` passes. -/
def GetRateWith (f : ℚ → ℚ) (fuel : Nat) : Option ℚ :=
  if (GetRateTrace f fuel).searching then none else some (GetRateTrace f fuel).result

/-- `Calculator::GetRate`: the objective is the NPV of the cash flows. -/
def GetRate (pw : ℚ → ℚ → ℚ) (fuel : Nat) (in_cash_flows : CashFlowList) : Option ℚ :=
  GetRateWith (in_cash_flows.calculateNPV pw) fuel

/-- An instance of the `pw` parameter: exact `std::pow` whenever the exponent is
an integer, the exponent rounded down otherwise. -/
def powFloor (x e : ℚ) : ℚ := x ^ ⌊e⌋

end mirr

namespace roots

/-- The stored results are the objective at the stored estimates. -/
def Consistent (f : ℚ → ℚ) (s : SolverState) : Prop :=
  s.result_kBest = f s.estimate_kBest ∧ s.result_kCounter = f s.estimate_kCounter

/-- A discontinuous objective with a sign change at `0` and no root. -/
def stepObjective (x : ℚ) : ℚ := if x ≤ 0 then -1 else 1

/-- Loop invariant of the run on `stepObjective` from the estimates `0` and
`2 ^ 100`: the best estimate stays `0`, the counter estimate halves. -/
def StepInv (fuel : Nat) (s : SolverState) : Prop :=
  s.estimate_kBest = 0 ∧ s.estimate_kCounter = 2 ^ fuel ∧ s.result_kBest = -1
    ∧ s.result_kCounter = 1 ∧ (s.result_kMinus1 = 1 ∨ s.result_kMinus1 = -1)
    ∧ s.count + fuel = kMaxIterations

/-- The NPV objective of test case 6: `100` at day `0` and `-75` one span later. -/
def case6Objective (r : ℚ) : ℚ := if r = -1 then 0 else 100 + (-75) / (1 + r)

/-- State of the solver on the objective of test case 6 after 0 iterations. -/
def case6State0 : SolverState :=
    { estimate_kBest := 1,
      estimate_kCounter := (-99999 / 100000),
      estimate_kMinus1 := (-99999 / 100000),
      estimate_kMinus2 := 0,
      result_kBest := (125 / 2),
      result_kCounter := (-7499900),
      result_kMinus1 := (125 / 2),
      result_kMinus2 := (125 / 2),
      parabolic_kBest := 0,
      parabolic_kMinus1 := 0,
      parabolic_kMinus2 := 0,
      count := 0,
      method_to_use := methods_available.unknown,
      evaluated := [(-99999 / 100000), 1] }

/-- State of the solver on the objective of test case 6 after 1 iterations. -/
def case6State1 : SolverState :=
    { estimate_kBest := (59999 / 60000),
      estimate_kCounter := (-99999 / 100000),
      estimate_kMinus1 := 1,
      estimate_kMinus2 := (-99999 / 100000),
      result_kBest := (7499900 / 119999),
      result_kCounter := (-7499900),
      result_kMinus1 := (125 / 2),
      result_kMinus2 := (125 / 2),
      parabolic_kBest := (59999 / 60000),
      parabolic_kMinus1 := (59999 / 60000),
      parabolic_kMinus2 := 0,
      count := 1,
      method_to_use := methods_available.secant,
      evaluated := [(-99999 / 100000), 1, (59999 / 60000)] }

/-- State of the solver on the objective of test case 6 after 2 iterations. -/
def case6State2 : SolverState :=
    { estimate_kBest := (-1 / 300000),
      estimate_kCounter := (-99999 / 100000),
      estimate_kMinus1 := (59999 / 60000),
      estimate_kMinus2 := 1,
      result_kBest := (7499900 / 299999),
      result_kCounter := (-7499900),
      result_kMinus1 := (7499900 / 119999),
      result_kMinus2 := (125 / 2),
      parabolic_kBest := (-6299850001 / 2700000000),
      parabolic_kMinus1 := (-6299850001 / 2700000000),
      parabolic_kMinus2 := (59999 / 60000),
      count := 2,
      method_to_use := methods_available.bisection,
      evaluated := [(-99999 / 100000), 1, (59999 / 60000), (-1 / 300000)] }

/-- State of the solver on the objective of test case 6 after 3 iterations. -/
def case6State3 : SolverState :=
    { estimate_kBest := (-1 / 300000),
      estimate_kCounter := (-149999 / 300000),
      estimate_kMinus1 := (-1 / 300000),
      estimate_kMinus2 := (59999 / 60000),
      result_kBest := (7499900 / 299999),
      result_kCounter := (-7499900 / 150001),
      result_kMinus1 := (7499900 / 299999),
      result_kMinus2 := (7499900 / 119999),
      parabolic_kBest := (-674983125224999 / 1012500000000000),
      parabolic_kMinus1 := (-674983125224999 / 1012500000000000),
      parabolic_kMinus2 := (-6299850001 / 2700000000),
      count := 3,
      method_to_use := methods_available.bisection,
      evaluated := [(-99999 / 100000), 1, (59999 / 60000), (-1 / 300000), (-149999 / 300000)] }

/-- State of the solver on the objective of test case 6 after 4 iterations. -/
def case6State4 : SolverState :=
    { estimate_kBest := (-1 / 4),
      estimate_kCounter := (-1 / 300000),
      estimate_kMinus1 := (-1 / 300000),
      estimate_kMinus2 := (-1 / 300000),
      result_kBest := 0,
      result_kCounter := (7499900 / 299999),
      result_kMinus1 := (7499900 / 299999),
      result_kMinus2 := (7499900 / 299999),
      parabolic_kBest := (-11250149999 / 67500000000),
      parabolic_kMinus1 := (-11250149999 / 67500000000),
      parabolic_kMinus2 := (-674983125224999 / 1012500000000000),
      count := 4,
      method_to_use := methods_available.bisection,
      evaluated := [(-99999 / 100000), 1, (59999 / 60000), (-1 / 300000), (-149999 / 300000), (-1 / 4)] }

/-- The objective `1 / x`: a sign change at its pole and no root. -/
def reciprocalObjective (x : ℚ) : ℚ := 1 / x

/-- Solver run on `reciprocalObjective` from `1/2000000000` and `-1/1000000000`:
state on entry to the loop. -/
def reciprocalState0 : SolverState :=
    { estimate_kBest := (-1 / 1000000000),
      estimate_kCounter := (1 / 2000000000),
      estimate_kMinus1 := (1 / 2000000000),
      estimate_kMinus2 := 0,
      result_kBest := (-1000000000),
      result_kCounter := 2000000000,
      result_kMinus1 := (-1000000000),
      result_kMinus2 := (-1000000000),
      parabolic_kBest := 0,
      parabolic_kMinus1 := 0,
      parabolic_kMinus2 := 0,
      count := 0,
      method_to_use := methods_available.unknown,
      evaluated := [(1 / 2000000000), (-1 / 1000000000)] }

/-- Solver run on `reciprocalObjective` from `1/2000000000` and `-1/1000000000`:
state after the single iteration. -/
def reciprocalState1 : SolverState :=
    { estimate_kBest := (1 / 2000000000),
      estimate_kCounter := (-1 / 4000000000),
      estimate_kMinus1 := (-1 / 1000000000),
      estimate_kMinus2 := (1 / 2000000000),
      result_kBest := 2000000000,
      result_kCounter := (-4000000000),
      result_kMinus1 := (-1000000000),
      result_kMinus2 := (-1000000000),
      parabolic_kBest := (-1 / 2000000000),
      parabolic_kMinus1 := (-1 / 2000000000),
      parabolic_kMinus2 := 0,
      count := 1,
      method_to_use := methods_available.bisection,
      evaluated := [(1 / 2000000000), (-1 / 1000000000), (-1 / 4000000000)] }

/-- The best slot holds the smaller `|f|` of the pair, and both estimates of the
pair are points at which the objective has been evaluated. -/
def BestOfPair (s : SolverState) : Prop :=
  |s.result_kBest| ≤ |s.result_kCounter|
    ∧ s.estimate_kBest ∈ s.evaluated ∧ s.estimate_kCounter ∈ s.evaluated

end roots

namespace mirr

open roots

/-- The timeline built from empty by appending `(d0, a0)` and then `(d1, a1)`. -/
def twoFlows (d0 : Int) (a0 : ℚ) (d1 : Int) (a1 : ℚ) : CashFlowList :=
  (CashFlowList.empty.push_back (CashFlow.make d0 a0)).push_back (CashFlow.make d1 a1)

/-- The window `w'` is the one `GetRate` moves to after the solver has rejected
the window `w`: one width up after `too_low`, one width down after any other
direction. -/
def NextWindow (f : ℚ → ℚ) (w w' : ℚ × ℚ) : Prop :=
  (SearchForRoot w.1 w.2 f = Except.error relative_to_solution_e.too_low
      ∧ w' = (w.2, w.2 + (w.2 - w.1)))
    ∨ (∃ d, d ≠ relative_to_solution_e.too_low
      ∧ SearchForRoot w.1 w.2 f = Except.error d
      ∧ w' = (w.1 - (w.2 - w.1), w.1))

/-- Exactly one of the two endpoints of `w'` is an endpoint of `w`. -/
def SharesOneEndpoint (w w' : ℚ × ℚ) : Prop :=
  ((w'.1 = w.1 ∨ w'.1 = w.2) ∧ ¬ (w'.2 = w.1 ∨ w'.2 = w.2))
    ∨ (¬ (w'.1 = w.1 ∨ w'.1 = w.2) ∧ (w'.2 = w.1 ∨ w'.2 = w.2))

/-- Invariant of the loop of `GetRate`. -/
def DriverInv (f : ℚ → ℚ) (s : DriverState) : Prop :=
  s.count = 0
    ∧ s.high_estimate - s.low_estimate = 199999 / 100000
    ∧ (∀ w ∈ s.attempts.head?, w = ((-99999 / 100000 : ℚ), (1 : ℚ)))
    ∧ List.Chain' (fun w w' => NextWindow f w w' ∧ SharesOneEndpoint w w') s.attempts
    ∧ (∀ w ∈ s.attempts, w.1 < w.2 ∧ w.2 - w.1 = 199999 / 100000)
    ∧ (s.attempts = [] → s.low_estimate = -99999 / 100000 ∧ s.high_estimate = 1)
    ∧ (s.searching = true → ∀ w ∈ s.attempts.getLast?,
        NextWindow f w (s.low_estimate, s.high_estimate)
          ∧ SharesOneEndpoint w (s.low_estimate, s.high_estimate))

/-- The timeline built from empty by appending freshly constructed flows
`(date, amount)` in the order of the list. -/
def appendAll (flows : List (Int × ℚ)) : CashFlowList :=
  flows.foldl (fun l p => l.push_back (CashFlow.make p.1 p.2)) CashFlowList.empty

/-- What `push_back` keeps true of the cached start date: it is the date of an
entry, and no entry is half a day or more before it. -/
def StartInv (l : CashFlowList) : Prop :=
  (∃ c ∈ l.entries, c.date_ = l.start_date_)
    ∧ ∀ c ∈ l.entries, l.start_date_ - 43200 < c.date_

/-- A second instance of the `pw` parameter: exact `std::pow` whenever the
exponent is an integer, the exponent rounded up otherwise; unlike `powFloor` it
grows without bound in its base at every positive exponent. -/
def powCeil (x e : ℚ) : ℚ := x ^ ⌈e⌉

end mirr

namespace logging

/-- Severity of a log entry (`logging::level_logged_e`), in the order of the
C++ enumerators. -/
inductive level_logged_e where
  | debug
  | trace
  | info
  | warning
  | error
  deriving DecidableEq, Repr

/-- The integer value of an enumerator, which `>=` compares. -/
def level_logged_e.toNat : level_logged_e → Nat
  | level_logged_e.debug => 0
  | level_logged_e.trace => 1
  | level_logged_e.info => 2
  | level_logged_e.warning => 3
  | level_logged_e.error => 4

/-- `logging::LogEntry`: the text written to the stream and the level. -/
structure LogEntry where
  text : String
  level_logged_ : level_logged_e
  deriving DecidableEq

/-- `logging::Log`: the vector of entries, the level and the `buffer_` flag. -/
structure Log where
  entries : List LogEntry
  level_logged_ : level_logged_e
  buffer_ : Bool
  deriving DecidableEq

/-- `operator<<(std::ostream&, Log&)`: the text appended to `output`. -/
def Log.print (output : String) (in_log : Log) : String :=
  in_log.entries.foldl
    (fun out entry =>
      if entry.level_logged_.toNat ≥ in_log.level_logged_.toNat then out ++ entry.text ++ "\n"
      else out)
    output

/-- `Log::flush`: the returned text and the log afterwards. -/
def Log.flush (l : Log) : String × Log :=
  (Log.print "" l, { l with entries := [] })

/-- `Log::log(LogEntry&)`: a copy of the entry is pushed at the end. -/
def Log.log (l : Log) (in_entry : LogEntry) : Log :=
  { l with entries := l.entries ++ [{ text := in_entry.text, level_logged_ := in_entry.level_logged_ }] }

/-- The statement `log.log(level) << text`: `Log::log(level)` pushes an empty
entry of that level and the text is streamed into it. -/
def Log.logText (l : Log) (in_level : level_logged_e) (text : String) : Log :=
  { l with entries := l.entries ++ [{ text := text, level_logged_ := in_level }] }

end logging

namespace roots

open logging

/-- First header line written to `calc_log`. -/
def logHeader1 : String :=
  "Count        CurrEstimate   NPV                  CounterEstimate    NPV            Method"

/-- Second header line written to `calc_log`. -/
def logHeader2 : String :=
  "-----        ------------   ---                  ---------------    ---            ------"

/-- The line streamed for one state: the count and the best and counter pairs;
`fmtCount` and `fmt` stand for the stream formatting of a `long` and of a
`RESULT_T` under `std::fixed << std::setw(15) << std::setprecision(6)`. -/
def stateLine (fmtCount : Nat → String) (fmt : ℚ → String) (s : SolverState) : String :=
  fmtCount s.count ++ "     " ++ fmt s.estimate_kBest ++ "   " ++ fmt s.result_kBest ++ "   "
    ++ fmt s.estimate_kCounter ++ "        " ++ fmt s.result_kCounter

/-- The text the `switch (method_to_use)` adds to the entry of an iteration. -/
def methodText : methods_available → String
  | methods_available.quadratic_interpolation => "   quadratic_interpolation_estimate method"
  | methods_available.secant => "   secant method"
  | methods_available.bisection => "   bisection method"
  | methods_available.unknown => "   unknown method"

/-- The loop of `SearchForRoot` with the diagnostic log threaded through: each
pass logs one `debug` entry built from the state after the swap. -/
def whileLoopLogged (fmtCount : Nat → String) (fmt : ℚ → String) (in_function : ℚ → ℚ) :
    Nat → SolverState → Log → SolverState × Log
  | 0, s, calc_log => (s, calc_log)
  | fuel + 1, s, calc_log =>
    if s.count < kMaxIterations then
      let t := iterate in_function s
      let logged := calc_log.log
        { text := stateLine fmtCount fmt t ++ methodText t.method_to_use,
          level_logged_ := level_logged_e.debug }
      if converged t then (t, logged)
      else whileLoopLogged fmtCount fmt in_function fuel t logged
    else (s, calc_log)

/-- `RootFinder::SearchForRoot` with its member `calc_log` threaded through:
result, final state and the log afterwards.  The `throw` precedes every log
statement. -/
def SearchForRootLogged (fmtCount : Nat → String) (fmt : ℚ → String) (calc_log : Log)
    (in_best_estimate in_counter_estimate : ℚ) (in_function : ℚ → ℚ) :
    Except relative_to_solution_e ℚ × SolverState × Log :=
  let s := initialState in_best_estimate in_counter_estimate in_function
  if s.result_kCounter * s.result_kBest ≥ 0 then
    if s.result_kBest < 0 then (Except.error relative_to_solution_e.too_low, s, calc_log)
    else (Except.error relative_to_solution_e.too_high, s, calc_log)
  else
    let p := prepare s
    let opened :=
      ((calc_log.logText level_logged_e.debug logHeader1).logText level_logged_e.debug
        logHeader2).logText level_logged_e.debug (stateLine fmtCount fmt p)
    let r := whileLoopLogged fmtCount fmt in_function kMaxIterations p opened
    (Except.ok r.1.estimate_kBest, r.1, r.2)

end roots

namespace roots

/-- The passes through the loop of `SearchForRoot` that are executed from the
state `s`: for each one, the state at its start and the state at its end. -/
def iterations (in_function : ℚ → ℚ) : Nat → SolverState → List (SolverState × SolverState)
  | 0, _ => []
  | fuel + 1, s =>
    if s.count < kMaxIterations then
      (s, iterate in_function s) ::
        (if converged (iterate in_function s) then []
          else iterations in_function fuel (iterate in_function s))
    else []

/-- A state whose best and counter results have strictly opposite signs and are
the objective at the stored estimates, the best one being the closer to `0`. -/
def Bracketing (f : ℚ → ℚ) (s : SolverState) : Prop :=
  s.result_kBest * s.result_kCounter < 0 ∧ Consistent f s
    ∧ |s.result_kBest| ≤ |s.result_kCounter|

/-- The line through `(x1, y1)` and `(x0, y0)`, evaluated at `x`. -/
def lineThrough (x1 y1 x0 y0 x : ℚ) : ℚ :=
  y1 + (y0 - y1) / (x0 - x1) * (x - x1)

end roots

namespace roots

end roots

namespace roots

/-- The objective `-3x² + 3x + 1`; its roots are `(3 - √21)/6`, between `-1` and
`1`, and `(3 + √21)/6`, above `1`. -/
def humpObjective (x : ℚ) : ℚ := -3 * x * x + 3 * x + 1

/-- Solver run on `humpObjective` from the estimates `-1` and `1`:
state on entry to the loop. -/
def humpState0 : SolverState :=
    { estimate_kBest := 1,
      estimate_kCounter := (-1),
      estimate_kMinus1 := (-1),
      estimate_kMinus2 := 0,
      result_kBest := 1,
      result_kCounter := (-5),
      result_kMinus1 := 1,
      result_kMinus2 := 1,
      parabolic_kBest := 0,
      parabolic_kMinus1 := 0,
      parabolic_kMinus2 := 0,
      count := 0,
      method_to_use := methods_available.unknown,
      evaluated := [(-1), 1] }

/-- Solver run on `humpObjective` from the estimates `-1` and `1`:
state after the first iteration. -/
def humpState1 : SolverState :=
    { estimate_kBest := (2 / 3),
      estimate_kCounter := (-1),
      estimate_kMinus1 := 1,
      estimate_kMinus2 := (-1),
      result_kBest := (5 / 3),
      result_kCounter := (-5),
      result_kMinus1 := 1,
      result_kMinus2 := 1,
      parabolic_kBest := (2 / 3),
      parabolic_kMinus1 := (2 / 3),
      parabolic_kMinus2 := 0,
      count := 1,
      method_to_use := methods_available.secant,
      evaluated := [(-1), 1, (2 / 3)] }

/-- Both ends of the current bracket lie in the closed interval `[lo, hi]`. -/
def Inside (lo hi : ℚ) (s : SolverState) : Prop :=
  lo ≤ s.estimate_kBest ∧ s.estimate_kBest ≤ hi
    ∧ lo ≤ s.estimate_kCounter ∧ s.estimate_kCounter ≤ hi

end roots

namespace mirr

/-- `std::min_element` over the entries with `CashFlow::operator<`: the first
entry that no later one is below. -/
def min_element : List CashFlow → Option CashFlow
  | [] => none
  | c :: cs => some (cs.foldl (fun smallest x => if CashFlow.lt x smallest then x else smallest) c)

/-- `CashFlowList::GetDaysInRange`: the returned day count and the list with
its two cached dates afterwards. -/
def CashFlowList.GetDaysInRange (l : CashFlowList) : Int × CashFlowList :=
  if l.entries.length > 0 then
    match min_element l.entries, max_element l.entries with
    | some start, some last =>
      (dates.lround (dates.GetDifferenceDays last.date_ start.date_),
        { l with start_date_ := start.date_, end_date_ := last.date_ })
    | _, _ => (0, l)
  else (0, l)

end mirr

namespace logging

/-- `Log::GetLevel`. -/
def Log.GetLevel (l : Log) : level_logged_e := l.level_logged_

/-- `Log::SetLevel`. -/
def Log.SetLevel (l : Log) (in_level : level_logged_e) : Log :=
  { l with level_logged_ := in_level }

/-- `std::vector::at`: the element at an index, `none` out of range. -/
def Log.at (l : Log) (i : Nat) : Option LogEntry := l.entries.get? i

/-- The reference `Log::log(LogEntry&)` returns, `at(size() - 1)` after the
push, as an index into the vector. -/
def Log.logReturned (l : Log) (in_entry : LogEntry) : Nat :=
  (Log.log l in_entry).entries.length - 1

end logging

namespace dates

/-- The table `daysInMonths`. -/
def daysInMonths : List Int := [31, 28, 31, 30, 31, 30, 31, 31, 30, 31, 30, 31]

/-- `IsLeapYear`; `%` on `int` truncates toward zero. -/
def IsLeapYear (year : Int) : Bool :=
  if year.tmod 4 ≠ 0 then false
  else if year.tmod 400 = 0 then true
  else if year.tmod 100 = 0 then false
  else true

/-- `GetDaysInMonth`; `none` when one of the two assertions on `month` fails. -/
def GetDaysInMonth (year month : Int) : Option Int :=
  if month ≥ 0 ∧ month < 12 then
    let days := daysInMonths.getD month.toNat 0
    if month = 1 ∧ IsLeapYear year = true then some (days + 1) else some days
  else none

/-- The fields of `struct tm`. -/
structure tm where
  tm_sec : Int
  tm_min : Int
  tm_hour : Int
  tm_mday : Int
  tm_mon : Int
  tm_year : Int
  tm_wday : Int
  tm_yday : Int
  tm_isdst : Int
  deriving DecidableEq

/-- `AddMonths(const tm&, int)`; `/` and `%` on `int` truncate toward zero, and
the result is `none` when a call of `GetDaysInMonth` fails an assertion. The
fields the code does not assign are zero in `tm()`. -/
def AddMonths (in_date : tm) (months : Int) : Option tm :=
  match GetDaysInMonth in_date.tm_year in_date.tm_mon with
  | none => none
  | some days_in_month =>
    let isLastDayInMonth := decide (in_date.tm_mday = days_in_month)
    let year := in_date.tm_year + months.tdiv 12
    let month := in_date.tm_mon + months.tmod 12
    let year2 := if month > 11 then year + 1 else year
    let month2 := if month > 11 then month - 12 else month
    match GetDaysInMonth year2 month2 with
    | none => none
    | some days_in_result =>
      let day := if isLastDayInMonth then days_in_result else min in_date.tm_mday days_in_result
      some
        { tm_sec := in_date.tm_sec
          tm_min := in_date.tm_min
          tm_hour := in_date.tm_hour
          tm_mday := day
          tm_mon := month2
          tm_year := year2
          tm_wday := 0
          tm_yday := 0
          tm_isdst := 0 }

end dates

namespace ieee

/-- The integer nearest to `y`, the even one of the two when `y` lies half way. -/
def roundHalfEven (y : ℚ) : Int :=
  if Int.fract y < 1 / 2 then ⌊y⌋
  else if 1 / 2 < Int.fract y then ⌊y⌋ + 1
  else if ⌊y⌋ % 2 = 0 then ⌊y⌋
  else ⌊y⌋ + 1

/-- A binary floating-point format: the number of significand bits and the
exponent of the smallest normal number.  The exponent range is not bounded
above: overflow, infinities and NaN are outside the model. -/
structure Format where
  precision : Nat
  emin : Int
  deriving DecidableEq

/-- Exponent of the unit in the last place at `x`: that of the binade of `x`,
or of the subnormal range below the smallest normal number. -/
def Format.ulpExponent (F : Format) (x : ℚ) : Int :=
  max (Int.log 2 |x|) F.emin - ((F.precision : Int) - 1)

/-- Rounding to the nearest number of the format, ties to even, with gradual
underflow. -/
def Format.round (F : Format) (x : ℚ) : ℚ :=
  (roundHalfEven (x / (2 : ℚ) ^ F.ulpExponent x) : ℚ) * (2 : ℚ) ^ F.ulpExponent x

/-- IEEE 754 binary64, the `long double` of the Microsoft compilers. -/
def binary64 : Format := { precision := 53, emin := -1022 }

/-- The x87 double extended format, the `long double` of GCC and Clang on
x86. -/
def x87extended : Format := { precision := 64, emin := -16382 }

end ieee

namespace longdouble

/-- The arithmetic of `long double`: `rnd` is applied to the exact result of
every `+`, `-`, `*` and `/`; `abs` and the comparisons are exact.
`literal_1e_9` is the value of the `double` literal `0.000000001` and
`literal_0_99999` that of `0.99999`; converting a `double` to `long double`
is exact. -/
structure Arithmetic where
  rnd : ℚ → ℚ
  literal_1e_9 : ℚ
  literal_0_99999 : ℚ

/-- Arithmetic without rounding, with the decimal values of the literals. -/
def Arithmetic.exact : Arithmetic :=
  { rnd := fun x => x, literal_1e_9 := 1 / 1000000000, literal_0_99999 := 99999 / 100000 }

/-- Correctly rounded arithmetic in a binary format; the literals are `double`
constants, the nearest binary64 numbers. -/
def Arithmetic.ofFormat (F : ieee.Format) : Arithmetic :=
  { rnd := F.round
    literal_1e_9 := ieee.binary64.round (1 / 1000000000)
    literal_0_99999 := ieee.binary64.round (99999 / 100000) }

/-- Rounded sum. -/
def Arithmetic.add (A : Arithmetic) (x y : ℚ) : ℚ := A.rnd (x + y)

/-- Rounded difference. -/
def Arithmetic.sub (A : Arithmetic) (x y : ℚ) : ℚ := A.rnd (x - y)

/-- Rounded product. -/
def Arithmetic.mul (A : Arithmetic) (x y : ℚ) : ℚ := A.rnd (x * y)

/-- Rounded quotient. -/
def Arithmetic.div (A : Arithmetic) (x y : ℚ) : ℚ := A.rnd (x / y)

/-- `RootFinder::SecantEstimate`, each operation rounded. -/
def SecantEstimate (A : Arithmetic)
    (in_prev_estimate in_earlier_estimate in_prev_result in_earlier_result : ℚ) : ℚ :=
  A.sub in_prev_estimate
    (A.mul in_prev_result
      (A.div (A.sub in_prev_estimate in_earlier_estimate)
        (A.sub in_prev_result in_earlier_result)))

/-- One of the three quotients of `QuadraticInterpolation`:
`(x * ya * yb) / ((yc - ya) * (yc - yb))`, each operation rounded. -/
def quadraticTerm (A : Arithmetic) (x ya yb yc : ℚ) : ℚ :=
  A.div (A.mul (A.mul x ya) yb) (A.mul (A.sub yc ya) (A.sub yc yb))

/-- `RootFinder::QuadraticInterpolation`, each operation rounded. -/
def QuadraticInterpolation (A : Arithmetic) (in_prev_estimate in_curr_estimate
    in_earlier_estimate in_prev_result in_curr_result in_earlier_result : ℚ) : ℚ :=
  A.add
    (A.add
      (quadraticTerm A in_earlier_estimate in_curr_result in_prev_result in_earlier_result)
      (quadraticTerm A in_curr_estimate in_earlier_result in_prev_result in_curr_result))
    (quadraticTerm A in_prev_estimate in_earlier_result in_curr_result in_prev_result)

/-- Interpolated or secant candidate and the method that produced it
(lines 173-183). -/
def candidate (A : Arithmetic) (s : roots.SolverState) : ℚ × roots.methods_available :=
  if s.result_kCounter ≠ s.result_kMinus1 ∧ s.result_kBest ≠ s.result_kMinus1 then
    (QuadraticInterpolation A s.estimate_kCounter s.estimate_kBest s.estimate_kMinus1
        s.result_kCounter s.result_kBest s.result_kMinus1,
      roots.methods_available.quadratic_interpolation)
  else
    (SecantEstimate A s.estimate_kCounter s.estimate_kBest s.result_kCounter s.result_kBest,
      roots.methods_available.secant)

/-- The threshold `under_shoot_threshold` (lines 189-191). -/
def under_shoot_threshold (A : Arithmetic) (s : roots.SolverState) : ℚ :=
  A.sub (A.mul (3 / 4) |A.sub s.estimate_kMinus1 s.estimate_kBest|) |s.estimate_kBest|

/-- The method used in this iteration, given the candidate `c` and the method
`m` that produced it (lines 195-214). -/
def chooseMethod (A : Arithmetic) (s : roots.SolverState) (c : ℚ)
    (m : roots.methods_available) : roots.methods_available :=
  if c ≤ under_shoot_threshold A s then roots.methods_available.bisection
  else
    let estimate_delta_2 := |A.sub s.parabolic_kMinus1 s.estimate_kMinus2|
    let estimate_delta_1 := |A.sub c s.estimate_kBest|
    let prev_earlier_midpoint := A.div |A.sub s.estimate_kMinus1 s.estimate_kMinus2| 2
    if estimate_delta_1 > prev_earlier_midpoint ∧ estimate_delta_2 > A.div A.literal_1e_9 2 then
      roots.methods_available.bisection
    else m

/-- The point at which the objective is evaluated in this iteration
(lines 173-222). -/
def nextEstimate (A : Arithmetic) (s : roots.SolverState) : ℚ :=
  if chooseMethod A s (candidate A s).1 (candidate A s).2 = roots.methods_available.bisection then
    A.div (A.add s.estimate_kBest s.estimate_kCounter) 2
  else (candidate A s).1

/-- One pass through the body of the `while` loop, up to the log entry
(lines 165-256). -/
def iterate (A : Arithmetic) (in_function : ℚ → ℚ) (s : roots.SolverState) :
    roots.SolverState :=
  let new_estimate := nextEstimate A s
  let new_result := in_function new_estimate
  let placed : roots.SolverState :=
    if A.mul new_result s.result_kCounter < 0 then
      { s with estimate_kBest := new_estimate, result_kBest := new_result }
    else
      { s with estimate_kCounter := new_estimate, result_kCounter := new_result }
  roots.swapIfCounterCloser
    { placed with
      estimate_kMinus2 := s.estimate_kMinus1
      result_kMinus2 := s.result_kMinus1
      estimate_kMinus1 := s.estimate_kBest
      result_kMinus1 := s.result_kBest
      parabolic_kMinus2 := s.parabolic_kMinus1
      parabolic_kMinus1 := (candidate A s).1
      parabolic_kBest := (candidate A s).1
      count := s.count + 1
      method_to_use := chooseMethod A s (candidate A s).1 (candidate A s).2
      evaluated := s.evaluated ++ [new_estimate] }

/-- The two `break` tests at the end of the loop body (lines 288-298). -/
def converged (A : Arithmetic) (s : roots.SolverState) : Bool :=
  decide (|A.sub s.estimate_kBest s.estimate_kCounter| < A.literal_1e_9)
    || decide (|s.result_kBest| < A.literal_1e_9)

/-- The loop `while (count < kMaxIterations)` with its two `break`s. -/
def whileLoop (A : Arithmetic) (in_function : ℚ → ℚ) : Nat → roots.SolverState → roots.SolverState
  | 0, s => s
  | fuel + 1, s =>
    if s.count < roots.kMaxIterations then
      let t := iterate A in_function s
      if converged A t then t else whileLoop A in_function fuel t
    else s

/-- The passes through the loop that are executed from the state `s`: for each
one, the state at its start and the state at its end. -/
def iterations (A : Arithmetic) (in_function : ℚ → ℚ) :
    Nat → roots.SolverState → List (roots.SolverState × roots.SolverState)
  | 0, _ => []
  | fuel + 1, s =>
    if s.count < roots.kMaxIterations then
      (s, iterate A in_function s) ::
        (if converged A (iterate A in_function s) then []
          else iterations A in_function fuel (iterate A in_function s))
    else []

/-- `RootFinder::SearchForRoot` in `long double` arithmetic, together with the
state it ends in: the state at the `throw` when the estimates are rejected, the
state at `return` otherwise. -/
def SearchForRootTrace (A : Arithmetic) (in_best_estimate in_counter_estimate : ℚ)
    (in_function : ℚ → ℚ) : Except roots.relative_to_solution_e ℚ × roots.SolverState :=
  let s := roots.initialState in_best_estimate in_counter_estimate in_function
  if A.mul s.result_kCounter s.result_kBest ≥ 0 then
    if s.result_kBest < 0 then (Except.error roots.relative_to_solution_e.too_low, s)
    else (Except.error roots.relative_to_solution_e.too_high, s)
  else
    let t := whileLoop A in_function roots.kMaxIterations (roots.prepare s)
    (Except.ok t.estimate_kBest, t)

/-- `RootFinder::SearchForRoot` in `long double` arithmetic: the returned
estimate, or the direction of the `RangeException`. -/
def SearchForRoot (A : Arithmetic) (in_best_estimate in_counter_estimate : ℚ)
    (in_function : ℚ → ℚ) : Except roots.relative_to_solution_e ℚ :=
  (SearchForRootTrace A in_best_estimate in_counter_estimate in_function).1

end longdouble

namespace longdouble

/-- The objective `x * 2^k`; for `k` far below zero its values at `-1` and `1`
are of opposite signs and their product is below the smallest subnormal
number. -/
def scaledIdentity (k : Int) (x : ℚ) : ℚ := x * (2 : ℚ) ^ k

end longdouble

namespace longdouble

/-- The objective `x * 2^k` away from `0` and `-2^j` at `0`. -/
def dipObjective (k j : Int) (x : ℚ) : ℚ := if x = 0 then -(2 : ℚ) ^ j else x * (2 : ℚ) ^ k

/-- Solver run on `dipObjective k j` from the estimates `-1` and `1`: state on
entry to the loop. -/
def dipState0 (k : Int) : roots.SolverState :=
  { estimate_kBest := -1,
    estimate_kCounter := 1,
    estimate_kMinus1 := 1,
    estimate_kMinus2 := 0,
    result_kBest := -(2 : ℚ) ^ k,
    result_kCounter := (2 : ℚ) ^ k,
    result_kMinus1 := (2 : ℚ) ^ k,
    result_kMinus2 := (2 : ℚ) ^ k,
    parabolic_kBest := 0,
    parabolic_kMinus1 := 0,
    parabolic_kMinus2 := 0,
    count := 0,
    method_to_use := roots.methods_available.unknown,
    evaluated := [-1, 1] }

/-- Solver run on `dipObjective k j` from the estimates `-1` and `1`: state
after the first pass when the product `f(0) * f(1)` underflows. -/
def dipState1 (k j : Int) : roots.SolverState :=
  { estimate_kBest := 0,
    estimate_kCounter := -1,
    estimate_kMinus1 := -1,
    estimate_kMinus2 := 1,
    result_kBest := -(2 : ℚ) ^ j,
    result_kCounter := -(2 : ℚ) ^ k,
    result_kMinus1 := -(2 : ℚ) ^ k,
    result_kMinus2 := (2 : ℚ) ^ k,
    parabolic_kBest := 0,
    parabolic_kMinus1 := 0,
    parabolic_kMinus2 := 0,
    count := 1,
    method_to_use := roots.methods_available.bisection,
    evaluated := [-1, 1, 0] }

end longdouble

namespace longdouble

/-- The product tested at line 238 in the pass that starts in `s` is zero only
if its exact value is: the product does not underflow. -/
def NoUnderflowAt (A : Arithmetic) (f : ℚ → ℚ) (s : roots.SolverState) : Prop :=
  A.mul (f (nextEstimate A s)) s.result_kCounter = 0 →
    f (nextEstimate A s) * s.result_kCounter = 0

end longdouble

namespace longdouble

/-- The five operations of `SecantEstimate` are exact at these arguments: each
result of `long double` arithmetic is the exact difference, quotient or
product. -/
def SecantEstimateExact (A : Arithmetic) (x1 x0 y1 y0 : ℚ) : Prop :=
  A.sub x1 x0 = x1 - x0
    ∧ A.sub y1 y0 = y1 - y0
    ∧ A.div (x1 - x0) (y1 - y0) = (x1 - x0) / (y1 - y0)
    ∧ A.mul y1 ((x1 - x0) / (y1 - y0)) = y1 * ((x1 - x0) / (y1 - y0))
    ∧ A.sub x1 (y1 * ((x1 - x0) / (y1 - y0))) = x1 - y1 * ((x1 - x0) / (y1 - y0))

/-- The six operations of one quotient of `QuadraticInterpolation` are exact
at these arguments. -/
def quadraticTermExact (A : Arithmetic) (x ya yb yc : ℚ) : Prop :=
  A.mul x ya = x * ya
    ∧ A.mul (x * ya) yb = x * ya * yb
    ∧ A.sub yc ya = yc - ya
    ∧ A.sub yc yb = yc - yb
    ∧ A.mul (yc - ya) (yc - yb) = (yc - ya) * (yc - yb)
    ∧ A.div (x * ya * yb) ((yc - ya) * (yc - yb)) = x * ya * yb / ((yc - ya) * (yc - yb))

/-- All twenty operations of `QuadraticInterpolation` are exact at these
arguments. -/
def QuadraticInterpolationExact (A : Arithmetic) (in_prev_estimate in_curr_estimate
    in_earlier_estimate in_prev_result in_curr_result in_earlier_result : ℚ) : Prop :=
  quadraticTermExact A in_earlier_estimate in_curr_result in_prev_result in_earlier_result
    ∧ quadraticTermExact A in_curr_estimate in_earlier_result in_prev_result in_curr_result
    ∧ quadraticTermExact A in_prev_estimate in_earlier_result in_curr_result in_prev_result
    ∧ A.add
        (in_earlier_estimate * in_curr_result * in_prev_result
          / ((in_earlier_result - in_curr_result) * (in_earlier_result - in_prev_result)))
        (in_curr_estimate * in_earlier_result * in_prev_result
          / ((in_curr_result - in_earlier_result) * (in_curr_result - in_prev_result)))
      = in_earlier_estimate * in_curr_result * in_prev_result
          / ((in_earlier_result - in_curr_result) * (in_earlier_result - in_prev_result))
        + in_curr_estimate * in_earlier_result * in_prev_result
          / ((in_curr_result - in_earlier_result) * (in_curr_result - in_prev_result))
    ∧ A.add
        (in_earlier_estimate * in_curr_result * in_prev_result
            / ((in_earlier_result - in_curr_result) * (in_earlier_result - in_prev_result))
          + in_curr_estimate * in_earlier_result * in_prev_result
            / ((in_curr_result - in_earlier_result) * (in_curr_result - in_prev_result)))
        (in_prev_estimate * in_earlier_result * in_curr_result
          / ((in_prev_result - in_earlier_result) * (in_prev_result - in_curr_result)))
      = in_earlier_estimate * in_curr_result * in_prev_result
            / ((in_earlier_result - in_curr_result) * (in_earlier_result - in_prev_result))
          + in_curr_estimate * in_earlier_result * in_prev_result
            / ((in_curr_result - in_earlier_result) * (in_curr_result - in_prev_result))
          + in_prev_estimate * in_earlier_result * in_curr_result
            / ((in_prev_result - in_earlier_result) * (in_prev_result - in_curr_result))

/-- The two operations of the bisection step are exact at these arguments. -/
def BisectionExact (A : Arithmetic) (x y : ℚ) : Prop :=
  A.add x y = x + y ∧ A.div (x + y) 2 = (x + y) / 2

/-- The objective that is `2^(-70)` up to `0` and `-1` above. -/
def cliffObjective (x : ℚ) : ℚ := if x ≤ 0 then 1 / 1180591620717411303424 else -1

/-- Solver run on `cliffObjective` from the estimates `0` and `1`: state on
entry to the loop. -/
def cliffState0 : roots.SolverState :=
  { estimate_kBest := 0,
    estimate_kCounter := 1,
    estimate_kMinus1 := 1,
    estimate_kMinus2 := 0,
    result_kBest := 1 / 1180591620717411303424,
    result_kCounter := -1,
    result_kMinus1 := -1,
    result_kMinus2 := -1,
    parabolic_kBest := 0,
    parabolic_kMinus1 := 0,
    parabolic_kMinus2 := 0,
    count := 0,
    method_to_use := roots.methods_available.unknown,
    evaluated := [0, 1] }

end longdouble

namespace longdouble

/-- The operations that produce the point evaluated in the pass that starts
in `s` are exact: the two of the bisection step when the pass bisects, the five
of the secant step when it uses the secant candidate. -/
def StepExact (A : Arithmetic) (s : roots.SolverState) : Prop :=
  (chooseMethod A s (candidate A s).1 (candidate A s).2 = roots.methods_available.bisection →
      BisectionExact A s.estimate_kBest s.estimate_kCounter)
    ∧ (chooseMethod A s (candidate A s).1 (candidate A s).2 = roots.methods_available.secant →
      SecantEstimateExact A s.estimate_kCounter s.estimate_kBest s.result_kCounter
        s.result_kBest)

end longdouble

namespace longdouble

/-- State of `Calculator::GetRate` on entry to its loop (lines 196-206): the
lower estimate is the negated `double` literal `0.99999`. -/
def driverStart (A : Arithmetic) : mirr.DriverState where
  result := 0
  low_estimate := -A.literal_0_99999
  high_estimate := 1
  count := 0
  searching := true
  err_cause := roots.relative_to_solution_e.unknown
  attempts := []

/-- One pass through the body of `while (searching)` in `long double`
arithmetic (lines 215-251). -/
def driverBody (A : Arithmetic) (f : ℚ → ℚ) (s : mirr.DriverState) : mirr.DriverState :=
  let tried := s.attempts ++ [(s.low_estimate, s.high_estimate)]
  match SearchForRoot A s.low_estimate s.high_estimate f with
  | Except.ok r =>
    { s with
      result := r
      err_cause := roots.relative_to_solution_e.unknown
      attempts := tried
      searching := mirr.stillSearching s.count roots.relative_to_solution_e.unknown }
  | Except.error relative_position_ =>
    let difference := |A.sub s.high_estimate s.low_estimate|
    if relative_position_ = roots.relative_to_solution_e.too_low then
      { s with
        low_estimate := s.high_estimate
        high_estimate := A.add s.high_estimate difference
        err_cause := relative_position_
        attempts := tried
        searching := mirr.stillSearching s.count relative_position_ }
    else
      { s with
        high_estimate := s.low_estimate
        low_estimate := A.sub s.low_estimate difference
        err_cause := relative_position_
        attempts := tried
        searching := mirr.stillSearching s.count relative_position_ }

/-- The loop `while (searching)` of `GetRate` in `long double` arithmetic,
followed for at most `fuel` passes through its body. -/
def driverRun (A : Arithmetic) (f : ℚ → ℚ) : Nat → mirr.DriverState → mirr.DriverState
  | 0, s => s
  | fuel + 1, s => if s.searching then driverRun A f fuel (driverBody A f s) else s

/-- State of `Calculator::GetRate` in `long double` arithmetic, for an
arbitrary objective, after at most `fuel` passes through its loop. -/
def GetRateTrace (A : Arithmetic) (f : ℚ → ℚ) (fuel : Nat) : mirr.DriverState :=
  driverRun A f fuel (driverStart A)

/-- The window `w'` is the one `GetRate` moves to after the solver has rejected
the window `w`: up by the computed width after `too_low`, down by it after any
other direction, each sum and difference rounded. -/
def NextWindow (A : Arithmetic) (f : ℚ → ℚ) (w w' : ℚ × ℚ) : Prop :=
  (SearchForRoot A w.1 w.2 f = Except.error roots.relative_to_solution_e.too_low
      ∧ w' = (w.2, A.add w.2 |A.sub w.2 w.1|))
    ∨ (∃ d, d ≠ roots.relative_to_solution_e.too_low
      ∧ SearchForRoot A w.1 w.2 f = Except.error d
      ∧ w' = (A.sub w.1 |A.sub w.2 w.1|, w.1))

/-- The three operations that shift the window `w` are exact: the width, the
sum for the upward shift and the difference for the downward shift. -/
def ShiftExact (A : Arithmetic) (w : ℚ × ℚ) : Prop :=
  A.sub w.2 w.1 = w.2 - w.1
    ∧ A.add w.2 |w.2 - w.1| = w.2 + |w.2 - w.1|
    ∧ A.sub w.1 |w.2 - w.1| = w.1 - |w.2 - w.1|

end longdouble

namespace longdouble

/-- A `long double` value that need not be a number: a number, an infinity or
a NaN. -/
inductive Extended where
  | finite (x : ℚ)
  | posInf
  | negInf
  | nan
  deriving DecidableEq

/-- The quotient `static_cast<Rate_t>(days) / static_cast<Rate_t>(last)` of two
`long` values: with divisor zero it is a NaN for `0 / 0` and an infinity with
the sign of the dividend otherwise. -/
def quotient (A : Arithmetic) (days last : Int) : Extended :=
  if last = 0 then
    if days = 0 then Extended.nan
    else if 0 < days then Extended.posInf
    else Extended.negInf
  else Extended.finite (A.div (days : ℚ) (last : ℚ))

/-- `std::pow(x, y)` for a number `x`: the parameter `pw` at a number `y`, and
the values the C standard (Annex F) prescribes at an infinite or NaN `y`:
`pow(1, y)` is `1` for every `y`, even a NaN; `pow(-1, ±∞)` is `1`;
`pow(x, +∞)` is `+0` for `|x| < 1` and `+∞` for `|x| > 1`; `pow(x, -∞)` is `+∞`
for `|x| < 1` and `+0` for `|x| > 1`; otherwise a NaN argument gives a NaN. -/
def pow (pw : ℚ → ℚ → ℚ) (x : ℚ) : Extended → Extended
  | Extended.finite y => Extended.finite (pw x y)
  | Extended.posInf =>
    if x = 1 ∨ x = -1 then Extended.finite 1
    else if |x| < 1 then Extended.finite 0
    else Extended.posInf
  | Extended.negInf =>
    if x = 1 ∨ x = -1 then Extended.finite 1
    else if |x| < 1 then Extended.posInf
    else Extended.finite 0
  | Extended.nan => if x = 1 then Extended.finite 1 else Extended.nan

/-- The quotient `amount / discount_denom` of a number by a non-zero value:
`none` stands for a NaN. -/
def discounted (A : Arithmetic) (amount : ℚ) : Extended → Option ℚ
  | Extended.finite d => some (A.div amount d)
  | Extended.posInf => some 0
  | Extended.negInf => some 0
  | Extended.nan => none

/-- The sum `result + discounted_cash_flow`: a NaN operand gives a NaN. -/
def accumulate (A : Arithmetic) : Option ℚ → Option ℚ → Option ℚ
  | some r, some d => some (A.add r d)
  | _, _ => none

/-- `CashFlowList::calculateNPV` in `long double` arithmetic with infinities
and NaN; `none` stands for a NaN result.  The comparison
`discount_denom != 0.0` is true of a NaN and of an infinity. -/
def calculateNPV (A : Arithmetic) (pw : ℚ → ℚ → ℚ) (l : mirr.CashFlowList)
    (in_daily_discount_rate : ℚ) : Option ℚ :=
  let power_rate := A.add 1 in_daily_discount_rate
  if in_daily_discount_rate = -1 then some 0
  else
    match mirr.max_element l.entries with
    | none => some 0
    | some last_cash_flow =>
      l.entries.foldl
        (fun result cash_flow =>
          let discount_exponent :=
            quotient A cash_flow.days_from_start_ last_cash_flow.days_from_start_
          let discount_denom := pow pw power_rate discount_exponent
          if discount_denom ≠ Extended.finite 0 then
            accumulate A result (discounted A cash_flow.amount_ discount_denom)
          else result)
        (some 0)

end longdouble

namespace roots

theorem swapIfCounterCloser_count (s : SolverState) :
    (swapIfCounterCloser s).count = s.count := by
  unfold swapIfCounterCloser; split <;> rfl

theorem swapIfCounterCloser_evaluated (s : SolverState) :
    (swapIfCounterCloser s).evaluated = s.evaluated := by
  unfold swapIfCounterCloser; split <;> rfl

theorem iterate_count (f : ℚ → ℚ) (s : SolverState) :
    (iterate f s).count = s.count + 1 := by
  unfold iterate
  simp only [swapIfCounterCloser_count]

theorem iterate_evaluated (f : ℚ → ℚ) (s : SolverState) :
    (iterate f s).evaluated = s.evaluated ++ [nextEstimate s] := by
  unfold iterate
  simp only [swapIfCounterCloser_evaluated]

theorem swapIfCounterCloser_consistent (f : ℚ → ℚ) (s : SolverState) (h : Consistent f s) :
    Consistent f (swapIfCounterCloser s) := by
  unfold swapIfCounterCloser
  split
  · exact ⟨h.2, h.1⟩
  · exact h

theorem iterate_consistent (f : ℚ → ℚ) (s : SolverState) (h : Consistent f s) :
    Consistent f (iterate f s) := by
  unfold iterate
  apply swapIfCounterCloser_consistent
  by_cases hc : f (nextEstimate s) * s.result_kCounter < 0
  · simp only [hc, if_true]
    exact ⟨rfl, h.2⟩
  · simp only [hc, if_false]
    exact ⟨h.1, rfl⟩

theorem prepare_consistent (f : ℚ → ℚ) (s : SolverState) (h : Consistent f s) :
    Consistent f (prepare s) := by
  have := swapIfCounterCloser_consistent f s h
  exact this

theorem whileLoop_consistent (f : ℚ → ℚ) (fuel : Nat) (s : SolverState) (h : Consistent f s) :
    Consistent f (whileLoop f fuel s) := by
  induction fuel generalizing s with
  | zero => exact h
  | succ n ih =>
    unfold whileLoop
    by_cases hc : s.count < kMaxIterations
    · simp only [hc, if_true]
      by_cases hv : converged (iterate f s) = true
      · simp only [hv, if_true]; exact iterate_consistent f s h
      · simp only [hv, Bool.false_eq_true, if_false]; exact ih _ (iterate_consistent f s h)
    · simp only [hc, if_false]; exact h

theorem whileLoop_count_le (f : ℚ → ℚ) (fuel : Nat) (s : SolverState)
    (h : s.count ≤ kMaxIterations) : (whileLoop f fuel s).count ≤ kMaxIterations := by
  induction fuel generalizing s with
  | zero => exact h
  | succ n ih =>
    unfold whileLoop
    by_cases hc : s.count < kMaxIterations
    · have h1 : (iterate f s).count ≤ kMaxIterations := by
        rw [iterate_count]; exact hc
      simp only [hc, if_true]
      by_cases hv : converged (iterate f s) = true
      · simp only [hv, if_true]; exact h1
      · simp only [hv, Bool.false_eq_true, if_false]; exact ih _ h1
    · simp only [hc, if_false]; exact h

theorem whileLoop_count_ge (f : ℚ → ℚ) (fuel : Nat) (s : SolverState) :
    s.count ≤ (whileLoop f fuel s).count := by
  induction fuel generalizing s with
  | zero => exact le_refl _
  | succ n ih =>
    unfold whileLoop
    by_cases hc : s.count < kMaxIterations
    · have h1 : s.count ≤ (iterate f s).count := by
        rw [iterate_count]; exact Nat.le_succ _
      simp only [hc, if_true]
      by_cases hv : converged (iterate f s) = true
      · simp only [hv, if_true]; exact h1
      · simp only [hv, Bool.false_eq_true, if_false]; exact le_trans h1 (ih _)
    · simp only [hc, if_false]; exact le_refl _

theorem whileLoop_evaluated_length (f : ℚ → ℚ) (fuel : Nat) (s : SolverState) :
    (whileLoop f fuel s).evaluated.length + s.count
      = s.evaluated.length + (whileLoop f fuel s).count := by
  induction fuel generalizing s with
  | zero => rfl
  | succ n ih =>
    unfold whileLoop
    have h1 : (iterate f s).evaluated.length + s.count
        = s.evaluated.length + (iterate f s).count := by
      rw [iterate_count, iterate_evaluated, List.length_append, List.length_singleton]
      omega
    by_cases hc : s.count < kMaxIterations
    · simp only [hc, if_true]
      by_cases hv : converged (iterate f s) = true
      · simp only [hv, if_true]; exact h1
      · simp only [hv, Bool.false_eq_true, if_false]
        have h2 := ih (iterate f s)
        have h3 := iterate_count f s
        omega
    · simp only [hc, if_false]

/-- On exit from the loop either a `break` test holds or the cap is reached. -/
theorem whileLoop_exit (f : ℚ → ℚ) (fuel : Nat) (s : SolverState)
    (hfuel : kMaxIterations ≤ s.count + fuel) (h : s.count ≤ kMaxIterations) :
    converged (whileLoop f fuel s) = true ∨ (whileLoop f fuel s).count = kMaxIterations := by
  induction fuel generalizing s with
  | zero => right; exact le_antisymm h hfuel
  | succ n ih =>
    unfold whileLoop
    by_cases hc : s.count < kMaxIterations
    · simp only [hc, if_true]
      by_cases hv : converged (iterate f s) = true
      · simp only [hv, if_true]; left; trivial
      · simp only [hv, Bool.false_eq_true, if_false]
        apply ih
        · rw [iterate_count]; omega
        · rw [iterate_count]; exact hc
    · simp only [hc, if_false]; right; omega

/-- The guard `count < kMaxIterations` stops the loop before the fuel does:
more fuel than `kMaxIterations - count` changes nothing. -/
theorem whileLoop_fuel_irrelevant (f : ℚ → ℚ) (fuel extra : Nat) (s : SolverState)
    (hfuel : kMaxIterations ≤ s.count + fuel) :
    whileLoop f (fuel + extra) s = whileLoop f fuel s := by
  induction fuel generalizing s with
  | zero =>
    have hs : ¬ s.count < kMaxIterations := by omega
    cases extra with
    | zero => rfl
    | succ e =>
      show whileLoop f (0 + e + 1) s = whileLoop f 0 s
      unfold whileLoop
      simp only [hs, if_false]
  | succ n ih =>
    have e1 : n + 1 + extra = (n + extra) + 1 := by omega
    rw [e1]
    unfold whileLoop
    by_cases hc : s.count < kMaxIterations
    · simp only [hc, if_true]
      by_cases hv : converged (iterate f s) = true
      · simp only [hv, if_true]
      · simp only [hv, Bool.false_eq_true, if_false]
        apply ih
        rw [iterate_count]; omega
    · simp only [hc, if_false]

theorem SearchForRootTrace_error (a b : ℚ) (f : ℚ → ℚ) (h : f a * f b ≥ 0) :
    SearchForRootTrace a b f
      = (Except.error (if f a < 0 then relative_to_solution_e.too_low
            else relative_to_solution_e.too_high), initialState a b f) := by
  have h1 : (initialState a b f).result_kCounter * (initialState a b f).result_kBest ≥ 0 := by
    show f b * f a ≥ 0
    rw [mul_comm]; exact h
  unfold SearchForRootTrace
  simp only [h1, if_true]
  by_cases hb : f a < 0
  · have h2 : (initialState a b f).result_kBest < 0 := hb
    simp only [h2, hb, if_true]
  · have h2 : ¬ (initialState a b f).result_kBest < 0 := hb
    simp only [h2, hb, if_false]

theorem SearchForRootTrace_ok (a b : ℚ) (f : ℚ → ℚ) (h : f a * f b < 0) :
    SearchForRootTrace a b f
      = (Except.ok (whileLoop f kMaxIterations (prepare (initialState a b f))).estimate_kBest,
          whileLoop f kMaxIterations (prepare (initialState a b f))) := by
  have h1 : ¬ (initialState a b f).result_kCounter * (initialState a b f).result_kBest ≥ 0 := by
    show ¬ f b * f a ≥ 0
    rw [mul_comm]; exact not_le.mpr h
  unfold SearchForRootTrace
  simp only [h1, if_false]

theorem prepare_count (s : SolverState) : (prepare s).count = s.count := by
  show (swapIfCounterCloser s).count = s.count
  exact swapIfCounterCloser_count s

theorem prepare_evaluated (s : SolverState) : (prepare s).evaluated = s.evaluated := by
  show (swapIfCounterCloser s).evaluated = s.evaluated
  exact swapIfCounterCloser_evaluated s

theorem whileLoop_evaluated_append (f : ℚ → ℚ) (fuel : Nat) (s : SolverState) :
    ∃ rest, (whileLoop f fuel s).evaluated = s.evaluated ++ rest := by
  induction fuel generalizing s with
  | zero => exact ⟨[], (List.append_nil _).symm⟩
  | succ n ih =>
    unfold whileLoop
    by_cases hc : s.count < kMaxIterations
    · simp only [hc, if_true]
      by_cases hv : converged (iterate f s) = true
      · simp only [hv, if_true]
        exact ⟨[nextEstimate s], iterate_evaluated f s⟩
      · simp only [hv, Bool.false_eq_true, if_false]
        obtain ⟨rest, hrest⟩ := ih (iterate f s)
        refine ⟨nextEstimate s :: rest, ?_⟩
        rw [hrest, iterate_evaluated, List.append_assoc]
        rfl
    · simp only [hc, if_false]
      exact ⟨[], (List.append_nil _).symm⟩

theorem converged_iff (s : SolverState) :
    converged s = true ↔
      (|s.estimate_kBest - s.estimate_kCounter| < estimate_tolerance
        ∨ |s.result_kBest| < result_tolerance) := by
  unfold converged
  simp only [Bool.or_eq_true, decide_eq_true_eq]

theorem stepInv_nextEstimate (n : Nat) (s : SolverState) (h : StepInv (n + 1) s) :
    nextEstimate s = 2 ^ n := by
  obtain ⟨hB, hC, hrB, hrC, hM, -⟩ := h
  have hcand : (candidate s).1 = 2 ^ n := by
    have hcond : ¬ (s.result_kCounter ≠ s.result_kMinus1 ∧ s.result_kBest ≠ s.result_kMinus1) := by
      rw [hrB, hrC]
      rcases hM with hM | hM <;> rw [hM] <;> simp
    unfold candidate
    simp only [hcond, if_false]
    unfold SecantEstimate
    rw [hB, hC, hrB, hrC, pow_succ]
    ring
  unfold nextEstimate
  rw [hcand, hB, hC, pow_succ]
  split
  · ring
  · rfl

theorem stepInv_iterate (n : Nat) (s : SolverState) (h : StepInv (n + 1) s) :
    StepInv n (iterate stepObjective s) := by
  have hn := stepInv_nextEstimate n s h
  obtain ⟨hB, hC, hrB, hrC, hM, hcount⟩ := h
  have hpos : (0 : ℚ) < 2 ^ n := by positivity
  have hf : stepObjective (2 ^ n) = 1 := by
    unfold stepObjective
    simp only [not_le.mpr hpos, if_false]
  unfold iterate
  simp only [hn, hf, hrC]
  have h1 : ¬ ((1 : ℚ) * 1 < 0) := by norm_num
  simp only [h1, if_false]
  unfold swapIfCounterCloser
  simp only [hrB]
  have h2 : ¬ (|(1 : ℚ)| < |(-1 : ℚ)|) := by norm_num
  simp only [h2, if_false]
  refine ⟨hB, rfl, rfl, rfl, Or.inr rfl, ?_⟩
  show s.count + 1 + n = kMaxIterations
  omega

theorem stepInv_not_converged (n : Nat) (s : SolverState) (h : StepInv n s) :
    converged s = false := by
  obtain ⟨hB, hC, hrB, -, -, -⟩ := h
  have hpow : (1 : ℚ) ≤ 2 ^ n := one_le_pow₀ (by norm_num)
  have h1 : ¬ (|s.estimate_kBest - s.estimate_kCounter| < estimate_tolerance) := by
    rw [hB, hC, zero_sub, abs_neg, abs_of_pos (by positivity)]
    unfold estimate_tolerance
    intro hlt
    have : (1 : ℚ) < 1 / 1000000000 := lt_of_le_of_lt hpow hlt
    norm_num at this
  have h2 : ¬ (|s.result_kBest| < result_tolerance) := by
    rw [hrB]
    unfold result_tolerance
    norm_num
  cases hc : converged s with
  | false => rfl
  | true => exact absurd ((converged_iff s).mp hc) (by tauto)

theorem stepInv_whileLoop (n : Nat) (s : SolverState) (h : StepInv n s) :
    StepInv 0 (whileLoop stepObjective n s) := by
  induction n generalizing s with
  | zero => exact h
  | succ n ih =>
    have hc : s.count < kMaxIterations := by
      have := h.2.2.2.2.2
      omega
    have hi := stepInv_iterate n s h
    have hv := stepInv_not_converged n _ hi
    unfold whileLoop
    simp only [hc, if_true, hv, Bool.false_eq_true, if_false]
    exact ih _ hi

theorem stepInv_prepare (n : Nat) (b : ℚ) (hb : b = 2 ^ n) (hn : n = kMaxIterations) :
    StepInv n (prepare (initialState 0 b stepObjective)) := by
  have hpos : (0 : ℚ) < b := by rw [hb]; positivity
  have hf0 : stepObjective 0 = -1 := by
    unfold stepObjective; simp
  have hf1 : stepObjective b = 1 := by
    unfold stepObjective
    simp only [not_le.mpr hpos, if_false]
  unfold prepare swapIfCounterCloser initialState
  simp only [hf0, hf1]
  have h2 : ¬ (|(1 : ℚ)| < |(-1 : ℚ)|) := by norm_num
  simp only [h2, if_false]
  exact ⟨rfl, hb, rfl, rfl, Or.inl rfl, by rw [hn]; exact Nat.zero_add _⟩

/-- The run on `stepObjective` from `0` and `2 ^ 100` ends after 100 iterations
with the estimates `0` and `1`, one unit apart. -/
theorem stepObjective_run :
    StepInv 0 (SearchForRootTrace 0 (2 ^ 100) stepObjective).2
      ∧ SearchForRoot 0 (2 ^ 100) stepObjective = Except.ok 0 := by
  generalize hb : (2 : ℚ) ^ 100 = b
  have hpos : (0 : ℚ) < b := by rw [← hb]; positivity
  have hf0 : stepObjective 0 = -1 := by
    unfold stepObjective; simp
  have hf1 : stepObjective b = 1 := by
    unfold stepObjective
    simp only [not_le.mpr hpos, if_false]
  have hbr : stepObjective 0 * stepObjective b < 0 := by
    rw [hf0, hf1]; norm_num
  have hrun := stepInv_whileLoop kMaxIterations _ (stepInv_prepare kMaxIterations b hb.symm rfl)
  have ht := SearchForRootTrace_ok 0 b stepObjective hbr
  unfold SearchForRoot
  rw [ht]
  exact ⟨hrun, congrArg Except.ok hrun.1⟩

theorem case6_prepare :
    prepare (initialState (-99999 / 100000) 1 case6Objective) = case6State0 := by
  norm_num [abs_div, prepare, initialState, swapIfCounterCloser, case6Objective, case6State0]

theorem case6_candidate0 :
    candidate case6State0 = ((59999 / 60000), methods_available.secant) := by
  norm_num [candidate, SecantEstimate, QuadraticInterpolation, case6State0]

theorem case6_choose0 :
    chooseMethod case6State0 (59999 / 60000) methods_available.secant
      = methods_available.secant := by
  norm_num [abs_div, chooseMethod, under_shoot_threshold, estimate_tolerance, case6State0]

theorem case6_next0 : nextEstimate case6State0 = (59999 / 60000) := by
  unfold nextEstimate
  rw [case6_candidate0]
  simp only [case6_choose0]
  rw [if_neg (by decide)]

theorem case6_value0 : case6Objective (59999 / 60000) = (7499900 / 119999) := by
  norm_num [case6Objective]

theorem case6_iterate0 : iterate case6Objective case6State0 = case6State1 := by
  simp only [iterate, case6_next0, case6_value0, case6_candidate0, case6_choose0]
  norm_num [abs_div, swapIfCounterCloser, case6State0, case6State1]

theorem case6_converged1 : converged case6State1 = false := by
  norm_num [abs_div, converged, estimate_tolerance, result_tolerance, case6State1]

theorem case6_candidate1 :
    candidate case6State1 = ((-6299850001 / 2700000000), methods_available.quadratic_interpolation) := by
  norm_num [candidate, SecantEstimate, QuadraticInterpolation, case6State1]

theorem case6_choose1 :
    chooseMethod case6State1 (-6299850001 / 2700000000) methods_available.quadratic_interpolation
      = methods_available.bisection := by
  norm_num [abs_div, chooseMethod, under_shoot_threshold, estimate_tolerance, case6State1]

theorem case6_next1 : nextEstimate case6State1 = (-1 / 300000) := by
  unfold nextEstimate
  rw [case6_candidate1]
  simp only [case6_choose1]
  rw [if_pos trivial]
  norm_num [case6State1]

theorem case6_value1 : case6Objective (-1 / 300000) = (7499900 / 299999) := by
  norm_num [case6Objective]

theorem case6_iterate1 : iterate case6Objective case6State1 = case6State2 := by
  simp only [iterate, case6_next1, case6_value1, case6_candidate1, case6_choose1]
  norm_num [abs_div, swapIfCounterCloser, case6State1, case6State2]

theorem case6_converged2 : converged case6State2 = false := by
  norm_num [abs_div, converged, estimate_tolerance, result_tolerance, case6State2]

theorem case6_candidate2 :
    candidate case6State2 = ((-674983125224999 / 1012500000000000), methods_available.quadratic_interpolation) := by
  norm_num [candidate, SecantEstimate, QuadraticInterpolation, case6State2]

theorem case6_choose2 :
    chooseMethod case6State2 (-674983125224999 / 1012500000000000) methods_available.quadratic_interpolation
      = methods_available.bisection := by
  norm_num [abs_div, chooseMethod, under_shoot_threshold, estimate_tolerance, case6State2]

theorem case6_next2 : nextEstimate case6State2 = (-149999 / 300000) := by
  unfold nextEstimate
  rw [case6_candidate2]
  simp only [case6_choose2]
  rw [if_pos trivial]
  norm_num [case6State2]

theorem case6_value2 : case6Objective (-149999 / 300000) = (-7499900 / 150001) := by
  norm_num [case6Objective]

theorem case6_iterate2 : iterate case6Objective case6State2 = case6State3 := by
  simp only [iterate, case6_next2, case6_value2, case6_candidate2, case6_choose2]
  norm_num [abs_div, swapIfCounterCloser, case6State2, case6State3]

theorem case6_converged3 : converged case6State3 = false := by
  norm_num [abs_div, converged, estimate_tolerance, result_tolerance, case6State3]

theorem case6_candidate3 :
    candidate case6State3 = ((-11250149999 / 67500000000), methods_available.secant) := by
  norm_num [candidate, SecantEstimate, QuadraticInterpolation, case6State3]

theorem case6_choose3 :
    chooseMethod case6State3 (-11250149999 / 67500000000) methods_available.secant
      = methods_available.bisection := by
  norm_num [abs_div, chooseMethod, under_shoot_threshold, estimate_tolerance, case6State3]

theorem case6_next3 : nextEstimate case6State3 = (-1 / 4) := by
  unfold nextEstimate
  rw [case6_candidate3]
  simp only [case6_choose3]
  rw [if_pos trivial]
  norm_num [case6State3]

theorem case6_value3 : case6Objective (-1 / 4) = 0 := by
  norm_num [case6Objective]

theorem case6_iterate3 : iterate case6Objective case6State3 = case6State4 := by
  simp only [iterate, case6_next3, case6_value3, case6_candidate3, case6_choose3]
  norm_num [abs_div, swapIfCounterCloser, case6State3, case6State4]

theorem case6_converged4 : converged case6State4 = true := by
  norm_num [abs_div, converged, estimate_tolerance, result_tolerance, case6State4]

theorem whileLoop_continue (f : ℚ → ℚ) (fuel : Nat) (s : SolverState)
    (hc : s.count < kMaxIterations) (hv : converged (iterate f s) = false) :
    whileLoop f (fuel + 1) s = whileLoop f fuel (iterate f s) := by
  show (if s.count < kMaxIterations then
      (if converged (iterate f s) then iterate f s else whileLoop f fuel (iterate f s))
    else s) = _
  rw [if_pos hc, hv]
  rfl

theorem whileLoop_break (f : ℚ → ℚ) (fuel : Nat) (s : SolverState)
    (hc : s.count < kMaxIterations) (hv : converged (iterate f s) = true) :
    whileLoop f (fuel + 1) s = iterate f s := by
  show (if s.count < kMaxIterations then
      (if converged (iterate f s) then iterate f s else whileLoop f fuel (iterate f s))
    else s) = _
  rw [if_pos hc, hv]
  rfl

/-- The solver run on the objective of test case 6 ends in `case6State4`. -/
theorem case6_run :
    SearchForRootTrace (-99999 / 100000) 1 case6Objective
      = (Except.ok (-1 / 4), case6State4) := by
  have hb : case6Objective (-99999 / 100000) * case6Objective 1 < 0 := by
    norm_num [case6Objective]
  rw [SearchForRootTrace_ok _ _ _ hb, case6_prepare]
  have h0 : case6State0.count < kMaxIterations := by decide
  have h1 : case6State1.count < kMaxIterations := by decide
  have h2 : case6State2.count < kMaxIterations := by decide
  have h3 : case6State3.count < kMaxIterations := by decide
  have hloop : whileLoop case6Objective kMaxIterations case6State0 = case6State4 := by
    show whileLoop case6Objective (96 + 1 + 1 + 1 + 1) case6State0 = case6State4
    rw [whileLoop_continue _ _ _ h0 (by rw [case6_iterate0]; exact case6_converged1),
      case6_iterate0,
      whileLoop_continue _ _ _ h1 (by rw [case6_iterate1]; exact case6_converged2),
      case6_iterate1,
      whileLoop_continue _ _ _ h2 (by rw [case6_iterate2]; exact case6_converged3),
      case6_iterate2,
      whileLoop_break _ _ _ h3 (by rw [case6_iterate3]; exact case6_converged4),
      case6_iterate3]
  rw [hloop]
  rfl

/-- C1 (counterexample): on the objective that is `-1` up to `0` and `1` above,
with the estimates `0` and `2 ^ 100`, the two objective values have strictly
opposite signs, yet `SearchForRoot` returns `0` after its 100 iterations with
best estimate `0`, counter estimate `1` and `|f(best)| = 1`: neither tolerance
is met at return. -/
theorem SearchForRoot_cap_reached_unconverged :
    stepObjective 0 * stepObjective (2 ^ 100) < 0
      ∧ SearchForRoot 0 (2 ^ 100) stepObjective = Except.ok 0
      ∧ (SearchForRootTrace 0 (2 ^ 100) stepObjective).2.estimate_kBest = 0
      ∧ (SearchForRootTrace 0 (2 ^ 100) stepObjective).2.estimate_kCounter = 1
      ∧ (SearchForRootTrace 0 (2 ^ 100) stepObjective).2.count = 100
      ∧ ¬ (|stepObjective 0| < result_tolerance ∨ |(0 : ℚ) - 1| < estimate_tolerance) := by
  obtain ⟨⟨hB, hC, -, -, -, hcount⟩, hret⟩ := stepObjective_run
  have hf0 : stepObjective 0 = -1 := by
    unfold stepObjective; simp
  have hf1 : stepObjective (2 ^ 100) = 1 := by
    unfold stepObjective; norm_num
  refine ⟨?_, hret, hB, ?_, ?_, ?_⟩
  · rw [hf0, hf1]; norm_num
  · rw [hC]; norm_num
  · exact hcount
  · rw [hf0]
    unfold result_tolerance estimate_tolerance
    norm_num

/-- C3: when `f(a)` and `f(b)` have the same strict sign, `SearchForRoot(a, b, f)`
raises a `RangeException` whose direction is `too_low` if and only if
`f(b) < 0`, and `too_high` otherwise, `b` being the second estimate. -/
theorem SearchForRoot_same_sign_direction (f : ℚ → ℚ) (a b : ℚ)
    (h : (0 < f a ∧ 0 < f b) ∨ (f a < 0 ∧ f b < 0)) :
    ∃ d, SearchForRoot a b f = Except.error d
      ∧ (d = relative_to_solution_e.too_low ↔ f b < 0)
      ∧ (d = relative_to_solution_e.too_high ↔ ¬ f b < 0) := by
  have hprod : f a * f b ≥ 0 := by
    rcases h with ⟨h1, h2⟩ | ⟨h1, h2⟩
    · exact le_of_lt (mul_pos h1 h2)
    · exact le_of_lt (mul_pos_of_neg_of_neg h1 h2)
  have ht := SearchForRootTrace_error a b f hprod
  unfold SearchForRoot
  rw [ht]
  rcases h with ⟨h1, h2⟩ | ⟨h1, h2⟩
  · have ha : ¬ f a < 0 := not_lt.mpr (le_of_lt h1)
    have hb : ¬ f b < 0 := not_lt.mpr (le_of_lt h2)
    refine ⟨relative_to_solution_e.too_high, ?_, ?_, ?_⟩
    · simp only [ha, if_false]
    · simp only [hb, iff_false]; intro hd; cases hd
    · simp only [hb, not_false_eq_true]
  · refine ⟨relative_to_solution_e.too_low, ?_, ?_, ?_⟩
    · simp only [h1, if_true]
    · simp only [h2]
    · simp only [h2, not_true_eq_false, iff_false]; intro hd; cases hd

/-- Witness for C3: the identity objective on the estimates `-2` and `-1`. -/
theorem SearchForRoot_same_sign_direction_witness :
    ((0 < (fun x : ℚ => x) (-2) ∧ 0 < (fun x : ℚ => x) (-1))
        ∨ ((fun x : ℚ => x) (-2) < 0 ∧ (fun x : ℚ => x) (-1) < 0))
      ∧ ∃ d, SearchForRoot (-2) (-1) (fun x => x) = Except.error d
        ∧ (d = relative_to_solution_e.too_low ↔ (fun x : ℚ => x) (-1) < 0)
        ∧ (d = relative_to_solution_e.too_high ↔ ¬ (fun x : ℚ => x) (-1) < 0) :=
  ⟨Or.inr ⟨by norm_num, by norm_num⟩,
    SearchForRoot_same_sign_direction (fun x => x) (-2) (-1)
      (Or.inr ⟨by norm_num, by norm_num⟩)⟩

/-- C4 (counterexample): with the identity objective, `SearchForRoot(0, -1, f)`
has `f(a) = 0` and `f(b) < 0` and reports `too_high`, and
`SearchForRoot(-1, 0, f)` has `f(a) < 0` and `f(b) = 0` and reports `too_low`:
the direction does not follow the sign of `f` at the second estimate. -/
theorem SearchForRoot_zero_endpoint_direction_counterexample :
    ((fun x : ℚ => x) 0 * (fun x : ℚ => x) (-1) = 0
        ∧ (fun x : ℚ => x) (-1) < 0
        ∧ SearchForRoot 0 (-1) (fun x => x) = Except.error relative_to_solution_e.too_high)
      ∧ ((fun x : ℚ => x) (-1) * (fun x : ℚ => x) 0 = 0
        ∧ ¬ (fun x : ℚ => x) 0 < 0
        ∧ SearchForRoot (-1) 0 (fun x => x) = Except.error relative_to_solution_e.too_low) := by
  refine ⟨⟨by norm_num, by norm_num, ?_⟩, ⟨by norm_num, by norm_num, ?_⟩⟩
  · unfold SearchForRoot
    rw [SearchForRootTrace_error 0 (-1) (fun x => x) (by norm_num)]
    norm_num
  · unfold SearchForRoot
    rw [SearchForRootTrace_error (-1) 0 (fun x => x) (by norm_num)]
    norm_num

/-- C4 (amended): when `f(a) * f(b) = 0`, the `RangeException` raised by
`SearchForRoot(a, b, f)` reports `too_low` exactly when `f(a) < 0`, `a` being
the first estimate argument, and `too_high` otherwise. -/
theorem SearchForRoot_zero_endpoint_direction (f : ℚ → ℚ) (a b : ℚ) (h : f a * f b = 0) :
    ∃ d, SearchForRoot a b f = Except.error d
      ∧ (d = relative_to_solution_e.too_low ↔ f a < 0)
      ∧ (d = relative_to_solution_e.too_high ↔ ¬ f a < 0) := by
  have ht := SearchForRootTrace_error a b f (le_of_eq h.symm)
  unfold SearchForRoot
  rw [ht]
  by_cases ha : f a < 0
  · refine ⟨relative_to_solution_e.too_low, ?_, ?_, ?_⟩
    · simp only [ha, if_true]
    · simp only [ha]
    · simp only [ha, not_true_eq_false, iff_false]; intro hd; cases hd
  · refine ⟨relative_to_solution_e.too_high, ?_, ?_, ?_⟩
    · simp only [ha, if_false]
    · simp only [ha, iff_false]; intro hd; cases hd
    · simp only [ha, not_false_eq_true]

/-- Witness for C4 (amended): the identity objective on the estimates `0` and `-1`. -/
theorem SearchForRoot_zero_endpoint_direction_witness :
    (fun x : ℚ => x) 0 * (fun x : ℚ => x) (-1) = 0
      ∧ ∃ d, SearchForRoot 0 (-1) (fun x => x) = Except.error d
        ∧ (d = relative_to_solution_e.too_low ↔ (fun x : ℚ => x) 0 < 0)
        ∧ (d = relative_to_solution_e.too_high ↔ ¬ (fun x : ℚ => x) 0 < 0) :=
  ⟨by norm_num, SearchForRoot_zero_endpoint_direction (fun x => x) 0 (-1) (by norm_num)⟩

/-- C5: `SearchForRoot` runs its loop body at most 100 times and evaluates the
objective once per iteration after the two initial evaluations, hence at most
102 times; on a bracketing pair it returns the best estimate of its final state
without raising, whether or not a tolerance was met when the loop ended. -/
theorem SearchForRoot_iteration_cap (f : ℚ → ℚ) (a b : ℚ) :
    (SearchForRootTrace a b f).2.count ≤ 100
      ∧ (SearchForRootTrace a b f).2.evaluated.length = (SearchForRootTrace a b f).2.count + 2
      ∧ (SearchForRootTrace a b f).2.evaluated.length ≤ 102
      ∧ (f a * f b < 0 →
          SearchForRoot a b f = Except.ok (SearchForRootTrace a b f).2.estimate_kBest) := by
  have key : (SearchForRootTrace a b f).2.count ≤ 100
      ∧ (SearchForRootTrace a b f).2.evaluated.length
          = (SearchForRootTrace a b f).2.count + 2 := by
    by_cases h : f a * f b ≥ 0
    · rw [SearchForRootTrace_error a b f h]
      exact ⟨Nat.zero_le _, rfl⟩
    · rw [SearchForRootTrace_ok a b f (not_le.mp h)]
      have h0 : (prepare (initialState a b f)).count = 0 := prepare_count _
      have h1 := whileLoop_count_le f kMaxIterations (prepare (initialState a b f))
        (by rw [h0]; exact Nat.zero_le _)
      have h2 := whileLoop_evaluated_length f kMaxIterations (prepare (initialState a b f))
      have h3 : (prepare (initialState a b f)).evaluated.length = 2 := by
        rw [prepare_evaluated]; rfl
      rw [h0, h3] at h2
      refine ⟨h1, ?_⟩
      show (whileLoop f kMaxIterations (prepare (initialState a b f))).evaluated.length
        = (whileLoop f kMaxIterations (prepare (initialState a b f))).count + 2
      omega
  refine ⟨key.1, key.2, ?_, ?_⟩
  · have := key.1
    omega
  · intro h
    unfold SearchForRoot
    rw [SearchForRootTrace_ok a b f h]

/-- Witness for C5: the run on `stepObjective` from `0` and `2 ^ 100` reaches the
cap with no tolerance met and still returns its best estimate. -/
theorem SearchForRoot_iteration_cap_witness :
    stepObjective 0 * stepObjective (2 ^ 100) < 0
      ∧ (SearchForRootTrace 0 (2 ^ 100) stepObjective).2.count = 100
      ∧ converged (SearchForRootTrace 0 (2 ^ 100) stepObjective).2 = false
      ∧ SearchForRoot 0 (2 ^ 100) stepObjective
          = Except.ok (SearchForRootTrace 0 (2 ^ 100) stepObjective).2.estimate_kBest := by
  have hb : stepObjective 0 * stepObjective (2 ^ 100) < 0 := by
    have hf0 : stepObjective 0 = -1 := by
      unfold stepObjective; simp
    have hf1 : stepObjective (2 ^ 100) = 1 := by
      unfold stepObjective; norm_num
    rw [hf0, hf1]; norm_num
  exact ⟨hb, stepObjective_run.1.2.2.2.2.2,
    stepInv_not_converged 0 _ stepObjective_run.1,
    (SearchForRoot_iteration_cap stepObjective 0 (2 ^ 100)).2.2.2 hb⟩

end roots

namespace mirr

open roots

theorem driverBody_count (f : ℚ → ℚ) (s : DriverState) : (driverBody f s).count = s.count := by
  unfold driverBody
  cases SearchForRoot s.low_estimate s.high_estimate f with
  | ok r => rfl
  | error d =>
    simp only
    split <;> rfl

theorem driverBody_attempts (f : ℚ → ℚ) (s : DriverState) :
    (driverBody f s).attempts = s.attempts ++ [(s.low_estimate, s.high_estimate)] := by
  unfold driverBody
  cases SearchForRoot s.low_estimate s.high_estimate f with
  | ok r => rfl
  | error d =>
    simp only
    split <;> rfl

theorem driverBody_ok (f : ℚ → ℚ) (s : DriverState) (r : ℚ) (hc : s.count = 0)
    (h : SearchForRoot s.low_estimate s.high_estimate f = Except.ok r) :
    (driverBody f s).searching = false ∧ (driverBody f s).result = r
      ∧ (driverBody f s).low_estimate = s.low_estimate
      ∧ (driverBody f s).high_estimate = s.high_estimate := by
  unfold driverBody
  rw [h]
  simp [hc, stillSearching]

theorem driverBody_too_low (f : ℚ → ℚ) (s : DriverState) (hc : s.count = 0)
    (h : SearchForRoot s.low_estimate s.high_estimate f
      = Except.error relative_to_solution_e.too_low) :
    (driverBody f s).searching = true ∧ (driverBody f s).result = s.result
      ∧ (driverBody f s).low_estimate = s.high_estimate
      ∧ (driverBody f s).high_estimate
          = s.high_estimate + |s.high_estimate - s.low_estimate| := by
  unfold driverBody
  rw [h]
  simp [hc, stillSearching, kMaxIterations]

theorem driverBody_too_high (f : ℚ → ℚ) (s : DriverState) (hc : s.count = 0)
    (h : SearchForRoot s.low_estimate s.high_estimate f
      = Except.error relative_to_solution_e.too_high) :
    (driverBody f s).searching = true ∧ (driverBody f s).result = s.result
      ∧ (driverBody f s).high_estimate = s.low_estimate
      ∧ (driverBody f s).low_estimate
          = s.low_estimate - |s.high_estimate - s.low_estimate| := by
  unfold driverBody
  rw [h]
  simp [hc, stillSearching, kMaxIterations]

/-- `SearchForRoot` raises with no direction other than `too_low` and `too_high`. -/
theorem SearchForRoot_error_cases (f : ℚ → ℚ) (a b : ℚ) (d : relative_to_solution_e)
    (h : SearchForRoot a b f = Except.error d) :
    d = relative_to_solution_e.too_low ∨ d = relative_to_solution_e.too_high := by
  by_cases hb : f a * f b ≥ 0
  · unfold SearchForRoot at h
    rw [SearchForRootTrace_error a b f hb] at h
    by_cases ha : f a < 0
    · simp only [ha, if_true] at h
      left; cases h; rfl
    · simp only [ha, if_false] at h
      right; cases h; rfl
  · unfold SearchForRoot at h
    rw [SearchForRootTrace_ok a b f (not_le.mp hb)] at h
    cases h

theorem driverRun_count (f : ℚ → ℚ) (n : Nat) (s : DriverState) :
    (driverRun f n s).count = s.count := by
  induction n generalizing s with
  | zero => rfl
  | succ n ih =>
    unfold driverRun
    split
    · rw [ih, driverBody_count]
    · rfl

theorem driverRun_succ (f : ℚ → ℚ) (n : Nat) (s : DriverState) :
    driverRun f (n + 1) s
      = if (driverRun f n s).searching then driverBody f (driverRun f n s)
        else driverRun f n s := by
  induction n generalizing s with
  | zero =>
    show (if s.searching then driverRun f 0 (driverBody f s) else s) = _
    rfl
  | succ n ih =>
    show (if s.searching then driverRun f (n + 1) (driverBody f s) else s) = _
    by_cases hs : s.searching = true
    · rw [if_pos hs, ih (driverBody f s)]
      have e : driverRun f (n + 1) s = driverRun f n (driverBody f s) := by
        show (if s.searching then driverRun f n (driverBody f s) else s) = _
        rw [if_pos hs]
      rw [e]
    · rw [if_neg hs]
      have e : driverRun f (n + 1) s = s := by
        show (if s.searching then driverRun f n (driverBody f s) else s) = _
        rw [if_neg hs]
      rw [e, if_neg hs]

theorem driverRun_stopped (f : ℚ → ℚ) (n : Nat) (s : DriverState) (h : s.searching = false) :
    driverRun f n s = s := by
  cases n with
  | zero => rfl
  | succ n =>
    show (if s.searching then driverRun f n (driverBody f s) else s) = s
    rw [h]; rfl

theorem driverRun_add (f : ℚ → ℚ) (n m : Nat) (s : DriverState) :
    driverRun f (n + m) s = driverRun f m (driverRun f n s) := by
  induction n generalizing s with
  | zero => rw [Nat.zero_add]; rfl
  | succ n ih =>
    have e : n + 1 + m = (n + m) + 1 := by omega
    rw [e]
    show (if s.searching then driverRun f (n + m) (driverBody f s) else s) = _
    by_cases hs : s.searching = true
    · rw [if_pos hs, ih]
      have e2 : driverRun f (n + 1) s = driverRun f n (driverBody f s) := by
        show (if s.searching then driverRun f n (driverBody f s) else s) = _
        rw [if_pos hs]
      rw [e2]
    · rw [if_neg hs]
      have hs2 : s.searching = false := by
        cases hq : s.searching with
        | true => exact absurd hq hs
        | false => rfl
      rw [driverRun_stopped f (n + 1) s hs2, driverRun_stopped f m s hs2]

theorem driverRun_attempts_append (f : ℚ → ℚ) (m : Nat) (s : DriverState) :
    ∃ rest, (driverRun f m s).attempts = s.attempts ++ rest := by
  induction m generalizing s with
  | zero => exact ⟨[], (List.append_nil _).symm⟩
  | succ m ih =>
    show ∃ rest, (if s.searching then driverRun f m (driverBody f s) else s).attempts = _
    by_cases hs : s.searching = true
    · rw [if_pos hs]
      obtain ⟨rest, hrest⟩ := ih (driverBody f s)
      refine ⟨(s.low_estimate, s.high_estimate) :: rest, ?_⟩
      rw [hrest, driverBody_attempts, List.append_assoc]
      rfl
    · rw [if_neg hs]
      exact ⟨[], (List.append_nil _).symm⟩

theorem driverInv_start (f : ℚ → ℚ) : DriverInv f driverStart := by
  refine ⟨rfl, ?_, ?_, ?_, ?_, ?_, ?_⟩
  · show (1 : ℚ) - (-99999 / 100000) = 199999 / 100000
    norm_num
  · intro w hw; cases hw
  · exact List.chain'_nil
  · intro w hw; cases hw
  · intro _; exact ⟨rfl, rfl⟩
  · intro _ w hw; cases hw

theorem driverInv_attempts (f : ℚ → ℚ) (s : DriverState) (h : DriverInv f s)
    (hs : s.searching = true) :
    (∀ w ∈ (s.attempts ++ [(s.low_estimate, s.high_estimate)]).head?,
        w = ((-99999 / 100000 : ℚ), (1 : ℚ)))
      ∧ List.Chain' (fun w w' => NextWindow f w w' ∧ SharesOneEndpoint w w')
          (s.attempts ++ [(s.low_estimate, s.high_estimate)])
      ∧ (∀ w ∈ s.attempts ++ [(s.low_estimate, s.high_estimate)],
          w.1 < w.2 ∧ w.2 - w.1 = 199999 / 100000) := by
  obtain ⟨-, hw, hhead, hchain, hall, hnil, hlast⟩ := h
  refine ⟨?_, ?_, ?_⟩
  · intro w hmem
    cases hA : s.attempts with
    | nil =>
      rw [hA] at hmem
      simp only [List.nil_append, List.head?_cons, Option.mem_def, Option.some.injEq] at hmem
      rw [← hmem, (hnil hA).1, (hnil hA).2]
    | cons x xs =>
      rw [hA] at hmem hhead
      exact hhead w hmem
  · rw [List.chain'_append]
    refine ⟨hchain, List.chain'_singleton _, ?_⟩
    intro x hx y hy
    simp only [List.head?_cons, Option.mem_def, Option.some.injEq] at hy
    rw [← hy]
    exact hlast hs x hx
  · intro w hmem
    rcases List.mem_append.mp hmem with h1 | h1
    · exact hall w h1
    · rw [List.mem_singleton] at h1
      rw [h1]
      show s.low_estimate < s.high_estimate ∧ s.high_estimate - s.low_estimate = 199999 / 100000
      refine ⟨?_, hw⟩
      have : (0 : ℚ) < s.high_estimate - s.low_estimate := by rw [hw]; norm_num
      linarith

theorem driverInv_body (f : ℚ → ℚ) (s : DriverState) (h : DriverInv f s)
    (hs : s.searching = true) : DriverInv f (driverBody f s) := by
  obtain ⟨hhead', hchain', hall'⟩ := driverInv_attempts f s h hs
  obtain ⟨hc, hw, -, -, -, -, -⟩ := h
  have habs : |s.high_estimate - s.low_estimate| = s.high_estimate - s.low_estimate := by
    apply abs_of_pos; rw [hw]; norm_num
  have hne : s.attempts ++ [(s.low_estimate, s.high_estimate)] ≠ [] := by simp
  refine ⟨by rw [driverBody_count]; exact hc, ?_, ?_, ?_, ?_, ?_, ?_⟩
  · cases hr : SearchForRoot s.low_estimate s.high_estimate f with
    | ok r =>
      obtain ⟨-, -, h3, h4⟩ := driverBody_ok f s r hc hr
      rw [h3, h4]; exact hw
    | error d =>
      rcases SearchForRoot_error_cases f _ _ d hr with hd | hd
      · rw [hd] at hr
        obtain ⟨-, -, h3, h4⟩ := driverBody_too_low f s hc hr
        rw [h3, h4, habs, hw]; ring
      · rw [hd] at hr
        obtain ⟨-, -, h3, h4⟩ := driverBody_too_high f s hc hr
        rw [h3, h4, habs, hw]; ring
  · rw [driverBody_attempts]; exact hhead'
  · rw [driverBody_attempts]; exact hchain'
  · rw [driverBody_attempts]; exact hall'
  · rw [driverBody_attempts]; intro hnil; exact absurd hnil hne
  · intro hsearch w hmem
    rw [driverBody_attempts, List.getLast?_concat] at hmem
    simp only [Option.mem_def, Option.some.injEq] at hmem
    rw [← hmem]
    have hpos : (0 : ℚ) < s.high_estimate - s.low_estimate := by rw [hw]; norm_num
    cases hr : SearchForRoot s.low_estimate s.high_estimate f with
    | ok r =>
      have := (driverBody_ok f s r hc hr).1
      rw [this] at hsearch
      cases hsearch
    | error d =>
      rcases SearchForRoot_error_cases f _ _ d hr with hd | hd
      · rw [hd] at hr
        obtain ⟨-, -, h3, h4⟩ := driverBody_too_low f s hc hr
        rw [h3, h4, habs]
        refine ⟨Or.inl ⟨hr, rfl⟩, Or.inl ⟨Or.inr rfl, ?_⟩⟩
        show ¬ (s.high_estimate + (s.high_estimate - s.low_estimate) = s.low_estimate
          ∨ s.high_estimate + (s.high_estimate - s.low_estimate) = s.high_estimate)
        rintro (h5 | h5) <;> linarith
      · rw [hd] at hr
        obtain ⟨-, -, h3, h4⟩ := driverBody_too_high f s hc hr
        rw [h3, h4, habs]
        refine ⟨Or.inr ⟨_, ?_, hr, rfl⟩, Or.inr ⟨?_, Or.inl rfl⟩⟩
        · intro hd2; cases hd2
        · show ¬ (s.low_estimate - (s.high_estimate - s.low_estimate) = s.low_estimate
            ∨ s.low_estimate - (s.high_estimate - s.low_estimate) = s.high_estimate)
          rintro (h5 | h5) <;> linarith

theorem driverInv_run (f : ℚ → ℚ) (n : Nat) : DriverInv f (driverRun f n driverStart) := by
  induction n with
  | zero => exact driverInv_start f
  | succ n ih =>
    rw [driverRun_succ]
    by_cases hs : (driverRun f n driverStart).searching = true
    · rw [if_pos hs]; exact driverInv_body f _ ih hs
    · rw [if_neg hs]; exact ih

end mirr

namespace dates

theorem kSecondsPerDay_cast : ((kSecondsPerDay : Int) : ℚ) = 86400 := by
  unfold kSecondsPerDay; norm_num

theorem GetDifferenceDays_eq (a b : Int) :
    GetDifferenceDays a b = ((a - b : Int) : ℚ) / 86400 := by
  unfold GetDifferenceDays GetDifferenceSeconds
  rw [kSecondsPerDay_cast]

theorem GetDifferenceDays_ge_one (a b : Int) (h : 86400 ≤ a - b) :
    1 ≤ GetDifferenceDays a b := by
  rw [GetDifferenceDays_eq, le_div_iff₀ (by norm_num)]
  have : ((86400 : Int) : ℚ) ≤ ((a - b : Int) : ℚ) := Int.cast_le.mpr h
  simpa using this

theorem GetDifferenceDays_nonneg_iff (a b : Int) :
    0 ≤ GetDifferenceDays a b ↔ b ≤ a := by
  rw [GetDifferenceDays_eq]
  constructor
  · intro h
    have h2 : (0 : ℚ) ≤ ((a - b : Int) : ℚ) := by
      by_contra hneg
      have : ((a - b : Int) : ℚ) / 86400 < 0 := div_neg_of_neg_of_pos (not_le.mp hneg) (by norm_num)
      linarith
    have h3 : (0 : Int) ≤ a - b := by exact_mod_cast h2
    omega
  · intro h
    apply div_nonneg
    · have : (0 : Int) ≤ a - b := by omega
      exact_mod_cast this
    · norm_num

theorem lround_nonneg (x : ℚ) (h : 0 ≤ x) : 0 ≤ lround x := by
  unfold lround
  rw [if_pos h]
  apply Int.floor_nonneg.mpr
  linarith

theorem lround_ge_one (x : ℚ) (h : 1 ≤ x) : 1 ≤ lround x := by
  unfold lround
  rw [if_pos (by linarith)]
  apply Int.le_floor.mpr
  push_cast
  linarith

theorem lround_neg (x : ℚ) (h : lround x < 0) : x < 0 := by
  by_contra hneg
  have := lround_nonneg x (not_lt.mp hneg)
  omega

theorem lround_natCast (n : Nat) : lround (n : ℚ) = n := by
  unfold lround
  rw [if_pos (Nat.cast_nonneg n)]
  rw [Int.floor_eq_iff]
  push_cast
  constructor <;> linarith

end dates

namespace mirr

open roots

theorem powFloor_zero (x : ℚ) : powFloor x 0 = 1 := by
  unfold powFloor; rw [Int.floor_zero, zpow_zero]

theorem powFloor_one (x : ℚ) : powFloor x 1 = x := by
  unfold powFloor; rw [Int.floor_one, zpow_one]

theorem powFloor_pos (x e : ℚ) (h : 0 < x) : 0 < powFloor x e := by
  unfold powFloor; exact zpow_pos h _

theorem push_back_empty (c : CashFlow) :
    CashFlowList.empty.push_back c
      = { entries := [c], start_date_ := c.date_, end_date_ := 0 } := by
  unfold CashFlowList.push_back CashFlowList.empty
  simp

/-- Two flows appended in chronological order. -/
theorem push_back_two_ascending (d0 d1 : Int) (a0 a1 : ℚ)
    (h : ¬ dates.lround (dates.GetDifferenceDays d1 d0) < 0) :
    (CashFlowList.empty.push_back (CashFlow.make d0 a0)).push_back (CashFlow.make d1 a1)
      = { entries := [{ date_ := d0, amount_ := a0, days_from_start_ := 0 },
            { date_ := d1, amount_ := a1,
              days_from_start_ := dates.lround (dates.GetDifferenceDays d1 d0) }],
          start_date_ := d0, end_date_ := 0 } := by
  rw [push_back_empty]
  unfold CashFlowList.push_back CashFlow.make
  simp [h]

/-- Two flows appended in reverse chronological order: the entry appended last
keeps the negative day count computed against the old start date. -/
theorem push_back_two_descending (d0 d1 : Int) (a0 a1 : ℚ)
    (h : dates.lround (dates.GetDifferenceDays d1 d0) < 0) :
    (CashFlowList.empty.push_back (CashFlow.make d0 a0)).push_back (CashFlow.make d1 a1)
      = { entries :=
            [{ date_ := d0, amount_ := a0,
                days_from_start_ := dates.lround (dates.GetDifferenceDays d0 d1) },
              { date_ := d1, amount_ := a1,
                days_from_start_ := dates.lround (dates.GetDifferenceDays d1 d0) }],
          start_date_ := d1, end_date_ := 0 } := by
  rw [push_back_empty]
  unfold CashFlowList.push_back CashFlow.make
  simp [h]

theorem max_element_pair (x y : CashFlow) :
    max_element [x, y] = some (if x.date_ < y.date_ then y else x) := by
  unfold max_element CashFlow.lt dates.GetDifferenceSeconds
  simp only [List.foldl_cons, List.foldl_nil, decide_eq_true_eq]
  have e : (((x.date_ - y.date_ : Int) : ℚ) < 0) ↔ x.date_ < y.date_ := by
    constructor
    · intro h
      have : (x.date_ - y.date_ : Int) < 0 := by exact_mod_cast h
      omega
    · intro h
      have : (x.date_ - y.date_ : Int) < 0 := by omega
      exact_mod_cast this
  simp only [e]

/-- The NPV of two flows whose later one is the chronologically latest entry,
at day count `D ≠ 0`, when the earlier one sits at day `0`. -/
theorem calculateNPV_pair (pw : ℚ → ℚ → ℚ) (h0 : ∀ x, pw x 0 = 1) (h1 : ∀ x, pw x 1 = x)
    (d0 d1 s e D : Int) (a0 a1 : ℚ) (hd : d0 < d1) (hD : D ≠ 0) (r : ℚ) :
    CashFlowList.calculateNPV pw
        { entries := [{ date_ := d0, amount_ := a0, days_from_start_ := 0 },
            { date_ := d1, amount_ := a1, days_from_start_ := D }],
          start_date_ := s, end_date_ := e } r
      = if r = -1 then 0 else a0 + a1 / (1 + r) := by
  unfold CashFlowList.calculateNPV
  by_cases hr : r = -1
  · simp only [hr, if_true]
  · have hne : (1 : ℚ) + r ≠ 0 := by
      intro h; apply hr; linarith
    have hDq : (D : ℚ) ≠ 0 := Int.cast_ne_zero.mpr hD
    simp only [hr, if_false, max_element_pair, hd, if_true, List.foldl_cons, List.foldl_nil,
      Int.cast_zero, zero_div, h0, div_self hDq, h1, ne_eq, one_ne_zero, not_false_eq_true,
      hne, div_one, zero_add]

theorem calculateNPV_fold_pos (pw : ℚ → ℚ → ℚ) (x L : ℚ) (hpw : ∀ e, 0 < pw x e)
    (cs : List CashFlow) (hall : ∀ c ∈ cs, 0 < c.amount_) (init : ℚ) :
    init ≤ cs.foldl
        (fun result cash_flow =>
          if pw x ((cash_flow.days_from_start_ : ℚ) / L) ≠ 0 then
            result + cash_flow.amount_ / pw x ((cash_flow.days_from_start_ : ℚ) / L)
          else result) init
      ∧ (cs ≠ [] → init < cs.foldl
        (fun result cash_flow =>
          if pw x ((cash_flow.days_from_start_ : ℚ) / L) ≠ 0 then
            result + cash_flow.amount_ / pw x ((cash_flow.days_from_start_ : ℚ) / L)
          else result) init) := by
  induction cs generalizing init with
  | nil => exact ⟨le_refl _, fun h => absurd rfl h⟩
  | cons c cs ih =>
    have hc : 0 < c.amount_ := hall c (List.mem_cons_self _ _)
    have hp := hpw ((c.days_from_start_ : ℚ) / L)
    have hstep : init < init + c.amount_ / pw x ((c.days_from_start_ : ℚ) / L) := by
      have := div_pos hc hp
      linarith
    have ih2 := ih (fun c2 h2 => hall c2 (List.mem_cons_of_mem _ h2))
      (init + c.amount_ / pw x ((c.days_from_start_ : ℚ) / L))
    simp only [List.foldl_cons, ne_eq, ne_of_gt hp, not_false_eq_true, if_true]
    exact ⟨le_trans (le_of_lt hstep) ih2.1, fun _ => lt_of_lt_of_le hstep ih2.1⟩

/-- With only positive amounts and a `pow` that is positive on positive bases,
the NPV of a non-empty list is positive at every rate above `-1`. -/
theorem calculateNPV_pos (pw : ℚ → ℚ → ℚ) (hpw : ∀ x e, 0 < x → 0 < pw x e)
    (l : CashFlowList) (hne : l.entries ≠ []) (hall : ∀ c ∈ l.entries, 0 < c.amount_)
    (r : ℚ) (hr : -1 < r) : 0 < l.calculateNPV pw r := by
  unfold CashFlowList.calculateNPV
  have hr1 : ¬ r = -1 := ne_of_gt hr
  have hx : (0 : ℚ) < 1 + r := by linarith
  simp only [hr1, if_false]
  cases hm : max_element l.entries with
  | none =>
    cases hl : l.entries with
    | nil => exact absurd hl hne
    | cons c cs => rw [hl] at hm; cases hm
  | some last =>
    exact (calculateNPV_fold_pos pw (1 + r) _ (fun e => hpw _ e hx) l.entries hall 0).2 hne

theorem SearchForRoot_too_high_of_pos (f : ℚ → ℚ) (a b : ℚ) (ha : 0 < f a) (hb : 0 < f b) :
    SearchForRoot a b f = Except.error relative_to_solution_e.too_high := by
  unfold SearchForRoot
  rw [SearchForRootTrace_error a b f (le_of_lt (mul_pos ha hb))]
  simp only [not_lt.mpr (le_of_lt ha), if_false]

/-- An objective that is positive at every endpoint `1 - 1.99999 * n` keeps the
loop of `GetRate` searching: after `n` passes it has called the solver `n`
times and moved `n` windows down. -/
theorem driverRun_never_stops (f : ℚ → ℚ)
    (hpos : ∀ n : Nat, 0 < f (1 - 199999 / 100000 * (n : ℚ))) (n : Nat) :
    (driverRun f n driverStart).searching = true
      ∧ (driverRun f n driverStart).count = 0
      ∧ (driverRun f n driverStart).low_estimate = 1 - 199999 / 100000 * ((n : ℚ) + 1)
      ∧ (driverRun f n driverStart).high_estimate = 1 - 199999 / 100000 * (n : ℚ)
      ∧ (driverRun f n driverStart).attempts.length = n := by
  induction n with
  | zero =>
    refine ⟨rfl, rfl, ?_, ?_, rfl⟩
    · show (-99999 / 100000 : ℚ) = 1 - 199999 / 100000 * (((0 : Nat) : ℚ) + 1)
      norm_num
    · show (1 : ℚ) = 1 - 199999 / 100000 * ((0 : Nat) : ℚ)
      norm_num
  | succ n ih =>
    obtain ⟨hs, hc, hl, hh, ha⟩ := ih
    rw [driverRun_succ, if_pos hs]
    have hfl : 0 < f (driverRun f n driverStart).low_estimate := by
      rw [hl]
      have := hpos (n + 1)
      push_cast at this
      exact this
    have hfh : 0 < f (driverRun f n driverStart).high_estimate := by
      rw [hh]; exact hpos n
    have hr := SearchForRoot_too_high_of_pos f _ _ hfl hfh
    obtain ⟨h1, -, h3, h4⟩ := driverBody_too_high f _ hc hr
    have habs : |(driverRun f n driverStart).high_estimate
        - (driverRun f n driverStart).low_estimate| = 199999 / 100000 := by
      rw [hl, hh]
      have e : (1 : ℚ) - 199999 / 100000 * (n : ℚ) - (1 - 199999 / 100000 * ((n : ℚ) + 1))
          = 199999 / 100000 := by ring
      rw [e]
      exact abs_of_pos (by norm_num)
    refine ⟨h1, by rw [driverBody_count]; exact hc, ?_, ?_, ?_⟩
    · rw [h4, habs, hl]; push_cast; ring
    · rw [h3, hl]; push_cast; ring
    · rw [driverBody_attempts, List.length_append, List.length_singleton, ha]

theorem positive_pair_objective_pos (a0 a1 : ℚ) (r : ℚ) (ha0 : 0 < a0) (ha1 : 0 < a1)
    (h : -1 < r ∨ a0 * (1 + r) + a1 < 0) :
    0 < (if r = -1 then 0 else a0 + a1 / (1 + r)) := by
  rcases h with h | h
  · have hr : ¬ r = -1 := ne_of_gt h
    have hx : (0 : ℚ) < 1 + r := by linarith
    rw [if_neg hr]
    have := div_pos ha1 hx
    linarith
  · have hx : (1 : ℚ) + r < 0 := by
      by_contra hneg
      have : 0 ≤ a0 * (1 + r) := mul_nonneg (le_of_lt ha0) (not_lt.mp hneg)
      linarith
    have hr : ¬ r = -1 := by
      intro he; rw [he] at hx; norm_num at hx
    rw [if_neg hr]
    have hne : (1 : ℚ) + r ≠ 0 := ne_of_lt hx
    have e : a0 + a1 / (1 + r) = (a0 * (1 + r) + a1) / (1 + r) := by
      field_simp
    rw [e]
    exact div_pos_of_neg_of_neg h hx

/-- Every window endpoint `1 - 1.99999 * n` lies where `100 + 75 / (1 + r)` is
positive. -/
theorem window_endpoint_objective_pos (n : Nat) :
    0 < (fun r : ℚ => if r = -1 then 0 else (100 : ℚ) + 75 / (1 + r))
      (1 - 199999 / 100000 * (n : ℚ)) := by
  apply positive_pair_objective_pos 100 75 _ (by norm_num) (by norm_num)
  rcases n with _ | _ | n
  · left; norm_num
  · left; norm_num
  · right
    push_cast
    have : (0 : ℚ) ≤ (n : ℚ) := Nat.cast_nonneg n
    linarith

theorem lround_days_year_apart (t0 : Int) :
    dates.lround (dates.GetDifferenceDays (t0 + 365 * 86400) t0) = 365 := by
  rw [dates.GetDifferenceDays_eq]
  have e : (((t0 + 365 * 86400 - t0 : Int)) : ℚ) / 86400 = ((365 : Nat) : ℚ) := by
    have : (t0 + 365 * 86400 - t0 : Int) = 365 * 86400 := by ring
    rw [this]; norm_num
  rw [e, dates.lround_natCast]
  rfl

/-- The NPV objective of two flows appended 365 days apart. -/
theorem calculateNPV_year_apart (pw : ℚ → ℚ → ℚ) (h0 : ∀ x, pw x 0 = 1) (h1 : ∀ x, pw x 1 = x)
    (t0 : Int) (a0 a1 : ℚ) :
    ((CashFlowList.empty.push_back (CashFlow.make t0 a0)).push_back
        (CashFlow.make (t0 + 365 * 86400) a1)).calculateNPV pw
      = fun r => if r = -1 then 0 else a0 + a1 / (1 + r) := by
  funext r
  have hD := lround_days_year_apart t0
  rw [push_back_two_ascending t0 _ a0 a1 (by rw [hD]; decide), hD]
  exact calculateNPV_pair pw h0 h1 t0 _ t0 0 365 a0 a1 (by omega) (by decide) r

/-- The pass that follows `n` searching passes and whose solver call returns
`r` ends the loop with `result = r`; later fuel changes nothing. -/
theorem driverRun_success (f : ℚ → ℚ) (n extra : Nat) (r : ℚ)
    (hsearch : (driverRun f n driverStart).searching = true)
    (hok : SearchForRoot (driverRun f n driverStart).low_estimate
      (driverRun f n driverStart).high_estimate f = Except.ok r) :
    driverRun f (n + 1 + extra) driverStart = driverBody f (driverRun f n driverStart)
      ∧ (driverBody f (driverRun f n driverStart)).searching = false
      ∧ (driverBody f (driverRun f n driverStart)).result = r := by
  have hc : (driverRun f n driverStart).count = 0 := by
    rw [driverRun_count]; rfl
  obtain ⟨h1, h2, -, -⟩ := driverBody_ok f _ r hc hok
  refine ⟨?_, h1, h2⟩
  rw [driverRun_add, driverRun_succ, if_pos hsearch]
  exact driverRun_stopped f extra _ h1

end mirr

namespace dates

theorem lround_le_neg_one (x : ℚ) (h : x ≤ -1) : lround x ≤ -1 := by
  unfold lround
  rw [if_neg (by linarith)]
  apply Int.ceil_le.mpr
  push_cast
  linarith

theorem GetDifferenceDays_le_neg_one (a b : Int) (h : a - b ≤ -86400) :
    GetDifferenceDays a b ≤ -1 := by
  rw [GetDifferenceDays_eq, div_le_iff₀ (by norm_num)]
  have : ((a - b : Int) : ℚ) ≤ ((-86400 : Int) : ℚ) := Int.cast_le.mpr h
  simpa using this

end dates

namespace mirr

open roots

/-- Two flows at least one day apart: whichever order they were appended in,
the list is non-empty, keeps its two amounts, and its chronologically latest
entry has a non-zero day count, so the exponent divisor of `calculateNPV` is
non-zero. -/
theorem twoFlows_shape (d0 d1 : Int) (a0 a1 : ℚ) (hapart : 86400 ≤ |d1 - d0|) :
    (twoFlows d0 a0 d1 a1).entries ≠ []
      ∧ (∀ c ∈ (twoFlows d0 a0 d1 a1).entries, c.amount_ = a0 ∨ c.amount_ = a1)
      ∧ ∃ last, max_element (twoFlows d0 a0 d1 a1).entries = some last
          ∧ last.days_from_start_ ≠ 0 := by
  unfold twoFlows
  by_cases hD : dates.lround (dates.GetDifferenceDays d1 d0) < 0
  · rw [push_back_two_descending d0 d1 a0 a1 hD]
    have hlt : d1 < d0 := by
      have h1 := dates.lround_neg _ hD
      by_contra hneg
      have := (dates.GetDifferenceDays_nonneg_iff d1 d0).mpr (not_lt.mp hneg)
      linarith
    have hgap : 86400 ≤ d0 - d1 := by
      rw [abs_of_neg (by omega)] at hapart
      omega
    have hdays := dates.lround_ge_one _ (dates.GetDifferenceDays_ge_one d0 d1 hgap)
    refine ⟨by simp, ?_, ?_⟩
    · intro c hc
      simp only [List.mem_cons, List.mem_singleton, List.not_mem_nil, or_false] at hc
      rcases hc with hc | hc <;> rw [hc]
      · left; rfl
      · right; rfl
    · rw [max_element_pair]
      have hnlt : ¬ d0 < d1 := by omega
      simp only [hnlt, if_false]
      exact ⟨_, rfl, by show dates.lround (dates.GetDifferenceDays d0 d1) ≠ 0; omega⟩
  · rw [push_back_two_ascending d0 d1 a0 a1 hD]
    have hgap : 86400 ≤ d1 - d0 := by
      by_contra hneg
      have h2 : d1 - d0 ≤ -86400 := by
        rcases abs_cases (d1 - d0) with ⟨h3, -⟩ | ⟨h3, -⟩ <;> omega
      have := dates.lround_le_neg_one _ (dates.GetDifferenceDays_le_neg_one d1 d0 h2)
      omega
    have hdays := dates.lround_ge_one _ (dates.GetDifferenceDays_ge_one d1 d0 hgap)
    refine ⟨by simp, ?_, ?_⟩
    · intro c hc
      simp only [List.mem_cons, List.mem_singleton, List.not_mem_nil, or_false] at hc
      rcases hc with hc | hc <;> rw [hc]
      · left; rfl
      · right; rfl
    · rw [max_element_pair]
      have hlt : d0 < d1 := by omega
      simp only [hlt, if_true]
      exact ⟨_, rfl, by show dates.lround (dates.GetDifferenceDays d1 d0) ≠ 0; omega⟩

/-- C6 (the code at the failing input): for the series `100` then `75` one
year later, whatever the fuel, `GetRate` has not returned after that many
passes through its loop, each pass has called the solver once, and `count` is
still `0`; the budget of 100 is never charged. -/
theorem GetRate_retry_budget_not_enforced (pw : ℚ → ℚ → ℚ) (h0 : ∀ x, pw x 0 = 1)
    (h1 : ∀ x, pw x 1 = x) (t0 : Int) (fuel : Nat) :
    GetRate pw fuel (twoFlows t0 100 (t0 + 365 * 86400) 75) = none
      ∧ (GetRateTrace ((twoFlows t0 100 (t0 + 365 * 86400) 75).calculateNPV pw)
          fuel).attempts.length = fuel
      ∧ (GetRateTrace ((twoFlows t0 100 (t0 + 365 * 86400) 75).calculateNPV pw)
          fuel).count = 0 := by
  have hf : (twoFlows t0 100 (t0 + 365 * 86400) 75).calculateNPV pw
      = fun r => if r = -1 then 0 else (100 : ℚ) + 75 / (1 + r) :=
    calculateNPV_year_apart pw h0 h1 t0 100 75
  obtain ⟨hs, hc, -, -, ha⟩ := driverRun_never_stops
    (fun r => if r = -1 then 0 else (100 : ℚ) + 75 / (1 + r)) window_endpoint_objective_pos fuel
  unfold GetRate GetRateWith GetRateTrace
  rw [hf]
  exact ⟨by rw [if_pos hs], ha, hc⟩

/-- Witness for C6: `std::pow` on integral exponents, 2015-01-01 as `time_t`
`1420070400`, and 101 passes. -/
theorem GetRate_retry_budget_not_enforced_witness :
    GetRate powFloor 101 (twoFlows 1420070400 100 (1420070400 + 365 * 86400) 75) = none
      ∧ (GetRateTrace ((twoFlows 1420070400 100 (1420070400 + 365 * 86400) 75).calculateNPV
          powFloor) 101).attempts.length = 101
      ∧ (GetRateTrace ((twoFlows 1420070400 100 (1420070400 + 365 * 86400) 75).calculateNPV
          powFloor) 101).count = 0 :=
  GetRate_retry_budget_not_enforced powFloor powFloor_zero powFloor_one 1420070400 101

/-- C9: for the timeline built by appending `(2015-01-01, 100)` and then
`(2016-01-01, -75)`, 365 days later, `GetRate` returns after its first solver
call a rate `r` with `|r - (-0.25)| <= 1e-9`; in exact arithmetic `r` is
`-1/4` itself. -/
theorem GetRate_test_case_6 (pw : ℚ → ℚ → ℚ) (h0 : ∀ x, pw x 0 = 1) (h1 : ∀ x, pw x 1 = x)
    (t0 : Int) (extra : Nat) :
    ∃ r, GetRate pw (1 + extra) (twoFlows t0 100 (t0 + 365 * 86400) (-75)) = some r
      ∧ |r - (-25 / 100)| ≤ 1 / 1000000000
      ∧ r = -1 / 4
      ∧ (GetRateTrace ((twoFlows t0 100 (t0 + 365 * 86400) (-75)).calculateNPV pw)
          (1 + extra)).attempts = [((-99999 / 100000 : ℚ), (1 : ℚ))] := by
  have hf : (twoFlows t0 100 (t0 + 365 * 86400) (-75)).calculateNPV pw = case6Objective :=
    calculateNPV_year_apart pw h0 h1 t0 100 (-75)
  have hok : SearchForRoot (driverRun case6Objective 0 driverStart).low_estimate
      (driverRun case6Objective 0 driverStart).high_estimate case6Objective
      = Except.ok (-1 / 4) := by
    show SearchForRoot (-99999 / 100000) 1 case6Objective = Except.ok (-1 / 4)
    unfold SearchForRoot
    rw [case6_run]
  obtain ⟨e1, e2, e3⟩ := driverRun_success case6Objective 0 extra (-1 / 4) rfl hok
  refine ⟨-1 / 4, ?_, by norm_num, rfl, ?_⟩
  · unfold GetRate GetRateWith GetRateTrace
    rw [hf, show 1 + extra = 0 + 1 + extra by omega, e1, e2, e3]
    simp
  · unfold GetRateTrace
    rw [hf, show 1 + extra = 0 + 1 + extra by omega, e1, driverBody_attempts]
    rfl

/-- Witness for C9: `std::pow` on integral exponents, 2015-01-01 as `time_t`
`1420070400`, fuel `1`. -/
theorem GetRate_test_case_6_witness :
    ∃ r, GetRate powFloor (1 + 0) (twoFlows 1420070400 100 (1420070400 + 365 * 86400) (-75))
        = some r
      ∧ |r - (-25 / 100)| ≤ 1 / 1000000000
      ∧ r = -1 / 4
      ∧ (GetRateTrace ((twoFlows 1420070400 100 (1420070400 + 365 * 86400)
          (-75)).calculateNPV powFloor) (1 + 0)).attempts = [((-99999 / 100000 : ℚ), (1 : ℚ))] :=
  GetRate_test_case_6 powFloor powFloor_zero powFloor_one 1420070400 0

/-- C10: for two flows at least one day apart with strictly positive amounts,
appended in either order, the first solver call `SearchForRoot(-0.99999, 1.0,
NPV)` raises a `RangeException` (`too_high`), and `GetRate` then calls the
solver again on the window shifted down by one width; the chronologically
latest entry has a non-zero day count, so no exponent divides by zero. -/
theorem GetRate_positive_pair_retries (pw : ℚ → ℚ → ℚ) (hpw : ∀ x e, 0 < x → 0 < pw x e)
    (d0 d1 : Int) (a0 a1 : ℚ) (ha0 : 0 < a0) (ha1 : 0 < a1) (hapart : 86400 ≤ |d1 - d0|)
    (extra : Nat) :
    (∃ last, max_element (twoFlows d0 a0 d1 a1).entries = some last
        ∧ last.days_from_start_ ≠ 0)
      ∧ SearchForRoot (-99999 / 100000) 1 ((twoFlows d0 a0 d1 a1).calculateNPV pw)
          = Except.error relative_to_solution_e.too_high
      ∧ (GetRateTrace ((twoFlows d0 a0 d1 a1).calculateNPV pw) (2 + extra)).attempts.take 2
          = [((-99999 / 100000 : ℚ), (1 : ℚ)), ((-299998 / 100000 : ℚ), (-99999 / 100000 : ℚ))] := by
  obtain ⟨hne, hamt, hlast⟩ := twoFlows_shape d0 d1 a0 a1 hapart
  have hall : ∀ c ∈ (twoFlows d0 a0 d1 a1).entries, 0 < c.amount_ := by
    intro c hc
    rcases hamt c hc with h | h <;> rw [h] <;> assumption
  have hlow := calculateNPV_pos pw hpw _ hne hall (-99999 / 100000) (by norm_num)
  have hhigh := calculateNPV_pos pw hpw _ hne hall 1 (by norm_num)
  have hraise := SearchForRoot_too_high_of_pos _ _ _ hlow hhigh
  refine ⟨hlast, hraise, ?_⟩
  generalize (twoFlows d0 a0 d1 a1).calculateNPV pw = f at hraise ⊢
  obtain ⟨-, -, h3, h4⟩ := driverBody_too_high f driverStart rfl hraise
  have hb : (driverBody f driverStart).searching = true :=
    (driverBody_too_high f driverStart rfl hraise).1
  have hrun2 : (driverRun f 2 driverStart).attempts
      = [((-99999 / 100000 : ℚ), (1 : ℚ)), ((-299998 / 100000 : ℚ), (-99999 / 100000 : ℚ))] := by
    show (if driverStart.searching then
        (if (driverBody f driverStart).searching then
          driverBody f (driverBody f driverStart) else driverBody f driverStart)
        else driverStart).attempts = _
    have hs0 : driverStart.searching = true := rfl
    rw [if_pos hs0, if_pos hb, driverBody_attempts, driverBody_attempts, h3, h4]
    show [((-99999 / 100000 : ℚ), (1 : ℚ)),
      ((-99999 / 100000 : ℚ) - |(1 : ℚ) - (-99999 / 100000)|, (-99999 / 100000 : ℚ))] = _
    have e : (-99999 / 100000 : ℚ) - |(1 : ℚ) - (-99999 / 100000)| = -299998 / 100000 := by
      rw [abs_of_pos (by norm_num)]; norm_num
    rw [e]
  obtain ⟨rest, hrest⟩ := driverRun_attempts_append f extra (driverRun f 2 driverStart)
  unfold GetRateTrace
  rw [driverRun_add, hrest, hrun2]
  rfl

/-- Witness for C10: amounts `100` and `75`, one year apart, `std::pow` on
integral exponents. -/
theorem GetRate_positive_pair_retries_witness :
    (∃ last, max_element (twoFlows 1420070400 100 1451606400 75).entries = some last
        ∧ last.days_from_start_ ≠ 0)
      ∧ SearchForRoot (-99999 / 100000) 1
          ((twoFlows 1420070400 100 1451606400 75).calculateNPV powFloor)
          = Except.error relative_to_solution_e.too_high
      ∧ (GetRateTrace ((twoFlows 1420070400 100 1451606400 75).calculateNPV powFloor)
          (2 + 0)).attempts.take 2
          = [((-99999 / 100000 : ℚ), (1 : ℚ)), ((-299998 / 100000 : ℚ), (-99999 / 100000 : ℚ))] :=
  GetRate_positive_pair_retries powFloor powFloor_pos 1420070400 1451606400 100 75
    (by norm_num) (by norm_num) (by decide) 0

theorem max_element_fold_spec (cs : List CashFlow) (c : CashFlow) :
    (cs.foldl (fun largest x => if CashFlow.lt largest x then x else largest) c ∈ c :: cs)
      ∧ c.date_ ≤ (cs.foldl (fun largest x => if CashFlow.lt largest x then x else largest) c).date_
      ∧ ∀ x ∈ cs,
          x.date_ ≤ (cs.foldl (fun largest x => if CashFlow.lt largest x then x else largest) c).date_ := by
  induction cs generalizing c with
  | nil => exact ⟨List.mem_singleton.mpr rfl, le_refl _, fun x hx => absurd hx (List.not_mem_nil x)⟩
  | cons y ys ih =>
    have hlt : CashFlow.lt c y = true ↔ c.date_ < y.date_ := by
      unfold CashFlow.lt dates.GetDifferenceSeconds
      rw [decide_eq_true_eq]
      constructor
      · intro h
        have : (c.date_ - y.date_ : Int) < 0 := by exact_mod_cast h
        omega
      · intro h
        have : (c.date_ - y.date_ : Int) < 0 := by omega
        exact_mod_cast this
    rw [List.foldl_cons]
    by_cases hc : CashFlow.lt c y = true
    · rw [if_pos hc]
      obtain ⟨h1, h2, h3⟩ := ih y
      have hcy := hlt.mp hc
      refine ⟨List.mem_cons_of_mem _ h1, by omega, ?_⟩
      intro x hx
      rcases List.mem_cons.mp hx with hx | hx
      · rw [hx]; exact h2
      · exact h3 x hx
    · rw [if_neg hc]
      obtain ⟨h1, h2, h3⟩ := ih c
      have hcy : ¬ c.date_ < y.date_ := fun h => hc (hlt.mpr h)
      refine ⟨?_, h2, ?_⟩
      · rcases List.mem_cons.mp h1 with h1 | h1
        · rw [h1]; exact List.mem_cons_self _ _
        · exact List.mem_cons_of_mem _ (List.mem_cons_of_mem _ h1)
      · intro x hx
        rcases List.mem_cons.mp hx with hx | hx
        · rw [hx]; omega
        · exact h3 x hx

/-- What `std::max_element` returns is an entry of the list that no entry is
later than. -/
theorem max_element_spec (cs : List CashFlow) (last : CashFlow)
    (h : max_element cs = some last) : last ∈ cs ∧ ∀ c ∈ cs, c.date_ ≤ last.date_ := by
  cases cs with
  | nil => cases h
  | cons c cs =>
    have e : cs.foldl (fun largest x => if CashFlow.lt largest x then x else largest) c = last := by
      have : some (cs.foldl (fun largest x => if CashFlow.lt largest x then x else largest) c)
          = some last := h
      exact Option.some.inj this
    obtain ⟨h1, h2, h3⟩ := max_element_fold_spec cs c
    rw [e] at h1 h2 h3
    refine ⟨h1, ?_⟩
    intro x hx
    rcases List.mem_cons.mp hx with hx | hx
    · rw [hx]; exact h2
    · exact h3 x hx

/-- The accumulation loop of `calculateNPV` adds `amount / pow` for every entry,
whether or not the guard `discount_denom != 0` lets the entry through: a zero
`pow` makes the quotient `0` in `ℚ`. -/
theorem calculateNPV_fold_eq_sum (pw : ℚ → ℚ → ℚ) (x L : ℚ) (cs : List CashFlow) (init : ℚ) :
    cs.foldl
        (fun result cash_flow =>
          if pw x ((cash_flow.days_from_start_ : ℚ) / L) ≠ 0 then
            result + cash_flow.amount_ / pw x ((cash_flow.days_from_start_ : ℚ) / L)
          else result) init
      = init + (cs.map (fun c => c.amount_ / pw x ((c.days_from_start_ : ℚ) / L))).sum := by
  induction cs generalizing init with
  | nil => simp
  | cons c cs ih =>
    rw [List.foldl_cons, List.map_cons, List.sum_cons, ih]
    by_cases hz : pw x ((c.days_from_start_ : ℚ) / L) = 0
    · simp only [ne_eq, hz, not_true_eq_false, if_false, div_zero, zero_add]
    · simp only [ne_eq, hz, not_false_eq_true, if_true]
      ring

theorem calculateNPV_eq_sum_of_last (pw : ℚ → ℚ → ℚ) (l : CashFlowList) (last : CashFlow)
    (hlast : max_element l.entries = some last) (rate : ℚ) (hr : rate ≠ -1) :
    l.calculateNPV pw rate
      = (l.entries.map (fun c =>
          c.amount_ / pw (1 + rate)
            ((c.days_from_start_ : ℚ) / (last.days_from_start_ : ℚ)))).sum := by
  unfold CashFlowList.calculateNPV
  simp only [hr, if_false, hlast]
  rw [calculateNPV_fold_eq_sum, zero_add]

/-- C12: at the rate `-1`, `calculateNPV` returns `0` for every timeline. -/
theorem calculateNPV_total_loss (pw : ℚ → ℚ → ℚ) (l : CashFlowList) :
    l.calculateNPV pw (-1) = 0 := by
  unfold CashFlowList.calculateNPV
  simp only [if_true]

/-- C13: for a timeline without entries, `calculateNPV` returns `0` at every
rate, whatever `std::pow` is: the loop body, the only place that reads the
latest entry, divides or calls `pow`, is never entered. -/
theorem calculateNPV_empty (pw : ℚ → ℚ → ℚ) (rate : ℚ) :
    CashFlowList.empty.calculateNPV pw rate = 0
      ∧ ∀ l : CashFlowList, l.entries = [] → l.calculateNPV pw rate = 0 := by
  have key : ∀ l : CashFlowList, l.entries = [] → l.calculateNPV pw rate = 0 := by
    intro l hl
    unfold CashFlowList.calculateNPV
    rw [hl]
    by_cases hr : rate = -1
    · simp only [hr, if_true]
    · simp only [hr, if_false, max_element]
  exact ⟨key _ rfl, key⟩

/-- Witness for C13: a list without entries whose cached dates are set. -/
theorem calculateNPV_empty_witness :
    CashFlowList.calculateNPV powFloor
      { entries := [], start_date_ := 1420070400, end_date_ := 1451606400 } (1 / 2) = 0 :=
  (calculateNPV_empty powFloor (1 / 2)).2 _ rfl

end mirr

namespace dates

theorem lround_zero : lround 0 = 0 := by
  unfold lround
  rw [if_pos (le_refl _), Int.floor_eq_iff]
  norm_num

theorem lround_nonneg_iff (x : ℚ) : 0 ≤ lround x ↔ -1 / 2 < x := by
  constructor
  · intro h
    by_cases hx : 0 ≤ x
    · linarith
    · unfold lround at h
      rw [if_neg hx] at h
      have h2 : (-1 : Int) < ⌈x - 1 / 2⌉ := by omega
      have h3 := Int.lt_ceil.mp h2
      push_cast at h3
      linarith
  · intro h
    by_cases hx : 0 ≤ x
    · exact lround_nonneg x hx
    · unfold lround
      rw [if_neg hx]
      have h2 : (-1 : Int) < ⌈x - 1 / 2⌉ := by
        apply Int.lt_ceil.mpr
        push_cast
        linarith
      omega

theorem GetDifferenceDays_self (a : Int) : GetDifferenceDays a a = 0 := by
  rw [GetDifferenceDays_eq, sub_self, Int.cast_zero, zero_div]

theorem GetDifferenceDays_sub (a b c : Int) :
    GetDifferenceDays a b = GetDifferenceDays a c - GetDifferenceDays b c := by
  rw [GetDifferenceDays_eq, GetDifferenceDays_eq, GetDifferenceDays_eq]
  push_cast
  ring

/-- The rounded day difference is non-negative exactly when the first date is
less than half a day before the second. -/
theorem lround_days_nonneg_iff (a b : Int) :
    0 ≤ lround (GetDifferenceDays a b) ↔ b - 43200 < a := by
  rw [lround_nonneg_iff, GetDifferenceDays_eq, lt_div_iff₀ (by norm_num)]
  constructor
  · intro h
    have h2 : ((-43200 : Int) : ℚ) < ((a - b : Int) : ℚ) := by
      push_cast
      push_cast at h
      linarith
    have h3 : (-43200 : Int) < a - b := Int.cast_lt.mp h2
    omega
  · intro h
    have h3 : (-43200 : Int) < a - b := by omega
    have h2 : ((-43200 : Int) : ℚ) < ((a - b : Int) : ℚ) := Int.cast_lt.mpr h3
    push_cast at h2
    push_cast
    linarith

end dates

namespace mirr

open roots

theorem push_back_in_order (l : CashFlowList) (in_new : CashFlow) (hne : l.entries ≠ [])
    (hD : 0 ≤ dates.lround (dates.GetDifferenceDays in_new.date_ l.start_date_)) :
    l.push_back in_new
      = { l with
          entries := l.entries ++
            [{ in_new with
                days_from_start_ :=
                  dates.lround (dates.GetDifferenceDays in_new.date_ l.start_date_) }] } := by
  have hlen : ¬ l.entries.length = 0 := fun h => hne (List.length_eq_zero.mp h)
  unfold CashFlowList.push_back
  simp only [hlen, if_false, not_lt.mpr hD]

theorem push_back_out_of_order (l : CashFlowList) (in_new : CashFlow) (hne : l.entries ≠ [])
    (hD : dates.lround (dates.GetDifferenceDays in_new.date_ l.start_date_) < 0) :
    l.push_back in_new
      = { l with
          start_date_ := in_new.date_
          entries :=
            l.entries.map (fun cash_flow =>
                { cash_flow with
                  days_from_start_ :=
                    dates.lround (dates.GetDifferenceDays cash_flow.date_ in_new.date_) })
              ++ [{ in_new with
                    days_from_start_ :=
                      dates.lround (dates.GetDifferenceDays in_new.date_ l.start_date_) }] } := by
  have hlen : ¬ l.entries.length = 0 := fun h => hne (List.length_eq_zero.mp h)
  unfold CashFlowList.push_back
  simp only [hlen, if_false, hD, if_true]

theorem push_back_first (l : CashFlowList) (in_new : CashFlow) (h : l.entries = []) :
    l.push_back in_new = { l with entries := [in_new], start_date_ := in_new.date_ } := by
  unfold CashFlowList.push_back
  simp [h]

/-- C16: on a non-empty timeline, a flow whose rounded day difference from
`start_date_` is `>= 0` leaves `start_date_`, `end_date_` and every existing
entry unchanged and is appended at the end with `days_from_start` set to that
rounded difference. -/
theorem push_back_in_order_frame (l : CashFlowList) (in_new : CashFlow) (hne : l.entries ≠ [])
    (hD : 0 ≤ dates.lround (dates.GetDifferenceDays in_new.date_ l.start_date_)) :
    (l.push_back in_new).start_date_ = l.start_date_
      ∧ (l.push_back in_new).end_date_ = l.end_date_
      ∧ (l.push_back in_new).entries
          = l.entries ++
            [{ date_ := in_new.date_, amount_ := in_new.amount_,
               days_from_start_ :=
                 dates.lround (dates.GetDifferenceDays in_new.date_ l.start_date_) }] := by
  rw [push_back_in_order l in_new hne hD]
  exact ⟨rfl, rfl, rfl⟩

/-- C17: on a non-empty timeline, a flow at least one rounded day earlier than
`start_date_` becomes the new `start_date_`, and every entry that was already
contained keeps its place, date and amount and gets `days_from_start` recomputed
as the rounded day difference from the new flow's date. -/
theorem push_back_out_of_order_recomputes (l : CashFlowList) (in_new : CashFlow)
    (hne : l.entries ≠ [])
    (hD : dates.lround (dates.GetDifferenceDays in_new.date_ l.start_date_) ≤ -1) :
    (l.push_back in_new).start_date_ = in_new.date_
      ∧ (l.push_back in_new).entries.length = l.entries.length + 1
      ∧ (l.push_back in_new).entries.take l.entries.length
          = l.entries.map (fun c =>
              { date_ := c.date_, amount_ := c.amount_,
                days_from_start_ :=
                  dates.lround (dates.GetDifferenceDays c.date_ in_new.date_) }) := by
  rw [push_back_out_of_order l in_new hne (by omega)]
  refine ⟨rfl, ?_, ?_⟩
  · show (List.map _ l.entries ++ [_]).length = _
    rw [List.length_append, List.length_map, List.length_singleton]
  · show (List.map _ l.entries ++ [_]).take l.entries.length = _
    rw [List.take_left']
    rw [List.length_map]

end mirr

namespace dates

theorem lround_days_neg_iff (a b : Int) :
    lround (GetDifferenceDays a b) < 0 ↔ a ≤ b - 43200 := by
  have h := lround_days_nonneg_iff a b
  constructor
  · intro h1
    by_contra h2
    have := h.mpr (by omega)
    omega
  · intro h1
    by_contra h2
    have := h.mp (by omega)
    omega

theorem lround_intCast (n : Int) : lround (n : ℚ) = n := by
  unfold lround
  by_cases h : (0 : ℚ) ≤ (n : ℚ)
  · rw [if_pos h, Int.floor_eq_iff]
    constructor <;> linarith
  · rw [if_neg h, Int.ceil_eq_iff]
    constructor <;> linarith

/-- Dates a whole number of days apart have that number as rounded difference. -/
theorem lround_days_whole (b k : Int) : lround (GetDifferenceDays (b + k * 86400) b) = k := by
  rw [GetDifferenceDays_eq]
  have e : (((b + k * 86400 - b : Int)) : ℚ) / 86400 = (k : ℚ) := by
    have : (b + k * 86400 - b : Int) = k * 86400 := by ring
    rw [this]
    push_cast
    field_simp
  rw [e, lround_intCast]

end dates

namespace mirr

open roots

theorem appendAll_snoc (flows : List (Int × ℚ)) (p : Int × ℚ) :
    appendAll (flows ++ [p]) = (appendAll flows).push_back (CashFlow.make p.1 p.2) := by
  unfold appendAll
  rw [List.foldl_append]
  rfl

theorem push_back_dates (l : CashFlowList) (c : CashFlow) :
    (l.push_back c).entries.map (fun e => e.date_)
      = l.entries.map (fun e => e.date_) ++ [c.date_] := by
  by_cases hne : l.entries = []
  · rw [push_back_first l c hne, hne]
    rfl
  · by_cases hD : 0 ≤ dates.lround (dates.GetDifferenceDays c.date_ l.start_date_)
    · rw [push_back_in_order l c hne hD]
      show List.map _ (l.entries ++ [_]) = _
      rw [List.map_append]
      rfl
    · rw [push_back_out_of_order l c hne (not_le.mp hD)]
      show List.map _ (List.map _ l.entries ++ [_]) = _
      rw [List.map_append, List.map_map]
      rfl

theorem appendAll_dates (flows : List (Int × ℚ)) :
    (appendAll flows).entries.map (fun e => e.date_) = flows.map (fun p => p.1) := by
  induction flows using List.reverseRecOn with
  | nil => rfl
  | append_singleton fs p ih =>
    rw [appendAll_snoc, push_back_dates, ih, List.map_append]
    rfl

theorem appendAll_entries_ne_nil (flows : List (Int × ℚ)) (hne : flows ≠ []) :
    (appendAll flows).entries ≠ [] := by
  intro h
  have := appendAll_dates flows
  rw [h] at this
  have h2 : flows.map (fun p => p.1) = [] := this.symm
  exact hne (List.map_eq_nil_iff.mp h2)

theorem push_back_startInv (l : CashFlowList) (c : CashFlow)
    (h : l.entries ≠ [] → StartInv l) : StartInv (l.push_back c) := by
  by_cases hne : l.entries = []
  · rw [push_back_first l c hne]
    refine ⟨⟨c, List.mem_singleton.mpr rfl, rfl⟩, ?_⟩
    intro e he
    have he2 : e = c := List.mem_singleton.mp he
    rw [he2]
    show c.date_ - 43200 < c.date_
    omega
  · obtain ⟨⟨c0, hc0, hc0d⟩, hall⟩ := h hne
    by_cases hD : 0 ≤ dates.lround (dates.GetDifferenceDays c.date_ l.start_date_)
    · rw [push_back_in_order l c hne hD]
      refine ⟨⟨c0, List.mem_append_left _ hc0, hc0d⟩, ?_⟩
      intro e he
      rcases List.mem_append.mp he with he | he
      · exact hall e he
      · have he2 := List.mem_singleton.mp he
        rw [he2]
        exact (dates.lround_days_nonneg_iff _ _).mp hD
    · have hD2 := (dates.lround_days_neg_iff _ _).mp (not_le.mp hD)
      rw [push_back_out_of_order l c hne (not_le.mp hD)]
      refine ⟨⟨_, List.mem_append_right _ (List.mem_singleton.mpr rfl), rfl⟩, ?_⟩
      intro e he
      rcases List.mem_append.mp he with he | he
      · obtain ⟨e0, he0, he0e⟩ := List.mem_map.mp he
        have := hall e0 he0
        rw [← he0e]
        show c.date_ - 43200 < e0.date_
        omega
      · have he2 := List.mem_singleton.mp he
        rw [he2]
        show c.date_ - 43200 < c.date_
        omega

theorem appendAll_startInv (flows : List (Int × ℚ)) (hne : flows ≠ []) :
    StartInv (appendAll flows) := by
  induction flows using List.reverseRecOn with
  | nil => exact absurd rfl hne
  | append_singleton fs p ih =>
    rw [appendAll_snoc]
    apply push_back_startInv
    intro hfs
    apply ih
    intro hnil
    rw [hnil] at hfs
    exact hfs rfl

end mirr

namespace dates

theorem lround_days_of_diff (a b k : Int) (h : a - b = k * 86400) :
    lround (GetDifferenceDays a b) = k := by
  have e : a = b + k * 86400 := by omega
  rw [e]
  exact lround_days_whole b k

end dates

namespace mirr

open roots

theorem appendAll_pair (d0 : Int) (a0 : ℚ) (d1 : Int) (a1 : ℚ) :
    appendAll [(d0, a0), (d1, a1)] = twoFlows d0 a0 d1 a1 := rfl

/-- Two flows appended ten days apart, the later one first. -/
theorem twoFlows_descending_ten_days (t0 : Int) (a0 a1 : ℚ) :
    twoFlows (t0 + 10 * 86400) a0 t0 a1
      = { entries :=
            [{ date_ := t0 + 10 * 86400, amount_ := a0, days_from_start_ := 10 },
              { date_ := t0, amount_ := a1, days_from_start_ := -10 }],
          start_date_ := t0, end_date_ := 0 } := by
  have h1 : dates.lround (dates.GetDifferenceDays t0 (t0 + 10 * 86400)) = -10 :=
    dates.lround_days_of_diff _ _ (-10) (by omega)
  have h2 : dates.lround (dates.GetDifferenceDays (t0 + 10 * 86400) t0) = 10 :=
    dates.lround_days_of_diff _ _ 10 (by omega)
  rw [twoFlows, push_back_two_descending _ _ _ _ (by rw [h1]; decide), h1, h2]

/-- C14 (the code at the failing input): appending a flow and then one ten
days earlier leaves the second entry with `days_from_start = -10` although
`start_date_` is now its own date, from which its rounded day difference
is `0`. -/
theorem push_back_new_start_keeps_negative_days (t0 : Int) (a0 a1 : ℚ) :
    appendAll [(t0 + 10 * 86400, a0), (t0, a1)]
        = { entries :=
              [{ date_ := t0 + 10 * 86400, amount_ := a0, days_from_start_ := 10 },
                { date_ := t0, amount_ := a1, days_from_start_ := -10 }],
            start_date_ := t0, end_date_ := 0 }
      ∧ dates.lround (dates.GetDifferenceDays t0 t0) = 0 := by
  refine ⟨?_, by rw [dates.GetDifferenceDays_self, dates.lround_zero]⟩
  rw [appendAll_pair, twoFlows_descending_ten_days]

/-- C15 (counterexample): appending a flow and then one an hour earlier leaves
`start_date_` at the first flow's date, although the second entry is earlier. -/
theorem appendAll_start_date_not_minimum :
    (appendAll [(1420070400, 100), (1420070400 - 3600, -75)]).start_date_ = 1420070400
      ∧ ∃ c ∈ (appendAll [(1420070400, 100), (1420070400 - 3600, -75)]).entries,
          c.date_ < (appendAll [(1420070400, 100), (1420070400 - 3600, -75)]).start_date_ := by
  have hD : ¬ dates.lround (dates.GetDifferenceDays (1420070400 - 3600) 1420070400) < 0 := by
    rw [not_lt, dates.lround_days_nonneg_iff]
    decide
  rw [appendAll_pair, twoFlows, push_back_two_ascending _ _ _ _ hD]
  refine ⟨rfl, ⟨_, List.mem_cons_of_mem _ (List.mem_singleton.mpr rfl), ?_⟩⟩
  show (1420070400 - 3600 : Int) < 1420070400
  decide

/-- C15 (amended): after any non-empty sequence of `push_back` calls on an empty
timeline, `start_date_` is the date of a contained entry and no contained entry
is half a day (43200 seconds) or more earlier than it; when all appended dates
are whole numbers of days apart, `start_date_` is the minimum date. -/
theorem appendAll_start_date (flows : List (Int × ℚ)) (hne : flows ≠ []) :
    (∃ c ∈ (appendAll flows).entries, c.date_ = (appendAll flows).start_date_)
      ∧ (∀ c ∈ (appendAll flows).entries, (appendAll flows).start_date_ - 43200 < c.date_)
      ∧ ((∀ p ∈ flows, ∀ q ∈ flows, (86400 : Int) ∣ p.1 - q.1) →
          ∀ c ∈ (appendAll flows).entries, (appendAll flows).start_date_ ≤ c.date_) := by
  obtain ⟨⟨c0, hc0, hc0d⟩, hall⟩ := appendAll_startInv flows hne
  refine ⟨⟨c0, hc0, hc0d⟩, hall, ?_⟩
  intro hwhole c hc
  have hmem : ∀ e ∈ (appendAll flows).entries, ∃ p ∈ flows, p.1 = e.date_ := by
    intro e he
    have h1 : e.date_ ∈ (appendAll flows).entries.map (fun e => e.date_) :=
      List.mem_map.mpr ⟨e, he, rfl⟩
    rw [appendAll_dates] at h1
    exact List.mem_map.mp h1
  obtain ⟨p, hp, hpd⟩ := hmem c hc
  obtain ⟨q, hq, hqd⟩ := hmem c0 hc0
  obtain ⟨k, hk⟩ := hwhole p hp q hq
  have h3 := hall c hc
  rw [← hc0d, ← hqd, ← hpd]
  rw [← hc0d, ← hqd, ← hpd] at h3
  omega

/-- Witness for C15 (amended): two flows a year apart, the later one first. -/
theorem appendAll_start_date_witness :
    (∃ c ∈ (appendAll [(1451606400, -75), (1420070400, 100)]).entries,
        c.date_ = (appendAll [(1451606400, -75), (1420070400, 100)]).start_date_)
      ∧ (∀ c ∈ (appendAll [(1451606400, -75), (1420070400, 100)]).entries,
          (appendAll [(1451606400, -75), (1420070400, 100)]).start_date_ - 43200 < c.date_)
      ∧ ((∀ p ∈ [((1451606400 : Int), (-75 : ℚ)), (1420070400, 100)],
            ∀ q ∈ [((1451606400 : Int), (-75 : ℚ)), (1420070400, 100)], (86400 : Int) ∣ p.1 - q.1) →
          ∀ c ∈ (appendAll [(1451606400, -75), (1420070400, 100)]).entries,
            (appendAll [(1451606400, -75), (1420070400, 100)]).start_date_ ≤ c.date_) :=
  appendAll_start_date [(1451606400, -75), (1420070400, 100)] (by simp)

/-- Witness for C16: a second flow appended a year after the first. -/
theorem push_back_in_order_frame_witness :
    (CashFlowList.push_back
        { entries := [{ date_ := 1420070400, amount_ := 100, days_from_start_ := 0 }],
          start_date_ := 1420070400, end_date_ := 0 }
        (CashFlow.make 1451606400 (-75))).entries
      = [{ date_ := 1420070400, amount_ := 100, days_from_start_ := 0 }]
          ++ [{ date_ := 1451606400, amount_ := -75,
                days_from_start_ :=
                  dates.lround (dates.GetDifferenceDays 1451606400 1420070400) }] :=
  (push_back_in_order_frame
    { entries := [{ date_ := 1420070400, amount_ := 100, days_from_start_ := 0 }],
      start_date_ := 1420070400, end_date_ := 0 }
    (CashFlow.make 1451606400 (-75)) (by simp)
    ((dates.lround_days_nonneg_iff 1451606400 1420070400).mpr (by decide))).2.2

/-- Witness for C17: a second flow appended a year before the first. -/
theorem push_back_out_of_order_recomputes_witness :
    (CashFlowList.push_back
        { entries := [{ date_ := 1451606400, amount_ := -75, days_from_start_ := 0 }],
          start_date_ := 1451606400, end_date_ := 0 }
        (CashFlow.make 1420070400 100)).start_date_ = 1420070400 :=
  (push_back_out_of_order_recomputes
    { entries := [{ date_ := 1451606400, amount_ := -75, days_from_start_ := 0 }],
      start_date_ := 1451606400, end_date_ := 0 }
    (CashFlow.make 1420070400 100) (by simp)
    (by
      have h := (dates.lround_days_neg_iff 1420070400 1451606400).mpr (by decide)
      show dates.lround (dates.GetDifferenceDays 1420070400 1451606400) ≤ -1
      omega)).1

theorem twoFlows_year_apart (t0 : Int) (a0 a1 : ℚ) :
    twoFlows t0 a0 (t0 + 365 * 86400) a1
      = { entries := [{ date_ := t0, amount_ := a0, days_from_start_ := 0 },
            { date_ := t0 + 365 * 86400, amount_ := a1, days_from_start_ := 365 }],
          start_date_ := t0, end_date_ := 0 } := by
  have hD := lround_days_year_apart t0
  rw [twoFlows, push_back_two_ascending t0 _ a0 a1 (by rw [hD]; decide), hD]

theorem twoFlows_year_apart_last (t0 : Int) (a0 a1 : ℚ) :
    max_element (twoFlows t0 a0 (t0 + 365 * 86400) a1).entries
      = some { date_ := t0 + 365 * 86400, amount_ := a1, days_from_start_ := 365 } := by
  rw [twoFlows_year_apart, max_element_pair]
  have h : t0 < t0 + 365 * 86400 := by omega
  simp only [h, if_true]

end mirr

namespace dates

theorem lround_nonpos (x : ℚ) (h : x ≤ 0) : lround x ≤ 0 := by
  unfold lround
  by_cases hx : 0 ≤ x
  · have e : x = 0 := le_antisymm h hx
    rw [if_pos hx, e]
    have : ⌊(0 : ℚ) + 1 / 2⌋ = 0 := by
      rw [Int.floor_eq_iff]; norm_num
    omega
  · rw [if_neg hx]
    apply Int.ceil_le.mpr
    push_cast
    linarith

/-- A date less than half a day before another has rounded day difference `0`. -/
theorem lround_days_within_half_day (a b : Int) (h1 : b - 43200 < a) (h2 : a ≤ b) :
    lround (GetDifferenceDays a b) = 0 := by
  have hge := (lround_days_nonneg_iff a b).mpr h1
  have hle : lround (GetDifferenceDays a b) ≤ 0 := by
    apply lround_nonpos
    rw [GetDifferenceDays_eq]
    apply div_nonpos_of_nonpos_of_nonneg
    · have : (a - b : Int) ≤ 0 := by omega
      exact_mod_cast this
    · norm_num
  omega

end dates

namespace mirr

open roots

theorem powFloor_neg_one (x : ℚ) : powFloor x (-1) = x⁻¹ := by
  unfold powFloor
  have e : ⌊(-1 : ℚ)⌋ = -1 := by
    rw [Int.floor_eq_iff]; norm_num
  rw [e, zpow_neg_one]

theorem max_element_head (c : CashFlow) (cs : List CashFlow)
    (h : ∀ x ∈ cs, x.date_ ≤ c.date_) : max_element (c :: cs) = some c := by
  have key : ∀ ys : List CashFlow, (∀ x ∈ ys, x.date_ ≤ c.date_) →
      ys.foldl (fun largest x => if CashFlow.lt largest x then x else largest) c = c := by
    intro ys
    induction ys with
    | nil => intro _; rfl
    | cons y ys ih =>
      intro hy
      have hlt : ¬ CashFlow.lt c y = true := by
        unfold CashFlow.lt dates.GetDifferenceSeconds
        rw [decide_eq_true_eq, not_lt]
        have : (0 : Int) ≤ c.date_ - y.date_ := by
          have := hy y (List.mem_cons_self _ _)
          omega
        exact_mod_cast this
      rw [List.foldl_cons, if_neg hlt]
      exact ih (fun x hx => hy x (List.mem_cons_of_mem _ hx))
  show some (cs.foldl (fun largest x => if CashFlow.lt largest x then x else largest) c) = some c
  rw [key cs h]

/-- Three flows: one, then one ten days earlier, then one an hour earlier
still. -/
theorem appendAll_stale_then_hour_earlier (t0 : Int) (a b c : ℚ) :
    appendAll [(t0 + 10 * 86400, a), (t0, b), (t0 - 3600, c)]
      = { entries :=
            [{ date_ := t0 + 10 * 86400, amount_ := a, days_from_start_ := 10 },
              { date_ := t0, amount_ := b, days_from_start_ := -10 },
              { date_ := t0 - 3600, amount_ := c, days_from_start_ := 0 }],
          start_date_ := t0, end_date_ := 0 } := by
  have e : appendAll [(t0 + 10 * 86400, a), (t0, b), (t0 - 3600, c)]
      = (twoFlows (t0 + 10 * 86400) a t0 b).push_back (CashFlow.make (t0 - 3600) c) := rfl
  have hD : dates.lround (dates.GetDifferenceDays (t0 - 3600) t0) = 0 :=
    dates.lround_days_within_half_day _ _ (by omega) (by omega)
  rw [e, twoFlows_descending_ten_days]
  rw [push_back_in_order _ _ (by simp) (by
    show 0 ≤ dates.lround (dates.GetDifferenceDays (t0 - 3600) t0)
    rw [hD])]
  show CashFlowList.mk _ _ _ = _
  simp only [CashFlow.make, hD, List.cons_append, List.nil_append]

/-- C19 (the code at the failing input): append `(t0 + 10 days, 100)`, then
`(t0, 75)`, then `(t0 - 1 hour, 50)`. The latest entry has day offset `10 > 0`
and the earliest flow is the only entry with day offset `0`, but the entry that
moved the start date kept the offset `-10`, so
`calculateNPV(r) = 100 / (1 + r) + 75 * (1 + r) + 50`, which stays above `125`
for every `r > 0` instead of tending to `50`. -/
theorem calculateNPV_no_limit_after_stale_offset (pw : ℚ → ℚ → ℚ) (h0 : ∀ x, pw x 0 = 1)
    (h1 : ∀ x, pw x 1 = x) (hm1 : ∀ x, pw x (-1) = x⁻¹) (t0 : Int) :
    (appendAll [(t0 + 10 * 86400, 100), (t0, 75), (t0 - 3600, 50)]).entries
        = [{ date_ := t0 + 10 * 86400, amount_ := 100, days_from_start_ := 10 },
            { date_ := t0, amount_ := 75, days_from_start_ := -10 },
            { date_ := t0 - 3600, amount_ := 50, days_from_start_ := 0 }]
      ∧ max_element (appendAll [(t0 + 10 * 86400, 100), (t0, 75), (t0 - 3600, 50)]).entries
          = some { date_ := t0 + 10 * 86400, amount_ := 100, days_from_start_ := 10 }
      ∧ (∀ r : ℚ, -1 < r →
          (appendAll [(t0 + 10 * 86400, 100), (t0, 75), (t0 - 3600, 50)]).calculateNPV pw r
            = 100 / (1 + r) + 75 * (1 + r) + 50)
      ∧ (∀ r : ℚ, 0 < r →
          125 < (appendAll [(t0 + 10 * 86400, 100), (t0, 75), (t0 - 3600, 50)]).calculateNPV
            pw r) := by
  have hlast : max_element (appendAll [(t0 + 10 * 86400, 100), (t0, 75), (t0 - 3600, 50)]).entries
      = some { date_ := t0 + 10 * 86400, amount_ := 100, days_from_start_ := 10 } := by
    rw [appendAll_stale_then_hour_earlier]
    apply max_element_head
    intro x hx
    simp only [List.mem_cons, List.mem_singleton, List.not_mem_nil, or_false] at hx
    rcases hx with hx | hx
    · rw [hx]
      show t0 ≤ t0 + 10 * 86400
      omega
    · rw [hx]
      show t0 - 3600 ≤ t0 + 10 * 86400
      omega
  have hval : ∀ r : ℚ, -1 < r →
      (appendAll [(t0 + 10 * 86400, 100), (t0, 75), (t0 - 3600, 50)]).calculateNPV pw r
        = 100 / (1 + r) + 75 * (1 + r) + 50 := by
    intro r hr
    rw [calculateNPV_eq_sum_of_last pw _ _ hlast r (ne_of_gt hr),
      appendAll_stale_then_hour_earlier]
    have e1 : ((10 : Int) : ℚ) / ((10 : Int) : ℚ) = 1 := by norm_num
    have e2 : ((-10 : Int) : ℚ) / ((10 : Int) : ℚ) = -1 := by norm_num
    have e3 : ((0 : Int) : ℚ) / ((10 : Int) : ℚ) = 0 := by norm_num
    simp only [List.map_cons, List.map_nil, List.sum_cons, List.sum_nil, e1, e2, e3, h0, h1, hm1]
    rw [div_inv_eq_mul]
    ring
  refine ⟨by rw [appendAll_stale_then_hour_earlier], hlast, hval, ?_⟩
  intro r hr
  rw [hval r (by linarith)]
  have hx : (0 : ℚ) < 1 + r := by linarith
  have hq : (0 : ℚ) < 100 / (1 + r) := div_pos (by norm_num) hx
  nlinarith

/-- Witness for C19: `std::pow` on integral exponents, `t0` = 2015-01-01, at
the rate `1`. -/
theorem calculateNPV_no_limit_after_stale_offset_witness :
    125 < (appendAll [(1420070400 + 10 * 86400, 100), (1420070400, 75),
      (1420070400 - 3600, 50)]).calculateNPV powFloor 1 :=
  (calculateNPV_no_limit_after_stale_offset powFloor powFloor_zero powFloor_one
    powFloor_neg_one 1420070400).2.2.2 1 (by norm_num)

/-- With valid day offsets the limit is the earliest amount: if the latest entry
has a positive offset, one entry sits at offset `0` and every other entry has a
positive offset, then `calculateNPV(rate)` tends to the amount of the entry at
offset `0` as the rate grows, for every `pow` with `pow(x, 0) = 1` that is
unbounded in its base at each positive exponent. -/
theorem calculateNPV_tendsto_of_valid_offsets (pw : ℚ → ℚ → ℚ) (h0 : ∀ x, pw x 0 = 1)
    (hinf : ∀ e : ℚ, 0 < e → Filter.Tendsto (fun x => pw x e) Filter.atTop Filter.atTop)
    (l : CashFlowList) (last first : CashFlow) (before after : List CashFlow)
    (hlast : max_element l.entries = some last) (hL : 0 < last.days_from_start_)
    (hent : l.entries = before ++ first :: after) (hfirst : first.days_from_start_ = 0)
    (hothers : ∀ c ∈ before ++ after, 0 < c.days_from_start_) :
    Filter.Tendsto (fun r => l.calculateNPV pw r) Filter.atTop (nhds first.amount_) := by
  have hLq : (0 : ℚ) < (last.days_from_start_ : ℚ) := by exact_mod_cast hL
  have hterm : ∀ c : CashFlow, 0 < c.days_from_start_ →
      Filter.Tendsto
        (fun r : ℚ => c.amount_ / pw (1 + r)
          ((c.days_from_start_ : ℚ) / (last.days_from_start_ : ℚ)))
        Filter.atTop (nhds 0) := by
    intro c hc
    have he : (0 : ℚ) < (c.days_from_start_ : ℚ) / (last.days_from_start_ : ℚ) :=
      div_pos (by exact_mod_cast hc) hLq
    have hshift : Filter.Tendsto (fun r : ℚ => 1 + r) Filter.atTop Filter.atTop :=
      Filter.tendsto_atTop_add_const_left _ 1 Filter.tendsto_id
    exact Filter.Tendsto.div_atTop tendsto_const_nhds ((hinf _ he).comp hshift)
  have hzero : ∀ cs : List CashFlow, (∀ c ∈ cs, 0 < c.days_from_start_) →
      Filter.Tendsto
        (fun r : ℚ => (cs.map (fun c => c.amount_ / pw (1 + r)
          ((c.days_from_start_ : ℚ) / (last.days_from_start_ : ℚ)))).sum)
        Filter.atTop (nhds 0) := by
    intro cs hcs
    have h := tendsto_list_sum
      (f := fun (c : CashFlow) (r : ℚ) => c.amount_ / pw (1 + r)
        ((c.days_from_start_ : ℚ) / (last.days_from_start_ : ℚ)))
      (a := fun _ => (0 : ℚ)) (x := Filter.atTop) cs (fun c hc => hterm c (hcs c hc))
    have e : (cs.map (fun _ => (0 : ℚ))).sum = 0 := by simp
    rw [e] at h
    exact h
  have hsum : Filter.Tendsto
      (fun r : ℚ => (l.entries.map (fun c => c.amount_ / pw (1 + r)
        ((c.days_from_start_ : ℚ) / (last.days_from_start_ : ℚ)))).sum)
      Filter.atTop (nhds first.amount_) := by
    have hb := hzero before (fun c hc => hothers c (List.mem_append_left _ hc))
    have ha := hzero after (fun c hc => hothers c (List.mem_append_right _ hc))
    have hf : Filter.Tendsto
        (fun r : ℚ => first.amount_ / pw (1 + r)
          ((first.days_from_start_ : ℚ) / (last.days_from_start_ : ℚ)))
        Filter.atTop (nhds first.amount_) := by
      have e : (fun r : ℚ => first.amount_ / pw (1 + r)
          ((first.days_from_start_ : ℚ) / (last.days_from_start_ : ℚ)))
          = fun _ => first.amount_ := by
        funext r
        rw [hfirst, Int.cast_zero, zero_div, h0, div_one]
      rw [e]
      exact tendsto_const_nhds
    have hall := hb.add (hf.add ha)
    rw [zero_add, add_zero] at hall
    refine hall.congr (fun r => ?_)
    rw [hent, List.map_append, List.sum_append, List.map_cons, List.sum_cons]
  refine hsum.congr' ?_
  filter_upwards [Filter.eventually_gt_atTop (-1 : ℚ)] with r hr
  exact (calculateNPV_eq_sum_of_last pw l last hlast r (ne_of_gt hr)).symm

theorem powCeil_zero (x : ℚ) : powCeil x 0 = 1 := by
  unfold powCeil; rw [Int.ceil_zero, zpow_zero]

theorem powCeil_tendsto (e : ℚ) (he : 0 < e) :
    Filter.Tendsto (fun x => powCeil x e) Filter.atTop Filter.atTop := by
  have hpos : 0 < ⌈e⌉ := Int.ceil_pos.mpr he
  obtain ⟨n, hn⟩ := Int.eq_ofNat_of_zero_le (le_of_lt hpos)
  have hn0 : n ≠ 0 := by
    intro h; rw [h] at hn; omega
  have e2 : (fun x : ℚ => powCeil x e) = fun x => x ^ n := by
    funext x
    unfold powCeil
    rw [hn, zpow_natCast]
  rw [e2]
  exact Filter.tendsto_pow_atTop hn0

/-- The limit at test case 6 with `-75` replaced by any amount: the NPV tends to
the first amount, `100`. -/
theorem calculateNPV_tendsto_year_apart (t0 : Int) (a1 : ℚ) :
    Filter.Tendsto (fun r => (twoFlows t0 100 (t0 + 365 * 86400) a1).calculateNPV powCeil r)
      Filter.atTop (nhds 100) :=
  calculateNPV_tendsto_of_valid_offsets powCeil powCeil_zero powCeil_tendsto
    (twoFlows t0 100 (t0 + 365 * 86400) a1)
    { date_ := t0 + 365 * 86400, amount_ := a1, days_from_start_ := 365 }
    { date_ := t0, amount_ := 100, days_from_start_ := 0 }
    [] [{ date_ := t0 + 365 * 86400, amount_ := a1, days_from_start_ := 365 }]
    (twoFlows_year_apart_last t0 100 a1) (by show (0 : Int) < 365; decide)
    (by rw [twoFlows_year_apart]; rfl) rfl
    (by
      intro c hc
      rw [List.nil_append, List.mem_singleton] at hc
      rw [hc]
      show (0 : Int) < 365
      decide)

end mirr

namespace roots

theorem reciprocal_prepare :
    prepare (initialState (1 / 2000000000) (-1 / 1000000000) reciprocalObjective)
      = reciprocalState0 := by
  norm_num [abs_div, prepare, initialState, swapIfCounterCloser, reciprocalObjective,
    reciprocalState0]

theorem reciprocal_candidate :
    candidate reciprocalState0 = ((-1 / 2000000000), methods_available.secant) := by
  norm_num [candidate, SecantEstimate, QuadraticInterpolation, reciprocalState0]

theorem reciprocal_choose :
    chooseMethod reciprocalState0 (-1 / 2000000000) methods_available.secant
      = methods_available.bisection := by
  norm_num [abs_div, chooseMethod, under_shoot_threshold, estimate_tolerance, reciprocalState0]

theorem reciprocal_next : nextEstimate reciprocalState0 = (-1 / 4000000000) := by
  unfold nextEstimate
  rw [reciprocal_candidate]
  simp only [reciprocal_choose]
  rw [if_pos trivial]
  norm_num [reciprocalState0]

theorem reciprocal_value : reciprocalObjective (-1 / 4000000000) = (-4000000000) := by
  norm_num [reciprocalObjective]

theorem reciprocal_iterate : iterate reciprocalObjective reciprocalState0 = reciprocalState1 := by
  simp only [iterate, reciprocal_next, reciprocal_value, reciprocal_candidate, reciprocal_choose]
  norm_num [abs_div, swapIfCounterCloser, reciprocalState0, reciprocalState1]

theorem reciprocal_converged : converged reciprocalState1 = true := by
  norm_num [abs_div, converged, estimate_tolerance, result_tolerance, reciprocalState1]

/-- The solver run on `reciprocalObjective` from `1/2000000000` and
`-1/1000000000` ends after one iteration in `reciprocalState1`. -/
theorem reciprocal_run :
    SearchForRootTrace (1 / 2000000000) (-1 / 1000000000) reciprocalObjective
      = (Except.ok (1 / 2000000000), reciprocalState1) := by
  have hb : reciprocalObjective (1 / 2000000000) * reciprocalObjective (-1 / 1000000000) < 0 := by
    norm_num [reciprocalObjective]
  rw [SearchForRootTrace_ok _ _ _ hb, reciprocal_prepare]
  have h0 : reciprocalState0.count < kMaxIterations := by decide
  have hloop : whileLoop reciprocalObjective kMaxIterations reciprocalState0
      = reciprocalState1 := by
    show whileLoop reciprocalObjective (99 + 1) reciprocalState0 = reciprocalState1
    rw [whileLoop_break _ _ _ h0 (by rw [reciprocal_iterate]; exact reciprocal_converged),
      reciprocal_iterate]
  rw [hloop]
  rfl

theorem swapIfCounterCloser_bestOfPair (s : SolverState)
    (h : s.estimate_kBest ∈ s.evaluated ∧ s.estimate_kCounter ∈ s.evaluated) :
    BestOfPair (swapIfCounterCloser s) := by
  unfold swapIfCounterCloser
  by_cases hc : |s.result_kCounter| < |s.result_kBest|
  · rw [if_pos hc]
    exact ⟨le_of_lt hc, h.2, h.1⟩
  · rw [if_neg hc]
    exact ⟨not_lt.mp hc, h.1, h.2⟩

theorem prepare_bestOfPair (f : ℚ → ℚ) (a b : ℚ) :
    BestOfPair (prepare (initialState a b f)) := by
  have h := swapIfCounterCloser_bestOfPair (initialState a b f)
    ⟨List.mem_cons_self _ _, List.mem_cons_of_mem _ (List.mem_singleton.mpr rfl)⟩
  exact h

theorem iterate_bestOfPair (f : ℚ → ℚ) (s : SolverState)
    (h : s.estimate_kBest ∈ s.evaluated ∧ s.estimate_kCounter ∈ s.evaluated) :
    BestOfPair (iterate f s) := by
  unfold iterate
  apply swapIfCounterCloser_bestOfPair
  by_cases hc : f (nextEstimate s) * s.result_kCounter < 0
  · simp only [hc, if_true]
    exact ⟨List.mem_append_right _ (List.mem_singleton.mpr rfl), List.mem_append_left _ h.2⟩
  · simp only [hc, if_false]
    exact ⟨List.mem_append_left _ h.1, List.mem_append_right _ (List.mem_singleton.mpr rfl)⟩

theorem whileLoop_bestOfPair (f : ℚ → ℚ) (fuel : Nat) (s : SolverState) (h : BestOfPair s) :
    BestOfPair (whileLoop f fuel s) := by
  induction fuel generalizing s with
  | zero => exact h
  | succ n ih =>
    unfold whileLoop
    by_cases hc : s.count < kMaxIterations
    · simp only [hc, if_true]
      by_cases hv : converged (iterate f s) = true
      · simp only [hv, if_true]; exact iterate_bestOfPair f s h.2
      · simp only [hv, Bool.false_eq_true, if_false]
        exact ih _ (iterate_bestOfPair f s h.2)
    · simp only [hc, if_false]; exact h

/-- C20 (counterexample): on `f(x) = 1 / x` with the estimates `1/2000000000`
and `-1/1000000000`, a valid bracket, `SearchForRoot` evaluates `f` at
`1/2000000000`, `-1/1000000000` and `-1/4000000000` and returns
`r = 1/2000000000`, where `|f(r)| = 2000000000` exceeds
`|f(-1/1000000000)| = 1000000000`: the returned estimate has neither the
smallest `|f|` of the evaluated points nor `|f(r)| <= min(|f(a)|, |f(b)|)`. -/
theorem SearchForRoot_returns_not_smallest :
    reciprocalObjective (1 / 2000000000) * reciprocalObjective (-1 / 1000000000) < 0
      ∧ SearchForRoot (1 / 2000000000) (-1 / 1000000000) reciprocalObjective
          = Except.ok (1 / 2000000000)
      ∧ (SearchForRootTrace (1 / 2000000000) (-1 / 1000000000) reciprocalObjective).2.evaluated
          = [1 / 2000000000, -1 / 1000000000, -1 / 4000000000]
      ∧ |reciprocalObjective (-1 / 1000000000)| < |reciprocalObjective (1 / 2000000000)| := by
  refine ⟨by norm_num [reciprocalObjective], ?_, ?_, by norm_num [reciprocalObjective, abs_div]⟩
  · unfold SearchForRoot
    rw [reciprocal_run]
  · rw [reciprocal_run]
    norm_num [reciprocalState1]

/-- C20 (amended): for every valid bracket, the estimate returned by
`SearchForRoot(a, b, f)` is the best estimate of the final best/counter pair and
has the smaller `|f|` of that pair, both members of the pair being points at
which `f` was evaluated during the call. -/
theorem SearchForRoot_best_of_final_pair (f : ℚ → ℚ) (a b : ℚ) (h : f a * f b < 0) :
    SearchForRoot a b f = Except.ok (SearchForRootTrace a b f).2.estimate_kBest
      ∧ |f (SearchForRootTrace a b f).2.estimate_kBest|
          ≤ |f (SearchForRootTrace a b f).2.estimate_kCounter|
      ∧ (SearchForRootTrace a b f).2.estimate_kBest ∈ (SearchForRootTrace a b f).2.evaluated
      ∧ (SearchForRootTrace a b f).2.estimate_kCounter
          ∈ (SearchForRootTrace a b f).2.evaluated := by
  have ht := SearchForRootTrace_ok a b f h
  have hcons : Consistent f (whileLoop f kMaxIterations (prepare (initialState a b f))) :=
    whileLoop_consistent f _ _ (prepare_consistent f _ ⟨rfl, rfl⟩)
  obtain ⟨h1, h2, h3⟩ := whileLoop_bestOfPair f kMaxIterations _ (prepare_bestOfPair f a b)
  unfold SearchForRoot
  rw [ht]
  refine ⟨rfl, ?_, h2, h3⟩
  show |f (whileLoop f kMaxIterations (prepare (initialState a b f))).estimate_kBest|
    ≤ |f (whileLoop f kMaxIterations (prepare (initialState a b f))).estimate_kCounter|
  rw [← hcons.1, ← hcons.2]
  exact h1

/-- Witness for C20 (amended): the identity objective on the estimates `-1` and `1`. -/
theorem SearchForRoot_best_of_final_pair_witness :
    |(fun x : ℚ => x) (SearchForRootTrace (-1) 1 (fun x => x)).2.estimate_kBest|
      ≤ |(fun x : ℚ => x) (SearchForRootTrace (-1) 1 (fun x => x)).2.estimate_kCounter| :=
  (SearchForRoot_best_of_final_pair (fun x => x) (-1) 1 (by norm_num)).2.1

end roots

namespace logging

theorem foldl_append_eq_join (ss : List String) (init : String) :
    ss.foldl (fun r s => r ++ s) init = init ++ String.join ss := by
  induction ss generalizing init with
  | nil => exact (String.append_empty init).symm
  | cons a l ih =>
    have e : String.join (a :: l) = a ++ String.join l := by
      show (a :: l).foldl (fun r s => r ++ s) "" = a ++ String.join l
      rw [List.foldl_cons, ih]
      rfl
    rw [List.foldl_cons, ih, e, String.append_assoc]

theorem join_cons (a : String) (l : List String) :
    String.join (a :: l) = a ++ String.join l := by
  show (a :: l).foldl (fun r s => r ++ s) "" = a ++ String.join l
  rw [List.foldl_cons, foldl_append_eq_join]
  rfl

theorem print_fold (lvl : level_logged_e) (es : List LogEntry) (output : String) :
    es.foldl
        (fun out entry =>
          if entry.level_logged_.toNat ≥ lvl.toNat then out ++ entry.text ++ "\n" else out)
        output
      = output ++ String.join
          ((es.filter (fun e => decide (e.level_logged_.toNat ≥ lvl.toNat))).map
            (fun e => e.text ++ "\n")) := by
  induction es generalizing output with
  | nil => exact (String.append_empty output).symm
  | cons e es ih =>
    rw [List.foldl_cons, ih]
    by_cases h : e.level_logged_.toNat ≥ lvl.toNat
    · rw [if_pos h, List.filter_cons_of_pos (by simpa using h), List.map_cons, join_cons,
        String.append_assoc, String.append_assoc, String.append_assoc]
    · rw [if_neg h, List.filter_cons_of_neg (by simpa using h)]

/-- C21: `Log::flush` returns the texts of exactly the entries whose level is
`>=` the level of the log, in append order, each followed by a newline; it
leaves the log without entries and with its level and `buffer_` flag unchanged,
so a second flush right after returns the empty string. -/
theorem flush_returns_filtered_text (l : Log) :
    (Log.flush l).1
        = String.join
            ((l.entries.filter
                (fun e => decide (e.level_logged_.toNat ≥ l.level_logged_.toNat))).map
              (fun e => e.text ++ "\n"))
      ∧ (Log.flush l).2.entries = []
      ∧ (Log.flush l).2.level_logged_ = l.level_logged_
      ∧ (Log.flush l).2.buffer_ = l.buffer_
      ∧ (Log.flush (Log.flush l).2).1 = "" := by
  refine ⟨?_, rfl, rfl, rfl, rfl⟩
  show Log.print "" l = _
  unfold Log.print
  rw [print_fold, String.empty_append]

end logging

namespace roots

open logging

theorem whileLoopLogged_state (fmtCount : Nat → String) (fmt : ℚ → String) (f : ℚ → ℚ)
    (fuel : Nat) (s : SolverState) (calc_log : Log) :
    (whileLoopLogged fmtCount fmt f fuel s calc_log).1 = whileLoop f fuel s := by
  induction fuel generalizing s calc_log with
  | zero => rfl
  | succ n ih =>
    unfold whileLoopLogged whileLoop
    by_cases hc : s.count < kMaxIterations
    · simp only [hc, if_true]
      by_cases hv : converged (iterate f s) = true
      · simp only [hv, if_true]
      · simp only [hv, Bool.false_eq_true, if_false]
        exact ih _ _
    · simp only [hc, if_false]

/-- The logged solver computes what the unlogged one does. -/
theorem SearchForRootLogged_eq (fmtCount : Nat → String) (fmt : ℚ → String) (calc_log : Log)
    (a b : ℚ) (f : ℚ → ℚ) :
    (SearchForRootLogged fmtCount fmt calc_log a b f).1 = SearchForRoot a b f
      ∧ (SearchForRootLogged fmtCount fmt calc_log a b f).2.1 = (SearchForRootTrace a b f).2 := by
  unfold SearchForRoot SearchForRootLogged SearchForRootTrace
  by_cases h1 : (initialState a b f).result_kCounter * (initialState a b f).result_kBest ≥ 0
  · simp only [h1, if_true]
    by_cases h2 : (initialState a b f).result_kBest < 0
    · simp only [h2, if_true, and_self]
    · simp only [h2, if_false, and_self]
  · simp only [h1, if_false, whileLoopLogged_state, and_self]

/-- C22: whatever the contents and level of `calc_log` on entry, and however
numbers are formatted into it, `SearchForRoot(a, b, f)` returns the same
estimate or raises the same direction, and evaluates `f` at the same sequence
of points; both agree with the solver without a log. -/
theorem SearchForRoot_log_independent (fmtCount1 fmtCount2 : Nat → String)
    (fmt1 fmt2 : ℚ → String) (log1 log2 : Log) (a b : ℚ) (f : ℚ → ℚ) :
    (SearchForRootLogged fmtCount1 fmt1 log1 a b f).1
        = (SearchForRootLogged fmtCount2 fmt2 log2 a b f).1
      ∧ (SearchForRootLogged fmtCount1 fmt1 log1 a b f).2.1.evaluated
        = (SearchForRootLogged fmtCount2 fmt2 log2 a b f).2.1.evaluated
      ∧ (SearchForRootLogged fmtCount1 fmt1 log1 a b f).1 = SearchForRoot a b f
      ∧ (SearchForRootLogged fmtCount1 fmt1 log1 a b f).2.1.evaluated
        = (SearchForRootTrace a b f).2.evaluated := by
  obtain ⟨h1, h2⟩ := SearchForRootLogged_eq fmtCount1 fmt1 log1 a b f
  obtain ⟨h3, h4⟩ := SearchForRootLogged_eq fmtCount2 fmt2 log2 a b f
  exact ⟨by rw [h1, h3], by rw [h2, h4], h1, by rw [h2]⟩

end roots

namespace roots

/-- The final state of the loop is the end state of its last executed pass. -/
theorem whileLoop_eq_last_iteration (f : ℚ → ℚ) (fuel : Nat) (s : SolverState) :
    whileLoop f fuel s = (((iterations f fuel s).getLast?).map (fun q => q.2)).getD s := by
  induction fuel generalizing s with
  | zero => rfl
  | succ n ih =>
    unfold whileLoop iterations
    by_cases hc : s.count < kMaxIterations
    · simp only [hc, if_true]
      by_cases hv : converged (iterate f s) = true
      · simp only [hv, if_true]
        rfl
      · simp only [hv, Bool.false_eq_true, if_false]
        rw [ih (iterate f s)]
        cases hl : iterations f n (iterate f s) with
        | nil => rfl
        | cons q qs =>
          rw [List.getLast?_cons_cons,
            List.getLast?_eq_getLast (q :: qs) (List.cons_ne_nil q qs)]
          rfl
    · simp only [hc, if_false]
      rfl

/-- Each recorded pass ends in `iterate` of its start, starts below the cap,
and every pass but the last ends unconverged in the start of the next. -/
theorem iterations_step (f : ℚ → ℚ) (fuel : Nat) (s : SolverState) :
    ∀ q ∈ iterations f fuel s, q.2 = iterate f q.1 ∧ q.1.count < kMaxIterations := by
  induction fuel generalizing s with
  | zero => intro q hq; cases hq
  | succ n ih =>
    intro q hq
    unfold iterations at hq
    by_cases hc : s.count < kMaxIterations
    · simp only [hc, if_true] at hq
      rcases List.mem_cons.mp hq with h1 | h1
      · rw [h1]; exact ⟨rfl, hc⟩
      · by_cases hv : converged (iterate f s) = true
        · simp only [hv, if_true] at h1
          cases h1
        · simp only [hv, Bool.false_eq_true, if_false] at h1
          exact ih _ q h1
    · simp only [hc, if_false] at hq
      cases hq

theorem swapIfCounterCloser_product (s : SolverState) :
    (swapIfCounterCloser s).result_kBest * (swapIfCounterCloser s).result_kCounter
      = s.result_kBest * s.result_kCounter := by
  unfold swapIfCounterCloser
  split
  · exact mul_comm _ _
  · rfl

theorem swapIfCounterCloser_abs_le (s : SolverState) :
    |(swapIfCounterCloser s).result_kBest| ≤ |(swapIfCounterCloser s).result_kCounter| := by
  unfold swapIfCounterCloser
  by_cases hc : |s.result_kCounter| < |s.result_kBest|
  · rw [if_pos hc]; exact le_of_lt hc
  · rw [if_neg hc]; exact not_lt.mp hc

theorem iterate_product_nonpos (f : ℚ → ℚ) (s : SolverState)
    (h : s.result_kBest * s.result_kCounter < 0) :
    (iterate f s).result_kBest * (iterate f s).result_kCounter ≤ 0 := by
  unfold iterate
  rw [swapIfCounterCloser_product]
  by_cases hc : f (nextEstimate s) * s.result_kCounter < 0
  · simp only [hc, if_true]
    exact le_of_lt hc
  · simp only [hc, if_false]
    show s.result_kBest * f (nextEstimate s) ≤ 0
    have hn := not_lt.mp hc
    rcases lt_trichotomy s.result_kCounter 0 with hneg | hzero | hpos
    · have hb : 0 < s.result_kBest := by
        by_contra hb
        have := mul_nonneg_of_nonpos_of_nonpos (not_lt.mp hb) (le_of_lt hneg)
        linarith
      have hx : f (nextEstimate s) ≤ 0 := by
        by_contra hx
        have := mul_neg_of_pos_of_neg (not_le.mp hx) hneg
        linarith
      exact mul_nonpos_of_nonneg_of_nonpos (le_of_lt hb) hx
    · rw [hzero, mul_zero] at h
      exact absurd h (lt_irrefl _)
    · have hb : s.result_kBest < 0 := by
        by_contra hb
        have := mul_nonneg (not_lt.mp hb) (le_of_lt hpos)
        linarith
      have hx : 0 ≤ f (nextEstimate s) := by
        by_contra hx
        have := mul_neg_of_neg_of_pos (not_le.mp hx) hpos
        linarith
      exact mul_nonpos_of_nonpos_of_nonneg (le_of_lt hb) hx

theorem iterate_abs_le (f : ℚ → ℚ) (s : SolverState) :
    |(iterate f s).result_kBest| ≤ |(iterate f s).result_kCounter| := by
  unfold iterate
  exact swapIfCounterCloser_abs_le _

/-- A pass from a bracketing state that does not end in a `break` ends in a
bracketing state. -/
theorem iterate_bracketing (f : ℚ → ℚ) (s : SolverState) (h : Bracketing f s)
    (hv : converged (iterate f s) = false) : Bracketing f (iterate f s) := by
  obtain ⟨hb, hcons, -⟩ := h
  have hle := iterate_abs_le f s
  have hprod := iterate_product_nonpos f s hb
  refine ⟨?_, iterate_consistent f s hcons, hle⟩
  have hnot : ¬ (|(iterate f s).result_kBest| < result_tolerance) := by
    intro hlt
    have := (converged_iff (iterate f s)).mpr (Or.inr hlt)
    rw [hv] at this
    cases this
  have htol : (0 : ℚ) < result_tolerance := by unfold result_tolerance; norm_num
  have hB : 0 < |(iterate f s).result_kBest| := lt_of_lt_of_le htol (not_lt.mp hnot)
  have hC : 0 < |(iterate f s).result_kCounter| := lt_of_lt_of_le hB hle
  have hne : (iterate f s).result_kBest * (iterate f s).result_kCounter ≠ 0 :=
    mul_ne_zero (abs_pos.mp hB) (abs_pos.mp hC)
  exact lt_of_le_of_ne hprod hne

theorem prepare_bracketing (f : ℚ → ℚ) (a b : ℚ) (h : f a * f b < 0) :
    Bracketing f (prepare (initialState a b f)) := by
  refine ⟨?_, prepare_consistent f _ ⟨rfl, rfl⟩, swapIfCounterCloser_abs_le _⟩
  show (swapIfCounterCloser (initialState a b f)).result_kBest
    * (swapIfCounterCloser (initialState a b f)).result_kCounter < 0
  rw [swapIfCounterCloser_product]
  exact h

/-- Every executed pass starts in a bracketing state. -/
theorem iterations_bracketing (f : ℚ → ℚ) (fuel : Nat) (s : SolverState) (h : Bracketing f s) :
    ∀ q ∈ iterations f fuel s, Bracketing f q.1 := by
  induction fuel generalizing s with
  | zero => intro q hq; cases hq
  | succ n ih =>
    intro q hq
    unfold iterations at hq
    by_cases hc : s.count < kMaxIterations
    · simp only [hc, if_true] at hq
      rcases List.mem_cons.mp hq with h1 | h1
      · rw [h1]; exact h
      · by_cases hv : converged (iterate f s) = true
        · simp only [hv, if_true] at h1
          cases h1
        · simp only [hv, Bool.false_eq_true, if_false] at h1
          have hv2 : converged (iterate f s) = false := by
            cases hq2 : converged (iterate f s) with
            | true => exact absurd hq2 hv
            | false => rfl
          exact ih _ (iterate_bracketing f s h hv2) q h1
    · simp only [hc, if_false] at hq
      cases hq

end roots

namespace roots

theorem iterations_head (f : ℚ → ℚ) (fuel : Nat) (s : SolverState)
    (hc : s.count < kMaxIterations) : (s, iterate f s) ∈ iterations f (fuel + 1) s := by
  unfold iterations
  rw [if_pos hc]
  exact List.mem_cons_self _ _

/-- The first pass of a run on a valid bracket is among the executed passes. -/
theorem iterations_first (f : ℚ → ℚ) (a b : ℚ) :
    (prepare (initialState a b f), iterate f (prepare (initialState a b f)))
      ∈ iterations f kMaxIterations (prepare (initialState a b f)) :=
  iterations_head f 99 _ (by rw [prepare_count]; exact Nat.succ_pos 99)

/-- C23: on a valid bracket, after the initial swap and after every executed
iteration the stored results are the objective at the stored best and counter
estimates, and `|f(best)| <= |f(counter)|`; the state `SearchForRoot` ends in is
the state after the last executed iteration. -/
theorem SearchForRoot_pairs_consistent (f : ℚ → ℚ) (a b : ℚ) (h : f a * f b < 0) :
    (Consistent f (prepare (initialState a b f))
        ∧ |f (prepare (initialState a b f)).estimate_kBest|
            ≤ |f (prepare (initialState a b f)).estimate_kCounter|)
      ∧ (∀ q ∈ iterations f kMaxIterations (prepare (initialState a b f)),
          q.2 = iterate f q.1 ∧ Consistent f q.2
            ∧ |f q.2.estimate_kBest| ≤ |f q.2.estimate_kCounter|)
      ∧ (SearchForRootTrace a b f).2
          = (((iterations f kMaxIterations (prepare (initialState a b f))).getLast?).map
              (fun q => q.2)).getD (prepare (initialState a b f)) := by
  have hp := prepare_bracketing f a b h
  refine ⟨⟨hp.2.1, ?_⟩, ?_, ?_⟩
  · rw [← hp.2.1.1, ← hp.2.1.2]; exact hp.2.2
  · intro q hq
    obtain ⟨hstep, -⟩ := iterations_step f _ _ q hq
    have hb := iterations_bracketing f _ _ hp q hq
    have hcons : Consistent f q.2 := by
      rw [hstep]; exact iterate_consistent f q.1 hb.2.1
    refine ⟨hstep, hcons, ?_⟩
    rw [← hcons.1, ← hcons.2, hstep]
    exact iterate_abs_le f q.1
  · rw [SearchForRootTrace_ok a b f h]
    exact whileLoop_eq_last_iteration f _ _

/-- Witness for C23: the identity objective on the estimates `-1` and `1`,
after the first iteration. -/
theorem SearchForRoot_pairs_consistent_witness :
    Consistent (fun x => x) (iterate (fun x => x) (prepare (initialState (-1) 1 (fun x => x))))
      ∧ |(fun x : ℚ => x)
            (iterate (fun x => x) (prepare (initialState (-1) 1 (fun x => x)))).estimate_kBest|
          ≤ |(fun x : ℚ => x)
            (iterate (fun x => x) (prepare (initialState (-1) 1 (fun x => x)))).estimate_kCounter| :=
  ((SearchForRoot_pairs_consistent (fun x => x) (-1) 1 (by norm_num)).2.1 _
    (iterations_first (fun x => x) (-1) 1)).2

/-- C25: on a valid bracket, in every executed iteration the divisor of
`SecantEstimate`, `f(counter) - f(best)`, is non-zero, and when
`QuadraticInterpolation` is the function called its three objective values
(counter, best, prev) are pairwise different, so its three divisors are
non-zero. -/
theorem SearchForRoot_no_division_by_zero (f : ℚ → ℚ) (a b : ℚ) (h : f a * f b < 0) :
    ∀ q ∈ iterations f kMaxIterations (prepare (initialState a b f)),
      f q.1.estimate_kCounter ≠ f q.1.estimate_kBest
        ∧ q.1.result_kCounter - q.1.result_kBest ≠ 0
        ∧ ((candidate q.1).2 = methods_available.secant
            ∨ (candidate q.1).2 = methods_available.quadratic_interpolation)
        ∧ ((candidate q.1).2 = methods_available.quadratic_interpolation →
            q.1.result_kCounter ≠ q.1.result_kBest
              ∧ q.1.result_kCounter ≠ q.1.result_kMinus1
              ∧ q.1.result_kBest ≠ q.1.result_kMinus1
              ∧ (q.1.result_kMinus1 - q.1.result_kBest)
                  * (q.1.result_kMinus1 - q.1.result_kCounter) ≠ 0
              ∧ (q.1.result_kBest - q.1.result_kMinus1)
                  * (q.1.result_kBest - q.1.result_kCounter) ≠ 0
              ∧ (q.1.result_kCounter - q.1.result_kMinus1)
                  * (q.1.result_kCounter - q.1.result_kBest) ≠ 0) := by
  intro q hq
  have hp := prepare_bracketing f a b h
  obtain ⟨hb, hcons, -⟩ := iterations_bracketing f _ _ hp q hq
  have hne : q.1.result_kCounter ≠ q.1.result_kBest := by
    intro he
    rw [he] at hb
    have := mul_self_nonneg q.1.result_kBest
    linarith
  refine ⟨?_, sub_ne_zero.mpr hne, ?_, ?_⟩
  · rw [← hcons.1, ← hcons.2]; exact hne
  · unfold candidate
    split
    · right; rfl
    · left; rfl
  · intro hq2
    have hcond : q.1.result_kCounter ≠ q.1.result_kMinus1
        ∧ q.1.result_kBest ≠ q.1.result_kMinus1 := by
      by_contra hnot
      unfold candidate at hq2
      rw [if_neg hnot] at hq2
      cases hq2
    obtain ⟨h1, h2⟩ := hcond
    refine ⟨hne, h1, h2, ?_, ?_, ?_⟩
    · exact mul_ne_zero (sub_ne_zero.mpr (Ne.symm h2)) (sub_ne_zero.mpr (Ne.symm h1))
    · exact mul_ne_zero (sub_ne_zero.mpr h2) (sub_ne_zero.mpr (Ne.symm hne))
    · exact mul_ne_zero (sub_ne_zero.mpr h1) (sub_ne_zero.mpr hne)

/-- Witness for C25: the identity objective on the estimates `-1` and `1`, at
the start of the first iteration. -/
theorem SearchForRoot_no_division_by_zero_witness :
    (fun x : ℚ => x) (prepare (initialState (-1) 1 (fun x => x))).estimate_kCounter
      ≠ (fun x : ℚ => x) (prepare (initialState (-1) 1 (fun x => x))).estimate_kBest :=
  ((SearchForRoot_no_division_by_zero (fun x => x) (-1) 1 (by norm_num)) _
    (iterations_first (fun x => x) (-1) 1)).1

end roots

namespace roots

theorem swapIfCounterCloser_history (s : SolverState) :
    (swapIfCounterCloser s).method_to_use = s.method_to_use
      ∧ (swapIfCounterCloser s).parabolic_kMinus1 = s.parabolic_kMinus1
      ∧ (swapIfCounterCloser s).estimate_kMinus1 = s.estimate_kMinus1
      ∧ (swapIfCounterCloser s).estimate_kMinus2 = s.estimate_kMinus2 := by
  unfold swapIfCounterCloser
  split <;> exact ⟨rfl, rfl, rfl, rfl⟩

theorem iterate_method_to_use (f : ℚ → ℚ) (s : SolverState) :
    (iterate f s).method_to_use = chooseMethod s (candidate s).1 (candidate s).2 := by
  unfold iterate
  rw [(swapIfCounterCloser_history _).1]

/-- Over the rationals `QuadraticInterpolation` is the three-point inverse
Lagrange interpolant at `y = 0`: for points `(g y1, y1)`, `(g y2, y2)`,
`(g y3, y3)` with pairwise distinct `y` on a curve `x = g(y) = α + β y + γ y²` it
gives `g(0) = α`, and its value is the same for every order in which the three
points are passed. -/
theorem QuadraticInterpolation_lagrange (α β γ y1 y2 y3 : ℚ) (h12 : y1 ≠ y2) (h13 : y1 ≠ y3)
    (h23 : y2 ≠ y3) :
    QuadraticInterpolation (α + β * y1 + γ * y1 ^ 2) (α + β * y2 + γ * y2 ^ 2)
        (α + β * y3 + γ * y3 ^ 2) y1 y2 y3 = α
      ∧ ∀ x1 x2 x3 : ℚ,
          QuadraticInterpolation x1 x2 x3 y1 y2 y3
              = x3 * y1 * y2 / ((y3 - y1) * (y3 - y2)) + x2 * y1 * y3 / ((y2 - y1) * (y2 - y3))
                + x1 * y2 * y3 / ((y1 - y2) * (y1 - y3))
            ∧ QuadraticInterpolation x1 x2 x3 y1 y2 y3 = QuadraticInterpolation x2 x1 x3 y2 y1 y3
            ∧ QuadraticInterpolation x1 x2 x3 y1 y2 y3 = QuadraticInterpolation x1 x3 x2 y1 y3 y2
            ∧ QuadraticInterpolation x1 x2 x3 y1 y2 y3 = QuadraticInterpolation x3 x2 x1 y3 y2 y1
            ∧ QuadraticInterpolation x1 x2 x3 y1 y2 y3 = QuadraticInterpolation x2 x3 x1 y2 y3 y1
            ∧ QuadraticInterpolation x1 x2 x3 y1 y2 y3
                = QuadraticInterpolation x3 x1 x2 y3 y1 y2 := by
  have d12 : y1 - y2 ≠ 0 := sub_ne_zero.mpr h12
  have d13 : y1 - y3 ≠ 0 := sub_ne_zero.mpr h13
  have d23 : y2 - y3 ≠ 0 := sub_ne_zero.mpr h23
  have d21 : y2 - y1 ≠ 0 := sub_ne_zero.mpr (Ne.symm h12)
  have d31 : y3 - y1 ≠ 0 := sub_ne_zero.mpr (Ne.symm h13)
  have d32 : y3 - y2 ≠ 0 := sub_ne_zero.mpr (Ne.symm h23)
  constructor
  · unfold QuadraticInterpolation
    field_simp
    ring
  · intro x1 x2 x3
    unfold QuadraticInterpolation
    refine ⟨?_, ?_, ?_, ?_, ?_, ?_⟩ <;> ring

/-- Over the rationals, with `y1 != y0`, `SecantEstimate(x1, x0, y1, y0)` is
`(x0 * y1 - x1 * y0) / (y1 - y0)`, the point where the line through `(x1, y1)`
and `(x0, y0)` is `0`; for `f(x) = m x + k` with `m != 0` and `x0 != x1` it is
the root `-k / m`. -/
theorem SecantEstimate_zero_crossing (x1 x0 y1 y0 : ℚ) (hy : y1 ≠ y0) :
    SecantEstimate x1 x0 y1 y0 = (x0 * y1 - x1 * y0) / (y1 - y0)
      ∧ (x1 ≠ x0 → lineThrough x1 y1 x0 y0 (SecantEstimate x1 x0 y1 y0) = 0)
      ∧ ∀ m k : ℚ, m ≠ 0 → x1 ≠ x0 → y1 = m * x1 + k → y0 = m * x0 + k →
          SecantEstimate x1 x0 y1 y0 = -k / m := by
  have d : y1 - y0 ≠ 0 := sub_ne_zero.mpr hy
  refine ⟨?_, ?_, ?_⟩
  · unfold SecantEstimate
    field_simp
    ring
  · intro hx
    have dx : x0 - x1 ≠ 0 := sub_ne_zero.mpr (Ne.symm hx)
    unfold lineThrough SecantEstimate
    field_simp
    ring
  · intro m k hm hx h1 h0
    have dx : x1 - x0 ≠ 0 := sub_ne_zero.mpr hx
    have e : y1 - y0 = m * (x1 - x0) := by rw [h1, h0]; ring
    unfold SecantEstimate
    rw [e, h1]
    field_simp
    ring

end roots

namespace roots

end roots

namespace roots

/-- A pass executed from the state after a non-converging pass is among the
passes executed from the state before it. -/
theorem iterations_tail (f : ℚ → ℚ) (fuel : Nat) (s : SolverState)
    (hc : s.count < kMaxIterations) (hv : converged (iterate f s) = false)
    (q : SolverState × SolverState) (hq : q ∈ iterations f fuel (iterate f s)) :
    q ∈ iterations f (fuel + 1) s := by
  unfold iterations
  rw [if_pos hc]
  simp only [hv, Bool.false_eq_true, if_false]
  exact List.mem_cons_of_mem _ hq

end roots

namespace roots

theorem hump_prepare :
    prepare (initialState (-1) 1 humpObjective) = humpState0 := by
  norm_num [abs_div, prepare, initialState, swapIfCounterCloser, humpObjective,
    humpState0]

theorem hump_candidate0 :
    candidate humpState0 = ((2 / 3), methods_available.secant) := by
  norm_num [candidate, SecantEstimate, QuadraticInterpolation, humpState0]

theorem hump_choose0 :
    chooseMethod humpState0 (2 / 3) methods_available.secant
      = methods_available.secant := by
  norm_num [abs_div, chooseMethod, under_shoot_threshold, estimate_tolerance, humpState0]

theorem hump_next0 : nextEstimate humpState0 = (2 / 3) := by
  unfold nextEstimate
  rw [hump_candidate0]
  simp only [hump_choose0]
  rw [if_neg (by decide)]

theorem hump_value0 : humpObjective (2 / 3) = (5 / 3) := by
  norm_num [humpObjective]

theorem hump_iterate0 : iterate humpObjective humpState0 = humpState1 := by
  simp only [iterate, hump_next0, hump_value0, hump_candidate0, hump_choose0]
  norm_num [abs_div, swapIfCounterCloser, humpState0, humpState1]

theorem hump_converged1 : converged humpState1 = false := by
  norm_num [abs_div, converged, estimate_tolerance, result_tolerance, humpState1]

theorem hump_candidate1 :
    candidate humpState1 = ((31 / 24), methods_available.quadratic_interpolation) := by
  norm_num [candidate, SecantEstimate, QuadraticInterpolation, humpState1]

theorem hump_choose1 :
    chooseMethod humpState1 (31 / 24) methods_available.quadratic_interpolation
      = methods_available.quadratic_interpolation := by
  norm_num [abs_div, chooseMethod, under_shoot_threshold, estimate_tolerance, humpState1]

theorem hump_next1 : nextEstimate humpState1 = (31 / 24) := by
  unfold nextEstimate
  rw [hump_candidate1]
  simp only [hump_choose1]
  rw [if_neg (by decide)]

end roots

namespace roots

/-- A secant step from two points whose values have strictly opposite signs is a
strict convex combination of the two abscissas. -/
theorem SecantEstimate_convex (x1 x0 y1 y0 : ℚ) (h : y0 * y1 < 0) :
    0 < y1 / (y1 - y0) ∧ y1 / (y1 - y0) < 1
      ∧ SecantEstimate x1 x0 y1 y0 = y1 / (y1 - y0) * x0 + (1 - y1 / (y1 - y0)) * x1 := by
  rcases mul_neg_iff.mp h with ⟨h0, h1⟩ | ⟨h0, h1⟩
  · have hd : y1 - y0 < 0 := by linarith
    refine ⟨div_pos_of_neg_of_neg h1 hd, (div_lt_one_of_neg hd).mpr (by linarith), ?_⟩
    unfold SecantEstimate
    have hd1 : y1 - y0 ≠ 0 := ne_of_lt hd
    field_simp
    ring
  · have hd : 0 < y1 - y0 := by linarith
    refine ⟨div_pos h1 hd, (div_lt_one hd).mpr (by linarith), ?_⟩
    unfold SecantEstimate
    have hd1 : y1 - y0 ≠ 0 := ne_of_gt hd
    field_simp
    ring

/-- A strict convex combination of two different numbers lies strictly between
them. -/
theorem convex_strictly_between (t x0 x1 : ℚ) (h0 : 0 < t) (h1 : t < 1) (hx : x0 ≠ x1) :
    min x0 x1 < t * x0 + (1 - t) * x1 ∧ t * x0 + (1 - t) * x1 < max x0 x1 := by
  rcases lt_or_gt_of_ne hx with hlt | hgt
  · rw [min_eq_left (le_of_lt hlt), max_eq_right (le_of_lt hlt)]
    constructor
    · nlinarith [mul_pos (sub_pos.mpr h1) (sub_pos.mpr hlt)]
    · nlinarith [mul_pos h0 (sub_pos.mpr hlt)]
  · rw [min_eq_right (le_of_lt hgt), max_eq_left (le_of_lt hgt)]
    constructor
    · nlinarith [mul_pos h0 (sub_pos.mpr hgt)]
    · nlinarith [mul_pos (sub_pos.mpr h1) (sub_pos.mpr hgt)]

/-- In a state that brackets a root, the two estimates differ. -/
theorem bracketing_estimates_ne (f : ℚ → ℚ) (s : SolverState) (hB : Bracketing f s) :
    s.estimate_kBest ≠ s.estimate_kCounter := by
  obtain ⟨hb, hcons, -⟩ := hB
  have hrB : s.result_kBest = f s.estimate_kBest := hcons.1
  have hrC : s.result_kCounter = f s.estimate_kCounter := hcons.2
  intro he
  rw [hrB, hrC, he] at hb
  have := mul_self_nonneg (f s.estimate_kCounter)
  linarith

/-- In a state that brackets a root, a candidate tagged as secant is a strict
convex combination of the best and counter estimates. -/
theorem candidate_secant_convex (f : ℚ → ℚ) (s : SolverState) (hB : Bracketing f s)
    (hsec : (candidate s).2 = methods_available.secant) :
    0 < s.result_kCounter / (s.result_kCounter - s.result_kBest)
      ∧ s.result_kCounter / (s.result_kCounter - s.result_kBest) < 1
      ∧ (candidate s).1
          = s.result_kCounter / (s.result_kCounter - s.result_kBest) * s.estimate_kBest
            + (1 - s.result_kCounter / (s.result_kCounter - s.result_kBest))
              * s.estimate_kCounter := by
  have hcand : (candidate s).1
      = SecantEstimate s.estimate_kCounter s.estimate_kBest s.result_kCounter s.result_kBest := by
    unfold candidate at hsec ⊢
    split at hsec
    · cases hsec
    · rename_i hnot
      rw [if_neg hnot]
  rw [hcand]
  exact SecantEstimate_convex _ _ _ _ hB.1

/-- The points evaluated by the loop are those the state already records,
followed by the point each executed pass evaluates. -/
theorem whileLoop_evaluated_iterations (f : ℚ → ℚ) (fuel : Nat) (s : SolverState) :
    (whileLoop f fuel s).evaluated
      = s.evaluated ++ (iterations f fuel s).map (fun q => nextEstimate q.1) := by
  induction fuel generalizing s with
  | zero => exact (List.append_nil _).symm
  | succ n ih =>
    unfold whileLoop iterations
    by_cases hc : s.count < kMaxIterations
    · simp only [hc, if_true]
      by_cases hv : converged (iterate f s) = true
      · simp only [hv, if_true]
        exact iterate_evaluated f s
      · simp only [hv, Bool.false_eq_true, if_false]
        rw [ih (iterate f s), iterate_evaluated, List.map_cons, List.append_assoc]
        rfl
    · simp only [hc, if_false]
      exact (List.append_nil _).symm

/-- The points evaluated by `SearchForRoot` on a valid bracket: the two
estimates, then the point of each executed pass. -/
theorem SearchForRootTrace_evaluated (f : ℚ → ℚ) (a b : ℚ) (h : f a * f b < 0) :
    (SearchForRootTrace a b f).2.evaluated
      = [a, b] ++ (iterations f kMaxIterations (prepare (initialState a b f))).map
          (fun q => nextEstimate q.1) := by
  rw [SearchForRootTrace_ok a b f h, whileLoop_evaluated_iterations, prepare_evaluated]
  rfl

/-- The method of a pass is bisection or the method of its candidate. -/
theorem chooseMethod_cases (s : SolverState) (c : ℚ) (m : methods_available) :
    chooseMethod s c m = methods_available.bisection ∨ chooseMethod s c m = m := by
  unfold chooseMethod
  split
  · left; rfl
  · simp only []
    split
    · left; rfl
    · right; rfl

/-- In a state that brackets a root, a pass that does not use quadratic
interpolation evaluates a point between the best and counter estimates. -/
theorem nextEstimate_between (f : ℚ → ℚ) (s : SolverState) (hB : Bracketing f s)
    (hm : (iterate f s).method_to_use ≠ methods_available.quadratic_interpolation) :
    min s.estimate_kBest s.estimate_kCounter ≤ nextEstimate s
      ∧ nextEstimate s ≤ max s.estimate_kBest s.estimate_kCounter := by
  rw [iterate_method_to_use] at hm
  by_cases hbis : chooseMethod s (candidate s).1 (candidate s).2 = methods_available.bisection
  · have hn : nextEstimate s = (s.estimate_kBest + s.estimate_kCounter) / 2 := by
      unfold nextEstimate
      rw [if_pos hbis]
    rw [hn]
    constructor
    · rcases le_total s.estimate_kBest s.estimate_kCounter with hle | hle
      · rw [min_eq_left hle]; linarith
      · rw [min_eq_right hle]; linarith
    · rcases le_total s.estimate_kBest s.estimate_kCounter with hle | hle
      · rw [max_eq_right hle]; linarith
      · rw [max_eq_left hle]; linarith
  · have hn : nextEstimate s = (candidate s).1 := by
      unfold nextEstimate
      rw [if_neg hbis]
    have hkeep : chooseMethod s (candidate s).1 (candidate s).2 = (candidate s).2 := by
      rcases chooseMethod_cases s (candidate s).1 (candidate s).2 with h1 | h1
      · exact absurd h1 hbis
      · exact h1
    have hsec : (candidate s).2 = methods_available.secant := by
      rw [hkeep] at hm
      have hcases : (candidate s).2 = methods_available.secant
          ∨ (candidate s).2 = methods_available.quadratic_interpolation := by
        unfold candidate
        split
        · right; rfl
        · left; rfl
      rcases hcases with h1 | h1
      · exact h1
      · exact absurd h1 hm
    obtain ⟨h0, h1, hc⟩ := candidate_secant_convex f s hB hsec
    have hb := convex_strictly_between _ _ _ h0 h1 (bracketing_estimates_ne f s hB)
    rw [hn, hc]
    exact ⟨le_of_lt hb.1, le_of_lt hb.2⟩

/-- A pass that evaluates a point of `[lo, hi]` keeps both ends of the bracket
in `[lo, hi]`. -/
theorem iterate_inside (f : ℚ → ℚ) (lo hi : ℚ) (s : SolverState) (hI : Inside lo hi s)
    (hn : lo ≤ nextEstimate s ∧ nextEstimate s ≤ hi) : Inside lo hi (iterate f s) := by
  obtain ⟨h1, h2, h3, h4⟩ := hI
  obtain ⟨h5, h6⟩ := hn
  unfold iterate swapIfCounterCloser Inside
  simp only []
  split_ifs <;> exact ⟨by assumption, by assumption, by assumption, by assumption⟩

/-- The state on entry to the loop has both estimates between the two given. -/
theorem prepare_inside (f : ℚ → ℚ) (a b : ℚ) :
    Inside (min a b) (max a b) (prepare (initialState a b f)) := by
  unfold prepare swapIfCounterCloser initialState Inside
  simp only []
  split_ifs <;>
    exact ⟨by first | exact min_le_left _ _ | exact min_le_right _ _,
      by first | exact le_max_left _ _ | exact le_max_right _ _,
      by first | exact min_le_left _ _ | exact min_le_right _ _,
      by first | exact le_max_left _ _ | exact le_max_right _ _⟩

/-- From a bracketing state inside `[lo, hi]`, a pass that does not use
quadratic interpolation and is preceded only by such passes evaluates a point
of `[lo, hi]`. -/
theorem iterations_inside (f : ℚ → ℚ) (lo hi : ℚ) (fuel : Nat) (s : SolverState)
    (hB : Bracketing f s) (hI : Inside lo hi s)
    (pre : List (SolverState × SolverState)) (q : SolverState × SolverState)
    (post : List (SolverState × SolverState))
    (hsplit : iterations f fuel s = pre ++ q :: post)
    (hpre : ∀ p ∈ pre, p.2.method_to_use ≠ methods_available.quadratic_interpolation)
    (hq : q.2.method_to_use ≠ methods_available.quadratic_interpolation) :
    lo ≤ nextEstimate q.1 ∧ nextEstimate q.1 ≤ hi := by
  induction fuel generalizing s pre with
  | zero =>
    unfold iterations at hsplit
    cases pre <;> cases hsplit
  | succ n ih =>
    have hstep : ∀ t : SolverState, Bracketing f t → Inside lo hi t →
        (iterate f t).method_to_use ≠ methods_available.quadratic_interpolation →
        lo ≤ nextEstimate t ∧ nextEstimate t ≤ hi := by
      intro t hBt hIt hmt
      obtain ⟨hb1, hb2⟩ := nextEstimate_between f t hBt hmt
      obtain ⟨h1, h2, h3, h4⟩ := hIt
      exact ⟨le_trans (le_min h1 h3) hb1, le_trans hb2 (max_le h2 h4)⟩
    unfold iterations at hsplit
    by_cases hc : s.count < kMaxIterations
    · simp only [hc, if_true] at hsplit
      cases pre with
      | nil =>
        have hq1 : q = (s, iterate f s) := by
          have := (List.cons.inj hsplit).1
          exact this.symm
        rw [hq1] at hq ⊢
        exact hstep s hB hI hq
      | cons p pre1 =>
        have hp1 : p = (s, iterate f s) := ((List.cons.inj hsplit).1).symm
        have htail := (List.cons.inj hsplit).2
        have hpm : (iterate f s).method_to_use ≠ methods_available.quadratic_interpolation := by
          have := hpre p (List.mem_cons_self _ _)
          rw [hp1] at this
          exact this
        by_cases hv : converged (iterate f s) = true
        · simp only [hv, if_true] at htail
          cases pre1 <;> cases htail
        · simp only [hv, Bool.false_eq_true, if_false] at htail
          have hv1 : converged (iterate f s) = false := by
            cases hcv : converged (iterate f s)
            · rfl
            · exact absurd hcv hv
          exact ih (iterate f s) (iterate_bracketing f s hB hv1)
            (iterate_inside f lo hi s hI (hstep s hB hI hpm)) pre1 htail
            (fun p1 hp => hpre p1 (List.mem_cons_of_mem _ hp))
    · simp only [hc, if_false] at hsplit
      cases pre <;> cases hsplit

end roots

namespace roots

/-- The second pass of the run on `humpObjective` from `-1` and `1` starts in
`humpState1`. -/
theorem hump_second_pass :
    (humpState1, iterate humpObjective humpState1)
      ∈ iterations humpObjective kMaxIterations
          (prepare (initialState (-1) 1 humpObjective)) := by
  rw [hump_prepare]
  refine iterations_tail humpObjective 99 humpState0 (by decide) ?_ _ ?_
  · rw [hump_iterate0]; exact hump_converged1
  · rw [hump_iterate0]
    exact iterations_head humpObjective 98 humpState1 (by decide)

/-- C32, counterexample: on `-3x² + 3x + 1` from the estimates `-1` and `1` (a
valid bracket: the values are `-5` and `1`) the first pass evaluates the secant
point `2/3`, and the second pass accepts the quadratic interpolation through
`(-1, -5)`, `(2/3, 5/3)` and `(1, 1)` and evaluates the objective at `31/24`,
which is above both estimates. -/
theorem SearchForRoot_evaluates_outside_bracket :
    humpObjective (-1) * humpObjective 1 < 0
      ∧ (humpState1, iterate humpObjective humpState1)
          ∈ iterations humpObjective kMaxIterations
              (prepare (initialState (-1) 1 humpObjective))
      ∧ humpState1.evaluated = [-1, 1, 2 / 3]
      ∧ candidate humpState1 = (31 / 24, methods_available.quadratic_interpolation)
      ∧ nextEstimate humpState1 = 31 / 24
      ∧ (31 / 24 : ℚ) ∈ (SearchForRootTrace (-1) 1 humpObjective).2.evaluated
      ∧ ¬ (min (-1 : ℚ) 1 ≤ 31 / 24 ∧ (31 / 24 : ℚ) ≤ max (-1) 1) := by
  have hbr : humpObjective (-1) * humpObjective 1 < 0 := by norm_num [humpObjective]
  refine ⟨hbr, hump_second_pass, rfl, hump_candidate1, hump_next1, ?_, ?_⟩
  · rw [SearchForRootTrace_evaluated humpObjective (-1) 1 hbr]
    refine List.mem_append_right _ (List.mem_map.mpr ⟨_, hump_second_pass, ?_⟩)
    exact hump_next1
  · norm_num

end roots

namespace mirr

open roots

theorem min_element_fold_spec (cs : List CashFlow) (c : CashFlow) :
    (cs.foldl (fun smallest x => if CashFlow.lt x smallest then x else smallest) c ∈ c :: cs)
      ∧ (cs.foldl (fun smallest x => if CashFlow.lt x smallest then x else smallest) c).date_
          ≤ c.date_
      ∧ ∀ x ∈ cs,
          (cs.foldl (fun smallest x => if CashFlow.lt x smallest then x else smallest) c).date_
            ≤ x.date_ := by
  induction cs generalizing c with
  | nil => exact ⟨List.mem_singleton.mpr rfl, le_refl _, fun x hx => absurd hx (List.not_mem_nil x)⟩
  | cons y ys ih =>
    have hlt : CashFlow.lt y c = true ↔ y.date_ < c.date_ := by
      unfold CashFlow.lt dates.GetDifferenceSeconds
      rw [decide_eq_true_eq]
      constructor
      · intro h
        have : (y.date_ - c.date_ : Int) < 0 := by exact_mod_cast h
        omega
      · intro h
        have : (y.date_ - c.date_ : Int) < 0 := by omega
        exact_mod_cast this
    rw [List.foldl_cons]
    by_cases hc : CashFlow.lt y c = true
    · rw [if_pos hc]
      obtain ⟨h1, h2, h3⟩ := ih y
      have hcy := hlt.mp hc
      refine ⟨List.mem_cons_of_mem _ h1, by omega, ?_⟩
      intro x hx
      rcases List.mem_cons.mp hx with hx | hx
      · rw [hx]; exact h2
      · exact h3 x hx
    · rw [if_neg hc]
      obtain ⟨h1, h2, h3⟩ := ih c
      have hcy : ¬ y.date_ < c.date_ := fun h => hc (hlt.mpr h)
      refine ⟨?_, h2, ?_⟩
      · rcases List.mem_cons.mp h1 with h1 | h1
        · rw [h1]; exact List.mem_cons_self _ _
        · exact List.mem_cons_of_mem _ (List.mem_cons_of_mem _ h1)
      · intro x hx
        rcases List.mem_cons.mp hx with hx | hx
        · rw [hx]; omega
        · exact h3 x hx

/-- What `std::min_element` returns is an entry of the list that no entry is
earlier than. -/
theorem min_element_spec (cs : List CashFlow) (first : CashFlow)
    (h : min_element cs = some first) : first ∈ cs ∧ ∀ c ∈ cs, first.date_ ≤ c.date_ := by
  cases cs with
  | nil => cases h
  | cons c cs =>
    have e : cs.foldl (fun smallest x => if CashFlow.lt x smallest then x else smallest) c
        = first := by
      have : some (cs.foldl (fun smallest x => if CashFlow.lt x smallest then x else smallest) c)
          = some first := h
      exact Option.some.inj this
    obtain ⟨h1, h2, h3⟩ := min_element_fold_spec cs c
    rw [e] at h1 h2 h3
    refine ⟨h1, ?_⟩
    intro x hx
    rcases List.mem_cons.mp hx with hx | hx
    · rw [hx]; exact h2
    · exact h3 x hx

/-- On a non-empty list `GetDaysInRange` finds an earliest and a latest entry. -/
theorem GetDaysInRange_nonempty (l : CashFlowList) (hne : l.entries ≠ []) :
    ∃ start last, min_element l.entries = some start ∧ max_element l.entries = some last
      ∧ l.GetDaysInRange
          = (dates.lround (dates.GetDifferenceDays last.date_ start.date_),
              { l with start_date_ := start.date_, end_date_ := last.date_ }) := by
  cases hl : l.entries with
  | nil => exact absurd hl hne
  | cons c cs =>
    refine ⟨_, _, rfl, rfl, ?_⟩
    unfold CashFlowList.GetDaysInRange
    rw [hl]
    rw [if_pos (by simp)]
    rfl

/-- The result of `GetDaysInRange` is determined by any pair of contained dates
that bound all the others. -/
theorem GetDaysInRange_of_bounds (l : CashFlowList) (lo hi : Int)
    (hlo : lo ∈ l.entries.map (fun c => c.date_)) (hhi : hi ∈ l.entries.map (fun c => c.date_))
    (hb : ∀ d ∈ l.entries.map (fun c => c.date_), lo ≤ d ∧ d ≤ hi) :
    l.GetDaysInRange
      = (dates.lround (dates.GetDifferenceDays hi lo),
          { l with start_date_ := lo, end_date_ := hi }) := by
  have hne : l.entries ≠ [] := by
    intro he
    rw [he] at hlo
    cases hlo
  obtain ⟨start, last, hs, hl, hres⟩ := GetDaysInRange_nonempty l hne
  obtain ⟨hs1, hs2⟩ := min_element_spec _ _ hs
  obtain ⟨hl1, hl2⟩ := max_element_spec _ _ hl
  obtain ⟨clo, hclo, hclo2⟩ := List.mem_map.mp hlo
  obtain ⟨chi, hchi, hchi2⟩ := List.mem_map.mp hhi
  have e1 : start.date_ = lo := by
    have a1 := (hb start.date_ (List.mem_map.mpr ⟨start, hs1, rfl⟩)).1
    have a2 := hs2 clo hclo
    omega
  have e2 : last.date_ = hi := by
    have a1 := (hb last.date_ (List.mem_map.mpr ⟨last, hl1, rfl⟩)).2
    have a2 := hl2 chi hchi
    omega
  rw [hres, e1, e2]

/-- The bounds `GetDaysInRange` finds on a non-empty list. -/
theorem GetDaysInRange_bounds (l : CashFlowList) (hne : l.entries ≠ []) :
    ∃ lo hi : Int, lo ∈ l.entries.map (fun c => c.date_)
      ∧ hi ∈ l.entries.map (fun c => c.date_)
      ∧ (∀ d ∈ l.entries.map (fun c => c.date_), lo ≤ d ∧ d ≤ hi)
      ∧ l.GetDaysInRange
          = (dates.lround (dates.GetDifferenceDays hi lo),
              { l with start_date_ := lo, end_date_ := hi }) := by
  obtain ⟨start, last, hs, hl, hres⟩ := GetDaysInRange_nonempty l hne
  obtain ⟨hs1, hs2⟩ := min_element_spec _ _ hs
  obtain ⟨hl1, hl2⟩ := max_element_spec _ _ hl
  refine ⟨start.date_, last.date_, List.mem_map.mpr ⟨start, hs1, rfl⟩,
    List.mem_map.mpr ⟨last, hl1, rfl⟩, ?_, hres⟩
  intro d hd
  obtain ⟨c, hc, hc2⟩ := List.mem_map.mp hd
  rw [← hc2]
  exact ⟨hs2 c hc, hl2 c hc⟩

/-- C34: `GetDaysInRange` returns `0` on an empty list and leaves it as it is;
on a non-empty list it returns the rounded number of days from the earliest to
the latest contained date, which is `>= 0` and `0` for a single entry, and
stores these two dates as `start_date_` and `end_date_`, the entries staying as
they are; for two lists built from empty by appending the same flows in two
orders the result and the two stored dates are the same. -/
theorem GetDaysInRange_spec (l : CashFlowList) :
    (l.entries = [] → l.GetDaysInRange = (0, l))
      ∧ (l.entries ≠ [] →
          ∃ lo hi : Int, lo ∈ l.entries.map (fun c => c.date_)
            ∧ hi ∈ l.entries.map (fun c => c.date_)
            ∧ (∀ d ∈ l.entries.map (fun c => c.date_), lo ≤ d ∧ d ≤ hi)
            ∧ l.GetDaysInRange.1 = dates.lround (dates.GetDifferenceDays hi lo)
            ∧ 0 ≤ l.GetDaysInRange.1
            ∧ l.GetDaysInRange.2 = { l with start_date_ := lo, end_date_ := hi })
      ∧ (∀ c, l.entries = [c] →
          l.GetDaysInRange = (0, { l with start_date_ := c.date_, end_date_ := c.date_ }))
      ∧ (∀ flows flows2 : List (Int × ℚ), List.Perm flows flows2 →
          (appendAll flows).GetDaysInRange.1 = (appendAll flows2).GetDaysInRange.1
            ∧ (flows ≠ [] →
              (appendAll flows).GetDaysInRange.2.start_date_
                  = (appendAll flows2).GetDaysInRange.2.start_date_
                ∧ (appendAll flows).GetDaysInRange.2.end_date_
                  = (appendAll flows2).GetDaysInRange.2.end_date_)) := by
  refine ⟨?_, ?_, ?_, ?_⟩
  · intro he
    unfold CashFlowList.GetDaysInRange
    rw [he]
    rfl
  · intro hne
    obtain ⟨lo, hi, hlo, hhi, hb, hres⟩ := GetDaysInRange_bounds l hne
    refine ⟨lo, hi, hlo, hhi, hb, by rw [hres], ?_, by rw [hres]⟩
    rw [hres]
    exact dates.lround_nonneg _ ((dates.GetDifferenceDays_nonneg_iff hi lo).mpr (hb hi hhi).1)
  · intro c hc
    have h1 : c.date_ ∈ l.entries.map (fun c => c.date_) := by
      rw [hc]; exact List.mem_singleton.mpr rfl
    have hb : ∀ d ∈ l.entries.map (fun c => c.date_), c.date_ ≤ d ∧ d ≤ c.date_ := by
      intro d hd
      rw [hc] at hd
      have := List.mem_singleton.mp hd
      rw [this]
      exact ⟨le_refl _, le_refl _⟩
    rw [GetDaysInRange_of_bounds l c.date_ c.date_ h1 h1 hb, dates.GetDifferenceDays_self,
      dates.lround_zero]
  · intro flows flows2 hperm
    by_cases hne : flows = []
    · have hne2 : flows2 = [] := by
        rw [hne] at hperm
        exact List.Perm.eq_nil (List.Perm.symm hperm)
      rw [hne, hne2]
      exact ⟨rfl, fun h => absurd rfl h⟩
    · obtain ⟨lo, hi, hlo, hhi, hb, hres⟩ :=
        GetDaysInRange_bounds (appendAll flows) (appendAll_entries_ne_nil flows hne)
      have hd : ∀ d, d ∈ (appendAll flows2).entries.map (fun c => c.date_)
          ↔ d ∈ (appendAll flows).entries.map (fun c => c.date_) := by
        intro d
        rw [appendAll_dates, appendAll_dates]
        exact (List.Perm.mem_iff (List.Perm.map _ hperm)).symm
      have hres2 := GetDaysInRange_of_bounds (appendAll flows2) lo hi ((hd lo).mpr hlo)
        ((hd hi).mpr hhi) (fun d hd2 => hb d ((hd d).mp hd2))
      rw [hres, hres2]
      exact ⟨rfl, fun _ => ⟨rfl, rfl⟩⟩

/-- Witness for C34: three flows appended out of order, ten and thirty days
apart; the range is `30` days whichever the order. -/
theorem GetDaysInRange_spec_witness :
    List.Perm [((10 * 86400 : Int), (1 : ℚ)), (0, 2), (30 * 86400, 3)]
        [(30 * 86400, 3), (10 * 86400, 1), (0, 2)]
      ∧ (appendAll [((10 * 86400 : Int), (1 : ℚ)), (0, 2), (30 * 86400, 3)]).GetDaysInRange.1
          = (appendAll [(30 * 86400, 3), (10 * 86400, 1), (0, 2)]).GetDaysInRange.1 :=
  ⟨by decide,
    ((GetDaysInRange_spec CashFlowList.empty).2.2.2 _ _ (by decide)).1⟩

end mirr

namespace mirr

open roots

/-- Two flows appended ten days apart, the earlier one first. -/
theorem twoFlows_ascending_ten_days (t0 : Int) (a0 a1 : ℚ) :
    twoFlows t0 a0 (t0 + 10 * 86400) a1
      = { entries :=
            [{ date_ := t0, amount_ := a0, days_from_start_ := 0 },
              { date_ := t0 + 10 * 86400, amount_ := a1, days_from_start_ := 10 }],
          start_date_ := t0, end_date_ := 0 } := by
  have h2 : dates.lround (dates.GetDifferenceDays (t0 + 10 * 86400) t0) = 10 :=
    dates.lround_days_of_diff _ _ 10 (by omega)
  rw [twoFlows, push_back_two_ascending _ _ _ _ (by rw [h2]; decide), h2]

/-- The NPV of the two flows appended the later one first: the entry appended
last is discounted with the exponent `-10/10`. -/
theorem calculateNPV_descending_ten_days (pw : ℚ → ℚ → ℚ) (h1 : ∀ x, pw x 1 = x)
    (hm1 : ∀ x, pw x (-1) = x⁻¹) (t0 : Int) (a0 a1 r : ℚ) (hr : r ≠ -1) :
    (twoFlows (t0 + 10 * 86400) a1 t0 a0).calculateNPV pw r = a1 / (1 + r) + a0 * (1 + r) := by
  rw [twoFlows_descending_ten_days]
  have hlast : max_element
      ({ entries :=
            [{ date_ := t0 + 10 * 86400, amount_ := a1, days_from_start_ := 10 },
              { date_ := t0, amount_ := a0, days_from_start_ := -10 }],
          start_date_ := t0, end_date_ := 0 } : CashFlowList).entries
      = some { date_ := t0 + 10 * 86400, amount_ := a1, days_from_start_ := 10 } := by
    apply max_element_head
    intro x hx
    rw [List.mem_singleton.mp hx]
    show t0 ≤ t0 + 10 * 86400
    omega
  rw [calculateNPV_eq_sum_of_last pw _ _ hlast r hr]
  have e1 : (((10 : Int) : ℚ)) / (((10 : Int) : ℚ)) = 1 := by norm_num
  have e2 : (((-10 : Int) : ℚ)) / (((10 : Int) : ℚ)) = -1 := by norm_num
  simp only [List.map_cons, List.map_nil, List.sum_cons, List.sum_nil, e1, e2, h1, hm1,
    div_inv_eq_mul, add_zero]

/-- C33 (the code at the failing input): two flows ten days apart, appended in
the two possible orders. Appended in date order the NPV is `a0 + a1 / (1 + r)`;
appended the later one first it is `a0 * (1 + r) + a1 / (1 + r)`, which is a
different value whenever `a0 ≠ 0` and `r ≠ 0`. -/
theorem calculateNPV_depends_on_append_order (pw : ℚ → ℚ → ℚ) (h0 : ∀ x, pw x 0 = 1)
    (h1 : ∀ x, pw x 1 = x) (hm1 : ∀ x, pw x (-1) = x⁻¹) (t0 : Int) (a0 a1 r : ℚ)
    (hr : -1 < r) :
    List.Perm [(t0, a0), (t0 + 10 * 86400, a1)] [(t0 + 10 * 86400, a1), (t0, a0)]
      ∧ t0 ≠ t0 + 10 * 86400
      ∧ (appendAll [(t0, a0), (t0 + 10 * 86400, a1)]).calculateNPV pw r = a0 + a1 / (1 + r)
      ∧ (appendAll [(t0 + 10 * 86400, a1), (t0, a0)]).calculateNPV pw r
          = a0 * (1 + r) + a1 / (1 + r)
      ∧ (a0 ≠ 0 → r ≠ 0 →
          (appendAll [(t0, a0), (t0 + 10 * 86400, a1)]).calculateNPV pw r
            ≠ (appendAll [(t0 + 10 * 86400, a1), (t0, a0)]).calculateNPV pw r) := by
  have hr1 : r ≠ -1 := ne_of_gt hr
  have hasc : (appendAll [(t0, a0), (t0 + 10 * 86400, a1)]).calculateNPV pw r
      = a0 + a1 / (1 + r) := by
    rw [appendAll_pair, twoFlows_ascending_ten_days,
      calculateNPV_pair pw h0 h1 _ _ _ _ 10 a0 a1 (by omega) (by decide) r, if_neg hr1]
  have hdesc : (appendAll [(t0 + 10 * 86400, a1), (t0, a0)]).calculateNPV pw r
      = a0 * (1 + r) + a1 / (1 + r) := by
    rw [appendAll_pair, calculateNPV_descending_ten_days pw h1 hm1 t0 a0 a1 r hr1]
    ring
  refine ⟨List.Perm.swap _ _ _, by omega, hasc, hdesc, ?_⟩
  intro ha hr0
  rw [hasc, hdesc]
  intro he
  have : a0 * r = 0 := by linarith
  rcases mul_eq_zero.mp this with h | h
  · exact ha h
  · exact hr0 h

/-- Witness for C33: flows of `100` on 2015-01-01 and `75` ten days later, at
rate `1`: `100 + 75/2` appended in date order, `200 + 75/2` appended in reverse. -/
theorem calculateNPV_depends_on_append_order_witness :
    (-1 : ℚ) < 1
      ∧ (appendAll [((1420070400 : Int), (100 : ℚ)), (1420070400 + 10 * 86400, 75)]).calculateNPV
          powFloor 1 = 100 + 75 / (1 + 1)
      ∧ (appendAll [((1420070400 : Int) + 10 * 86400, (75 : ℚ)), (1420070400, 100)]).calculateNPV
          powFloor 1 = 100 * (1 + 1) + 75 / (1 + 1) :=
  ⟨by norm_num,
    (calculateNPV_depends_on_append_order powFloor powFloor_zero powFloor_one powFloor_neg_one
      1420070400 100 75 1 (by norm_num)).2.2.1,
    (calculateNPV_depends_on_append_order powFloor powFloor_zero powFloor_one powFloor_neg_one
      1420070400 100 75 1 (by norm_num)).2.2.2.1⟩

end mirr

namespace logging

/-- Flushing a log right after one more entry has been logged. -/
theorem flush_log (l : Log) (e : LogEntry) :
    (Log.flush (Log.log l e)).1
      = if e.level_logged_.toNat ≥ l.level_logged_.toNat then (Log.flush l).1 ++ e.text ++ "\n"
        else (Log.flush l).1 := by
  unfold Log.flush Log.log Log.print
  simp only [List.foldl_append, List.foldl_cons, List.foldl_nil]

/-- C35: `Log::log` appends the entry whatever its level and the level of the
log, and the reference it returns is to the stored copy, the new last element.
Flushing right away leaves out an entry below the level of the log, while
flushing after `SetLevel` has lowered the level to at most the entry's level
includes its text and newline, after the lines of the earlier entries. -/
theorem log_keeps_entries_below_level (l : Log) (e : LogEntry) :
    (Log.log l e).entries = l.entries ++ [e]
      ∧ (Log.log l e).level_logged_ = l.level_logged_
      ∧ Log.logReturned l e = l.entries.length
      ∧ (Log.log l e).at (Log.logReturned l e) = some e
      ∧ (Log.log l e).entries.getLast? = some e
      ∧ (e.level_logged_.toNat < l.level_logged_.toNat →
          (Log.flush (Log.log l e)).1 = (Log.flush l).1)
      ∧ (∀ lvl : level_logged_e, lvl.toNat ≤ e.level_logged_.toNat →
          (Log.SetLevel (Log.log l e) lvl).entries = l.entries ++ [e]
            ∧ (Log.SetLevel (Log.log l e) lvl).GetLevel = lvl
            ∧ (Log.flush (Log.SetLevel (Log.log l e) lvl)).1
                = (Log.flush (Log.SetLevel l lvl)).1 ++ e.text ++ "\n") := by
  have hent : (Log.log l e).entries = l.entries ++ [e] := rfl
  refine ⟨hent, rfl, ?_, ?_, ?_, ?_, ?_⟩
  · unfold Log.logReturned
    rw [hent, List.length_append]
    rfl
  · unfold Log.at Log.logReturned
    rw [hent, List.length_append]
    show (l.entries ++ [e]).get? (l.entries.length + 1 - 1) = some e
    rw [Nat.add_sub_cancel]
    simp
  · rw [hent]
    simp
  · intro hlt
    rw [flush_log, if_neg (not_le.mpr hlt)]
  · intro lvl hle
    refine ⟨rfl, rfl, ?_⟩
    have hswap : Log.SetLevel (Log.log l e) lvl = Log.log (Log.SetLevel l lvl) e := rfl
    have hle2 : e.level_logged_.toNat ≥ (Log.SetLevel l lvl).level_logged_.toNat := hle
    rw [hswap, flush_log, if_pos hle2]

/-- Witness for C35: a `debug` entry logged into a log at level `info` that
holds one `error` entry; flushing at once prints only the `error` line, and
flushing after `SetLevel(debug)` prints both. -/
theorem log_keeps_entries_below_level_witness :
    level_logged_e.debug.toNat < level_logged_e.info.toNat
      ∧ (Log.flush (Log.log
            { entries := [{ text := "a", level_logged_ := level_logged_e.error }],
              level_logged_ := level_logged_e.info, buffer_ := true }
            { text := "b", level_logged_ := level_logged_e.debug })).1 = "a\n"
      ∧ (Log.flush (Log.SetLevel (Log.log
            { entries := [{ text := "a", level_logged_ := level_logged_e.error }],
              level_logged_ := level_logged_e.info, buffer_ := true }
            { text := "b", level_logged_ := level_logged_e.debug })
          level_logged_e.debug)).1 = "a\nb\n" :=
  ⟨by decide,
    ((log_keeps_entries_below_level
      { entries := [{ text := "a", level_logged_ := level_logged_e.error }],
        level_logged_ := level_logged_e.info, buffer_ := true }
      { text := "b", level_logged_ := level_logged_e.debug }).2.2.2.2.2.1 (by decide)).trans
      (by decide),
    ((log_keeps_entries_below_level
      { entries := [{ text := "a", level_logged_ := level_logged_e.error }],
        level_logged_ := level_logged_e.info, buffer_ := true }
      { text := "b", level_logged_ := level_logged_e.debug }).2.2.2.2.2.2
      level_logged_e.debug (by decide)).2.2.trans (by decide)⟩

end logging

namespace dates

theorem IsLeapYear_iff (y : Int) :
    IsLeapYear y = true ↔ (4 ∣ y ∧ (¬ 100 ∣ y ∨ 400 ∣ y)) := by
  have h4 : y.tmod 4 = 0 ↔ (4 : Int) ∣ y := (Int.dvd_iff_tmod_eq_zero).symm
  have h100 : y.tmod 100 = 0 ↔ (100 : Int) ∣ y := (Int.dvd_iff_tmod_eq_zero).symm
  have h400 : y.tmod 400 = 0 ↔ (400 : Int) ∣ y := (Int.dvd_iff_tmod_eq_zero).symm
  unfold IsLeapYear
  split_ifs with c4 c400 c100
  · have : ¬ (4 : Int) ∣ y := fun h => c4 (h4.mpr h)
    simp [this]
  · have a := h400.mp c400
    have b : (4 : Int) ∣ y := by omega
    simp [a, b]
  · have a := h100.mp c100
    have b : ¬ (400 : Int) ∣ y := fun h => c400 (h400.mpr h)
    simp [a, b]
  · have a : ¬ (100 : Int) ∣ y := fun h => c100 (h100.mpr h)
    have b : (4 : Int) ∣ y := h4.mp (not_not.mp c4)
    simp [a, b]

theorem GetDaysInMonth_in_range (y m : Int) (h0 : 0 ≤ m) (h1 : m < 12) :
    GetDaysInMonth y m
      = some (daysInMonths.getD m.toNat 0 + if m = 1 ∧ IsLeapYear y = true then 1 else 0) := by
  unfold GetDaysInMonth
  rw [if_pos ⟨h0, h1⟩]
  simp only []
  split_ifs
  · rfl
  · rw [add_zero]

theorem GetDaysInMonth_out_of_range (y m : Int) (h : m < 0 ∨ 12 ≤ m) :
    GetDaysInMonth y m = none := by
  unfold GetDaysInMonth
  rw [if_neg (by omega)]

/-- C36: `IsLeapYear(y)` holds exactly when `4` divides `y` and `100` does not
or `400` does; for a month index `m` in `0..11`, `GetDaysInMonth(y, m)` is the
table length of month `m` (31, 28, 31, 30, 31, 30, 31, 31, 30, 31, 30, 31) plus
one exactly when `m = 1` and `IsLeapYear(y)`. -/
theorem IsLeapYear_GetDaysInMonth_spec (y : Int) :
    (IsLeapYear y = true ↔ (4 ∣ y ∧ (¬ 100 ∣ y ∨ 400 ∣ y)))
      ∧ (∀ m : Int, 0 ≤ m → m < 12 →
          GetDaysInMonth y m
            = some (daysInMonths.getD m.toNat 0
                + if m = 1 ∧ IsLeapYear y = true then 1 else 0))
      ∧ daysInMonths = [31, 28, 31, 30, 31, 30, 31, 31, 30, 31, 30, 31]
      ∧ (∀ m : Int, 0 ≤ m → m < 12 →
          GetDaysInMonth y m
            = some (if m = 1 then (if 4 ∣ y ∧ (¬ 100 ∣ y ∨ 400 ∣ y) then 29 else 28)
                else if m = 3 ∨ m = 5 ∨ m = 8 ∨ m = 10 then 30 else 31)) := by
  refine ⟨IsLeapYear_iff y, GetDaysInMonth_in_range y, rfl, ?_⟩
  intro m h0 h1
  rw [GetDaysInMonth_in_range y m h0 h1]
  have hm : m = 0 ∨ m = 1 ∨ m = 2 ∨ m = 3 ∨ m = 4 ∨ m = 5 ∨ m = 6 ∨ m = 7 ∨ m = 8 ∨ m = 9
      ∨ m = 10 ∨ m = 11 := by omega
  by_cases hl : IsLeapYear y = true
  · have hd := (IsLeapYear_iff y).mp hl
    rcases hm with h | h | h | h | h | h | h | h | h | h | h | h <;> subst h <;>
      simp [daysInMonths, hl, hd]
  · have hd : ¬ (4 ∣ y ∧ (¬ 100 ∣ y ∨ 400 ∣ y)) := fun h => hl ((IsLeapYear_iff y).mpr h)
    rcases hm with h | h | h | h | h | h | h | h | h | h | h | h <;> subst h <;>
      simp [daysInMonths, hl, hd]

/-- Witness for C36: February of the years 2000, 1900 and 2024, and April. -/
theorem IsLeapYear_GetDaysInMonth_spec_witness :
    GetDaysInMonth 2000 1 = some 29 ∧ GetDaysInMonth 1900 1 = some 28
      ∧ GetDaysInMonth 2024 1 = some 29 ∧ GetDaysInMonth 2023 3 = some 30 :=
  ⟨((IsLeapYear_GetDaysInMonth_spec 2000).2.2.2 1 (by decide) (by decide)).trans (by decide),
    ((IsLeapYear_GetDaysInMonth_spec 1900).2.2.2 1 (by decide) (by decide)).trans (by decide),
    ((IsLeapYear_GetDaysInMonth_spec 2024).2.2.2 1 (by decide) (by decide)).trans (by decide),
    ((IsLeapYear_GetDaysInMonth_spec 2023).2.2.2 3 (by decide) (by decide)).trans (by decide)⟩

end dates

namespace dates

/-- Truncating remainder and quotient by `12`. -/
theorem tmod_twelve (n : Int) :
    -12 < n.tmod 12 ∧ n.tmod 12 < 12 ∧ 12 * n.tdiv 12 + n.tmod 12 = n
      ∧ (0 ≤ n → 0 ≤ n.tmod 12) ∧ (n ≤ 0 → n.tmod 12 ≤ 0) := by
  have hlt : n.tmod 12 < 12 := Int.tmod_lt_of_pos n (by decide)
  have hneg : n ≤ 0 → -12 < n.tmod 12 ∧ n.tmod 12 ≤ 0 := by
    intro h
    cases n with
    | ofNat m =>
      have hm : m = 0 := by
        have : (m : Int) ≤ 0 := h
        omega
      subst hm
      decide
    | negSucc m =>
      have e : (Int.negSucc m).tmod 12 = -(((m + 1) % 12 : Nat) : Int) := rfl
      rw [e]
      omega
  refine ⟨?_, hlt, Int.tdiv_add_tmod n 12, fun h => Int.tmod_nonneg 12 h, fun h => (hneg h).2⟩
  by_cases h : 0 ≤ n
  · have := Int.tmod_nonneg 12 h
    omega
  · exact (hneg (by omega)).1

/-- The value of `AddMonths` when both calls of `GetDaysInMonth` pass their
assertions. -/
theorem AddMonths_some (d : tm) (n : Int) (len1 len2 : Int)
    (hfirst : GetDaysInMonth d.tm_year d.tm_mon = some len1)
    (hsecond : GetDaysInMonth
        (if d.tm_mon + n.tmod 12 > 11 then d.tm_year + n.tdiv 12 + 1 else d.tm_year + n.tdiv 12)
        (if d.tm_mon + n.tmod 12 > 11 then d.tm_mon + n.tmod 12 - 12 else d.tm_mon + n.tmod 12)
      = some len2) :
    AddMonths d n
      = some
        { tm_sec := d.tm_sec
          tm_min := d.tm_min
          tm_hour := d.tm_hour
          tm_mday := if d.tm_mday = len1 then len2 else min d.tm_mday len2
          tm_mon :=
            if d.tm_mon + n.tmod 12 > 11 then d.tm_mon + n.tmod 12 - 12
            else d.tm_mon + n.tmod 12
          tm_year :=
            if d.tm_mon + n.tmod 12 > 11 then d.tm_year + n.tdiv 12 + 1
            else d.tm_year + n.tdiv 12
          tm_wday := 0
          tm_yday := 0
          tm_isdst := 0 } := by
  unfold AddMonths
  rw [hfirst]
  simp only [hsecond, decide_eq_true_eq]

/-- The value of `AddMonths` when the second call of `GetDaysInMonth` fails an
assertion. -/
theorem AddMonths_none (d : tm) (n : Int) (len1 : Int)
    (hfirst : GetDaysInMonth d.tm_year d.tm_mon = some len1)
    (hsecond : GetDaysInMonth
        (if d.tm_mon + n.tmod 12 > 11 then d.tm_year + n.tdiv 12 + 1 else d.tm_year + n.tdiv 12)
        (if d.tm_mon + n.tmod 12 > 11 then d.tm_mon + n.tmod 12 - 12 else d.tm_mon + n.tmod 12)
      = none) :
    AddMonths d n = none := by
  unfold AddMonths
  rw [hfirst]
  simp only [hsecond]

end dates

namespace dates

/-- Whenever `AddMonths` returns, the two calls of `GetDaysInMonth` returned, the
second one for the year and month of the result, and the day of the result is
the second length when the day of the input equals the first, and the smaller
of the input day and the second length otherwise. -/
theorem AddMonths_day (d : tm) (n : Int) (r : tm) (hr : AddMonths d n = some r) :
    ∃ len1 len2 : Int, GetDaysInMonth d.tm_year d.tm_mon = some len1
      ∧ GetDaysInMonth r.tm_year r.tm_mon = some len2
      ∧ r.tm_mday = (if d.tm_mday = len1 then len2 else min d.tm_mday len2)
      ∧ r.tm_mon
          = (if d.tm_mon + n.tmod 12 > 11 then d.tm_mon + n.tmod 12 - 12
              else d.tm_mon + n.tmod 12)
      ∧ r.tm_year
          = (if d.tm_mon + n.tmod 12 > 11 then d.tm_year + n.tdiv 12 + 1
              else d.tm_year + n.tdiv 12)
      ∧ r.tm_hour = d.tm_hour ∧ r.tm_min = d.tm_min ∧ r.tm_sec = d.tm_sec := by
  cases hf : GetDaysInMonth d.tm_year d.tm_mon with
  | none =>
    unfold AddMonths at hr
    rw [hf] at hr
    cases hr
  | some len1 =>
    cases hs : GetDaysInMonth
        (if d.tm_mon + n.tmod 12 > 11 then d.tm_year + n.tdiv 12 + 1 else d.tm_year + n.tdiv 12)
        (if d.tm_mon + n.tmod 12 > 11 then d.tm_mon + n.tmod 12 - 12
          else d.tm_mon + n.tmod 12) with
    | none =>
      rw [AddMonths_none d n len1 hf hs] at hr
      cases hr
    | some len2 =>
      rw [AddMonths_some d n len1 len2 hf hs] at hr
      have hr2 := (Option.some.inj hr).symm
      subst hr2
      exact ⟨len1, len2, rfl, hs, rfl, rfl, rfl, rfl, rfl, rfl⟩

/-- For a month index in `0..11`, `AddMonths` fails the assertion
`month >= 0` exactly when `tm_mon + months % 12` is negative. -/
theorem AddMonths_none_iff (d : tm) (n : Int) (h0 : 0 ≤ d.tm_mon) (h1 : d.tm_mon < 12) :
    AddMonths d n = none ↔ d.tm_mon + n.tmod 12 < 0 := by
  obtain ⟨hb1, hb2, -, -, -⟩ := tmod_twelve n
  have hf := GetDaysInMonth_in_range d.tm_year d.tm_mon h0 h1
  constructor
  · intro hnone
    by_contra hge
    have hs := GetDaysInMonth_in_range
      (if d.tm_mon + n.tmod 12 > 11 then d.tm_year + n.tdiv 12 + 1 else d.tm_year + n.tdiv 12)
      (if d.tm_mon + n.tmod 12 > 11 then d.tm_mon + n.tmod 12 - 12 else d.tm_mon + n.tmod 12)
      (by split_ifs <;> omega) (by split_ifs <;> omega)
    rw [AddMonths_some d n _ _ hf hs] at hnone
    cases hnone
  · intro hneg
    refine AddMonths_none d n _ hf ?_
    rw [if_neg (by omega), if_neg (by omega)]
    exact GetDaysInMonth_out_of_range _ _ (Or.inl hneg)

/-- C37 (the code at the failing inputs): the day of the result is computed from
`GetDaysInMonth(tm_year, ...)`, with `tm_year` itself as the year. For
2000-01-31 (`tm_year = 100`) plus one month the result is day `28` of month `1`,
because `IsLeapYear(100)` is false, while February 2000 has `29` days; and
1900-02-28 (`tm_year = 0`) plus one month is day `28` of month `2`, because
`IsLeapYear(0)` makes `28` not the last day of the input month, while
February 1900 has `28` days and March `31`. -/
theorem AddMonths_leap_year_from_tm_year :
    (∀ (d : tm) (n : Int) (r : tm), AddMonths d n = some r →
        ∃ len1 len2 : Int, GetDaysInMonth d.tm_year d.tm_mon = some len1
          ∧ GetDaysInMonth r.tm_year r.tm_mon = some len2
          ∧ r.tm_mday = (if d.tm_mday = len1 then len2 else min d.tm_mday len2))
      ∧ AddMonths
          { tm_sec := 0, tm_min := 0, tm_hour := 0, tm_mday := 31, tm_mon := 0, tm_year := 100,
            tm_wday := 1, tm_yday := 30, tm_isdst := 0 } 1
        = some
          { tm_sec := 0, tm_min := 0, tm_hour := 0, tm_mday := 28, tm_mon := 1, tm_year := 100,
            tm_wday := 0, tm_yday := 0, tm_isdst := 0 }
      ∧ IsLeapYear 100 = false
      ∧ IsLeapYear (100 + 1900) = true
      ∧ GetDaysInMonth (100 + 1900) 1 = some 29
      ∧ AddMonths
          { tm_sec := 0, tm_min := 0, tm_hour := 0, tm_mday := 28, tm_mon := 1, tm_year := 0,
            tm_wday := 3, tm_yday := 58, tm_isdst := 0 } 1
        = some
          { tm_sec := 0, tm_min := 0, tm_hour := 0, tm_mday := 28, tm_mon := 2, tm_year := 0,
            tm_wday := 0, tm_yday := 0, tm_isdst := 0 }
      ∧ IsLeapYear 0 = true
      ∧ GetDaysInMonth (0 + 1900) 1 = some 28
      ∧ GetDaysInMonth (0 + 1900) 2 = some 31 := by
  refine ⟨?_, by decide, by decide, by decide, by decide, by decide, by decide, by decide,
    by decide⟩
  intro d n r hr
  obtain ⟨len1, len2, h1, h2, h3, -⟩ := AddMonths_day d n r hr
  exact ⟨len1, len2, h1, h2, h3⟩

/-- Witness for C37: 2001-01-31 plus one month; `tm_year = 101`, the lengths are
`31` and `28`, and the day of the result is `28`. -/
theorem AddMonths_leap_year_from_tm_year_witness :
    ∃ len1 len2 : Int, GetDaysInMonth 101 0 = some len1 ∧ GetDaysInMonth 101 1 = some len2
      ∧ (28 : Int) = (if (31 : Int) = len1 then len2 else min 31 len2) :=
  AddMonths_leap_year_from_tm_year.1
    { tm_sec := 0, tm_min := 0, tm_hour := 0, tm_mday := 31, tm_mon := 0, tm_year := 101,
      tm_wday := 3, tm_yday := 30, tm_isdst := 0 } 1
    { tm_sec := 0, tm_min := 0, tm_hour := 0, tm_mday := 28, tm_mon := 1, tm_year := 101,
      tm_wday := 0, tm_yday := 0, tm_isdst := 0 } (by decide)

/-- C38 (the code at the failing inputs): for a month index in `0..11`,
`AddMonths` trips the assertion `month >= 0` of `GetDaysInMonth` exactly when
`tm_mon + months % 12 < 0`, which happens only for negative `months`, the
remainder of a negative `int` being negative or zero and the code adjusting
only `month > 11`. Whenever it returns, the month index of the result is in
`0..11`, the month count is the input's plus `months`, and hour, minute and
second are copied; for `months >= 0` it always returns. -/
theorem AddMonths_negative_months_assert (d : tm) (n : Int) (h0 : 0 ≤ d.tm_mon)
    (h1 : d.tm_mon < 12) :
    (AddMonths d n = none ↔ d.tm_mon + n.tmod 12 < 0)
      ∧ (d.tm_mon + n.tmod 12 < 0 →
          n < 0 ∧ GetDaysInMonth (d.tm_year + n.tdiv 12) (d.tm_mon + n.tmod 12) = none)
      ∧ (∀ r : tm, AddMonths d n = some r →
          0 ≤ r.tm_mon ∧ r.tm_mon < 12
            ∧ 12 * r.tm_year + r.tm_mon = 12 * d.tm_year + d.tm_mon + n
            ∧ r.tm_hour = d.tm_hour ∧ r.tm_min = d.tm_min ∧ r.tm_sec = d.tm_sec)
      ∧ (0 ≤ n → ∃ r : tm, AddMonths d n = some r) := by
  obtain ⟨hb1, hb2, hb3, hb4, hb5⟩ := tmod_twelve n
  have hiff := AddMonths_none_iff d n h0 h1
  refine ⟨hiff, ?_, ?_, ?_⟩
  · intro hneg
    refine ⟨?_, GetDaysInMonth_out_of_range _ _ (Or.inl hneg)⟩
    by_contra hn
    have := hb4 (by omega)
    omega
  · intro r hr
    have hge : ¬ d.tm_mon + n.tmod 12 < 0 := by
      intro hneg
      rw [hiff.mpr hneg] at hr
      cases hr
    obtain ⟨len1, len2, -, -, -, hm, hy, hh, hmi, hs⟩ := AddMonths_day d n r hr
    refine ⟨?_, ?_, ?_, hh, hmi, hs⟩
    · rw [hm]; split_ifs <;> omega
    · rw [hm]; split_ifs <;> omega
    · rw [hm, hy]; split_ifs <;> omega
  · intro hn
    have hge : ¬ d.tm_mon + n.tmod 12 < 0 := by
      have := hb4 hn
      omega
    cases hres : AddMonths d n with
    | none => exact absurd (hiff.mp hres) hge
    | some r => exact ⟨r, rfl⟩

/-- Witness for C38: 2001-01-15 minus one month; the month index becomes `-1`
and the assertion fails. -/
theorem AddMonths_negative_months_assert_witness :
    (0 : Int) ≤ 0 ∧ (0 : Int) < 12
      ∧ AddMonths
          { tm_sec := 0, tm_min := 0, tm_hour := 0, tm_mday := 15, tm_mon := 0, tm_year := 101,
            tm_wday := 1, tm_yday := 14, tm_isdst := 0 } (-1) = none :=
  ⟨by decide, by decide,
    (AddMonths_negative_months_assert
      { tm_sec := 0, tm_min := 0, tm_hour := 0, tm_mday := 15, tm_mon := 0, tm_year := 101,
        tm_wday := 1, tm_yday := 14, tm_isdst := 0 } (-1) (by decide) (by decide)).1.mpr
      (by decide)⟩

end dates

namespace ieee

theorem roundHalfEven_near (y : ℚ) (n : Int) (h : |y - n| < 1 / 2) : roundHalfEven y = n := by
  obtain ⟨h1, h2⟩ := abs_lt.mp h
  unfold roundHalfEven
  by_cases hle : (n : ℚ) ≤ y
  · have hf : ⌊y⌋ = n := Int.floor_eq_iff.mpr ⟨hle, by linarith⟩
    have hfr : Int.fract y = y - n := by rw [← Int.self_sub_floor, hf]
    rw [if_pos (by rw [hfr]; linarith), hf]
  · have hlt : y < n := not_le.mp hle
    have hf : ⌊y⌋ = n - 1 := Int.floor_eq_iff.mpr ⟨by push_cast; linarith, by push_cast; linarith⟩
    have hfr : Int.fract y = y - n + 1 := by
      rw [← Int.self_sub_floor, hf]; push_cast; ring
    rw [if_neg (by rw [hfr]; linarith), if_pos (by rw [hfr]; linarith), hf]
    ring

theorem roundHalfEven_intCast (n : Int) : roundHalfEven (n : ℚ) = n :=
  roundHalfEven_near _ n (by rw [sub_self, abs_zero]; norm_num)

theorem roundHalfEven_small (y : ℚ) (h : |y| ≤ 1 / 2) : roundHalfEven y = 0 := by
  obtain ⟨h1, h2⟩ := abs_le.mp h
  rcases lt_or_eq_of_le h2 with hlt | heq
  · rcases lt_or_eq_of_le h1 with hgt | heq2
    · exact roundHalfEven_near y 0 (by rw [Int.cast_zero, sub_zero]; exact abs_lt.mpr ⟨hgt, hlt⟩)
    · have hy : y = -(1 / 2) := heq2.symm
      have hf : ⌊y⌋ = -1 := Int.floor_eq_iff.mpr ⟨by rw [hy]; norm_num, by rw [hy]; norm_num⟩
      have hfr : Int.fract y = 1 / 2 := by
        rw [← Int.self_sub_floor, hf, hy]; norm_num
      unfold roundHalfEven
      rw [hfr, if_neg (lt_irrefl _), if_neg (lt_irrefl _), hf]
      decide
  · have hf : ⌊y⌋ = 0 := Int.floor_eq_iff.mpr ⟨by rw [heq]; norm_num, by rw [heq]; norm_num⟩
    have hfr : Int.fract y = 1 / 2 := by
      rw [← Int.self_sub_floor, hf, heq]; norm_num
    unfold roundHalfEven
    rw [hfr, if_neg (lt_irrefl _), if_neg (lt_irrefl _), hf]
    decide

theorem roundHalfEven_nonneg (y : ℚ) (h : 0 ≤ y) : 0 ≤ roundHalfEven y := by
  have hf : 0 ≤ ⌊y⌋ := Int.floor_nonneg.mpr h
  unfold roundHalfEven
  split_ifs <;> omega

theorem roundHalfEven_nonpos (y : ℚ) (h : y ≤ 0) : roundHalfEven y ≤ 0 := by
  rcases lt_or_eq_of_le h with hlt | heq
  · have hf : ⌊y⌋ < 0 := Int.floor_lt.mpr (by simpa using hlt)
    unfold roundHalfEven
    split_ifs <;> omega
  · rw [heq]
    exact le_of_eq (roundHalfEven_intCast 0)

theorem two_zpow_pos (k : Int) : (0 : ℚ) < (2 : ℚ) ^ k := zpow_pos (by norm_num) k

theorem Format.round_zero (F : Format) : F.round 0 = 0 := by
  unfold Format.round
  rw [zero_div]
  have := roundHalfEven_intCast 0
  rw [Int.cast_zero] at this
  rw [this, Int.cast_zero, zero_mul]

theorem Format.round_nonneg (F : Format) (x : ℚ) (h : 0 ≤ x) : 0 ≤ F.round x := by
  unfold Format.round
  apply mul_nonneg _ (le_of_lt (two_zpow_pos _))
  exact_mod_cast roundHalfEven_nonneg _ (div_nonneg h (le_of_lt (two_zpow_pos _)))

theorem Format.round_nonpos (F : Format) (x : ℚ) (h : x ≤ 0) : F.round x ≤ 0 := by
  unfold Format.round
  apply mul_nonpos_of_nonpos_of_nonneg _ (le_of_lt (two_zpow_pos _))
  exact_mod_cast roundHalfEven_nonpos _ (div_nonpos_of_nonpos_of_nonneg h (le_of_lt (two_zpow_pos _)))

/-- The binary logarithm of a positive rational, pinned between two powers. -/
theorem log_two_eq (x : ℚ) (e : Int) (h1 : (2 : ℚ) ^ e ≤ x) (h2 : x < (2 : ℚ) ^ (e + 1)) :
    Int.log 2 x = e := by
  have hx : 0 < x := lt_of_lt_of_le (two_zpow_pos e) h1
  have a : e ≤ Int.log 2 x := (Int.zpow_le_iff_le_log (by norm_num) hx).mp (by simpa using h1)
  have b : Int.log 2 x < e + 1 := (Int.lt_zpow_iff_log_lt (by norm_num) hx).mp (by simpa using h2)
  omega

theorem log_two_lt (x : ℚ) (e : Int) (hx : 0 < x) (h2 : x < (2 : ℚ) ^ e) : Int.log 2 x < e :=
  (Int.lt_zpow_iff_log_lt (by norm_num) hx).mp (by simpa using h2)

/-- Rounding with the unit in the last place known. -/
theorem Format.round_of_ulpExponent (F : Format) (x : ℚ) (u : Int) (n : Int)
    (hu : F.ulpExponent x = u) (hn : |x / (2 : ℚ) ^ u - n| < 1 / 2) :
    F.round x = n * (2 : ℚ) ^ u := by
  unfold Format.round
  rw [hu, roundHalfEven_near _ n hn]

/-- Rounding in a known binade: the nearest multiple of the unit in the last
place, when it is nearer than half a unit. -/
theorem Format.round_nearest (F : Format) (x : ℚ) (e : Int) (n : Int)
    (h1 : (2 : ℚ) ^ e ≤ |x|) (h2 : |x| < (2 : ℚ) ^ (e + 1)) (he : F.emin ≤ e)
    (hn : |x / (2 : ℚ) ^ (e - ((F.precision : Int) - 1)) - n| < 1 / 2) :
    F.round x = n * (2 : ℚ) ^ (e - ((F.precision : Int) - 1)) := by
  apply Format.round_of_ulpExponent F x _ n _ hn
  unfold Format.ulpExponent
  rw [log_two_eq |x| e h1 h2, max_eq_left he]

/-- Numbers `m * 2^k` with `|m| < 2^p` and `k` not below the exponent of the
smallest subnormal are numbers of the format: rounding leaves them as they
are. -/
theorem Format.round_exact (F : Format) (m k : Int) (hm : |(m : ℚ)| < (2 : ℚ) ^ (F.precision : Int))
    (hk : F.emin - ((F.precision : Int) - 1) ≤ k) :
    F.round ((m : ℚ) * (2 : ℚ) ^ k) = (m : ℚ) * (2 : ℚ) ^ k := by
  by_cases hm0 : m = 0
  · rw [hm0, Int.cast_zero, zero_mul]; exact Format.round_zero F
  have hxpos : 0 < |(m : ℚ) * (2 : ℚ) ^ k| := by
    rw [abs_pos]
    exact mul_ne_zero (Int.cast_ne_zero.mpr hm0) (ne_of_gt (two_zpow_pos k))
  have hule : F.ulpExponent ((m : ℚ) * (2 : ℚ) ^ k) ≤ k := by
    unfold Format.ulpExponent
    have hlog : Int.log 2 |(m : ℚ) * (2 : ℚ) ^ k| < (F.precision : Int) + k := by
      apply log_two_lt _ _ hxpos
      rw [abs_mul, abs_of_pos (two_zpow_pos k), zpow_add₀ (by norm_num : (2 : ℚ) ≠ 0)]
      exact mul_lt_mul_of_pos_right hm (two_zpow_pos k)
    rcases max_cases (Int.log 2 |(m : ℚ) * (2 : ℚ) ^ k|) F.emin with ⟨h, -⟩ | ⟨h, -⟩ <;>
      rw [h] <;> omega
  obtain ⟨d, hd⟩ : ∃ d : Nat, k = F.ulpExponent ((m : ℚ) * (2 : ℚ) ^ k) + d :=
    ⟨(k - F.ulpExponent ((m : ℚ) * (2 : ℚ) ^ k)).toNat, by omega⟩
  have hq : (m : ℚ) * (2 : ℚ) ^ k
      = ((m * 2 ^ d : Int) : ℚ) * (2 : ℚ) ^ F.ulpExponent ((m : ℚ) * (2 : ℚ) ^ k) := by
    conv_lhs => rw [hd]
    rw [zpow_add₀ (by norm_num : (2 : ℚ) ≠ 0), zpow_natCast]
    push_cast
    ring
  unfold Format.round
  have hdiv : (m : ℚ) * (2 : ℚ) ^ k / (2 : ℚ) ^ F.ulpExponent ((m : ℚ) * (2 : ℚ) ^ k)
      = ((m * 2 ^ d : Int) : ℚ) := by
    rw [div_eq_iff (ne_of_gt (two_zpow_pos _))]
    exact hq
  rw [hdiv, roundHalfEven_intCast]
  exact hq.symm

/-- Below half the smallest subnormal number, and at it, rounding gives zero. -/
theorem Format.round_underflow (F : Format) (hp : 0 < F.precision) (x : ℚ)
    (h : |x| ≤ (2 : ℚ) ^ (F.emin - (F.precision : Int))) : F.round x = 0 := by
  by_cases hx0 : x = 0
  · rw [hx0]; exact Format.round_zero F
  have hxpos : 0 < |x| := abs_pos.mpr hx0
  have hu : F.ulpExponent x = F.emin - ((F.precision : Int) - 1) := by
    unfold Format.ulpExponent
    have hlog : Int.log 2 |x| < F.emin := by
      apply log_two_lt _ _ hxpos
      apply lt_of_le_of_lt h
      apply zpow_lt_zpow_right₀ (by norm_num)
      have : (0 : Int) < (F.precision : Int) := Int.natCast_pos.mpr hp
      omega
    rw [max_eq_right (le_of_lt hlog)]
  unfold Format.round
  rw [hu]
  have hsmall : |x / (2 : ℚ) ^ (F.emin - ((F.precision : Int) - 1))| ≤ 1 / 2 := by
    rw [abs_div, abs_of_pos (two_zpow_pos _), div_le_iff₀ (two_zpow_pos _)]
    have e : (1 / 2 : ℚ) * (2 : ℚ) ^ (F.emin - ((F.precision : Int) - 1))
        = (2 : ℚ) ^ (F.emin - (F.precision : Int)) := by
      rw [show F.emin - ((F.precision : Int) - 1) = (F.emin - (F.precision : Int)) + 1 by ring,
        zpow_add₀ (by norm_num : (2 : ℚ) ≠ 0), zpow_one]
      ring
    rw [e]; exact h
  rw [roundHalfEven_small _ hsmall, Int.cast_zero, zero_mul]

end ieee

namespace longdouble

open roots (SolverState kMaxIterations Consistent swapIfCounterCloser prepare initialState
  methods_available relative_to_solution_e)

theorem ld_iterate_count (A : Arithmetic) (f : ℚ → ℚ) (s : SolverState) :
    (iterate A f s).count = s.count + 1 := by
  unfold iterate
  simp only [roots.swapIfCounterCloser_count]

theorem ld_iterate_evaluated (A : Arithmetic) (f : ℚ → ℚ) (s : SolverState) :
    (iterate A f s).evaluated = s.evaluated ++ [nextEstimate A s] := by
  unfold iterate
  simp only [roots.swapIfCounterCloser_evaluated]

theorem ld_swap_method_to_use (s : SolverState) :
    (swapIfCounterCloser s).method_to_use = s.method_to_use := by
  unfold swapIfCounterCloser; split <;> rfl

theorem ld_iterate_method_to_use (A : Arithmetic) (f : ℚ → ℚ) (s : SolverState) :
    (iterate A f s).method_to_use = chooseMethod A s (candidate A s).1 (candidate A s).2 := by
  unfold iterate
  simp only [ld_swap_method_to_use]

theorem ld_iterate_consistent (A : Arithmetic) (f : ℚ → ℚ) (s : SolverState)
    (h : Consistent f s) : Consistent f (iterate A f s) := by
  unfold iterate
  apply roots.swapIfCounterCloser_consistent
  by_cases hc : A.mul (f (nextEstimate A s)) s.result_kCounter < 0
  · simp only [hc, if_true]
    exact ⟨rfl, h.2⟩
  · simp only [hc, if_false]
    exact ⟨h.1, rfl⟩

theorem ld_whileLoop_consistent (A : Arithmetic) (f : ℚ → ℚ) (fuel : Nat) (s : SolverState)
    (h : Consistent f s) : Consistent f (whileLoop A f fuel s) := by
  induction fuel generalizing s with
  | zero => exact h
  | succ n ih =>
    unfold whileLoop
    by_cases hc : s.count < kMaxIterations
    · simp only [hc, if_true]
      by_cases hv : converged A (iterate A f s) = true
      · simp only [hv, if_true]; exact ld_iterate_consistent A f s h
      · simp only [hv, Bool.false_eq_true, if_false]; exact ih _ (ld_iterate_consistent A f s h)
    · simp only [hc, if_false]; exact h

theorem ld_whileLoop_count_le (A : Arithmetic) (f : ℚ → ℚ) (fuel : Nat) (s : SolverState)
    (h : s.count ≤ kMaxIterations) : (whileLoop A f fuel s).count ≤ kMaxIterations := by
  induction fuel generalizing s with
  | zero => exact h
  | succ n ih =>
    unfold whileLoop
    by_cases hc : s.count < kMaxIterations
    · have h1 : (iterate A f s).count ≤ kMaxIterations := by
        rw [ld_iterate_count]; exact hc
      simp only [hc, if_true]
      by_cases hv : converged A (iterate A f s) = true
      · simp only [hv, if_true]; exact h1
      · simp only [hv, Bool.false_eq_true, if_false]; exact ih _ h1
    · simp only [hc, if_false]; exact h

theorem ld_whileLoop_evaluated_length (A : Arithmetic) (f : ℚ → ℚ) (fuel : Nat)
    (s : SolverState) :
    (whileLoop A f fuel s).evaluated.length + s.count
      = s.evaluated.length + (whileLoop A f fuel s).count := by
  induction fuel generalizing s with
  | zero => rfl
  | succ n ih =>
    unfold whileLoop
    have h1 : (iterate A f s).evaluated.length + s.count
        = s.evaluated.length + (iterate A f s).count := by
      rw [ld_iterate_count, ld_iterate_evaluated, List.length_append, List.length_singleton]
      omega
    by_cases hc : s.count < kMaxIterations
    · simp only [hc, if_true]
      by_cases hv : converged A (iterate A f s) = true
      · simp only [hv, if_true]; exact h1
      · simp only [hv, Bool.false_eq_true, if_false]
        have h2 := ih (iterate A f s)
        have h3 := ld_iterate_count A f s
        omega
    · simp only [hc, if_false]

/-- On exit from the loop either a `break` test holds or the cap is reached. -/
theorem ld_whileLoop_exit (A : Arithmetic) (f : ℚ → ℚ) (fuel : Nat) (s : SolverState)
    (hfuel : kMaxIterations ≤ s.count + fuel) (h : s.count ≤ kMaxIterations) :
    converged A (whileLoop A f fuel s) = true
      ∨ (whileLoop A f fuel s).count = kMaxIterations := by
  induction fuel generalizing s with
  | zero => right; exact le_antisymm h hfuel
  | succ n ih =>
    unfold whileLoop
    by_cases hc : s.count < kMaxIterations
    · simp only [hc, if_true]
      by_cases hv : converged A (iterate A f s) = true
      · simp only [hv, if_true]; left; trivial
      · simp only [hv, Bool.false_eq_true, if_false]
        apply ih
        · rw [ld_iterate_count]; omega
        · rw [ld_iterate_count]; exact hc
    · simp only [hc, if_false]; right; omega

theorem ld_converged_iff (A : Arithmetic) (s : SolverState) :
    converged A s = true ↔
      (|A.sub s.estimate_kBest s.estimate_kCounter| < A.literal_1e_9
        ∨ |s.result_kBest| < A.literal_1e_9) := by
  unfold converged
  simp only [Bool.or_eq_true, decide_eq_true_eq]

theorem ld_SearchForRootTrace_error (A : Arithmetic) (a b : ℚ) (f : ℚ → ℚ)
    (h : A.mul (f b) (f a) ≥ 0) :
    SearchForRootTrace A a b f
      = (Except.error (if f a < 0 then relative_to_solution_e.too_low
            else relative_to_solution_e.too_high), initialState a b f) := by
  have h1 : A.mul (initialState a b f).result_kCounter (initialState a b f).result_kBest ≥ 0 := h
  unfold SearchForRootTrace
  simp only [h1, if_true]
  by_cases hb : f a < 0
  · have h2 : (initialState a b f).result_kBest < 0 := hb
    simp only [h2, hb, if_true]
  · have h2 : ¬ (initialState a b f).result_kBest < 0 := hb
    simp only [h2, hb, if_false]

theorem ld_SearchForRootTrace_ok (A : Arithmetic) (a b : ℚ) (f : ℚ → ℚ)
    (h : A.mul (f b) (f a) < 0) :
    SearchForRootTrace A a b f
      = (Except.ok (whileLoop A f kMaxIterations (prepare (initialState a b f))).estimate_kBest,
          whileLoop A f kMaxIterations (prepare (initialState a b f))) := by
  have h1 : ¬ A.mul (initialState a b f).result_kCounter (initialState a b f).result_kBest ≥ 0 :=
    not_le.mpr h
  unfold SearchForRootTrace
  simp only [h1, if_false]

/-- The points evaluated by the loop are those the state already records,
followed by the point each executed pass evaluates. -/
theorem ld_whileLoop_evaluated_iterations (A : Arithmetic) (f : ℚ → ℚ) (fuel : Nat)
    (s : SolverState) :
    (whileLoop A f fuel s).evaluated
      = s.evaluated ++ (iterations A f fuel s).map (fun q => nextEstimate A q.1) := by
  induction fuel generalizing s with
  | zero => exact (List.append_nil _).symm
  | succ n ih =>
    unfold whileLoop iterations
    by_cases hc : s.count < kMaxIterations
    · simp only [hc, if_true]
      by_cases hv : converged A (iterate A f s) = true
      · simp only [hv, if_true]
        exact ld_iterate_evaluated A f s
      · simp only [hv, Bool.false_eq_true, if_false]
        rw [ih (iterate A f s), ld_iterate_evaluated, List.map_cons, List.append_assoc]
        rfl
    · simp only [hc, if_false]
      exact (List.append_nil _).symm

/-- The final state of the loop is the end state of its last executed pass. -/
theorem ld_whileLoop_eq_last_iteration (A : Arithmetic) (f : ℚ → ℚ) (fuel : Nat)
    (s : SolverState) :
    whileLoop A f fuel s = (((iterations A f fuel s).getLast?).map (fun q => q.2)).getD s := by
  induction fuel generalizing s with
  | zero => rfl
  | succ n ih =>
    unfold whileLoop iterations
    by_cases hc : s.count < kMaxIterations
    · simp only [hc, if_true]
      by_cases hv : converged A (iterate A f s) = true
      · simp only [hv, if_true]
        rfl
      · simp only [hv, Bool.false_eq_true, if_false]
        rw [ih (iterate A f s)]
        cases hl : iterations A f n (iterate A f s) with
        | nil => rfl
        | cons q qs =>
          rw [List.getLast?_cons_cons, List.getLast?_eq_getLast (q :: qs) (List.cons_ne_nil q qs)]
          rfl
    · simp only [hc, if_false]
      rfl

/-- Every listed pass ends in the state `iterate` computes from its start, and
starts below the cap. -/
theorem ld_iterations_step (A : Arithmetic) (f : ℚ → ℚ) (fuel : Nat) (s : SolverState) :
    ∀ q ∈ iterations A f fuel s, q.2 = iterate A f q.1 ∧ q.1.count < kMaxIterations := by
  induction fuel generalizing s with
  | zero => intro q hq; cases hq
  | succ n ih =>
    intro q hq
    unfold iterations at hq
    by_cases hc : s.count < kMaxIterations
    · simp only [hc, if_true] at hq
      rcases List.mem_cons.mp hq with h1 | h1
      · rw [h1]; exact ⟨rfl, hc⟩
      · by_cases hv : converged A (iterate A f s) = true
        · simp only [hv, if_true] at h1
          cases h1
        · simp only [hv, Bool.false_eq_true, if_false] at h1
          exact ih _ q h1
    · simp only [hc, if_false] at hq
      cases hq

theorem ld_iterations_head (A : Arithmetic) (f : ℚ → ℚ) (fuel : Nat) (s : SolverState)
    (hc : s.count < kMaxIterations) :
    (s, iterate A f s) ∈ iterations A f (fuel + 1) s := by
  unfold iterations
  rw [if_pos hc]
  exact List.mem_cons_self _ _

/-- The first pass of a run is among the executed passes. -/
theorem ld_iterations_first (A : Arithmetic) (f : ℚ → ℚ) (a b : ℚ) :
    (prepare (initialState a b f), iterate A f (prepare (initialState a b f)))
      ∈ iterations A f kMaxIterations (prepare (initialState a b f)) :=
  ld_iterations_head A f 99 _ (by rw [roots.prepare_count]; exact Nat.succ_pos 99)

end longdouble

namespace ieee

theorem binary64_literal_1e_9 :
    binary64.round (1 / 1000000000) = 4835703278458517 * (2 : ℚ) ^ (-82 : Int) := by
  have h := Format.round_nearest binary64 (1 / 1000000000) (-30) 4835703278458517
    (by rw [abs_of_pos (by norm_num)]; norm_num [zpow_neg])
    (by rw [abs_of_pos (by norm_num)]; norm_num [zpow_neg])
    (by decide)
    (by
      show |(1 / 1000000000 : ℚ) / (2 : ℚ) ^ (-82 : Int) - ((4835703278458517 : Int) : ℚ)| < 1 / 2
      rw [abs_lt]
      constructor <;> norm_num [zpow_neg])
  exact_mod_cast h

theorem binary64_literal_0_99999 :
    binary64.round (99999 / 100000) = 9007109182748445 * (2 : ℚ) ^ (-53 : Int) := by
  have h := Format.round_nearest binary64 (99999 / 100000) (-1) 9007109182748445
    (by rw [abs_of_pos (by norm_num)]; norm_num [zpow_neg])
    (by rw [abs_of_pos (by norm_num)]; norm_num [zpow_neg])
    (by decide)
    (by
      show |(99999 / 100000 : ℚ) / (2 : ℚ) ^ (-53 : Int) - ((9007109182748445 : Int) : ℚ)| < 1 / 2
      rw [abs_lt]
      constructor <;> norm_num [zpow_neg])
  exact_mod_cast h

/-- Integers below `2^p` in absolute value are numbers of the format. -/
theorem Format.round_intCast (F : Format) (m : Int)
    (hm : |(m : ℚ)| < (2 : ℚ) ^ (F.precision : Int))
    (hk : F.emin - ((F.precision : Int) - 1) ≤ 0) : F.round (m : ℚ) = m := by
  have h := Format.round_exact F m 0 hm hk
  rw [zpow_zero, mul_one] at h
  exact h

/-- Powers of two from the smallest subnormal upwards are numbers of the
format, and so are their negatives. -/
theorem Format.round_two_zpow (F : Format) (hp : 0 < F.precision) (k : Int)
    (hk : F.emin - ((F.precision : Int) - 1) ≤ k) :
    F.round ((2 : ℚ) ^ k) = (2 : ℚ) ^ k ∧ F.round (-(2 : ℚ) ^ k) = -(2 : ℚ) ^ k := by
  have h1 : |((1 : Int) : ℚ)| < (2 : ℚ) ^ (F.precision : Int) := by
    rw [Int.cast_one, abs_one]
    exact one_lt_zpow₀ (by norm_num) (Int.natCast_pos.mpr hp)
  have h2 : |((-1 : Int) : ℚ)| < (2 : ℚ) ^ (F.precision : Int) := by
    rw [Int.cast_neg, abs_neg]; exact h1
  have a := Format.round_exact F 1 k h1 hk
  have b := Format.round_exact F (-1) k h2 hk
  rw [Int.cast_one, one_mul] at a
  rw [Int.cast_neg, Int.cast_one, neg_one_mul] at b
  exact ⟨a, b⟩

/-- A power of two at most half the smallest subnormal rounds to zero, with
either sign. -/
theorem Format.round_two_zpow_underflow (F : Format) (hp : 0 < F.precision) (k : Int)
    (hk : k ≤ F.emin - (F.precision : Int)) :
    F.round ((2 : ℚ) ^ k) = 0 ∧ F.round (-(2 : ℚ) ^ k) = 0 := by
  have hle : (2 : ℚ) ^ k ≤ (2 : ℚ) ^ (F.emin - (F.precision : Int)) :=
    zpow_le_zpow_right₀ (by norm_num) hk
  constructor
  · exact Format.round_underflow F hp _ (by rw [abs_of_pos (two_zpow_pos k)]; exact hle)
  · exact Format.round_underflow F hp _ (by rw [abs_neg, abs_of_pos (two_zpow_pos k)]; exact hle)

end ieee

namespace longdouble

open roots (SolverState kMaxIterations Consistent swapIfCounterCloser prepare initialState
  methods_available relative_to_solution_e)

/-- C1 (amended): when the product `f(b) * f(a)` computed in `long double` is
negative, `SearchForRoot(a, b, f)` returns the best estimate of its final
state after at most 100 passes, and at return `|f(best)|` is below the
tolerance literal, or the computed `|best - counter|` is, or the iteration
count has reached the cap of 100.  If rounding never turns a non-negative
number negative, a negative computed product means that `f(a)` and `f(b)` have
strictly opposite signs.  In a binary format the tolerance literal is the
`double` nearest to `1e-9`, `4835703278458517 * 2^(-82)`, which is above
`1e-9`. -/
theorem SearchForRoot_returns_at_tolerance_or_cap (A : Arithmetic) (f : ℚ → ℚ) (a b : ℚ)
    (h : A.mul (f b) (f a) < 0) :
    SearchForRoot A a b f = Except.ok (SearchForRootTrace A a b f).2.estimate_kBest
      ∧ (|f (SearchForRootTrace A a b f).2.estimate_kBest| < A.literal_1e_9
        ∨ |A.sub (SearchForRootTrace A a b f).2.estimate_kBest
            (SearchForRootTrace A a b f).2.estimate_kCounter| < A.literal_1e_9
        ∨ (SearchForRootTrace A a b f).2.count = kMaxIterations)
      ∧ (SearchForRootTrace A a b f).2.count ≤ kMaxIterations
      ∧ (SearchForRootTrace A a b f).2.evaluated.length
          = (SearchForRootTrace A a b f).2.count + 2
      ∧ ((∀ x : ℚ, 0 ≤ x → 0 ≤ A.rnd x) → f a * f b < 0)
      ∧ ∀ F : ieee.Format,
          (Arithmetic.ofFormat F).literal_1e_9 = 4835703278458517 * (2 : ℚ) ^ (-82 : Int)
            ∧ 1 / 1000000000 < (Arithmetic.ofFormat F).literal_1e_9 := by
  have hlit : ∀ F : ieee.Format,
      (Arithmetic.ofFormat F).literal_1e_9 = 4835703278458517 * (2 : ℚ) ^ (-82 : Int)
        ∧ 1 / 1000000000 < (Arithmetic.ofFormat F).literal_1e_9 := by
    intro F
    have e : (Arithmetic.ofFormat F).literal_1e_9
        = 4835703278458517 * (2 : ℚ) ^ (-82 : Int) := ieee.binary64_literal_1e_9
    refine ⟨e, ?_⟩
    rw [e]
    norm_num [zpow_neg]
  have ht := ld_SearchForRootTrace_ok A a b f h
  have hcons : Consistent f (whileLoop A f kMaxIterations (prepare (initialState a b f))) :=
    ld_whileLoop_consistent A f _ _ (roots.prepare_consistent f _ ⟨rfl, rfl⟩)
  have hexit := ld_whileLoop_exit A f kMaxIterations (prepare (initialState a b f))
    (Nat.le_add_left _ _) (by rw [roots.prepare_count]; exact Nat.zero_le _)
  have hcount := ld_whileLoop_count_le A f kMaxIterations (prepare (initialState a b f))
    (by rw [roots.prepare_count]; exact Nat.zero_le _)
  have hlen := ld_whileLoop_evaluated_length A f kMaxIterations (prepare (initialState a b f))
  unfold SearchForRoot
  rw [ht]
  refine ⟨rfl, ?_, hcount, ?_, ?_, hlit⟩
  · show |f (whileLoop A f kMaxIterations (prepare (initialState a b f))).estimate_kBest|
          < A.literal_1e_9 ∨ _
    rw [← hcons.1]
    rcases hexit with hv | hcap
    · rcases (ld_converged_iff A _).mp hv with h1 | h2
      · exact Or.inr (Or.inl h1)
      · exact Or.inl h2
    · exact Or.inr (Or.inr hcap)
  · rw [roots.prepare_count, roots.prepare_evaluated] at hlen
    have h0 : (initialState a b f).count = 0 := rfl
    have h2 : (initialState a b f).evaluated.length = 2 := rfl
    show (whileLoop A f kMaxIterations (prepare (initialState a b f))).evaluated.length
      = (whileLoop A f kMaxIterations (prepare (initialState a b f))).count + 2
    omega
  · intro hsign
    by_contra hnot
    have h1 : 0 ≤ f b * f a := by
      rw [mul_comm]; exact not_lt.mp hnot
    have h2 : 0 ≤ A.mul (f b) (f a) := hsign _ h1
    exact absurd h (not_lt.mpr h2)

/-- Witness for C1 (amended): the identity on the estimates `-1` and `1` in
binary64 arithmetic, where the computed product is `-1`. -/
theorem SearchForRoot_returns_at_tolerance_or_cap_witness :
    (Arithmetic.ofFormat ieee.binary64).mul ((fun x : ℚ => x) 1) ((fun x : ℚ => x) (-1)) < 0
      ∧ SearchForRoot (Arithmetic.ofFormat ieee.binary64) (-1) 1 (fun x => x)
          = Except.ok
            (SearchForRootTrace (Arithmetic.ofFormat ieee.binary64) (-1) 1
              (fun x => x)).2.estimate_kBest :=
  have h : (Arithmetic.ofFormat ieee.binary64).mul ((fun x : ℚ => x) 1) ((fun x : ℚ => x) (-1))
      < 0 := by
    show ieee.binary64.round (1 * (-1)) < 0
    have e := ieee.Format.round_intCast ieee.binary64 (-1) (by norm_num [ieee.binary64])
      (by decide)
    rw [show (1 : ℚ) * (-1) = ((-1 : Int) : ℚ) by norm_num, e]
    norm_num
  ⟨h, (SearchForRoot_returns_at_tolerance_or_cap (Arithmetic.ofFormat ieee.binary64)
    (fun x => x) (-1) 1 h).1⟩

end longdouble

namespace longdouble

open roots (SolverState kMaxIterations Consistent swapIfCounterCloser prepare initialState
  methods_available relative_to_solution_e)

/-- In a binary format, `SearchForRoot(-1, 1, x * 2^k)` raises `too_low` when
`2^(2k)` is at most half the smallest subnormal number. -/
theorem scaledIdentity_raises (F : ieee.Format) (hp : 0 < F.precision) (k : Int)
    (hk : 2 * k ≤ F.emin - (F.precision : Int)) :
    scaledIdentity k (-1) * scaledIdentity k 1 < 0
      ∧ (Arithmetic.ofFormat F).mul (scaledIdentity k 1) (scaledIdentity k (-1)) = 0
      ∧ SearchForRootTrace (Arithmetic.ofFormat F) (-1) 1 (scaledIdentity k)
          = (Except.error relative_to_solution_e.too_low, initialState (-1) 1 (scaledIdentity k)) := by
  have hu := ieee.two_zpow_pos k
  have hneg : scaledIdentity k (-1) < 0 := by
    unfold scaledIdentity; linarith
  have hprod : scaledIdentity k (-1) * scaledIdentity k 1 < 0 := by
    unfold scaledIdentity
    nlinarith [mul_pos hu hu]
  have hmul : (Arithmetic.ofFormat F).mul (scaledIdentity k 1) (scaledIdentity k (-1)) = 0 := by
    show F.round (scaledIdentity k 1 * scaledIdentity k (-1)) = 0
    have e : scaledIdentity k 1 * scaledIdentity k (-1) = -(2 : ℚ) ^ (2 * k) := by
      unfold scaledIdentity
      rw [two_mul, zpow_add₀ (by norm_num : (2 : ℚ) ≠ 0)]
      ring
    rw [e]
    exact (ieee.Format.round_two_zpow_underflow F hp (2 * k) hk).2
  refine ⟨hprod, hmul, ?_⟩
  rw [ld_SearchForRootTrace_error _ _ _ _ (by rw [hmul]), if_pos hneg]

/-- The returned value or raised direction is the first component of the trace;
stated for an arbitrary arithmetic, where nothing can be evaluated. -/
theorem ld_SearchForRoot_eq (A : Arithmetic) (a b : ℚ) (f : ℚ → ℚ) :
    SearchForRoot A a b f = (SearchForRootTrace A a b f).1 := rfl

/-- C2, counterexample: `f(x) = x * 2^(-600)` has `f(-1) < 0 < f(1)`, but in
binary64 the product `f(1) * f(-1) = -2^(-1200)` rounds to zero, the guard
`>= 0` holds and `SearchForRoot(-1, 1, f)` raises `too_low`; in the x87
extended format the same happens with `f(x) = x * 2^(-9000)`. -/
theorem SearchForRoot_raises_on_opposite_signs :
    scaledIdentity (-600) (-1) * scaledIdentity (-600) 1 < 0
      ∧ SearchForRoot (Arithmetic.ofFormat ieee.binary64) (-1) 1 (scaledIdentity (-600))
          = Except.error relative_to_solution_e.too_low
      ∧ scaledIdentity (-9000) (-1) * scaledIdentity (-9000) 1 < 0
      ∧ SearchForRoot (Arithmetic.ofFormat ieee.x87extended) (-1) 1 (scaledIdentity (-9000))
          = Except.error relative_to_solution_e.too_low := by
  obtain ⟨a1, -, a3⟩ := scaledIdentity_raises ieee.binary64 (by decide) (-600)
    (by norm_num [ieee.binary64])
  obtain ⟨b1, -, b3⟩ := scaledIdentity_raises ieee.x87extended (by decide) (-9000)
    (by norm_num [ieee.x87extended])
  exact ⟨a1, (ld_SearchForRoot_eq _ _ _ _).trans (congrArg Prod.fst a3), b1,
    (ld_SearchForRoot_eq _ _ _ _).trans (congrArg Prod.fst b3)⟩

/-- C2 (amended): `SearchForRoot(a, b, f)` raises a `RangeException` if and only
if the product `f(b) * f(a)` computed in `long double` is `>= 0`; the first two
evaluations of the objective are at `a` and at `b`, and when the call raises
these are the only evaluations and no iteration has run.  With a rounding that
keeps the sign of what it rounds or gives zero, the call raises whenever
`f(a) * f(b) >= 0`, and for values of strictly opposite signs it raises exactly
when their product rounds to zero. -/
theorem SearchForRoot_raises_iff_computed_product_nonneg (A : Arithmetic) (f : ℚ → ℚ)
    (a b : ℚ) (hpos : ∀ x : ℚ, 0 ≤ x → 0 ≤ A.rnd x) (hneg : ∀ x : ℚ, x ≤ 0 → A.rnd x ≤ 0) :
    ((∃ d, SearchForRoot A a b f = Except.error d) ↔ A.mul (f b) (f a) ≥ 0)
      ∧ (SearchForRootTrace A a b f).2.evaluated.take 2 = [a, b]
      ∧ (A.mul (f b) (f a) ≥ 0 →
          (SearchForRootTrace A a b f).2.evaluated = [a, b]
            ∧ (SearchForRootTrace A a b f).2.count = 0)
      ∧ (f a * f b ≥ 0 → ∃ d, SearchForRoot A a b f = Except.error d)
      ∧ (f a * f b < 0 →
          ((∃ d, SearchForRoot A a b f = Except.error d) ↔ A.mul (f b) (f a) = 0)) := by
  have hiff : (∃ d, SearchForRoot A a b f = Except.error d) ↔ A.mul (f b) (f a) ≥ 0 := by
    constructor
    · rintro ⟨d, hd⟩
      by_contra hlt
      have ht := ld_SearchForRootTrace_ok A a b f (not_le.mp hlt)
      rw [ld_SearchForRoot_eq, ht] at hd
      cases hd
    · intro h
      refine ⟨if f a < 0 then relative_to_solution_e.too_low
        else relative_to_solution_e.too_high, ?_⟩
      rw [ld_SearchForRoot_eq, ld_SearchForRootTrace_error A a b f h]
  refine ⟨hiff, ?_, ?_, ?_, ?_⟩
  · by_cases h : A.mul (f b) (f a) ≥ 0
    · rw [ld_SearchForRootTrace_error A a b f h]
      rfl
    · rw [ld_SearchForRootTrace_ok A a b f (not_le.mp h),
        ld_whileLoop_evaluated_iterations, roots.prepare_evaluated]
      rfl
  · intro h
    rw [ld_SearchForRootTrace_error A a b f h]
    exact ⟨rfl, rfl⟩
  · intro h
    apply hiff.mpr
    exact hpos _ (by rw [mul_comm]; exact h)
  · intro h
    rw [hiff]
    have hle : A.mul (f b) (f a) ≤ 0 := hneg _ (by rw [mul_comm]; exact le_of_lt h)
    constructor
    · intro hge; exact le_antisymm hle hge
    · intro he; rw [he]

/-- Witness for C2 (amended): binary64 rounding keeps the sign or gives zero; on
`x * 2^(-600)` from `-1` and `1` the call raises, the computed product being
zero. -/
theorem SearchForRoot_raises_iff_computed_product_nonneg_witness :
    (∀ x : ℚ, 0 ≤ x → 0 ≤ (Arithmetic.ofFormat ieee.binary64).rnd x)
      ∧ (∀ x : ℚ, x ≤ 0 → (Arithmetic.ofFormat ieee.binary64).rnd x ≤ 0)
      ∧ ((∃ d, SearchForRoot (Arithmetic.ofFormat ieee.binary64) (-1) 1 (scaledIdentity (-600))
            = Except.error d)
          ↔ (Arithmetic.ofFormat ieee.binary64).mul (scaledIdentity (-600) 1)
              (scaledIdentity (-600) (-1)) = 0) :=
  ⟨ieee.Format.round_nonneg ieee.binary64, ieee.Format.round_nonpos ieee.binary64,
    (SearchForRoot_raises_iff_computed_product_nonneg (Arithmetic.ofFormat ieee.binary64)
      (scaledIdentity (-600)) (-1) 1 (ieee.Format.round_nonneg ieee.binary64)
      (ieee.Format.round_nonpos ieee.binary64)).2.2.2.2
      (scaledIdentity_raises ieee.binary64 (by decide) (-600)
    (by norm_num [ieee.binary64])).1⟩

end longdouble

namespace longdouble

open roots (SolverState kMaxIterations Consistent swapIfCounterCloser prepare initialState
  methods_available relative_to_solution_e)

theorem dip_prepare (k j : Int) :
    prepare (initialState (-1) 1 (dipObjective k j)) = dipState0 k := by
  have h1 : dipObjective k j (-1) = -(2 : ℚ) ^ k := by
    unfold dipObjective
    rw [if_neg (by norm_num)]
    ring
  have h2 : dipObjective k j 1 = (2 : ℚ) ^ k := by
    unfold dipObjective
    rw [if_neg (by norm_num)]
    ring
  unfold prepare swapIfCounterCloser initialState dipState0
  simp only [h1, h2, abs_neg, lt_irrefl, if_false]

/-- Roundings of the first pass on `dipObjective`, all exact but the last. -/
theorem dip_roundings (F : ieee.Format) (hp : 2 ≤ F.precision) (hemin : F.emin ≤ -1)
    (k j : Int) (hk0 : k ≤ 0) (hk : F.emin - ((F.precision : Int) - 1) ≤ 2 * k)
    (hjk : j + k ≤ F.emin - (F.precision : Int)) :
    F.round 0 = 0 ∧ F.round 1 = 1 ∧ F.round 2 = 2 ∧ F.round (3 / 2) = 3 / 2
      ∧ F.round (1 / 2) = 1 / 2
      ∧ F.round ((2 : ℚ) ^ (k + 1)) = (2 : ℚ) ^ (k + 1)
      ∧ F.round ((2 : ℚ) ^ (-k)) = (2 : ℚ) ^ (-k)
      ∧ F.round (-(2 : ℚ) ^ (2 * k)) = -(2 : ℚ) ^ (2 * k)
      ∧ F.round (-(2 : ℚ) ^ (j + k)) = 0 := by
  have hp0 : 0 < F.precision := by omega
  have hpz : (2 : Int) ≤ (F.precision : Int) := by exact_mod_cast hp
  have hfour : (4 : ℚ) ≤ (2 : ℚ) ^ (F.precision : Int) := by
    have h := zpow_le_zpow_right₀ (by norm_num : (1 : ℚ) ≤ 2) hpz
    have e : (2 : ℚ) ^ (2 : Int) = 4 := by norm_num
    rw [e] at h
    exact h
  have hthree : |((3 : Int) : ℚ)| < (2 : ℚ) ^ (F.precision : Int) := by
    rw [abs_of_pos (by norm_num)]; push_cast; linarith
  have hone : |((1 : Int) : ℚ)| < (2 : ℚ) ^ (F.precision : Int) := by
    rw [abs_of_pos (by norm_num)]; push_cast; linarith
  have e32 := ieee.Format.round_exact F 3 (-1) hthree (by omega)
  have e12 := ieee.Format.round_exact F 1 (-1) hone (by omega)
  have e1 := ieee.Format.round_exact F 1 0 hone (by omega)
  have e2 := ieee.Format.round_exact F 1 1 hone (by omega)
  refine ⟨ieee.Format.round_zero F, ?_, ?_, ?_, ?_,
    (ieee.Format.round_two_zpow F hp0 (k + 1) (by omega)).1,
    (ieee.Format.round_two_zpow F hp0 (-k) (by omega)).1,
    (ieee.Format.round_two_zpow F hp0 (2 * k) hk).2,
    (ieee.Format.round_two_zpow_underflow F hp0 (j + k) hjk).2⟩
  · norm_num at e1; exact e1
  · norm_num at e2; exact e2
  · have : ((3 : Int) : ℚ) * (2 : ℚ) ^ (-1 : Int) = 3 / 2 := by norm_num
    rw [this] at e32; exact e32
  · have : ((1 : Int) : ℚ) * (2 : ℚ) ^ (-1 : Int) = 1 / 2 := by norm_num
    rw [this] at e12; exact e12

end longdouble

namespace longdouble

open roots (SolverState kMaxIterations Consistent swapIfCounterCloser prepare initialState
  methods_available relative_to_solution_e)

/-- First pass on `dipObjective` in a binary format: the secant candidate is
`0`, below the threshold `1/2`, so the midpoint `0` is evaluated; the product
`f(0) * f(1) = -2^(j+k)` rounds to zero, so the new point replaces counter, and
the swap makes it best. -/
theorem dip_first_pass (F : ieee.Format) (hp : 2 ≤ F.precision) (hemin : F.emin ≤ -1)
    (k j : Int) (hk0 : k ≤ 0) (hk : F.emin - ((F.precision : Int) - 1) ≤ 2 * k)
    (hjk : j + k ≤ F.emin - (F.precision : Int)) (hj : j < k) :
    (Arithmetic.ofFormat F).mul (dipObjective k j 1) (dipObjective k j (-1)) < 0
      ∧ candidate (Arithmetic.ofFormat F) (dipState0 k) = (0, methods_available.secant)
      ∧ nextEstimate (Arithmetic.ofFormat F) (dipState0 k) = 0
      ∧ (Arithmetic.ofFormat F).mul (dipObjective k j 0) (dipState0 k).result_kCounter = 0
      ∧ iterate (Arithmetic.ofFormat F) (dipObjective k j) (dipState0 k) = dipState1 k j := by
  obtain ⟨r0, r1, r2, r32, r12, rk1, rmk, r2k, rjk⟩ :=
    dip_roundings F hp hemin k j hk0 hk hjk
  have two_ne : (2 : ℚ) ≠ 0 := by norm_num
  have hu := ieee.two_zpow_pos k
  have hv := ieee.two_zpow_pos j
  have f0 : dipObjective k j 0 = -(2 : ℚ) ^ j := by
    unfold dipObjective; rw [if_pos rfl]
  have f1 : dipObjective k j 1 = (2 : ℚ) ^ k := by
    unfold dipObjective; rw [if_neg (by norm_num)]; ring
  have fm1 : dipObjective k j (-1) = -(2 : ℚ) ^ k := by
    unfold dipObjective; rw [if_neg (by norm_num)]; ring
  have hguard : (Arithmetic.ofFormat F).mul (dipObjective k j 1) (dipObjective k j (-1)) < 0 := by
    show F.round (dipObjective k j 1 * dipObjective k j (-1)) < 0
    have e : dipObjective k j 1 * dipObjective k j (-1) = -(2 : ℚ) ^ (2 * k) := by
      rw [f1, fm1, two_mul, zpow_add₀ two_ne]; ring
    rw [e, r2k]
    have := ieee.two_zpow_pos (2 * k)
    linarith
  have hsec : SecantEstimate (Arithmetic.ofFormat F) 1 (-1) ((2 : ℚ) ^ k) (-(2 : ℚ) ^ k) = 0 := by
    show F.round (1 - F.round ((2 : ℚ) ^ k
      * F.round (F.round (1 - -1) / F.round ((2 : ℚ) ^ k - -(2 : ℚ) ^ k)))) = 0
    have a1 : (1 : ℚ) - -1 = 2 := by norm_num
    have a2 : (2 : ℚ) ^ k - -(2 : ℚ) ^ k = (2 : ℚ) ^ (k + 1) := by
      rw [zpow_add₀ two_ne, zpow_one]; ring
    have a3 : (2 : ℚ) / (2 : ℚ) ^ (k + 1) = (2 : ℚ) ^ (-k) := by
      rw [zpow_add₀ two_ne, zpow_one, zpow_neg]
      field_simp
      ring
    have a4 : (2 : ℚ) ^ k * (2 : ℚ) ^ (-k) = 1 := by
      rw [← zpow_add₀ two_ne, add_neg_cancel, zpow_zero]
    rw [a1, r2, a2, rk1, a3, rmk, a4, r1, sub_self, r0]
  have hcand : candidate (Arithmetic.ofFormat F) (dipState0 k) = (0, methods_available.secant) := by
    unfold candidate
    rw [if_neg (fun h => h.1 rfl)]
    exact Prod.ext hsec rfl
  have hthr : under_shoot_threshold (Arithmetic.ofFormat F) (dipState0 k) = 1 / 2 := by
    show F.round (F.round (3 / 4 * |F.round (1 - -1)|) - |(-1 : ℚ)|) = 1 / 2
    have a1 : (1 : ℚ) - -1 = 2 := by norm_num
    have a2 : (3 / 4 : ℚ) * |(2 : ℚ)| = 3 / 2 := by rw [abs_of_pos (by norm_num)]; norm_num
    have a3 : (3 / 2 : ℚ) - |(-1 : ℚ)| = 1 / 2 := by rw [abs_neg, abs_one]; norm_num
    rw [a1, r2, a2, r32, a3, r12]
  have hchoose : chooseMethod (Arithmetic.ofFormat F) (dipState0 k) 0 methods_available.secant
      = methods_available.bisection := by
    unfold chooseMethod
    rw [hthr, if_pos (by norm_num)]
  have hnext : nextEstimate (Arithmetic.ofFormat F) (dipState0 k) = 0 := by
    unfold nextEstimate
    rw [hcand]
    simp only [hchoose, if_true]
    show F.round (F.round (-1 + 1) / 2) = 0
    rw [show (-1 : ℚ) + 1 = 0 by norm_num, r0, zero_div, r0]
  have hplace : (Arithmetic.ofFormat F).mul (dipObjective k j 0) (dipState0 k).result_kCounter
      = 0 := by
    show F.round (dipObjective k j 0 * (2 : ℚ) ^ k) = 0
    have e : dipObjective k j 0 * (2 : ℚ) ^ k = -(2 : ℚ) ^ (j + k) := by
      rw [f0, zpow_add₀ two_ne]; ring
    rw [e, rjk]
  refine ⟨hguard, hcand, hnext, hplace, ?_⟩
  have hlt : (2 : ℚ) ^ j < (2 : ℚ) ^ k := zpow_lt_zpow_right₀ (by norm_num) hj
  unfold iterate
  simp only [hnext, hplace, hcand, hchoose, lt_irrefl, if_false]
  unfold swapIfCounterCloser
  simp only [f0, abs_neg, abs_of_pos hv, abs_of_pos hu]
  rw [if_pos (by
    show (2 : ℚ) ^ j < |-(2 : ℚ) ^ k|
    rw [abs_neg, abs_of_pos hu]; exact hlt)]
  rfl

end longdouble

namespace longdouble

open roots (SolverState kMaxIterations Consistent swapIfCounterCloser prepare initialState
  methods_available relative_to_solution_e Bracketing)

/-- The tolerance literal of a binary format is the binary64 number nearest to
`1e-9`, and every power of two up to `2^(-82)` is below it. -/
theorem ofFormat_literal_1e_9 (F : ieee.Format) :
    (Arithmetic.ofFormat F).literal_1e_9 = 4835703278458517 * (2 : ℚ) ^ (-82 : Int)
      ∧ ∀ j : Int, j ≤ -82 → (2 : ℚ) ^ j < (Arithmetic.ofFormat F).literal_1e_9 := by
  have h : (Arithmetic.ofFormat F).literal_1e_9 = 4835703278458517 * (2 : ℚ) ^ (-82 : Int) :=
    ieee.binary64_literal_1e_9
  refine ⟨h, ?_⟩
  intro j hj
  rw [h]
  have h1 : (2 : ℚ) ^ j ≤ (2 : ℚ) ^ (-82 : Int) := zpow_le_zpow_right₀ (by norm_num) hj
  have h2 := ieee.two_zpow_pos (-82)
  nlinarith

/-- The run on `dipObjective` in a binary format: one pass, after which the
loop breaks on `|f(best)|` and `0` is returned. -/
theorem dip_run (F : ieee.Format) (hp : 2 ≤ F.precision) (hemin : F.emin ≤ -1)
    (k j : Int) (hk0 : k ≤ 0) (hk : F.emin - ((F.precision : Int) - 1) ≤ 2 * k)
    (hjk : j + k ≤ F.emin - (F.precision : Int)) (hj : j < k) (hj82 : j ≤ -82) :
    iterations (Arithmetic.ofFormat F) (dipObjective k j) kMaxIterations
        (prepare (initialState (-1) 1 (dipObjective k j)))
        = [(dipState0 k, dipState1 k j)]
      ∧ SearchForRootTrace (Arithmetic.ofFormat F) (-1) 1 (dipObjective k j)
        = (Except.ok 0, dipState1 k j) := by
  obtain ⟨hguard, -, -, -, hiter⟩ := dip_first_pass F hp hemin k j hk0 hk hjk hj
  have hconv : converged (Arithmetic.ofFormat F) (dipState1 k j) = true := by
    apply (ld_converged_iff _ _).mpr
    right
    show |-(2 : ℚ) ^ j| < (Arithmetic.ofFormat F).literal_1e_9
    rw [abs_neg, abs_of_pos (ieee.two_zpow_pos j)]
    exact (ofFormat_literal_1e_9 F).2 j hj82
  have hc : (dipState0 k).count < kMaxIterations := by
    show 0 < 100
    exact Nat.succ_pos 99
  constructor
  · rw [dip_prepare]
    show iterations (Arithmetic.ofFormat F) (dipObjective k j) (99 + 1) (dipState0 k) = _
    unfold iterations
    rw [if_pos hc, hiter, if_pos hconv]
  · rw [ld_SearchForRootTrace_ok _ _ _ _ hguard, dip_prepare]
    have hw : whileLoop (Arithmetic.ofFormat F) (dipObjective k j) kMaxIterations (dipState0 k)
        = dipState1 k j := by
      show whileLoop (Arithmetic.ofFormat F) (dipObjective k j) (99 + 1) (dipState0 k) = _
      unfold whileLoop
      rw [if_pos hc]
      simp only [hiter, hconv, if_true]
    rw [hw]
    rfl

/-- The facts of the run on `dipObjective` that contradict a kept bracket. -/
theorem dip_bracket_lost (F : ieee.Format) (hp : 2 ≤ F.precision) (hemin : F.emin ≤ -1)
    (k j : Int) (hk0 : k ≤ 0) (hk : F.emin - ((F.precision : Int) - 1) ≤ 2 * k)
    (hjk : j + k ≤ F.emin - (F.precision : Int)) (hj : j < k) (hj82 : j ≤ -82) :
    dipObjective k j (-1) * dipObjective k j 1 < 0
      ∧ SearchForRoot (Arithmetic.ofFormat F) (-1) 1 (dipObjective k j) = Except.ok 0
      ∧ (dipState0 k, dipState1 k j)
          ∈ iterations (Arithmetic.ofFormat F) (dipObjective k j) kMaxIterations
              (prepare (initialState (-1) 1 (dipObjective k j)))
      ∧ nextEstimate (Arithmetic.ofFormat F) (dipState0 k) = 0
      ∧ dipObjective k j 0 * dipObjective k j (dipState0 k).estimate_kCounter < 0
      ∧ (dipState1 k j).estimate_kCounter = (dipState0 k).estimate_kBest
      ∧ (dipState1 k j).estimate_kBest = 0
      ∧ 0 < dipObjective k j (dipState1 k j).estimate_kBest
          * dipObjective k j (dipState1 k j).estimate_kCounter := by
  obtain ⟨-, -, hnext, -, -⟩ := dip_first_pass F hp hemin k j hk0 hk hjk hj
  obtain ⟨hits, htrace⟩ := dip_run F hp hemin k j hk0 hk hjk hj hj82
  have hu := ieee.two_zpow_pos k
  have hv := ieee.two_zpow_pos j
  have f0 : dipObjective k j 0 = -(2 : ℚ) ^ j := by
    unfold dipObjective; rw [if_pos rfl]
  have f1 : dipObjective k j 1 = (2 : ℚ) ^ k := by
    unfold dipObjective; rw [if_neg (by norm_num)]; ring
  have fm1 : dipObjective k j (-1) = -(2 : ℚ) ^ k := by
    unfold dipObjective; rw [if_neg (by norm_num)]; ring
  refine ⟨?_, (ld_SearchForRoot_eq _ _ _ _).trans (congrArg Prod.fst htrace), ?_, hnext, ?_,
    rfl, rfl, ?_⟩
  · rw [fm1, f1]; nlinarith [mul_pos hu hu]
  · rw [hits]; exact List.mem_singleton.mpr rfl
  · show dipObjective k j 0 * dipObjective k j 1 < 0
    rw [f0, f1]; nlinarith [mul_pos hv hu]
  · show 0 < dipObjective k j 0 * dipObjective k j (-1)
    rw [f0, fm1]; nlinarith [mul_pos hv hu]

/-- C24, counterexample: in binary64, `f(x) = x * 2^(-500)` away from `0` with
`f(0) = -2^(-600)` has `f(-1) < 0 < f(1)` and the call from `-1` and `1` does
not raise.  The first pass starts with best `-1` and counter `1` and evaluates
the midpoint `0`; `f(0) * f(counter) = -2^(-1100)` is negative but rounds to
zero, so the new point replaces counter, not best, and after the pass best is
`0` and counter is `-1`, with `f(best) * f(counter) > 0`.  In the x87 extended
format the same happens with the exponents `-8000` and `-9000`. -/
theorem SearchForRoot_bracket_lost_by_underflow :
    (dipObjective (-500) (-600) (-1) * dipObjective (-500) (-600) 1 < 0
      ∧ SearchForRoot (Arithmetic.ofFormat ieee.binary64) (-1) 1 (dipObjective (-500) (-600))
          = Except.ok 0
      ∧ (dipState0 (-500), dipState1 (-500) (-600))
          ∈ iterations (Arithmetic.ofFormat ieee.binary64) (dipObjective (-500) (-600))
              kMaxIterations (prepare (initialState (-1) 1 (dipObjective (-500) (-600))))
      ∧ nextEstimate (Arithmetic.ofFormat ieee.binary64) (dipState0 (-500)) = 0
      ∧ dipObjective (-500) (-600) 0
          * dipObjective (-500) (-600) (dipState0 (-500)).estimate_kCounter < 0
      ∧ (dipState1 (-500) (-600)).estimate_kCounter = (dipState0 (-500)).estimate_kBest
      ∧ (dipState1 (-500) (-600)).estimate_kBest = 0
      ∧ 0 < dipObjective (-500) (-600) (dipState1 (-500) (-600)).estimate_kBest
          * dipObjective (-500) (-600) (dipState1 (-500) (-600)).estimate_kCounter)
    ∧ (dipObjective (-8000) (-9000) (-1) * dipObjective (-8000) (-9000) 1 < 0
      ∧ SearchForRoot (Arithmetic.ofFormat ieee.x87extended) (-1) 1
          (dipObjective (-8000) (-9000)) = Except.ok 0
      ∧ (dipState0 (-8000), dipState1 (-8000) (-9000))
          ∈ iterations (Arithmetic.ofFormat ieee.x87extended) (dipObjective (-8000) (-9000))
              kMaxIterations (prepare (initialState (-1) 1 (dipObjective (-8000) (-9000))))
      ∧ nextEstimate (Arithmetic.ofFormat ieee.x87extended) (dipState0 (-8000)) = 0
      ∧ dipObjective (-8000) (-9000) 0
          * dipObjective (-8000) (-9000) (dipState0 (-8000)).estimate_kCounter < 0
      ∧ (dipState1 (-8000) (-9000)).estimate_kCounter = (dipState0 (-8000)).estimate_kBest
      ∧ (dipState1 (-8000) (-9000)).estimate_kBest = 0
      ∧ 0 < dipObjective (-8000) (-9000) (dipState1 (-8000) (-9000)).estimate_kBest
          * dipObjective (-8000) (-9000) (dipState1 (-8000) (-9000)).estimate_kCounter) :=
  ⟨dip_bracket_lost ieee.binary64 (by decide) (by decide) (-500) (-600) (by norm_num)
      (by norm_num [ieee.binary64]) (by norm_num [ieee.binary64]) (by norm_num) (by norm_num),
    dip_bracket_lost ieee.x87extended (by decide) (by norm_num [ieee.x87extended]) (-8000) (-9000)
      (by norm_num) (by norm_num [ieee.x87extended]) (by norm_num [ieee.x87extended])
      (by norm_num) (by norm_num)⟩

end longdouble

namespace longdouble

open roots (SolverState kMaxIterations Consistent swapIfCounterCloser prepare initialState
  methods_available relative_to_solution_e Bracketing)

/-- A pass from results of strictly opposite signs whose placement product does
not underflow ends with `result[best] * result[counter] <= 0`. -/
theorem ld_iterate_product_nonpos (A : Arithmetic) (f : ℚ → ℚ) (s : SolverState)
    (hpos : ∀ x : ℚ, 0 ≤ x → 0 ≤ A.rnd x) (hneg : ∀ x : ℚ, x ≤ 0 → A.rnd x ≤ 0)
    (h : s.result_kBest * s.result_kCounter < 0) (hno : NoUnderflowAt A f s) :
    (iterate A f s).result_kBest * (iterate A f s).result_kCounter ≤ 0 := by
  unfold iterate
  rw [roots.swapIfCounterCloser_product]
  by_cases hc : A.mul (f (nextEstimate A s)) s.result_kCounter < 0
  · simp only [hc, if_true]
    show f (nextEstimate A s) * s.result_kCounter ≤ 0
    by_contra hgt
    have := hpos _ (le_of_lt (not_le.mp hgt))
    exact absurd hc (not_lt.mpr this)
  · simp only [hc, if_false]
    show s.result_kBest * f (nextEstimate A s) ≤ 0
    have hn : 0 ≤ f (nextEstimate A s) * s.result_kCounter := by
      by_contra hlt
      have hle : A.mul (f (nextEstimate A s)) s.result_kCounter ≤ 0 :=
        hneg _ (le_of_lt (not_le.mp hlt))
      have hz : A.mul (f (nextEstimate A s)) s.result_kCounter = 0 :=
        le_antisymm hle (not_lt.mp hc)
      have := hno hz
      rw [this] at hlt
      exact hlt (le_refl _)
    rcases lt_trichotomy s.result_kCounter 0 with hneg2 | hzero | hpos2
    · have hb : 0 < s.result_kBest := by
        by_contra hb
        have := mul_nonneg_of_nonpos_of_nonpos (not_lt.mp hb) (le_of_lt hneg2)
        linarith
      have hx : f (nextEstimate A s) ≤ 0 := by
        by_contra hx
        have := mul_neg_of_pos_of_neg (not_le.mp hx) hneg2
        linarith
      exact mul_nonpos_of_nonneg_of_nonpos (le_of_lt hb) hx
    · rw [hzero, mul_zero] at h
      exact absurd h (lt_irrefl _)
    · have hb : s.result_kBest < 0 := by
        by_contra hb
        have := mul_nonneg (not_lt.mp hb) (le_of_lt hpos2)
        linarith
      have hx : 0 ≤ f (nextEstimate A s) := by
        by_contra hx
        have := mul_neg_of_neg_of_pos (not_le.mp hx) hpos2
        linarith
      exact mul_nonpos_of_nonpos_of_nonneg (le_of_lt hb) hx

theorem ld_iterate_abs_le (A : Arithmetic) (f : ℚ → ℚ) (s : SolverState) :
    |(iterate A f s).result_kBest| ≤ |(iterate A f s).result_kCounter| := by
  unfold iterate
  exact roots.swapIfCounterCloser_abs_le _

/-- A pass from a bracketing state without underflow that does not end in a
`break` ends in a bracketing state. -/
theorem ld_iterate_bracketing (A : Arithmetic) (f : ℚ → ℚ) (s : SolverState)
    (hpos : ∀ x : ℚ, 0 ≤ x → 0 ≤ A.rnd x) (hneg : ∀ x : ℚ, x ≤ 0 → A.rnd x ≤ 0)
    (htol : 0 < A.literal_1e_9) (h : Bracketing f s) (hno : NoUnderflowAt A f s)
    (hv : converged A (iterate A f s) = false) : Bracketing f (iterate A f s) := by
  obtain ⟨hb, hcons, -⟩ := h
  have hle := ld_iterate_abs_le A f s
  have hprod := ld_iterate_product_nonpos A f s hpos hneg hb hno
  refine ⟨?_, ld_iterate_consistent A f s hcons, hle⟩
  have hnot : ¬ (|(iterate A f s).result_kBest| < A.literal_1e_9) := by
    intro hlt
    have := (ld_converged_iff A (iterate A f s)).mpr (Or.inr hlt)
    rw [hv] at this
    cases this
  have hB : 0 < |(iterate A f s).result_kBest| := lt_of_lt_of_le htol (not_lt.mp hnot)
  have hC : 0 < |(iterate A f s).result_kCounter| := lt_of_lt_of_le hB hle
  have hne : (iterate A f s).result_kBest * (iterate A f s).result_kCounter ≠ 0 :=
    mul_ne_zero (abs_pos.mp hB) (abs_pos.mp hC)
  exact lt_of_le_of_ne hprod hne

/-- A negative computed product at the guard gives a bracketing state on entry
to the loop. -/
theorem ld_prepare_bracketing (A : Arithmetic) (f : ℚ → ℚ) (a b : ℚ)
    (hpos : ∀ x : ℚ, 0 ≤ x → 0 ≤ A.rnd x) (h : A.mul (f b) (f a) < 0) :
    Bracketing f (prepare (initialState a b f)) := by
  apply roots.prepare_bracketing
  by_contra hnot
  have h1 : 0 ≤ f b * f a := by rw [mul_comm]; exact not_lt.mp hnot
  exact absurd h (not_lt.mpr (hpos _ h1))

/-- While no placement product underflows, every executed pass starts in a
bracketing state. -/
theorem ld_iterations_bracketing (A : Arithmetic) (f : ℚ → ℚ)
    (hpos : ∀ x : ℚ, 0 ≤ x → 0 ≤ A.rnd x) (hneg : ∀ x : ℚ, x ≤ 0 → A.rnd x ≤ 0)
    (htol : 0 < A.literal_1e_9) (fuel : Nat) (s : SolverState) (h : Bracketing f s)
    (hno : ∀ q ∈ iterations A f fuel s, NoUnderflowAt A f q.1) :
    ∀ q ∈ iterations A f fuel s, Bracketing f q.1 := by
  induction fuel generalizing s with
  | zero => intro q hq; cases hq
  | succ n ih =>
    intro q hq
    have hno2 := hno
    unfold iterations at hq hno2
    by_cases hc : s.count < kMaxIterations
    · simp only [hc, if_true] at hq hno2
      rcases List.mem_cons.mp hq with h1 | h1
      · rw [h1]; exact h
      · by_cases hv : converged A (iterate A f s) = true
        · simp only [hv, if_true] at h1
          cases h1
        · simp only [hv, Bool.false_eq_true, if_false] at h1 hno2
          have hv2 : converged A (iterate A f s) = false := by
            cases hq2 : converged A (iterate A f s) with
            | true => exact absurd hq2 hv
            | false => rfl
          have hhead : NoUnderflowAt A f s := hno2 (s, iterate A f s) (List.mem_cons_self _ _)
          exact ih _ (ld_iterate_bracketing A f s hpos hneg htol h hhead hv2)
            (fun p hp => hno2 p (List.mem_cons_of_mem _ hp)) q h1
    · simp only [hc, if_false] at hq
      cases hq

/-- C24 (amended): let the rounding keep the sign of what it rounds or give
zero, and let the product computed at the guard be negative.  In every executed
pass the new point replaces best when the computed product
`f(new) * f(counter)` is negative and replaces counter otherwise, before the
swap that may exchange the two.  If in no executed pass this product underflows
(it is zero only when its exact value is), then every executed pass starts
with `f(best)` and `f(counter)` of strictly opposite signs and ends with
`f(best) * f(counter) <= 0`. -/
theorem SearchForRoot_bracket_kept_unless_underflow (A : Arithmetic) (f : ℚ → ℚ) (a b : ℚ)
    (hpos : ∀ x : ℚ, 0 ≤ x → 0 ≤ A.rnd x) (hneg : ∀ x : ℚ, x ≤ 0 → A.rnd x ≤ 0)
    (htol : 0 < A.literal_1e_9) (h : A.mul (f b) (f a) < 0) :
    (∀ q ∈ iterations A f kMaxIterations (prepare (initialState a b f)),
        (A.mul (f (nextEstimate A q.1)) (f q.1.estimate_kCounter) < 0 →
            (q.2.estimate_kBest = nextEstimate A q.1
                ∧ q.2.estimate_kCounter = q.1.estimate_kCounter)
              ∨ (q.2.estimate_kBest = q.1.estimate_kCounter
                ∧ q.2.estimate_kCounter = nextEstimate A q.1))
          ∧ (¬ A.mul (f (nextEstimate A q.1)) (f q.1.estimate_kCounter) < 0 →
            (q.2.estimate_kBest = q.1.estimate_kBest
                ∧ q.2.estimate_kCounter = nextEstimate A q.1)
              ∨ (q.2.estimate_kBest = nextEstimate A q.1
                ∧ q.2.estimate_kCounter = q.1.estimate_kBest)))
      ∧ ((∀ q ∈ iterations A f kMaxIterations (prepare (initialState a b f)),
            A.mul (f (nextEstimate A q.1)) (f q.1.estimate_kCounter) = 0 →
              f (nextEstimate A q.1) * f q.1.estimate_kCounter = 0) →
          ∀ q ∈ iterations A f kMaxIterations (prepare (initialState a b f)),
            f q.1.estimate_kBest * f q.1.estimate_kCounter < 0
              ∧ f q.2.estimate_kBest * f q.2.estimate_kCounter ≤ 0) := by
  have hcons0 : Consistent f (prepare (initialState a b f)) :=
    roots.prepare_consistent f _ ⟨rfl, rfl⟩
  have hcons : ∀ q ∈ iterations A f kMaxIterations (prepare (initialState a b f)),
      Consistent f q.1 := by
    have key : ∀ (fuel : Nat) (s : SolverState), Consistent f s →
        ∀ q ∈ iterations A f fuel s, Consistent f q.1 := by
      intro fuel
      induction fuel with
      | zero => intro s _ q hq; cases hq
      | succ n ih =>
        intro s hs q hq
        unfold iterations at hq
        by_cases hc : s.count < kMaxIterations
        · simp only [hc, if_true] at hq
          rcases List.mem_cons.mp hq with h1 | h1
          · rw [h1]; exact hs
          · by_cases hv : converged A (iterate A f s) = true
            · simp only [hv, if_true] at h1
              cases h1
            · simp only [hv, Bool.false_eq_true, if_false] at h1
              exact ih _ (ld_iterate_consistent A f s hs) q h1
        · simp only [hc, if_false] at hq
          cases hq
    exact key _ _ hcons0
  constructor
  · intro q hq
    have hstep := (ld_iterations_step A f _ _ q hq).1
    have hc := hcons q hq
    have hrC : q.1.result_kCounter = f q.1.estimate_kCounter := hc.2
    constructor
    · intro hlt
      rw [← hrC] at hlt
      rw [hstep]
      unfold iterate swapIfCounterCloser
      simp only [hlt, if_true]
      split
      · right; exact ⟨rfl, rfl⟩
      · left; exact ⟨rfl, rfl⟩
    · intro hlt
      rw [← hrC] at hlt
      rw [hstep]
      unfold iterate swapIfCounterCloser
      simp only [hlt, if_false]
      split
      · right; exact ⟨rfl, rfl⟩
      · left; exact ⟨rfl, rfl⟩
  · intro hno q hq
    have hno2 : ∀ p ∈ iterations A f kMaxIterations (prepare (initialState a b f)),
        NoUnderflowAt A f p.1 := by
      intro p hp
      have hc := hcons p hp
      have hrC : p.1.result_kCounter = f p.1.estimate_kCounter := hc.2
      unfold NoUnderflowAt
      rw [hrC]
      exact hno p hp
    have hB := ld_iterations_bracketing A f hpos hneg htol _ _
      (ld_prepare_bracketing A f a b hpos h) hno2 q hq
    obtain ⟨hb, hc, -⟩ := hB
    have hstep := (ld_iterations_step A f _ _ q hq).1
    have hc2 : Consistent f q.2 := by
      rw [hstep]; exact ld_iterate_consistent A f q.1 hc
    have hrB : q.1.result_kBest = f q.1.estimate_kBest := hc.1
    have hrC : q.1.result_kCounter = f q.1.estimate_kCounter := hc.2
    have hrB2 : q.2.result_kBest = f q.2.estimate_kBest := hc2.1
    have hrC2 : q.2.result_kCounter = f q.2.estimate_kCounter := hc2.2
    constructor
    · rw [← hrB, ← hrC]; exact hb
    · rw [← hrB2, ← hrC2, hstep]
      exact ld_iterate_product_nonpos A f q.1 hpos hneg hb (hno2 q hq)

/-- Witness for C24 (amended): binary64 rounding keeps the sign or gives zero
and its tolerance literal is positive; on the run of the counterexample the
guard product is negative, and in the first pass the computed product is not
negative, so the new point `0` takes the place of counter and the swap makes
it best. -/
theorem SearchForRoot_bracket_kept_unless_underflow_witness :
    (∀ x : ℚ, 0 ≤ x → 0 ≤ (Arithmetic.ofFormat ieee.binary64).rnd x)
      ∧ (∀ x : ℚ, x ≤ 0 → (Arithmetic.ofFormat ieee.binary64).rnd x ≤ 0)
      ∧ 0 < (Arithmetic.ofFormat ieee.binary64).literal_1e_9
      ∧ (Arithmetic.ofFormat ieee.binary64).mul (dipObjective (-500) (-600) 1)
          (dipObjective (-500) (-600) (-1)) < 0
      ∧ (¬ (Arithmetic.ofFormat ieee.binary64).mul
            (dipObjective (-500) (-600)
              (nextEstimate (Arithmetic.ofFormat ieee.binary64) (dipState0 (-500))))
            (dipObjective (-500) (-600) (dipState0 (-500)).estimate_kCounter) < 0 →
          ((dipState1 (-500) (-600)).estimate_kBest = (dipState0 (-500)).estimate_kBest
              ∧ (dipState1 (-500) (-600)).estimate_kCounter
                = nextEstimate (Arithmetic.ofFormat ieee.binary64) (dipState0 (-500)))
            ∨ ((dipState1 (-500) (-600)).estimate_kBest
                = nextEstimate (Arithmetic.ofFormat ieee.binary64) (dipState0 (-500))
              ∧ (dipState1 (-500) (-600)).estimate_kCounter
                = (dipState0 (-500)).estimate_kBest)) :=
  have htol : 0 < (Arithmetic.ofFormat ieee.binary64).literal_1e_9 :=
    lt_trans (ieee.two_zpow_pos (-82)) ((ofFormat_literal_1e_9 ieee.binary64).2 (-82) (le_refl _))
  have hg := (dip_first_pass ieee.binary64 (by decide) (by decide) (-500) (-600) (by norm_num)
    (by norm_num [ieee.binary64]) (by norm_num [ieee.binary64]) (by norm_num)).1
  have hmem := (dip_bracket_lost ieee.binary64 (by decide) (by decide) (-500) (-600)
    (by norm_num) (by norm_num [ieee.binary64]) (by norm_num [ieee.binary64]) (by norm_num)
    (by norm_num)).2.2.1
  ⟨ieee.Format.round_nonneg ieee.binary64, ieee.Format.round_nonpos ieee.binary64, htol, hg,
    ((SearchForRoot_bracket_kept_unless_underflow (Arithmetic.ofFormat ieee.binary64)
      (dipObjective (-500) (-600)) (-1) 1 (ieee.Format.round_nonneg ieee.binary64)
      (ieee.Format.round_nonpos ieee.binary64) htol hg).1 _ hmem).2⟩

end longdouble

namespace ieee

/-- Rounding a number of the format, given as `m * 2^k`. -/
theorem Format.round_exact_eq (F : Format) (x v : ℚ) (m k : Int)
    (hx : x = (m : ℚ) * (2 : ℚ) ^ k) (hv : v = x)
    (hm : |(m : ℚ)| < (2 : ℚ) ^ (F.precision : Int))
    (hk : F.emin - ((F.precision : Int) - 1) ≤ k) : F.round x = v := by
  rw [hv, hx]
  exact Format.round_exact F m k hm hk

/-- Rounding a number whose binade `e` and nearest multiple `n * 2^u` of the
unit in the last place are given. -/
theorem Format.round_nearest_eq (F : Format) (x v : ℚ) (e u n : Int)
    (hb : ((2 : ℚ) ^ e ≤ x ∧ x < (2 : ℚ) ^ (e + 1)) ∨ ((2 : ℚ) ^ e ≤ -x ∧ -x < (2 : ℚ) ^ (e + 1)))
    (he : F.emin ≤ e) (hu : u = e - ((F.precision : Int) - 1))
    (hv : v = (n : ℚ) * (2 : ℚ) ^ u)
    (hn : -(1 / 2) < x / (2 : ℚ) ^ u - n ∧ x / (2 : ℚ) ^ u - n < 1 / 2) : F.round x = v := by
  have habs : (2 : ℚ) ^ e ≤ |x| ∧ |x| < (2 : ℚ) ^ (e + 1) := by
    rcases hb with ⟨h1, h2⟩ | ⟨h1, h2⟩
    · have hx : 0 < x := lt_of_lt_of_le (two_zpow_pos e) h1
      rw [abs_of_pos hx]; exact ⟨h1, h2⟩
    · have hx : x < 0 := by
        have := lt_of_lt_of_le (two_zpow_pos e) h1
        linarith
      rw [abs_of_neg hx]; exact ⟨h1, h2⟩
  rw [hv, hu]
  apply Format.round_nearest F x e n habs.1 habs.2 he
  rw [← hu]
  exact abs_lt.mpr hn

end ieee

namespace longdouble

theorem ld_SecantEstimate_eq (A : Arithmetic) (x1 x0 y1 y0 : ℚ) :
    SecantEstimate A x1 x0 y1 y0
      = A.rnd (x1 - A.rnd (y1 * A.rnd (A.rnd (x1 - x0) / A.rnd (y1 - y0)))) := rfl

theorem secant_binary64_value :
    SecantEstimate (Arithmetic.ofFormat ieee.binary64) 859 (-222) 838490 (-193865)
      = (-167125767421953 / 8796093022208) := by
  have h1 : ieee.binary64.round (859 - (-222)) = 1081 :=
    ieee.Format.round_exact_eq ieee.binary64 _ _ (1081) (0)
      (by norm_num [zpow_neg]) (by norm_num) (by norm_num [ieee.binary64]) (by norm_num [ieee.binary64])
  have h2 : ieee.binary64.round (838490 - (-193865)) = 1032355 :=
    ieee.Format.round_exact_eq ieee.binary64 _ _ (1032355) (0)
      (by norm_num [zpow_neg]) (by norm_num) (by norm_num [ieee.binary64]) (by norm_num [ieee.binary64])
  have h3 : ieee.binary64.round (1081 / 1032355) = (4828990595211925 / 4611686018427387904) :=
    ieee.Format.round_nearest_eq ieee.binary64 _ _ (-10) (-62) (4828990595211925)
      (Or.inl (by constructor <;> norm_num [zpow_neg])) (by norm_num [ieee.binary64]) (by norm_num [ieee.binary64])
      (by norm_num [zpow_neg]) (by constructor <;> norm_num [zpow_neg])
  have h4 : ieee.binary64.round (838490 * (4828990595211925 / 4611686018427387904)) = (7722969673498625 / 8796093022208) :=
    ieee.Format.round_nearest_eq ieee.binary64 _ _ (9) (-43) (7722969673498625)
      (Or.inl (by constructor <;> norm_num [zpow_neg])) (by norm_num [ieee.binary64]) (by norm_num [ieee.binary64])
      (by norm_num [zpow_neg]) (by constructor <;> norm_num [zpow_neg])
  have h5 : ieee.binary64.round (859 - (7722969673498625 / 8796093022208)) = (-167125767421953 / 8796093022208) :=
    ieee.Format.round_exact_eq ieee.binary64 _ _ (-167125767421953) (-43)
      (by norm_num [zpow_neg]) (by norm_num) (by norm_num [ieee.binary64]) (by norm_num [ieee.binary64])
  rw [ld_SecantEstimate_eq]
  show ieee.binary64.round (859 - ieee.binary64.round (838490
    * ieee.binary64.round (ieee.binary64.round (859 - (-222)) / ieee.binary64.round (838490 - (-193865))))) = _
  rw [h1, h2, h3, h4, h5]

theorem secant_x87extended_value :
    SecantEstimate (Arithmetic.ofFormat ieee.x87extended) (-3) 0 (-45) 0
      = (1 / 4611686018427387904) := by
  have h1 : ieee.x87extended.round ((-3) - 0) = (-3) :=
    ieee.Format.round_exact_eq ieee.x87extended _ _ (-3) (0)
      (by norm_num [zpow_neg]) (by norm_num) (by norm_num [ieee.x87extended]) (by norm_num [ieee.x87extended])
  have h2 : ieee.x87extended.round ((-45) - 0) = (-45) :=
    ieee.Format.round_exact_eq ieee.x87extended _ _ (-45) (0)
      (by norm_num [zpow_neg]) (by norm_num) (by norm_num [ieee.x87extended]) (by norm_num [ieee.x87extended])
  have h3 : ieee.x87extended.round ((-3) / (-45)) = (9838263505978427529 / 147573952589676412928) :=
    ieee.Format.round_nearest_eq ieee.x87extended _ _ (-4) (-67) (9838263505978427529)
      (Or.inl (by constructor <;> norm_num [zpow_neg])) (by norm_num [ieee.x87extended]) (by norm_num [ieee.x87extended])
      (by norm_num [zpow_neg]) (by constructor <;> norm_num [zpow_neg])
  have h4 : ieee.x87extended.round ((-45) * (9838263505978427529 / 147573952589676412928)) = (-13835058055282163713 / 4611686018427387904) :=
    ieee.Format.round_nearest_eq ieee.x87extended _ _ (1) (-62) (-13835058055282163713)
      (Or.inr (by constructor <;> norm_num [zpow_neg])) (by norm_num [ieee.x87extended]) (by norm_num [ieee.x87extended])
      (by norm_num [zpow_neg]) (by constructor <;> norm_num [zpow_neg])
  have h5 : ieee.x87extended.round ((-3) - (-13835058055282163713 / 4611686018427387904)) = (1 / 4611686018427387904) :=
    ieee.Format.round_exact_eq ieee.x87extended _ _ (1) (-62)
      (by norm_num [zpow_neg]) (by norm_num) (by norm_num [ieee.x87extended]) (by norm_num [ieee.x87extended])
  rw [ld_SecantEstimate_eq]
  show ieee.x87extended.round ((-3) - ieee.x87extended.round ((-45)
    * ieee.x87extended.round (ieee.x87extended.round ((-3) - 0) / ieee.x87extended.round ((-45) - 0)))) = _
  rw [h1, h2, h3, h4, h5]

end longdouble

namespace longdouble

open roots (SolverState kMaxIterations Consistent swapIfCounterCloser prepare initialState
  methods_available relative_to_solution_e Bracketing)

theorem cliff_prepare : prepare (initialState 0 1 cliffObjective) = cliffState0 := by
  have h0 : cliffObjective 0 = 1 / 1180591620717411303424 := by
    unfold cliffObjective; rw [if_pos (le_refl _)]
  have h1 : cliffObjective 1 = -1 := by
    unfold cliffObjective; rw [if_neg (by norm_num)]
  unfold prepare swapIfCounterCloser initialState cliffState0
  simp only [h0, h1]
  rw [if_neg (by norm_num [abs_div])]

/-- The first pass on `cliffObjective` in binary64: the guard product is negative
and the secant candidate is the best estimate `0` itself. -/
theorem cliff_binary64_candidate :
    (Arithmetic.ofFormat ieee.binary64).mul (cliffObjective 1) (cliffObjective 0) < 0
      ∧ candidate (Arithmetic.ofFormat ieee.binary64) cliffState0
        = (0, methods_available.secant) := by
  have h1 : ieee.binary64.round (1 - 0) = 1 :=
    ieee.Format.round_exact_eq ieee.binary64 _ _ (1) (0)
      (by norm_num [zpow_neg]) (by norm_num) (by norm_num [ieee.binary64]) (by norm_num [ieee.binary64])
  have h2 : ieee.binary64.round ((-1) - (1 / 1180591620717411303424)) = (-1) :=
    ieee.Format.round_nearest_eq ieee.binary64 _ _ (0) (-52) (-4503599627370496)
      (Or.inr (by constructor <;> norm_num [zpow_neg])) (by norm_num [ieee.binary64]) (by norm_num [ieee.binary64])
      (by norm_num [zpow_neg]) (by constructor <;> norm_num [zpow_neg])
  have h3 : ieee.binary64.round (1 / (-1)) = (-1) :=
    ieee.Format.round_exact_eq ieee.binary64 _ _ (-1) (0)
      (by norm_num [zpow_neg]) (by norm_num) (by norm_num [ieee.binary64]) (by norm_num [ieee.binary64])
  have h4 : ieee.binary64.round ((-1) * (-1)) = 1 :=
    ieee.Format.round_exact_eq ieee.binary64 _ _ (1) (0)
      (by norm_num [zpow_neg]) (by norm_num) (by norm_num [ieee.binary64]) (by norm_num [ieee.binary64])
  have h5 : ieee.binary64.round (1 - 1) = 0 :=
    ieee.Format.round_exact_eq ieee.binary64 _ _ (0) (0)
      (by norm_num [zpow_neg]) (by norm_num) (by norm_num [ieee.binary64]) (by norm_num [ieee.binary64])
  have g1 : ieee.binary64.round ((-1) * (1 / 1180591620717411303424)) = (-1 / 1180591620717411303424) :=
    ieee.Format.round_exact_eq ieee.binary64 _ _ (-1) (-70)
      (by norm_num [zpow_neg]) (by norm_num) (by norm_num [ieee.binary64]) (by norm_num [ieee.binary64])
  have h0 : cliffObjective 0 = 1 / 1180591620717411303424 := by
    unfold cliffObjective; rw [if_pos (le_refl _)]
  have hc1 : cliffObjective 1 = -1 := by
    unfold cliffObjective; rw [if_neg (by norm_num)]
  constructor
  · show ieee.binary64.round (cliffObjective 1 * cliffObjective 0) < 0
    rw [h0, hc1]
    show ieee.binary64.round ((-1) * (1 / 1180591620717411303424)) < 0
    rw [g1]
    norm_num
  · unfold candidate
    rw [if_neg (fun h => h.1 rfl)]
    refine Prod.ext ?_ rfl
    show SecantEstimate (Arithmetic.ofFormat ieee.binary64) 1 0 (-1) (1 / 1180591620717411303424) = 0
    rw [ld_SecantEstimate_eq]
    show ieee.binary64.round (1 - ieee.binary64.round ((-1)
      * ieee.binary64.round (ieee.binary64.round (1 - 0) / ieee.binary64.round ((-1) - (1 / 1180591620717411303424))))) = 0
    rw [h1, h2, h3, h4, h5]

/-- The first pass on `cliffObjective` in x87extended: the guard product is negative
and the secant candidate is the best estimate `0` itself. -/
theorem cliff_x87extended_candidate :
    (Arithmetic.ofFormat ieee.x87extended).mul (cliffObjective 1) (cliffObjective 0) < 0
      ∧ candidate (Arithmetic.ofFormat ieee.x87extended) cliffState0
        = (0, methods_available.secant) := by
  have h1 : ieee.x87extended.round (1 - 0) = 1 :=
    ieee.Format.round_exact_eq ieee.x87extended _ _ (1) (0)
      (by norm_num [zpow_neg]) (by norm_num) (by norm_num [ieee.x87extended]) (by norm_num [ieee.x87extended])
  have h2 : ieee.x87extended.round ((-1) - (1 / 1180591620717411303424)) = (-1) :=
    ieee.Format.round_nearest_eq ieee.x87extended _ _ (0) (-63) (-9223372036854775808)
      (Or.inr (by constructor <;> norm_num [zpow_neg])) (by norm_num [ieee.x87extended]) (by norm_num [ieee.x87extended])
      (by norm_num [zpow_neg]) (by constructor <;> norm_num [zpow_neg])
  have h3 : ieee.x87extended.round (1 / (-1)) = (-1) :=
    ieee.Format.round_exact_eq ieee.x87extended _ _ (-1) (0)
      (by norm_num [zpow_neg]) (by norm_num) (by norm_num [ieee.x87extended]) (by norm_num [ieee.x87extended])
  have h4 : ieee.x87extended.round ((-1) * (-1)) = 1 :=
    ieee.Format.round_exact_eq ieee.x87extended _ _ (1) (0)
      (by norm_num [zpow_neg]) (by norm_num) (by norm_num [ieee.x87extended]) (by norm_num [ieee.x87extended])
  have h5 : ieee.x87extended.round (1 - 1) = 0 :=
    ieee.Format.round_exact_eq ieee.x87extended _ _ (0) (0)
      (by norm_num [zpow_neg]) (by norm_num) (by norm_num [ieee.x87extended]) (by norm_num [ieee.x87extended])
  have g1 : ieee.x87extended.round ((-1) * (1 / 1180591620717411303424)) = (-1 / 1180591620717411303424) :=
    ieee.Format.round_exact_eq ieee.x87extended _ _ (-1) (-70)
      (by norm_num [zpow_neg]) (by norm_num) (by norm_num [ieee.x87extended]) (by norm_num [ieee.x87extended])
  have h0 : cliffObjective 0 = 1 / 1180591620717411303424 := by
    unfold cliffObjective; rw [if_pos (le_refl _)]
  have hc1 : cliffObjective 1 = -1 := by
    unfold cliffObjective; rw [if_neg (by norm_num)]
  constructor
  · show ieee.x87extended.round (cliffObjective 1 * cliffObjective 0) < 0
    rw [h0, hc1]
    show ieee.x87extended.round ((-1) * (1 / 1180591620717411303424)) < 0
    rw [g1]
    norm_num
  · unfold candidate
    rw [if_neg (fun h => h.1 rfl)]
    refine Prod.ext ?_ rfl
    show SecantEstimate (Arithmetic.ofFormat ieee.x87extended) 1 0 (-1) (1 / 1180591620717411303424) = 0
    rw [ld_SecantEstimate_eq]
    show ieee.x87extended.round (1 - ieee.x87extended.round ((-1)
      * ieee.x87extended.round (ieee.x87extended.round (1 - 0) / ieee.x87extended.round ((-1) - (1 / 1180591620717411303424))))) = 0
    rw [h1, h2, h3, h4, h5]

theorem secant_unit_exact :
    SecantEstimateExact (Arithmetic.ofFormat ieee.binary64) 1 0 1 (-1) :=
  ⟨ieee.Format.round_exact_eq ieee.binary64 _ _ (1) (0)
      (by norm_num [zpow_neg]) rfl (by norm_num [ieee.binary64]) (by norm_num [ieee.binary64]),
    ieee.Format.round_exact_eq ieee.binary64 _ _ (1) (1)
      (by norm_num [zpow_neg]) rfl (by norm_num [ieee.binary64]) (by norm_num [ieee.binary64]),
    ieee.Format.round_exact_eq ieee.binary64 _ _ (1) (-1)
      (by norm_num [zpow_neg]) rfl (by norm_num [ieee.binary64]) (by norm_num [ieee.binary64]),
    ieee.Format.round_exact_eq ieee.binary64 _ _ (1) (-1)
      (by norm_num [zpow_neg]) rfl (by norm_num [ieee.binary64]) (by norm_num [ieee.binary64]),
    ieee.Format.round_exact_eq ieee.binary64 _ _ (1) (-1)
      (by norm_num [zpow_neg]) rfl (by norm_num [ieee.binary64]) (by norm_num [ieee.binary64])⟩

theorem secant_identity_exact :
    SecantEstimateExact (Arithmetic.ofFormat ieee.binary64) 1 (-1) 1 (-1) :=
  ⟨ieee.Format.round_exact_eq ieee.binary64 _ _ (1) (1)
      (by norm_num [zpow_neg]) rfl (by norm_num [ieee.binary64]) (by norm_num [ieee.binary64]),
    ieee.Format.round_exact_eq ieee.binary64 _ _ (1) (1)
      (by norm_num [zpow_neg]) rfl (by norm_num [ieee.binary64]) (by norm_num [ieee.binary64]),
    ieee.Format.round_exact_eq ieee.binary64 _ _ (1) (0)
      (by norm_num [zpow_neg]) rfl (by norm_num [ieee.binary64]) (by norm_num [ieee.binary64]),
    ieee.Format.round_exact_eq ieee.binary64 _ _ (1) (0)
      (by norm_num [zpow_neg]) rfl (by norm_num [ieee.binary64]) (by norm_num [ieee.binary64]),
    ieee.Format.round_exact_eq ieee.binary64 _ _ (0) (0)
      (by norm_num [zpow_neg]) rfl (by norm_num [ieee.binary64]) (by norm_num [ieee.binary64])⟩

end longdouble

namespace longdouble

open roots (SolverState kMaxIterations Consistent swapIfCounterCloser prepare initialState
  methods_available relative_to_solution_e Bracketing lineThrough)

/-- When its five operations are exact, the rounded secant estimate is the
exact one. -/
theorem ld_SecantEstimate_of_exact (A : Arithmetic) (x1 x0 y1 y0 : ℚ)
    (hex : SecantEstimateExact A x1 x0 y1 y0) :
    SecantEstimate A x1 x0 y1 y0 = roots.SecantEstimate x1 x0 y1 y0 := by
  obtain ⟨h1, h2, h3, h4, h5⟩ := hex
  unfold SecantEstimate roots.SecantEstimate
  rw [h1, h2, h3, h4, h5]

/-- A candidate tagged as secant is the rounded secant estimate through the
counter and the best point, and the two estimates differ. -/
theorem ld_candidate_secant (A : Arithmetic) (s : SolverState)
    (hsec : (candidate A s).2 = methods_available.secant) :
    (candidate A s).1
      = SecantEstimate A s.estimate_kCounter s.estimate_kBest s.result_kCounter s.result_kBest := by
  unfold candidate at hsec ⊢
  split at hsec
  · cases hsec
  · rename_i hnot
    rw [if_neg hnot]

/-- C27, counterexample: in binary64, for `f(x) = 955 x + 18145` (root `-19`) the
secant estimate from `x1 = 859` and `x0 = -222` is not `-19`; in the x87
extended format, for `f(x) = 15 x` (root `0`) the secant estimate from
`x1 = -3` and `x0 = 0` is `2^(-62)`, not `0`. In both cases `y1 != y0`, and the
computed value is neither `(x0 * y1 - x1 * y0) / (y1 - y0)` nor `-k / m`. -/
theorem SecantEstimate_rounded_misses_zero_crossing :
    ((838490 : ℚ) = 955 * 859 + 18145 ∧ (-193865 : ℚ) = 955 * (-222) + 18145
        ∧ (838490 : ℚ) ≠ -193865
        ∧ SecantEstimate (Arithmetic.ofFormat ieee.binary64) 859 (-222) 838490 (-193865)
            = -167125767421953 / 8796093022208
        ∧ SecantEstimate (Arithmetic.ofFormat ieee.binary64) 859 (-222) 838490 (-193865)
            ≠ ((-222) * 838490 - 859 * (-193865)) / (838490 - (-193865))
        ∧ SecantEstimate (Arithmetic.ofFormat ieee.binary64) 859 (-222) 838490 (-193865)
            ≠ -18145 / 955)
      ∧ ((-45 : ℚ) = 15 * (-3) + 0 ∧ (0 : ℚ) = 15 * 0 + 0 ∧ (-45 : ℚ) ≠ 0
        ∧ SecantEstimate (Arithmetic.ofFormat ieee.x87extended) (-3) 0 (-45) 0
            = 1 / 4611686018427387904
        ∧ SecantEstimate (Arithmetic.ofFormat ieee.x87extended) (-3) 0 (-45) 0
            ≠ (0 * (-45) - (-3) * 0) / (-45 - 0)
        ∧ SecantEstimate (Arithmetic.ofFormat ieee.x87extended) (-3) 0 (-45) 0 ≠ -0 / 15) := by
  refine ⟨⟨by norm_num, by norm_num, by norm_num, ?_, ?_, ?_⟩,
    ⟨by norm_num, by norm_num, by norm_num, ?_, ?_, ?_⟩⟩
  · exact secant_binary64_value
  · rw [secant_binary64_value]; norm_num
  · rw [secant_binary64_value]; norm_num
  · exact secant_x87extended_value
  · rw [secant_x87extended_value]; norm_num
  · rw [secant_x87extended_value]; norm_num

/-- C27, amended: with `y1 != y0`, when each of the five `long double`
operations of `SecantEstimate(x1, x0, y1, y0)` is exact, its value is
`(x0 * y1 - x1 * y0) / (y1 - y0)`, the point where the line through `(x1, y1)`
and `(x0, y0)` is `0`, and for `f(x) = m x + k` with `m != 0` and `x0 != x1` it
is the root `-k / m`; in general the value is the five operations
`x1 - y1 * ((x1 - x0) / (y1 - y0))` with each result rounded. -/
theorem SecantEstimate_zero_crossing_when_exact (A : Arithmetic) (x1 x0 y1 y0 : ℚ)
    (hy : y1 ≠ y0) (hex : SecantEstimateExact A x1 x0 y1 y0) :
    SecantEstimate A x1 x0 y1 y0 = (x0 * y1 - x1 * y0) / (y1 - y0)
      ∧ (x1 ≠ x0 → lineThrough x1 y1 x0 y0 (SecantEstimate A x1 x0 y1 y0) = 0)
      ∧ (∀ m k : ℚ, m ≠ 0 → x1 ≠ x0 → y1 = m * x1 + k → y0 = m * x0 + k →
          SecantEstimate A x1 x0 y1 y0 = -k / m)
      ∧ ∀ B : Arithmetic, ∀ u1 u0 v1 v0 : ℚ,
          SecantEstimate B u1 u0 v1 v0
            = B.rnd (u1 - B.rnd (v1 * B.rnd (B.rnd (u1 - u0) / B.rnd (v1 - v0)))) := by
  rw [ld_SecantEstimate_of_exact A x1 x0 y1 y0 hex]
  have h := roots.SecantEstimate_zero_crossing x1 x0 y1 y0 hy
  exact ⟨h.1, h.2.1, h.2.2, fun B u1 u0 v1 v0 => rfl⟩

/-- Witness for C27 (amended): in binary64, the line `y = 2 x - 1` through
`x = 1` and `x = 0`; the five operations give `1`, `2`, `1/2`, `1/2`, `1/2`. -/
theorem SecantEstimate_zero_crossing_when_exact_witness :
    (1 : ℚ) ≠ -1
      ∧ SecantEstimateExact (Arithmetic.ofFormat ieee.binary64) 1 0 1 (-1)
      ∧ SecantEstimate (Arithmetic.ofFormat ieee.binary64) 1 0 1 (-1) = -(-1) / 2 :=
  ⟨by norm_num, secant_unit_exact,
    (SecantEstimate_zero_crossing_when_exact (Arithmetic.ofFormat ieee.binary64) 1 0 1 (-1)
      (by norm_num) secant_unit_exact).2.2.1 2 (-1) (by norm_num) (by norm_num) (by norm_num)
      (by norm_num)⟩

end longdouble

namespace longdouble

open roots (SolverState kMaxIterations Consistent swapIfCounterCloser prepare initialState
  methods_available relative_to_solution_e Bracketing lineThrough)

/-- Every executed pass starts in a state whose results are the objective at
the stored estimates. -/
theorem ld_iterations_consistent (A : Arithmetic) (f : ℚ → ℚ) (fuel : Nat) (s : SolverState)
    (hs : Consistent f s) : ∀ q ∈ iterations A f fuel s, Consistent f q.1 := by
  induction fuel generalizing s with
  | zero => intro q hq; cases hq
  | succ n ih =>
    intro q hq
    unfold iterations at hq
    by_cases hc : s.count < kMaxIterations
    · simp only [hc, if_true] at hq
      rcases List.mem_cons.mp hq with h1 | h1
      · rw [h1]; exact hs
      · by_cases hv : converged A (iterate A f s) = true
        · simp only [hv, if_true] at h1
          cases h1
        · simp only [hv, Bool.false_eq_true, if_false] at h1
          exact ih _ (ld_iterate_consistent A f s hs) q h1
    · simp only [hc, if_false] at hq
      cases hq

/-- Every executed pass of a run starts in a state whose results are the
objective at the stored estimates. -/
theorem ld_run_consistent (A : Arithmetic) (f : ℚ → ℚ) (a b : ℚ) :
    ∀ q ∈ iterations A f kMaxIterations (prepare (initialState a b f)), Consistent f q.1 :=
  ld_iterations_consistent A f _ _ (roots.prepare_consistent f _ ⟨rfl, rfl⟩)

/-- In a state with results of strictly opposite signs, a candidate tagged as
secant whose five operations are exact lies strictly between the best and the
counter estimate. -/
theorem ld_candidate_secant_between (A : Arithmetic) (f : ℚ → ℚ) (s : SolverState)
    (hcons : Consistent f s) (hprod : f s.estimate_kBest * f s.estimate_kCounter < 0)
    (hsec : (candidate A s).2 = methods_available.secant)
    (hex : SecantEstimateExact A s.estimate_kCounter s.estimate_kBest (f s.estimate_kCounter)
      (f s.estimate_kBest)) :
    s.estimate_kBest ≠ s.estimate_kCounter
      ∧ min s.estimate_kBest s.estimate_kCounter < (candidate A s).1
      ∧ (candidate A s).1 < max s.estimate_kBest s.estimate_kCounter
      ∧ 0 < f s.estimate_kCounter / (f s.estimate_kCounter - f s.estimate_kBest)
      ∧ f s.estimate_kCounter / (f s.estimate_kCounter - f s.estimate_kBest) < 1
      ∧ (candidate A s).1
          = f s.estimate_kCounter / (f s.estimate_kCounter - f s.estimate_kBest)
              * s.estimate_kBest
            + (1 - f s.estimate_kCounter / (f s.estimate_kCounter - f s.estimate_kBest))
              * s.estimate_kCounter := by
  have hrB : s.result_kBest = f s.estimate_kBest := hcons.1
  have hrC : s.result_kCounter = f s.estimate_kCounter := hcons.2
  have hne : s.estimate_kBest ≠ s.estimate_kCounter := by
    intro he
    rw [he] at hprod
    have := mul_self_nonneg (f s.estimate_kCounter)
    linarith
  have hconv := roots.SecantEstimate_convex s.estimate_kCounter s.estimate_kBest
    (f s.estimate_kCounter) (f s.estimate_kBest) hprod
  have hc := ld_candidate_secant A s hsec
  rw [hrB, hrC, ld_SecantEstimate_of_exact A _ _ _ _ hex] at hc
  rw [← hc] at hconv
  obtain ⟨h0, h1, heq⟩ := hconv
  have hbetween := roots.convex_strictly_between _ _ _ h0 h1 hne
  rw [← heq] at hbetween
  exact ⟨hne, hbetween.1, hbetween.2, h0, h1, heq⟩

/-- The identity objective on the estimates `-1` and `1`: the state on entry to
the loop. -/
theorem identity_prepare_fields :
    (prepare (initialState (-1) 1 (fun x => x))).estimate_kBest = -1
      ∧ (prepare (initialState (-1) 1 (fun x => x))).estimate_kCounter = 1
      ∧ (prepare (initialState (-1) 1 (fun x => x))).result_kBest = -1
      ∧ (prepare (initialState (-1) 1 (fun x => x))).result_kCounter = 1
      ∧ (prepare (initialState (-1) 1 (fun x => x))).result_kMinus1 = 1 := by
  unfold prepare swapIfCounterCloser initialState
  simp only []
  rw [if_neg (by norm_num)]
  exact ⟨rfl, rfl, rfl, rfl, rfl⟩

/-- In binary64 the product computed at the guard for the identity objective on
`-1` and `1` is negative. -/
theorem identity_binary64_guard :
    (Arithmetic.ofFormat ieee.binary64).mul ((fun x : ℚ => x) 1) ((fun x : ℚ => x) (-1)) < 0 := by
  show ieee.binary64.round (1 * (-1)) < 0
  have e := ieee.Format.round_intCast ieee.binary64 (-1) (by norm_num [ieee.binary64])
    (by decide)
  rw [show (1 : ℚ) * (-1) = ((-1 : Int) : ℚ) by norm_num, e]
  norm_num

/-- In binary64 the candidate of the first pass on the identity objective from
`-1` and `1` is tagged as secant. -/
theorem identity_candidate_tag (A : Arithmetic) :
    (candidate A (prepare (initialState (-1) 1 (fun x => x)))).2
      = methods_available.secant := by
  obtain ⟨-, -, -, h4, h5⟩ := identity_prepare_fields
  unfold candidate
  rw [if_neg (fun h => h.1 (h4.trans h5.symm))]

/-- C31, counterexample: on the objective that is `2^(-70)` up to `0` and `-1`
above, from the estimates `0` and `1`, the values have strictly opposite signs
and `SearchForRoot` does not raise, both in binary64 and in the x87 extended
format; the first pass starts with best `0` and counter `1`, and its secant
candidate is computed as `0`, the best estimate itself, not a point strictly
between the two. -/
theorem SearchForRoot_secant_candidate_equals_best :
    cliffObjective 0 * cliffObjective 1 < 0
      ∧ ∀ A : Arithmetic,
          A = Arithmetic.ofFormat ieee.binary64 ∨ A = Arithmetic.ofFormat ieee.x87extended →
          (∃ r, SearchForRoot A 0 1 cliffObjective = Except.ok r)
            ∧ (prepare (initialState 0 1 cliffObjective),
                  iterate A cliffObjective (prepare (initialState 0 1 cliffObjective)))
                ∈ iterations A cliffObjective kMaxIterations
                    (prepare (initialState 0 1 cliffObjective))
            ∧ (prepare (initialState 0 1 cliffObjective)).estimate_kBest = 0
            ∧ (prepare (initialState 0 1 cliffObjective)).estimate_kCounter = 1
            ∧ candidate A (prepare (initialState 0 1 cliffObjective))
                = (0, methods_available.secant)
            ∧ ¬ (min (0 : ℚ) 1
                < (candidate A (prepare (initialState 0 1 cliffObjective))).1) := by
  have key : ∀ A : Arithmetic, A.mul (cliffObjective 1) (cliffObjective 0) < 0 →
      candidate A cliffState0 = (0, methods_available.secant) →
      (∃ r, SearchForRoot A 0 1 cliffObjective = Except.ok r)
        ∧ (prepare (initialState 0 1 cliffObjective),
              iterate A cliffObjective (prepare (initialState 0 1 cliffObjective)))
            ∈ iterations A cliffObjective kMaxIterations
                (prepare (initialState 0 1 cliffObjective))
        ∧ (prepare (initialState 0 1 cliffObjective)).estimate_kBest = 0
        ∧ (prepare (initialState 0 1 cliffObjective)).estimate_kCounter = 1
        ∧ candidate A (prepare (initialState 0 1 cliffObjective))
            = (0, methods_available.secant)
        ∧ ¬ (min (0 : ℚ) 1
            < (candidate A (prepare (initialState 0 1 cliffObjective))).1) := by
    intro A hg hc
    refine ⟨⟨_, (ld_SearchForRoot_eq A 0 1 cliffObjective).trans
      (congrArg Prod.fst (ld_SearchForRootTrace_ok A 0 1 cliffObjective hg))⟩,
      ld_iterations_first A cliffObjective 0 1, ?_, ?_, ?_, ?_⟩
    · rw [cliff_prepare]; rfl
    · rw [cliff_prepare]; rfl
    · rw [cliff_prepare]; exact hc
    · rw [cliff_prepare, hc]
      norm_num
  constructor
  · unfold cliffObjective
    rw [if_pos (le_refl _), if_neg (by norm_num)]
    norm_num
  · rintro A (rfl | rfl)
    · exact key _ cliff_binary64_candidate.1 cliff_binary64_candidate.2
    · exact key _ cliff_x87extended_candidate.1 cliff_x87extended_candidate.2

/-- C31, amended: in every executed pass of `SearchForRoot` that starts with
`f(best)` and `f(counter)` of strictly opposite signs and computes a secant
candidate, if each of the five `long double` operations of the secant step is
exact, then `best != counter` and the candidate lies strictly between the best
and the counter estimate: it is the convex combination
`t * best + (1 - t) * counter` with `t = f(counter) / (f(counter) - f(best))`,
`0 < t < 1`.  When the rounding keeps the sign of what it rounds or gives zero,
the product computed at the guard is negative and no placement product
underflows, every executed pass starts with such opposite signs. -/
theorem SearchForRoot_secant_candidate_between_when_exact (A : Arithmetic) (f : ℚ → ℚ)
    (a b : ℚ) (hpos : ∀ x : ℚ, 0 ≤ x → 0 ≤ A.rnd x) (hneg : ∀ x : ℚ, x ≤ 0 → A.rnd x ≤ 0)
    (htol : 0 < A.literal_1e_9) (h : A.mul (f b) (f a) < 0) :
    (∀ q ∈ iterations A f kMaxIterations (prepare (initialState a b f)),
        f q.1.estimate_kBest * f q.1.estimate_kCounter < 0 →
        (candidate A q.1).2 = methods_available.secant →
        SecantEstimateExact A q.1.estimate_kCounter q.1.estimate_kBest
          (f q.1.estimate_kCounter) (f q.1.estimate_kBest) →
        q.1.estimate_kBest ≠ q.1.estimate_kCounter
          ∧ min q.1.estimate_kBest q.1.estimate_kCounter < (candidate A q.1).1
          ∧ (candidate A q.1).1 < max q.1.estimate_kBest q.1.estimate_kCounter
          ∧ 0 < f q.1.estimate_kCounter / (f q.1.estimate_kCounter - f q.1.estimate_kBest)
          ∧ f q.1.estimate_kCounter / (f q.1.estimate_kCounter - f q.1.estimate_kBest) < 1
          ∧ (candidate A q.1).1
              = f q.1.estimate_kCounter / (f q.1.estimate_kCounter - f q.1.estimate_kBest)
                  * q.1.estimate_kBest
                + (1 - f q.1.estimate_kCounter
                      / (f q.1.estimate_kCounter - f q.1.estimate_kBest))
                  * q.1.estimate_kCounter)
      ∧ ((∀ q ∈ iterations A f kMaxIterations (prepare (initialState a b f)),
            A.mul (f (nextEstimate A q.1)) (f q.1.estimate_kCounter) = 0 →
              f (nextEstimate A q.1) * f q.1.estimate_kCounter = 0) →
          ∀ q ∈ iterations A f kMaxIterations (prepare (initialState a b f)),
            f q.1.estimate_kBest * f q.1.estimate_kCounter < 0) := by
  have hcons := ld_run_consistent A f a b
  constructor
  · intro q hq hprod hsec hex
    exact ld_candidate_secant_between A f q.1 (hcons q hq) hprod hsec hex
  · intro hno q hq
    have hno2 : ∀ p ∈ iterations A f kMaxIterations (prepare (initialState a b f)),
        NoUnderflowAt A f p.1 := by
      intro p hp
      have hrC : p.1.result_kCounter = f p.1.estimate_kCounter := (hcons p hp).2
      unfold NoUnderflowAt
      rw [hrC]
      exact hno p hp
    have hB := ld_iterations_bracketing A f hpos hneg htol _ _
      (ld_prepare_bracketing A f a b hpos h) hno2 q hq
    have hrB : q.1.result_kBest = f q.1.estimate_kBest := hB.2.1.1
    have hrC : q.1.result_kCounter = f q.1.estimate_kCounter := hB.2.1.2
    rw [← hrB, ← hrC]
    exact hB.1

/-- Witness for C31 (amended): in binary64, the first pass on the identity
objective from `-1` and `1`: the five secant operations give `2`, `2`, `1`,
`1`, `0`, all exact, and the candidate `0` lies strictly between `-1` and
`1`. -/
theorem SearchForRoot_secant_candidate_between_when_exact_witness :
    (∀ x : ℚ, 0 ≤ x → 0 ≤ (Arithmetic.ofFormat ieee.binary64).rnd x)
      ∧ (∀ x : ℚ, x ≤ 0 → (Arithmetic.ofFormat ieee.binary64).rnd x ≤ 0)
      ∧ 0 < (Arithmetic.ofFormat ieee.binary64).literal_1e_9
      ∧ (Arithmetic.ofFormat ieee.binary64).mul ((fun x : ℚ => x) 1) ((fun x : ℚ => x) (-1)) < 0
      ∧ (prepare (initialState (-1) 1 (fun x => x))).estimate_kBest = -1
      ∧ (prepare (initialState (-1) 1 (fun x => x))).estimate_kCounter = 1
      ∧ min (-1 : ℚ) 1
          < (candidate (Arithmetic.ofFormat ieee.binary64)
              (prepare (initialState (-1) 1 (fun x => x)))).1
      ∧ (candidate (Arithmetic.ofFormat ieee.binary64)
            (prepare (initialState (-1) 1 (fun x => x)))).1 < max (-1 : ℚ) 1 := by
  have hpos : ∀ x : ℚ, 0 ≤ x → 0 ≤ (Arithmetic.ofFormat ieee.binary64).rnd x :=
    fun x hx => ieee.Format.round_nonneg ieee.binary64 x hx
  have hneg : ∀ x : ℚ, x ≤ 0 → (Arithmetic.ofFormat ieee.binary64).rnd x ≤ 0 :=
    fun x hx => ieee.Format.round_nonpos ieee.binary64 x hx
  have htol : 0 < (Arithmetic.ofFormat ieee.binary64).literal_1e_9 := by
    rw [(ofFormat_literal_1e_9 ieee.binary64).1]
    norm_num [zpow_neg]
  obtain ⟨f1, f2, f3, f4, f5⟩ := identity_prepare_fields
  have hthm := (SearchForRoot_secant_candidate_between_when_exact
    (Arithmetic.ofFormat ieee.binary64) (fun x => x) (-1) 1 hpos hneg htol
    identity_binary64_guard).1 _
    (ld_iterations_first (Arithmetic.ofFormat ieee.binary64) (fun x => x) (-1) 1)
  simp only [f1, f2] at hthm
  have hres := hthm (by norm_num) (identity_candidate_tag _) secant_identity_exact
  exact ⟨hpos, hneg, htol, identity_binary64_guard, f1, f2, hres.2.1, hres.2.2.1⟩

end longdouble

namespace longdouble

theorem ld_QuadraticInterpolation_eq (A : Arithmetic) (pe ce ee pr cr er : ℚ) :
    QuadraticInterpolation A pe ce ee pr cr er
      = A.rnd (A.rnd (A.rnd (A.rnd (A.rnd (ee * cr) * pr) / A.rnd (A.rnd (er - cr) * A.rnd (er - pr)))
            + A.rnd (A.rnd (A.rnd (ce * er) * pr) / A.rnd (A.rnd (cr - er) * A.rnd (cr - pr))))
          + A.rnd (A.rnd (A.rnd (pe * er) * cr) / A.rnd (A.rnd (pr - er) * A.rnd (pr - cr)))) :=
  rfl

theorem quadratic_binary64_ascending :
    QuadraticInterpolation (Arithmetic.ofFormat ieee.binary64) 226 177 41 (-9) (-8) (-4) = 1 := by
  have h1 : (Arithmetic.ofFormat ieee.binary64).rnd (41 * (-8)) = (-328) :=
    ieee.Format.round_exact_eq ieee.binary64 _ _ (-41) (3)
      (by norm_num [zpow_neg]) (by norm_num) (by norm_num [ieee.binary64])
      (by norm_num [ieee.binary64])
  have h2 : (Arithmetic.ofFormat ieee.binary64).rnd ((-328) * (-9)) = 2952 :=
    ieee.Format.round_exact_eq ieee.binary64 _ _ (369) (3)
      (by norm_num [zpow_neg]) (by norm_num) (by norm_num [ieee.binary64])
      (by norm_num [ieee.binary64])
  have h3 : (Arithmetic.ofFormat ieee.binary64).rnd ((-4) - (-8)) = 4 :=
    ieee.Format.round_exact_eq ieee.binary64 _ _ (1) (2)
      (by norm_num [zpow_neg]) (by norm_num) (by norm_num [ieee.binary64])
      (by norm_num [ieee.binary64])
  have h4 : (Arithmetic.ofFormat ieee.binary64).rnd ((-4) - (-9)) = 5 :=
    ieee.Format.round_exact_eq ieee.binary64 _ _ (5) (0)
      (by norm_num [zpow_neg]) (by norm_num) (by norm_num [ieee.binary64])
      (by norm_num [ieee.binary64])
  have h5 : (Arithmetic.ofFormat ieee.binary64).rnd (4 * 5) = 20 :=
    ieee.Format.round_exact_eq ieee.binary64 _ _ (5) (2)
      (by norm_num [zpow_neg]) (by norm_num) (by norm_num [ieee.binary64])
      (by norm_num [ieee.binary64])
  have h6 : (Arithmetic.ofFormat ieee.binary64).rnd (2952 / 20) = (5193213320311603 / 35184372088832) :=
    ieee.Format.round_nearest_eq ieee.binary64 _ _ (7) (-45) (5193213320311603)
      (Or.inl (by constructor <;> norm_num [zpow_neg])) (by norm_num [ieee.binary64])
      (by norm_num [ieee.binary64]) (by norm_num [zpow_neg])
      (by constructor <;> norm_num [zpow_neg])
  have h7 : (Arithmetic.ofFormat ieee.binary64).rnd (177 * (-4)) = (-708) :=
    ieee.Format.round_exact_eq ieee.binary64 _ _ (-177) (2)
      (by norm_num [zpow_neg]) (by norm_num) (by norm_num [ieee.binary64])
      (by norm_num [ieee.binary64])
  have h8 : (Arithmetic.ofFormat ieee.binary64).rnd ((-708) * (-9)) = 6372 :=
    ieee.Format.round_exact_eq ieee.binary64 _ _ (1593) (2)
      (by norm_num [zpow_neg]) (by norm_num) (by norm_num [ieee.binary64])
      (by norm_num [ieee.binary64])
  have h9 : (Arithmetic.ofFormat ieee.binary64).rnd ((-8) - (-4)) = (-4) :=
    ieee.Format.round_exact_eq ieee.binary64 _ _ (-1) (2)
      (by norm_num [zpow_neg]) (by norm_num) (by norm_num [ieee.binary64])
      (by norm_num [ieee.binary64])
  have h10 : (Arithmetic.ofFormat ieee.binary64).rnd ((-8) - (-9)) = 1 :=
    ieee.Format.round_exact_eq ieee.binary64 _ _ (1) (0)
      (by norm_num [zpow_neg]) (by norm_num) (by norm_num [ieee.binary64])
      (by norm_num [ieee.binary64])
  have h11 : (Arithmetic.ofFormat ieee.binary64).rnd ((-4) * 1) = (-4) :=
    ieee.Format.round_exact_eq ieee.binary64 _ _ (-1) (2)
      (by norm_num [zpow_neg]) (by norm_num) (by norm_num [ieee.binary64])
      (by norm_num [ieee.binary64])
  have h12 : (Arithmetic.ofFormat ieee.binary64).rnd (6372 / (-4)) = (-1593) :=
    ieee.Format.round_exact_eq ieee.binary64 _ _ (-1593) (0)
      (by norm_num [zpow_neg]) (by norm_num) (by norm_num [ieee.binary64])
      (by norm_num [ieee.binary64])
  have h13 : (Arithmetic.ofFormat ieee.binary64).rnd (226 * (-4)) = (-904) :=
    ieee.Format.round_exact_eq ieee.binary64 _ _ (-113) (3)
      (by norm_num [zpow_neg]) (by norm_num) (by norm_num [ieee.binary64])
      (by norm_num [ieee.binary64])
  have h14 : (Arithmetic.ofFormat ieee.binary64).rnd ((-904) * (-8)) = 7232 :=
    ieee.Format.round_exact_eq ieee.binary64 _ _ (113) (6)
      (by norm_num [zpow_neg]) (by norm_num) (by norm_num [ieee.binary64])
      (by norm_num [ieee.binary64])
  have h15 : (Arithmetic.ofFormat ieee.binary64).rnd ((-9) - (-4)) = (-5) :=
    ieee.Format.round_exact_eq ieee.binary64 _ _ (-5) (0)
      (by norm_num [zpow_neg]) (by norm_num) (by norm_num [ieee.binary64])
      (by norm_num [ieee.binary64])
  have h16 : (Arithmetic.ofFormat ieee.binary64).rnd ((-9) - (-8)) = (-1) :=
    ieee.Format.round_exact_eq ieee.binary64 _ _ (-1) (0)
      (by norm_num [zpow_neg]) (by norm_num) (by norm_num [ieee.binary64])
      (by norm_num [ieee.binary64])
  have h17 : (Arithmetic.ofFormat ieee.binary64).rnd ((-5) * (-1)) = 5 :=
    ieee.Format.round_exact_eq ieee.binary64 _ _ (5) (0)
      (by norm_num [zpow_neg]) (by norm_num) (by norm_num [ieee.binary64])
      (by norm_num [ieee.binary64])
  have h18 : (Arithmetic.ofFormat ieee.binary64).rnd (7232 / 5) = (3180667236830413 / 2199023255552) :=
    ieee.Format.round_nearest_eq ieee.binary64 _ _ (10) (-42) (6361334473660826)
      (Or.inl (by constructor <;> norm_num [zpow_neg])) (by norm_num [ieee.binary64])
      (by norm_num [ieee.binary64]) (by norm_num [zpow_neg])
      (by constructor <;> norm_num [zpow_neg])
  have h19 : (Arithmetic.ofFormat ieee.binary64).rnd ((5193213320311603 / 35184372088832) + (-1593)) = (-3178468213574861 / 2199023255552) :=
    ieee.Format.round_nearest_eq ieee.binary64 _ _ (10) (-42) (-6356936427149722)
      (Or.inr (by constructor <;> norm_num [zpow_neg])) (by norm_num [ieee.binary64])
      (by norm_num [ieee.binary64]) (by norm_num [zpow_neg])
      (by constructor <;> norm_num [zpow_neg])
  have h20 : (Arithmetic.ofFormat ieee.binary64).rnd ((-3178468213574861 / 2199023255552) + (3180667236830413 / 2199023255552)) = 1 :=
    ieee.Format.round_exact_eq ieee.binary64 _ _ (1) (0)
      (by norm_num [zpow_neg]) (by norm_num) (by norm_num [ieee.binary64])
      (by norm_num [ieee.binary64])
  rw [ld_QuadraticInterpolation_eq]
  rw [h1, h2, h3, h4, h5, h6, h7, h8, h9, h10, h11, h12, h13, h14, h15, h16, h17, h18, h19, h20]

theorem quadratic_binary64_rotated :
    QuadraticInterpolation (Arithmetic.ofFormat ieee.binary64) 41 226 177 (-4) (-9) (-8) = (35184372088835 / 35184372088832) := by
  have h1 : (Arithmetic.ofFormat ieee.binary64).rnd (177 * (-9)) = (-1593) :=
    ieee.Format.round_exact_eq ieee.binary64 _ _ (-1593) (0)
      (by norm_num [zpow_neg]) (by norm_num) (by norm_num [ieee.binary64])
      (by norm_num [ieee.binary64])
  have h2 : (Arithmetic.ofFormat ieee.binary64).rnd ((-1593) * (-4)) = 6372 :=
    ieee.Format.round_exact_eq ieee.binary64 _ _ (1593) (2)
      (by norm_num [zpow_neg]) (by norm_num) (by norm_num [ieee.binary64])
      (by norm_num [ieee.binary64])
  have h3 : (Arithmetic.ofFormat ieee.binary64).rnd ((-8) - (-9)) = 1 :=
    ieee.Format.round_exact_eq ieee.binary64 _ _ (1) (0)
      (by norm_num [zpow_neg]) (by norm_num) (by norm_num [ieee.binary64])
      (by norm_num [ieee.binary64])
  have h4 : (Arithmetic.ofFormat ieee.binary64).rnd ((-8) - (-4)) = (-4) :=
    ieee.Format.round_exact_eq ieee.binary64 _ _ (-1) (2)
      (by norm_num [zpow_neg]) (by norm_num) (by norm_num [ieee.binary64])
      (by norm_num [ieee.binary64])
  have h5 : (Arithmetic.ofFormat ieee.binary64).rnd (1 * (-4)) = (-4) :=
    ieee.Format.round_exact_eq ieee.binary64 _ _ (-1) (2)
      (by norm_num [zpow_neg]) (by norm_num) (by norm_num [ieee.binary64])
      (by norm_num [ieee.binary64])
  have h6 : (Arithmetic.ofFormat ieee.binary64).rnd (6372 / (-4)) = (-1593) :=
    ieee.Format.round_exact_eq ieee.binary64 _ _ (-1593) (0)
      (by norm_num [zpow_neg]) (by norm_num) (by norm_num [ieee.binary64])
      (by norm_num [ieee.binary64])
  have h7 : (Arithmetic.ofFormat ieee.binary64).rnd (226 * (-8)) = (-1808) :=
    ieee.Format.round_exact_eq ieee.binary64 _ _ (-113) (4)
      (by norm_num [zpow_neg]) (by norm_num) (by norm_num [ieee.binary64])
      (by norm_num [ieee.binary64])
  have h8 : (Arithmetic.ofFormat ieee.binary64).rnd ((-1808) * (-4)) = 7232 :=
    ieee.Format.round_exact_eq ieee.binary64 _ _ (113) (6)
      (by norm_num [zpow_neg]) (by norm_num) (by norm_num [ieee.binary64])
      (by norm_num [ieee.binary64])
  have h9 : (Arithmetic.ofFormat ieee.binary64).rnd ((-9) - (-8)) = (-1) :=
    ieee.Format.round_exact_eq ieee.binary64 _ _ (-1) (0)
      (by norm_num [zpow_neg]) (by norm_num) (by norm_num [ieee.binary64])
      (by norm_num [ieee.binary64])
  have h10 : (Arithmetic.ofFormat ieee.binary64).rnd ((-9) - (-4)) = (-5) :=
    ieee.Format.round_exact_eq ieee.binary64 _ _ (-5) (0)
      (by norm_num [zpow_neg]) (by norm_num) (by norm_num [ieee.binary64])
      (by norm_num [ieee.binary64])
  have h11 : (Arithmetic.ofFormat ieee.binary64).rnd ((-1) * (-5)) = 5 :=
    ieee.Format.round_exact_eq ieee.binary64 _ _ (5) (0)
      (by norm_num [zpow_neg]) (by norm_num) (by norm_num [ieee.binary64])
      (by norm_num [ieee.binary64])
  have h12 : (Arithmetic.ofFormat ieee.binary64).rnd (7232 / 5) = (3180667236830413 / 2199023255552) :=
    ieee.Format.round_nearest_eq ieee.binary64 _ _ (10) (-42) (6361334473660826)
      (Or.inl (by constructor <;> norm_num [zpow_neg])) (by norm_num [ieee.binary64])
      (by norm_num [ieee.binary64]) (by norm_num [zpow_neg])
      (by constructor <;> norm_num [zpow_neg])
  have h13 : (Arithmetic.ofFormat ieee.binary64).rnd (41 * (-8)) = (-328) :=
    ieee.Format.round_exact_eq ieee.binary64 _ _ (-41) (3)
      (by norm_num [zpow_neg]) (by norm_num) (by norm_num [ieee.binary64])
      (by norm_num [ieee.binary64])
  have h14 : (Arithmetic.ofFormat ieee.binary64).rnd ((-328) * (-9)) = 2952 :=
    ieee.Format.round_exact_eq ieee.binary64 _ _ (369) (3)
      (by norm_num [zpow_neg]) (by norm_num) (by norm_num [ieee.binary64])
      (by norm_num [ieee.binary64])
  have h15 : (Arithmetic.ofFormat ieee.binary64).rnd ((-4) - (-8)) = 4 :=
    ieee.Format.round_exact_eq ieee.binary64 _ _ (1) (2)
      (by norm_num [zpow_neg]) (by norm_num) (by norm_num [ieee.binary64])
      (by norm_num [ieee.binary64])
  have h16 : (Arithmetic.ofFormat ieee.binary64).rnd ((-4) - (-9)) = 5 :=
    ieee.Format.round_exact_eq ieee.binary64 _ _ (5) (0)
      (by norm_num [zpow_neg]) (by norm_num) (by norm_num [ieee.binary64])
      (by norm_num [ieee.binary64])
  have h17 : (Arithmetic.ofFormat ieee.binary64).rnd (4 * 5) = 20 :=
    ieee.Format.round_exact_eq ieee.binary64 _ _ (5) (2)
      (by norm_num [zpow_neg]) (by norm_num) (by norm_num [ieee.binary64])
      (by norm_num [ieee.binary64])
  have h18 : (Arithmetic.ofFormat ieee.binary64).rnd (2952 / 20) = (5193213320311603 / 35184372088832) :=
    ieee.Format.round_nearest_eq ieee.binary64 _ _ (7) (-45) (5193213320311603)
      (Or.inl (by constructor <;> norm_num [zpow_neg])) (by norm_num [ieee.binary64])
      (by norm_num [ieee.binary64]) (by norm_num [zpow_neg])
      (by constructor <;> norm_num [zpow_neg])
  have h19 : (Arithmetic.ofFormat ieee.binary64).rnd ((-1593) + (3180667236830413 / 2199023255552)) = (-322376809263923 / 2199023255552) :=
    ieee.Format.round_exact_eq ieee.binary64 _ _ (-322376809263923) (-41)
      (by norm_num [zpow_neg]) (by norm_num) (by norm_num [ieee.binary64])
      (by norm_num [ieee.binary64])
  have h20 : (Arithmetic.ofFormat ieee.binary64).rnd ((-322376809263923 / 2199023255552) + (5193213320311603 / 35184372088832)) = (35184372088835 / 35184372088832) :=
    ieee.Format.round_exact_eq ieee.binary64 _ _ (35184372088835) (-45)
      (by norm_num [zpow_neg]) (by norm_num) (by norm_num [ieee.binary64])
      (by norm_num [ieee.binary64])
  rw [ld_QuadraticInterpolation_eq]
  rw [h1, h2, h3, h4, h5, h6, h7, h8, h9, h10, h11, h12, h13, h14, h15, h16, h17, h18, h19, h20]

theorem quadratic_x87extended_ascending :
    QuadraticInterpolation (Arithmetic.ofFormat ieee.x87extended) 226 177 41 (-9) (-8) (-4) = 1 := by
  have h1 : (Arithmetic.ofFormat ieee.x87extended).rnd (41 * (-8)) = (-328) :=
    ieee.Format.round_exact_eq ieee.x87extended _ _ (-41) (3)
      (by norm_num [zpow_neg]) (by norm_num) (by norm_num [ieee.x87extended])
      (by norm_num [ieee.x87extended])
  have h2 : (Arithmetic.ofFormat ieee.x87extended).rnd ((-328) * (-9)) = 2952 :=
    ieee.Format.round_exact_eq ieee.x87extended _ _ (369) (3)
      (by norm_num [zpow_neg]) (by norm_num) (by norm_num [ieee.x87extended])
      (by norm_num [ieee.x87extended])
  have h3 : (Arithmetic.ofFormat ieee.x87extended).rnd ((-4) - (-8)) = 4 :=
    ieee.Format.round_exact_eq ieee.x87extended _ _ (1) (2)
      (by norm_num [zpow_neg]) (by norm_num) (by norm_num [ieee.x87extended])
      (by norm_num [ieee.x87extended])
  have h4 : (Arithmetic.ofFormat ieee.x87extended).rnd ((-4) - (-9)) = 5 :=
    ieee.Format.round_exact_eq ieee.x87extended _ _ (5) (0)
      (by norm_num [zpow_neg]) (by norm_num) (by norm_num [ieee.x87extended])
      (by norm_num [ieee.x87extended])
  have h5 : (Arithmetic.ofFormat ieee.x87extended).rnd (4 * 5) = 20 :=
    ieee.Format.round_exact_eq ieee.x87extended _ _ (5) (2)
      (by norm_num [zpow_neg]) (by norm_num) (by norm_num [ieee.x87extended])
      (by norm_num [ieee.x87extended])
  have h6 : (Arithmetic.ofFormat ieee.x87extended).rnd (2952 / 20) = (5317850439999081677 / 36028797018963968) :=
    ieee.Format.round_nearest_eq ieee.x87extended _ _ (7) (-56) (10635700879998163354)
      (Or.inl (by constructor <;> norm_num [zpow_neg])) (by norm_num [ieee.x87extended])
      (by norm_num [ieee.x87extended]) (by norm_num [zpow_neg])
      (by constructor <;> norm_num [zpow_neg])
  have h7 : (Arithmetic.ofFormat ieee.x87extended).rnd (177 * (-4)) = (-708) :=
    ieee.Format.round_exact_eq ieee.x87extended _ _ (-177) (2)
      (by norm_num [zpow_neg]) (by norm_num) (by norm_num [ieee.x87extended])
      (by norm_num [ieee.x87extended])
  have h8 : (Arithmetic.ofFormat ieee.x87extended).rnd ((-708) * (-9)) = 6372 :=
    ieee.Format.round_exact_eq ieee.x87extended _ _ (1593) (2)
      (by norm_num [zpow_neg]) (by norm_num) (by norm_num [ieee.x87extended])
      (by norm_num [ieee.x87extended])
  have h9 : (Arithmetic.ofFormat ieee.x87extended).rnd ((-8) - (-4)) = (-4) :=
    ieee.Format.round_exact_eq ieee.x87extended _ _ (-1) (2)
      (by norm_num [zpow_neg]) (by norm_num) (by norm_num [ieee.x87extended])
      (by norm_num [ieee.x87extended])
  have h10 : (Arithmetic.ofFormat ieee.x87extended).rnd ((-8) - (-9)) = 1 :=
    ieee.Format.round_exact_eq ieee.x87extended _ _ (1) (0)
      (by norm_num [zpow_neg]) (by norm_num) (by norm_num [ieee.x87extended])
      (by norm_num [ieee.x87extended])
  have h11 : (Arithmetic.ofFormat ieee.x87extended).rnd ((-4) * 1) = (-4) :=
    ieee.Format.round_exact_eq ieee.x87extended _ _ (-1) (2)
      (by norm_num [zpow_neg]) (by norm_num) (by norm_num [ieee.x87extended])
      (by norm_num [ieee.x87extended])
  have h12 : (Arithmetic.ofFormat ieee.x87extended).rnd (6372 / (-4)) = (-1593) :=
    ieee.Format.round_exact_eq ieee.x87extended _ _ (-1593) (0)
      (by norm_num [zpow_neg]) (by norm_num) (by norm_num [ieee.x87extended])
      (by norm_num [ieee.x87extended])
  have h13 : (Arithmetic.ofFormat ieee.x87extended).rnd (226 * (-4)) = (-904) :=
    ieee.Format.round_exact_eq ieee.x87extended _ _ (-113) (3)
      (by norm_num [zpow_neg]) (by norm_num) (by norm_num [ieee.x87extended])
      (by norm_num [ieee.x87extended])
  have h14 : (Arithmetic.ofFormat ieee.x87extended).rnd ((-904) * (-8)) = 7232 :=
    ieee.Format.round_exact_eq ieee.x87extended _ _ (113) (6)
      (by norm_num [zpow_neg]) (by norm_num) (by norm_num [ieee.x87extended])
      (by norm_num [ieee.x87extended])
  have h15 : (Arithmetic.ofFormat ieee.x87extended).rnd ((-9) - (-4)) = (-5) :=
    ieee.Format.round_exact_eq ieee.x87extended _ _ (-5) (0)
      (by norm_num [zpow_neg]) (by norm_num) (by norm_num [ieee.x87extended])
      (by norm_num [ieee.x87extended])
  have h16 : (Arithmetic.ofFormat ieee.x87extended).rnd ((-9) - (-8)) = (-1) :=
    ieee.Format.round_exact_eq ieee.x87extended _ _ (-1) (0)
      (by norm_num [zpow_neg]) (by norm_num) (by norm_num [ieee.x87extended])
      (by norm_num [ieee.x87extended])
  have h17 : (Arithmetic.ofFormat ieee.x87extended).rnd ((-5) * (-1)) = 5 :=
    ieee.Format.round_exact_eq ieee.x87extended _ _ (5) (0)
      (by norm_num [zpow_neg]) (by norm_num) (by norm_num [ieee.x87extended])
      (by norm_num [ieee.x87extended])
  have h18 : (Arithmetic.ofFormat ieee.x87extended).rnd (7232 / 5) = (13028013002057370829 / 9007199254740992) :=
    ieee.Format.round_nearest_eq ieee.x87extended _ _ (10) (-53) (13028013002057370829)
      (Or.inl (by constructor <;> norm_num [zpow_neg])) (by norm_num [ieee.x87extended])
      (by norm_num [ieee.x87extended]) (by norm_num [zpow_neg])
      (by constructor <;> norm_num [zpow_neg])
  have h19 : (Arithmetic.ofFormat ieee.x87extended).rnd ((5317850439999081677 / 36028797018963968) + (-1593)) = (-13019005802802629837 / 9007199254740992) :=
    ieee.Format.round_nearest_eq ieee.x87extended _ _ (10) (-53) (-13019005802802629837)
      (Or.inr (by constructor <;> norm_num [zpow_neg])) (by norm_num [ieee.x87extended])
      (by norm_num [ieee.x87extended]) (by norm_num [zpow_neg])
      (by constructor <;> norm_num [zpow_neg])
  have h20 : (Arithmetic.ofFormat ieee.x87extended).rnd ((-13019005802802629837 / 9007199254740992) + (13028013002057370829 / 9007199254740992)) = 1 :=
    ieee.Format.round_exact_eq ieee.x87extended _ _ (1) (0)
      (by norm_num [zpow_neg]) (by norm_num) (by norm_num [ieee.x87extended])
      (by norm_num [ieee.x87extended])
  rw [ld_QuadraticInterpolation_eq]
  rw [h1, h2, h3, h4, h5, h6, h7, h8, h9, h10, h11, h12, h13, h14, h15, h16, h17, h18, h19, h20]

theorem quadratic_x87extended_rotated :
    QuadraticInterpolation (Arithmetic.ofFormat ieee.x87extended) 41 226 177 (-4) (-9) (-8) = (36028797018963969 / 36028797018963968) := by
  have h1 : (Arithmetic.ofFormat ieee.x87extended).rnd (177 * (-9)) = (-1593) :=
    ieee.Format.round_exact_eq ieee.x87extended _ _ (-1593) (0)
      (by norm_num [zpow_neg]) (by norm_num) (by norm_num [ieee.x87extended])
      (by norm_num [ieee.x87extended])
  have h2 : (Arithmetic.ofFormat ieee.x87extended).rnd ((-1593) * (-4)) = 6372 :=
    ieee.Format.round_exact_eq ieee.x87extended _ _ (1593) (2)
      (by norm_num [zpow_neg]) (by norm_num) (by norm_num [ieee.x87extended])
      (by norm_num [ieee.x87extended])
  have h3 : (Arithmetic.ofFormat ieee.x87extended).rnd ((-8) - (-9)) = 1 :=
    ieee.Format.round_exact_eq ieee.x87extended _ _ (1) (0)
      (by norm_num [zpow_neg]) (by norm_num) (by norm_num [ieee.x87extended])
      (by norm_num [ieee.x87extended])
  have h4 : (Arithmetic.ofFormat ieee.x87extended).rnd ((-8) - (-4)) = (-4) :=
    ieee.Format.round_exact_eq ieee.x87extended _ _ (-1) (2)
      (by norm_num [zpow_neg]) (by norm_num) (by norm_num [ieee.x87extended])
      (by norm_num [ieee.x87extended])
  have h5 : (Arithmetic.ofFormat ieee.x87extended).rnd (1 * (-4)) = (-4) :=
    ieee.Format.round_exact_eq ieee.x87extended _ _ (-1) (2)
      (by norm_num [zpow_neg]) (by norm_num) (by norm_num [ieee.x87extended])
      (by norm_num [ieee.x87extended])
  have h6 : (Arithmetic.ofFormat ieee.x87extended).rnd (6372 / (-4)) = (-1593) :=
    ieee.Format.round_exact_eq ieee.x87extended _ _ (-1593) (0)
      (by norm_num [zpow_neg]) (by norm_num) (by norm_num [ieee.x87extended])
      (by norm_num [ieee.x87extended])
  have h7 : (Arithmetic.ofFormat ieee.x87extended).rnd (226 * (-8)) = (-1808) :=
    ieee.Format.round_exact_eq ieee.x87extended _ _ (-113) (4)
      (by norm_num [zpow_neg]) (by norm_num) (by norm_num [ieee.x87extended])
      (by norm_num [ieee.x87extended])
  have h8 : (Arithmetic.ofFormat ieee.x87extended).rnd ((-1808) * (-4)) = 7232 :=
    ieee.Format.round_exact_eq ieee.x87extended _ _ (113) (6)
      (by norm_num [zpow_neg]) (by norm_num) (by norm_num [ieee.x87extended])
      (by norm_num [ieee.x87extended])
  have h9 : (Arithmetic.ofFormat ieee.x87extended).rnd ((-9) - (-8)) = (-1) :=
    ieee.Format.round_exact_eq ieee.x87extended _ _ (-1) (0)
      (by norm_num [zpow_neg]) (by norm_num) (by norm_num [ieee.x87extended])
      (by norm_num [ieee.x87extended])
  have h10 : (Arithmetic.ofFormat ieee.x87extended).rnd ((-9) - (-4)) = (-5) :=
    ieee.Format.round_exact_eq ieee.x87extended _ _ (-5) (0)
      (by norm_num [zpow_neg]) (by norm_num) (by norm_num [ieee.x87extended])
      (by norm_num [ieee.x87extended])
  have h11 : (Arithmetic.ofFormat ieee.x87extended).rnd ((-1) * (-5)) = 5 :=
    ieee.Format.round_exact_eq ieee.x87extended _ _ (5) (0)
      (by norm_num [zpow_neg]) (by norm_num) (by norm_num [ieee.x87extended])
      (by norm_num [ieee.x87extended])
  have h12 : (Arithmetic.ofFormat ieee.x87extended).rnd (7232 / 5) = (13028013002057370829 / 9007199254740992) :=
    ieee.Format.round_nearest_eq ieee.x87extended _ _ (10) (-53) (13028013002057370829)
      (Or.inl (by constructor <;> norm_num [zpow_neg])) (by norm_num [ieee.x87extended])
      (by norm_num [ieee.x87extended]) (by norm_num [zpow_neg])
      (by constructor <;> norm_num [zpow_neg])
  have h13 : (Arithmetic.ofFormat ieee.x87extended).rnd (41 * (-8)) = (-328) :=
    ieee.Format.round_exact_eq ieee.x87extended _ _ (-41) (3)
      (by norm_num [zpow_neg]) (by norm_num) (by norm_num [ieee.x87extended])
      (by norm_num [ieee.x87extended])
  have h14 : (Arithmetic.ofFormat ieee.x87extended).rnd ((-328) * (-9)) = 2952 :=
    ieee.Format.round_exact_eq ieee.x87extended _ _ (369) (3)
      (by norm_num [zpow_neg]) (by norm_num) (by norm_num [ieee.x87extended])
      (by norm_num [ieee.x87extended])
  have h15 : (Arithmetic.ofFormat ieee.x87extended).rnd ((-4) - (-8)) = 4 :=
    ieee.Format.round_exact_eq ieee.x87extended _ _ (1) (2)
      (by norm_num [zpow_neg]) (by norm_num) (by norm_num [ieee.x87extended])
      (by norm_num [ieee.x87extended])
  have h16 : (Arithmetic.ofFormat ieee.x87extended).rnd ((-4) - (-9)) = 5 :=
    ieee.Format.round_exact_eq ieee.x87extended _ _ (5) (0)
      (by norm_num [zpow_neg]) (by norm_num) (by norm_num [ieee.x87extended])
      (by norm_num [ieee.x87extended])
  have h17 : (Arithmetic.ofFormat ieee.x87extended).rnd (4 * 5) = 20 :=
    ieee.Format.round_exact_eq ieee.x87extended _ _ (5) (2)
      (by norm_num [zpow_neg]) (by norm_num) (by norm_num [ieee.x87extended])
      (by norm_num [ieee.x87extended])
  have h18 : (Arithmetic.ofFormat ieee.x87extended).rnd (2952 / 20) = (5317850439999081677 / 36028797018963968) :=
    ieee.Format.round_nearest_eq ieee.x87extended _ _ (7) (-56) (10635700879998163354)
      (Or.inl (by constructor <;> norm_num [zpow_neg])) (by norm_num [ieee.x87extended])
      (by norm_num [ieee.x87extended]) (by norm_num [zpow_neg])
      (by constructor <;> norm_num [zpow_neg])
  have h19 : (Arithmetic.ofFormat ieee.x87extended).rnd ((-1593) + (13028013002057370829 / 9007199254740992)) = (-1320455410745029427 / 9007199254740992) :=
    ieee.Format.round_exact_eq ieee.x87extended _ _ (-1320455410745029427) (-53)
      (by norm_num [zpow_neg]) (by norm_num) (by norm_num [ieee.x87extended])
      (by norm_num [ieee.x87extended])
  have h20 : (Arithmetic.ofFormat ieee.x87extended).rnd ((-1320455410745029427 / 9007199254740992) + (5317850439999081677 / 36028797018963968)) = (36028797018963969 / 36028797018963968) :=
    ieee.Format.round_exact_eq ieee.x87extended _ _ (36028797018963969) (-55)
      (by norm_num [zpow_neg]) (by norm_num) (by norm_num [ieee.x87extended])
      (by norm_num [ieee.x87extended])
  rw [ld_QuadraticInterpolation_eq]
  rw [h1, h2, h3, h4, h5, h6, h7, h8, h9, h10, h11, h12, h13, h14, h15, h16, h17, h18, h19, h20]

theorem quadratic_unit_exact :
    QuadraticInterpolationExact (Arithmetic.ofFormat ieee.binary64)
      (1 + 2 * 1 + 3 * 1 ^ 2) (1 + 2 * (-1) + 3 * (-1) ^ 2) (1 + 2 * 3 + 3 * 3 ^ 2) 1 (-1) 3 :=
  ⟨⟨ieee.Format.round_exact_eq ieee.binary64 _ _ (-17) (1)
      (by norm_num [zpow_neg]) rfl (by norm_num [ieee.binary64]) (by norm_num [ieee.binary64]),
    ieee.Format.round_exact_eq ieee.binary64 _ _ (-17) (1)
      (by norm_num [zpow_neg]) rfl (by norm_num [ieee.binary64]) (by norm_num [ieee.binary64]),
    ieee.Format.round_exact_eq ieee.binary64 _ _ (1) (2)
      (by norm_num [zpow_neg]) rfl (by norm_num [ieee.binary64]) (by norm_num [ieee.binary64]),
    ieee.Format.round_exact_eq ieee.binary64 _ _ (1) (1)
      (by norm_num [zpow_neg]) rfl (by norm_num [ieee.binary64]) (by norm_num [ieee.binary64]),
    ieee.Format.round_exact_eq ieee.binary64 _ _ (1) (3)
      (by norm_num [zpow_neg]) rfl (by norm_num [ieee.binary64]) (by norm_num [ieee.binary64]),
    ieee.Format.round_exact_eq ieee.binary64 _ _ (-17) (-2)
      (by norm_num [zpow_neg]) rfl (by norm_num [ieee.binary64]) (by norm_num [ieee.binary64])⟩,
    ⟨ieee.Format.round_exact_eq ieee.binary64 _ _ (3) (1)
      (by norm_num [zpow_neg]) rfl (by norm_num [ieee.binary64]) (by norm_num [ieee.binary64]),
    ieee.Format.round_exact_eq ieee.binary64 _ _ (3) (1)
      (by norm_num [zpow_neg]) rfl (by norm_num [ieee.binary64]) (by norm_num [ieee.binary64]),
    ieee.Format.round_exact_eq ieee.binary64 _ _ (-1) (2)
      (by norm_num [zpow_neg]) rfl (by norm_num [ieee.binary64]) (by norm_num [ieee.binary64]),
    ieee.Format.round_exact_eq ieee.binary64 _ _ (-1) (1)
      (by norm_num [zpow_neg]) rfl (by norm_num [ieee.binary64]) (by norm_num [ieee.binary64]),
    ieee.Format.round_exact_eq ieee.binary64 _ _ (1) (3)
      (by norm_num [zpow_neg]) rfl (by norm_num [ieee.binary64]) (by norm_num [ieee.binary64]),
    ieee.Format.round_exact_eq ieee.binary64 _ _ (3) (-2)
      (by norm_num [zpow_neg]) rfl (by norm_num [ieee.binary64]) (by norm_num [ieee.binary64])⟩,
    ⟨ieee.Format.round_exact_eq ieee.binary64 _ _ (9) (1)
      (by norm_num [zpow_neg]) rfl (by norm_num [ieee.binary64]) (by norm_num [ieee.binary64]),
    ieee.Format.round_exact_eq ieee.binary64 _ _ (-9) (1)
      (by norm_num [zpow_neg]) rfl (by norm_num [ieee.binary64]) (by norm_num [ieee.binary64]),
    ieee.Format.round_exact_eq ieee.binary64 _ _ (-1) (1)
      (by norm_num [zpow_neg]) rfl (by norm_num [ieee.binary64]) (by norm_num [ieee.binary64]),
    ieee.Format.round_exact_eq ieee.binary64 _ _ (1) (1)
      (by norm_num [zpow_neg]) rfl (by norm_num [ieee.binary64]) (by norm_num [ieee.binary64]),
    ieee.Format.round_exact_eq ieee.binary64 _ _ (-1) (2)
      (by norm_num [zpow_neg]) rfl (by norm_num [ieee.binary64]) (by norm_num [ieee.binary64]),
    ieee.Format.round_exact_eq ieee.binary64 _ _ (9) (-1)
      (by norm_num [zpow_neg]) rfl (by norm_num [ieee.binary64]) (by norm_num [ieee.binary64])⟩,
    ieee.Format.round_exact_eq ieee.binary64 _ _ (-7) (-1)
      (by norm_num [zpow_neg]) rfl (by norm_num [ieee.binary64]) (by norm_num [ieee.binary64]),
    ieee.Format.round_exact_eq ieee.binary64 _ _ (1) (0)
      (by norm_num [zpow_neg]) rfl (by norm_num [ieee.binary64]) (by norm_num [ieee.binary64])⟩

end longdouble

namespace longdouble

open roots (SolverState kMaxIterations Consistent swapIfCounterCloser prepare initialState
  methods_available relative_to_solution_e Bracketing lineThrough)

/-- When its six operations are exact, a rounded quotient of
`QuadraticInterpolation` is the exact one. -/
theorem ld_quadraticTerm_of_exact (A : Arithmetic) (x ya yb yc : ℚ)
    (hex : quadraticTermExact A x ya yb yc) :
    quadraticTerm A x ya yb yc = x * ya * yb / ((yc - ya) * (yc - yb)) := by
  obtain ⟨h1, h2, h3, h4, h5, h6⟩ := hex
  unfold quadraticTerm
  rw [h1, h2, h3, h4, h5, h6]

/-- When its twenty operations are exact, the rounded interpolation is the
exact one. -/
theorem ld_QuadraticInterpolation_of_exact (A : Arithmetic) (pe ce ee pr cr er : ℚ)
    (hex : QuadraticInterpolationExact A pe ce ee pr cr er) :
    QuadraticInterpolation A pe ce ee pr cr er
      = roots.QuadraticInterpolation pe ce ee pr cr er := by
  obtain ⟨h1, h2, h3, h4, h5⟩ := hex
  unfold QuadraticInterpolation roots.QuadraticInterpolation
  rw [ld_quadraticTerm_of_exact A _ _ _ _ h1, ld_quadraticTerm_of_exact A _ _ _ _ h2,
    ld_quadraticTerm_of_exact A _ _ _ _ h3, h4, h5]

/-- C26, counterexample: the three points `(226, -9)`, `(177, -8)`, `(41, -4)`
lie on `x = g(y) = 1 + 2 y + 3 y²`, with `g(0) = 1` and pairwise distinct
`y`.  Both in binary64 and in the x87 extended format `QuadraticInterpolation`
returns `1` for the points in this order, but for the order
`(41, -4)`, `(226, -9)`, `(177, -8)` it returns a value above `1`: the result
is not `g(0)` and changes under a permutation of the points. -/
theorem QuadraticInterpolation_rounded_depends_on_order :
    ((226 : ℚ) = 1 + 2 * (-9) + 3 * (-9) ^ 2 ∧ (177 : ℚ) = 1 + 2 * (-8) + 3 * (-8) ^ 2
        ∧ (41 : ℚ) = 1 + 2 * (-4) + 3 * (-4) ^ 2)
      ∧ ((-9 : ℚ) ≠ -8 ∧ (-9 : ℚ) ≠ -4 ∧ (-8 : ℚ) ≠ -4)
      ∧ (QuadraticInterpolation (Arithmetic.ofFormat ieee.binary64) 226 177 41 (-9) (-8) (-4) = 1
        ∧ QuadraticInterpolation (Arithmetic.ofFormat ieee.binary64) 41 226 177 (-4) (-9) (-8)
            = 35184372088835 / 35184372088832
        ∧ QuadraticInterpolation (Arithmetic.ofFormat ieee.binary64) 41 226 177 (-4) (-9) (-8)
            ≠ 1
        ∧ QuadraticInterpolation (Arithmetic.ofFormat ieee.binary64) 41 226 177 (-4) (-9) (-8)
            ≠ QuadraticInterpolation (Arithmetic.ofFormat ieee.binary64) 226 177 41 (-9) (-8)
                (-4))
      ∧ (QuadraticInterpolation (Arithmetic.ofFormat ieee.x87extended) 226 177 41 (-9) (-8) (-4)
            = 1
        ∧ QuadraticInterpolation (Arithmetic.ofFormat ieee.x87extended) 41 226 177 (-4) (-9) (-8)
            = 36028797018963969 / 36028797018963968
        ∧ QuadraticInterpolation (Arithmetic.ofFormat ieee.x87extended) 41 226 177 (-4) (-9) (-8)
            ≠ 1
        ∧ QuadraticInterpolation (Arithmetic.ofFormat ieee.x87extended) 41 226 177 (-4) (-9) (-8)
            ≠ QuadraticInterpolation (Arithmetic.ofFormat ieee.x87extended) 226 177 41 (-9)
                (-8) (-4)) := by
  refine ⟨⟨by norm_num, by norm_num, by norm_num⟩, ⟨by norm_num, by norm_num, by norm_num⟩,
    ⟨quadratic_binary64_ascending, quadratic_binary64_rotated, ?_, ?_⟩,
    ⟨quadratic_x87extended_ascending, quadratic_x87extended_rotated, ?_, ?_⟩⟩
  · rw [quadratic_binary64_rotated]; norm_num
  · rw [quadratic_binary64_rotated, quadratic_binary64_ascending]; norm_num
  · rw [quadratic_x87extended_rotated]; norm_num
  · rw [quadratic_x87extended_rotated, quadratic_x87extended_ascending]; norm_num

/-- C26, amended: for pairwise distinct `y1`, `y2`, `y3`, when each of the
twenty `long double` operations of `QuadraticInterpolation` is exact at the
given arguments, its value is the three-point inverse Lagrange interpolant at
`y = 0`: for points `(g y1, y1)`, `(g y2, y2)`, `(g y3, y3)` on a curve
`x = g(y) = α + β y + γ y²` it returns `g(0) = α`, and its value is that for
every other order of the three points in which the operations are exact as
well. -/
theorem QuadraticInterpolation_lagrange_when_exact (A : Arithmetic) (α β γ y1 y2 y3 : ℚ)
    (h12 : y1 ≠ y2) (h13 : y1 ≠ y3) (h23 : y2 ≠ y3) :
    (QuadraticInterpolationExact A (α + β * y1 + γ * y1 ^ 2) (α + β * y2 + γ * y2 ^ 2)
          (α + β * y3 + γ * y3 ^ 2) y1 y2 y3 →
        QuadraticInterpolation A (α + β * y1 + γ * y1 ^ 2) (α + β * y2 + γ * y2 ^ 2)
          (α + β * y3 + γ * y3 ^ 2) y1 y2 y3 = α)
      ∧ ∀ x1 x2 x3 : ℚ, QuadraticInterpolationExact A x1 x2 x3 y1 y2 y3 →
          QuadraticInterpolation A x1 x2 x3 y1 y2 y3
              = x3 * y1 * y2 / ((y3 - y1) * (y3 - y2)) + x2 * y1 * y3 / ((y2 - y1) * (y2 - y3))
                + x1 * y2 * y3 / ((y1 - y2) * (y1 - y3))
            ∧ (QuadraticInterpolationExact A x2 x1 x3 y2 y1 y3 →
                QuadraticInterpolation A x1 x2 x3 y1 y2 y3
                  = QuadraticInterpolation A x2 x1 x3 y2 y1 y3)
            ∧ (QuadraticInterpolationExact A x1 x3 x2 y1 y3 y2 →
                QuadraticInterpolation A x1 x2 x3 y1 y2 y3
                  = QuadraticInterpolation A x1 x3 x2 y1 y3 y2)
            ∧ (QuadraticInterpolationExact A x3 x2 x1 y3 y2 y1 →
                QuadraticInterpolation A x1 x2 x3 y1 y2 y3
                  = QuadraticInterpolation A x3 x2 x1 y3 y2 y1)
            ∧ (QuadraticInterpolationExact A x2 x3 x1 y2 y3 y1 →
                QuadraticInterpolation A x1 x2 x3 y1 y2 y3
                  = QuadraticInterpolation A x2 x3 x1 y2 y3 y1)
            ∧ (QuadraticInterpolationExact A x3 x1 x2 y3 y1 y2 →
                QuadraticInterpolation A x1 x2 x3 y1 y2 y3
                  = QuadraticInterpolation A x3 x1 x2 y3 y1 y2) := by
  have hL := roots.QuadraticInterpolation_lagrange α β γ y1 y2 y3 h12 h13 h23
  constructor
  · intro hex
    rw [ld_QuadraticInterpolation_of_exact A _ _ _ _ _ _ hex]
    exact hL.1
  · intro x1 x2 x3 hex
    obtain ⟨e0, e1, e2, e3, e4, e5⟩ := hL.2 x1 x2 x3
    rw [ld_QuadraticInterpolation_of_exact A _ _ _ _ _ _ hex]
    refine ⟨e0, ?_, ?_, ?_, ?_, ?_⟩
    · intro h; rw [ld_QuadraticInterpolation_of_exact A _ _ _ _ _ _ h]; exact e1
    · intro h; rw [ld_QuadraticInterpolation_of_exact A _ _ _ _ _ _ h]; exact e2
    · intro h; rw [ld_QuadraticInterpolation_of_exact A _ _ _ _ _ _ h]; exact e3
    · intro h; rw [ld_QuadraticInterpolation_of_exact A _ _ _ _ _ _ h]; exact e4
    · intro h; rw [ld_QuadraticInterpolation_of_exact A _ _ _ _ _ _ h]; exact e5

/-- Witness for C26 (amended): in binary64, three points on
`x = 1 + 2 y + 3 y²` at `y = 1, -1, 3`: the three quotients are `-17/4`, `3/4`
and `9/2`, every operation is exact, and the result is `1`. -/
theorem QuadraticInterpolation_lagrange_when_exact_witness :
    (1 : ℚ) ≠ -1 ∧ (1 : ℚ) ≠ 3 ∧ (-1 : ℚ) ≠ 3
      ∧ QuadraticInterpolationExact (Arithmetic.ofFormat ieee.binary64)
          (1 + 2 * 1 + 3 * 1 ^ 2) (1 + 2 * (-1) + 3 * (-1) ^ 2) (1 + 2 * 3 + 3 * 3 ^ 2) 1 (-1) 3
      ∧ QuadraticInterpolation (Arithmetic.ofFormat ieee.binary64)
          (1 + 2 * 1 + 3 * 1 ^ 2) (1 + 2 * (-1) + 3 * (-1) ^ 2) (1 + 2 * 3 + 3 * 3 ^ 2) 1 (-1) 3
          = 1 :=
  ⟨by norm_num, by norm_num, by norm_num, quadratic_unit_exact,
    (QuadraticInterpolation_lagrange_when_exact (Arithmetic.ofFormat ieee.binary64) 1 2 3 1 (-1) 3
      (by norm_num) (by norm_num) (by norm_num)).1 quadratic_unit_exact⟩

end longdouble

namespace longdouble

open roots (SolverState kMaxIterations Consistent swapIfCounterCloser prepare initialState
  methods_available relative_to_solution_e Bracketing lineThrough Inside)

/-- The points evaluated by a run that passes the guard: the two estimates,
then the point of each executed pass. -/
theorem ld_SearchForRootTrace_evaluated (A : Arithmetic) (f : ℚ → ℚ) (a b : ℚ)
    (h : A.mul (f b) (f a) < 0) :
    (SearchForRootTrace A a b f).2.evaluated
      = [a, b] ++ (iterations A f kMaxIterations (prepare (initialState a b f))).map
          (fun q => nextEstimate A q.1) := by
  rw [ld_SearchForRootTrace_ok A a b f h]
  show (whileLoop A f kMaxIterations (prepare (initialState a b f))).evaluated = _
  rw [ld_whileLoop_evaluated_iterations, roots.prepare_evaluated]
  rfl

/-- The method of a pass is bisection or the method of its candidate. -/
theorem ld_chooseMethod_cases (A : Arithmetic) (s : SolverState) (c : ℚ)
    (m : methods_available) :
    chooseMethod A s c m = methods_available.bisection ∨ chooseMethod A s c m = m := by
  unfold chooseMethod
  split
  · left; rfl
  · simp only []
    split
    · left; rfl
    · right; rfl

/-- The candidate is tagged as secant or as quadratic interpolation. -/
theorem ld_candidate_tag (A : Arithmetic) (s : SolverState) :
    (candidate A s).2 = methods_available.secant
      ∨ (candidate A s).2 = methods_available.quadratic_interpolation := by
  unfold candidate
  split
  · right; rfl
  · left; rfl

/-- In a state with results of strictly opposite signs, a pass that does not
use quadratic interpolation and whose step operations are exact evaluates a
point between the best and counter estimates. -/
theorem ld_nextEstimate_between (A : Arithmetic) (f : ℚ → ℚ) (s : SolverState)
    (hcons : Consistent f s) (hprod : f s.estimate_kBest * f s.estimate_kCounter < 0)
    (hm : chooseMethod A s (candidate A s).1 (candidate A s).2
      ≠ methods_available.quadratic_interpolation)
    (hex : StepExact A s) :
    min s.estimate_kBest s.estimate_kCounter ≤ nextEstimate A s
      ∧ nextEstimate A s ≤ max s.estimate_kBest s.estimate_kCounter := by
  by_cases hbis : chooseMethod A s (candidate A s).1 (candidate A s).2
      = methods_available.bisection
  · obtain ⟨e1, e2⟩ := hex.1 hbis
    have hn : nextEstimate A s = (s.estimate_kBest + s.estimate_kCounter) / 2 := by
      unfold nextEstimate
      rw [if_pos hbis, e1, e2]
    rw [hn]
    constructor
    · rcases le_total s.estimate_kBest s.estimate_kCounter with hle | hle
      · rw [min_eq_left hle]; linarith
      · rw [min_eq_right hle]; linarith
    · rcases le_total s.estimate_kBest s.estimate_kCounter with hle | hle
      · rw [max_eq_right hle]; linarith
      · rw [max_eq_left hle]; linarith
  · have hn : nextEstimate A s = (candidate A s).1 := by
      unfold nextEstimate
      rw [if_neg hbis]
    have hkeep : chooseMethod A s (candidate A s).1 (candidate A s).2 = (candidate A s).2 := by
      rcases ld_chooseMethod_cases A s (candidate A s).1 (candidate A s).2 with h1 | h1
      · exact absurd h1 hbis
      · exact h1
    have hsec : (candidate A s).2 = methods_available.secant := by
      rw [hkeep] at hm
      rcases ld_candidate_tag A s with h1 | h1
      · exact h1
      · exact absurd h1 hm
    have hexs := hex.2 (hkeep.trans hsec)
    have hrB : s.result_kBest = f s.estimate_kBest := hcons.1
    have hrC : s.result_kCounter = f s.estimate_kCounter := hcons.2
    rw [hrB, hrC] at hexs
    have hb := ld_candidate_secant_between A f s hcons hprod hsec hexs
    rw [hn]
    exact ⟨le_of_lt hb.2.1, le_of_lt hb.2.2.1⟩

/-- A pass that evaluates a point of `[lo, hi]` keeps both ends of the bracket
in `[lo, hi]`. -/
theorem ld_iterate_inside (A : Arithmetic) (f : ℚ → ℚ) (lo hi : ℚ) (s : SolverState)
    (hI : Inside lo hi s) (hn : lo ≤ nextEstimate A s ∧ nextEstimate A s ≤ hi) :
    Inside lo hi (iterate A f s) := by
  obtain ⟨h1, h2, h3, h4⟩ := hI
  obtain ⟨h5, h6⟩ := hn
  unfold iterate swapIfCounterCloser Inside
  simp only []
  split_ifs <;> exact ⟨by assumption, by assumption, by assumption, by assumption⟩

/-- From a bracketing state inside `[lo, hi]`, a pass that does not use
quadratic interpolation and whose step operations are exact, preceded only by
such passes without underflow, evaluates a point of `[lo, hi]`. -/
theorem ld_iterations_inside (A : Arithmetic) (f : ℚ → ℚ)
    (hpos : ∀ x : ℚ, 0 ≤ x → 0 ≤ A.rnd x) (hneg : ∀ x : ℚ, x ≤ 0 → A.rnd x ≤ 0)
    (htol : 0 < A.literal_1e_9) (lo hi : ℚ) (fuel : Nat) (s : SolverState)
    (hB : Bracketing f s) (hI : Inside lo hi s)
    (pre : List (SolverState × SolverState)) (q : SolverState × SolverState)
    (post : List (SolverState × SolverState))
    (hsplit : iterations A f fuel s = pre ++ q :: post)
    (hpre : ∀ p ∈ pre, p.2.method_to_use ≠ methods_available.quadratic_interpolation
      ∧ StepExact A p.1 ∧ NoUnderflowAt A f p.1)
    (hq : q.2.method_to_use ≠ methods_available.quadratic_interpolation)
    (hqe : StepExact A q.1) :
    lo ≤ nextEstimate A q.1 ∧ nextEstimate A q.1 ≤ hi := by
  induction fuel generalizing s pre with
  | zero =>
    unfold iterations at hsplit
    cases pre <;> cases hsplit
  | succ n ih =>
    have hstep : ∀ t : SolverState, Bracketing f t → Inside lo hi t →
        (iterate A f t).method_to_use ≠ methods_available.quadratic_interpolation →
        StepExact A t →
        lo ≤ nextEstimate A t ∧ nextEstimate A t ≤ hi := by
      intro t hBt hIt hmt het
      rw [ld_iterate_method_to_use] at hmt
      have hrB : t.result_kBest = f t.estimate_kBest := hBt.2.1.1
      have hrC : t.result_kCounter = f t.estimate_kCounter := hBt.2.1.2
      have hprod : f t.estimate_kBest * f t.estimate_kCounter < 0 := by
        rw [← hrB, ← hrC]; exact hBt.1
      obtain ⟨hb1, hb2⟩ := ld_nextEstimate_between A f t hBt.2.1 hprod hmt het
      obtain ⟨h1, h2, h3, h4⟩ := hIt
      exact ⟨le_trans (le_min h1 h3) hb1, le_trans hb2 (max_le h2 h4)⟩
    unfold iterations at hsplit
    by_cases hc : s.count < kMaxIterations
    · simp only [hc, if_true] at hsplit
      cases pre with
      | nil =>
        have hq1 : q = (s, iterate A f s) := ((List.cons.inj hsplit).1).symm
        rw [hq1] at hq hqe ⊢
        exact hstep s hB hI hq hqe
      | cons p pre1 =>
        have hp1 : p = (s, iterate A f s) := ((List.cons.inj hsplit).1).symm
        have htail := (List.cons.inj hsplit).2
        have hp := hpre p (List.mem_cons_self _ _)
        rw [hp1] at hp
        obtain ⟨hpm, hpe, hpu⟩ := hp
        by_cases hv : converged A (iterate A f s) = true
        · simp only [hv, if_true] at htail
          cases pre1 <;> cases htail
        · simp only [hv, Bool.false_eq_true, if_false] at htail
          have hv1 : converged A (iterate A f s) = false := by
            cases hcv : converged A (iterate A f s)
            · rfl
            · exact absurd hcv hv
          exact ih (iterate A f s) (ld_iterate_bracketing A f s hpos hneg htol hB hpu hv1)
            (ld_iterate_inside A f lo hi s hI (hstep s hB hI hpm hpe)) pre1 htail
            (fun p1 hp => hpre p1 (List.mem_cons_of_mem _ hp))
    · simp only [hc, if_false] at hsplit
      cases pre <;> cases hsplit

/-- The executed passes of a run begin with the pass from the state on entry
to the loop. -/
theorem ld_iterations_split_first (A : Arithmetic) (f : ℚ → ℚ) (a b : ℚ) :
    iterations A f kMaxIterations (prepare (initialState a b f))
      = [] ++ (prepare (initialState a b f), iterate A f (prepare (initialState a b f)))
          :: (if converged A (iterate A f (prepare (initialState a b f))) then []
              else iterations A f 99 (iterate A f (prepare (initialState a b f)))) := by
  show iterations A f (99 + 1) _ = _
  unfold iterations
  rw [if_pos (by rw [roots.prepare_count]; exact Nat.succ_pos 99)]
  rfl

/-- In binary64 the two operations of bisecting `-1` and `1` are exact. -/
theorem bisection_identity_exact :
    BisectionExact (Arithmetic.ofFormat ieee.binary64) (-1) 1 :=
  ⟨ieee.Format.round_exact_eq ieee.binary64 _ _ 0 0 (by norm_num) rfl
      (by norm_num [ieee.binary64]) (by norm_num [ieee.binary64]),
    ieee.Format.round_exact_eq ieee.binary64 _ _ 0 0 (by norm_num) rfl
      (by norm_num [ieee.binary64]) (by norm_num [ieee.binary64])⟩

/-- C32, amended: let the rounding keep the sign of what it rounds or give
zero and let the product computed at the guard be negative.  The points at
which `SearchForRoot` evaluates the objective are the two estimates followed by
the point of each executed pass.  A pass that starts with `f(best)` and
`f(counter)` of strictly opposite signs, uses the secant method or bisection,
and whose step operations are exact, evaluates a point of the closed interval
between its best and counter estimates; and as long as every pass so far has
used the secant method or bisection with exact step operations and no
underflow of the placement product, the evaluated point lies in the closed
interval between the two estimates passed by the caller. -/
theorem SearchForRoot_evaluates_inside_when_exact (A : Arithmetic) (f : ℚ → ℚ) (a b : ℚ)
    (hpos : ∀ x : ℚ, 0 ≤ x → 0 ≤ A.rnd x) (hneg : ∀ x : ℚ, x ≤ 0 → A.rnd x ≤ 0)
    (htol : 0 < A.literal_1e_9) (h : A.mul (f b) (f a) < 0) :
    (SearchForRootTrace A a b f).2.evaluated
        = [a, b] ++ (iterations A f kMaxIterations (prepare (initialState a b f))).map
            (fun q => nextEstimate A q.1)
      ∧ (∀ q ∈ iterations A f kMaxIterations (prepare (initialState a b f)),
          f q.1.estimate_kBest * f q.1.estimate_kCounter < 0 →
          q.2.method_to_use ≠ methods_available.quadratic_interpolation →
          StepExact A q.1 →
            min q.1.estimate_kBest q.1.estimate_kCounter ≤ nextEstimate A q.1
              ∧ nextEstimate A q.1 ≤ max q.1.estimate_kBest q.1.estimate_kCounter)
      ∧ (∀ (pre : List (SolverState × SolverState)) (q : SolverState × SolverState)
          (post : List (SolverState × SolverState)),
          iterations A f kMaxIterations (prepare (initialState a b f)) = pre ++ q :: post →
          (∀ p ∈ pre, p.2.method_to_use ≠ methods_available.quadratic_interpolation
            ∧ StepExact A p.1 ∧ NoUnderflowAt A f p.1) →
          q.2.method_to_use ≠ methods_available.quadratic_interpolation →
          StepExact A q.1 →
            min a b ≤ nextEstimate A q.1 ∧ nextEstimate A q.1 ≤ max a b) := by
  refine ⟨ld_SearchForRootTrace_evaluated A f a b h, ?_, ?_⟩
  · intro q hq hprod hm hex
    have hstep := (ld_iterations_step A f _ _ q hq).1
    rw [hstep, ld_iterate_method_to_use] at hm
    exact ld_nextEstimate_between A f q.1 (ld_run_consistent A f a b q hq) hprod hm hex
  · intro pre q post hsplit hpre hq hqe
    exact ld_iterations_inside A f hpos hneg htol (min a b) (max a b) kMaxIterations _
      (ld_prepare_bracketing A f a b hpos h) (roots.prepare_inside f a b)
      pre q post hsplit hpre hq hqe

/-- Witness for C32 (amended): in binary64, the first pass on the identity
objective from `-1` and `1` does not use quadratic interpolation, its step
operations are exact, and it evaluates a point between `-1` and `1`. -/
theorem SearchForRoot_evaluates_inside_when_exact_witness :
    (∀ x : ℚ, 0 ≤ x → 0 ≤ (Arithmetic.ofFormat ieee.binary64).rnd x)
      ∧ (∀ x : ℚ, x ≤ 0 → (Arithmetic.ofFormat ieee.binary64).rnd x ≤ 0)
      ∧ 0 < (Arithmetic.ofFormat ieee.binary64).literal_1e_9
      ∧ (Arithmetic.ofFormat ieee.binary64).mul ((fun x : ℚ => x) 1) ((fun x : ℚ => x) (-1)) < 0
      ∧ (iterate (Arithmetic.ofFormat ieee.binary64) (fun x => x)
            (prepare (initialState (-1) 1 (fun x => x)))).method_to_use
          ≠ methods_available.quadratic_interpolation
      ∧ StepExact (Arithmetic.ofFormat ieee.binary64) (prepare (initialState (-1) 1 (fun x => x)))
      ∧ min (-1 : ℚ) 1
          ≤ nextEstimate (Arithmetic.ofFormat ieee.binary64)
              (prepare (initialState (-1) 1 (fun x => x)))
      ∧ nextEstimate (Arithmetic.ofFormat ieee.binary64)
            (prepare (initialState (-1) 1 (fun x => x))) ≤ max (-1 : ℚ) 1 := by
  have hpos : ∀ x : ℚ, 0 ≤ x → 0 ≤ (Arithmetic.ofFormat ieee.binary64).rnd x :=
    fun x hx => ieee.Format.round_nonneg ieee.binary64 x hx
  have hneg : ∀ x : ℚ, x ≤ 0 → (Arithmetic.ofFormat ieee.binary64).rnd x ≤ 0 :=
    fun x hx => ieee.Format.round_nonpos ieee.binary64 x hx
  have htol : 0 < (Arithmetic.ofFormat ieee.binary64).literal_1e_9 := by
    rw [(ofFormat_literal_1e_9 ieee.binary64).1]
    norm_num [zpow_neg]
  obtain ⟨f1, f2, f3, f4, f5⟩ := identity_prepare_fields
  have hm : (iterate (Arithmetic.ofFormat ieee.binary64) (fun x => x)
        (prepare (initialState (-1) 1 (fun x => x)))).method_to_use
      ≠ methods_available.quadratic_interpolation := by
    rw [ld_iterate_method_to_use]
    rcases ld_chooseMethod_cases (Arithmetic.ofFormat ieee.binary64)
      (prepare (initialState (-1) 1 (fun x => x)))
      (candidate (Arithmetic.ofFormat ieee.binary64)
        (prepare (initialState (-1) 1 (fun x => x)))).1
      (candidate (Arithmetic.ofFormat ieee.binary64)
        (prepare (initialState (-1) 1 (fun x => x)))).2 with h1 | h1
    · rw [h1]; decide
    · rw [h1, identity_candidate_tag]; decide
  have hex : StepExact (Arithmetic.ofFormat ieee.binary64)
      (prepare (initialState (-1) 1 (fun x => x))) := by
    unfold StepExact
    rw [f1, f2, f3, f4]
    exact ⟨fun _ => bisection_identity_exact, fun _ => secant_identity_exact⟩
  have hres := (SearchForRoot_evaluates_inside_when_exact (Arithmetic.ofFormat ieee.binary64)
    (fun x => x) (-1) 1 hpos hneg htol identity_binary64_guard).2.2 [] _ _
    (ld_iterations_split_first (Arithmetic.ofFormat ieee.binary64) (fun x => x) (-1) 1)
    (fun p hp => absurd hp (List.not_mem_nil p)) hm hex
  exact ⟨hpos, hneg, htol, identity_binary64_guard, hm, hex, hres.1, hres.2⟩

end longdouble

namespace ieee

/-- A tie between two neighbours goes to the even one. -/
theorem roundHalfEven_tie_even (n : Int) (hn : n % 2 = 0) :
    roundHalfEven ((n : ℚ) + 1 / 2) = n := by
  have hfl : ⌊(n : ℚ) + 1 / 2⌋ = n := by
    rw [Int.floor_int_add]
    have : ⌊(1 / 2 : ℚ)⌋ = 0 := by
      rw [Int.floor_eq_iff]; constructor <;> norm_num
    rw [this, add_zero]
  have hfr : Int.fract ((n : ℚ) + 1 / 2) = 1 / 2 := by
    rw [Int.fract_int_add]
    rw [Int.fract_eq_iff]
    refine ⟨by norm_num, by norm_num, 0, by norm_num⟩
  unfold roundHalfEven
  rw [hfr, hfl, if_neg (lt_irrefl _), if_neg (lt_irrefl _), if_pos hn]

/-- Rounding a number halfway between two neighbours of the format, the lower
one having an even significand. -/
theorem Format.round_tie_eq (F : Format) (x v : ℚ) (e u n : Int)
    (hb : (2 : ℚ) ^ e ≤ x ∧ x < (2 : ℚ) ^ (e + 1))
    (he : F.emin ≤ e) (hu : u = e - ((F.precision : Int) - 1))
    (hv : v = (n : ℚ) * (2 : ℚ) ^ u)
    (hx : x / (2 : ℚ) ^ u = (n : ℚ) + 1 / 2) (hn : n % 2 = 0) : F.round x = v := by
  have hx0 : 0 < x := lt_of_lt_of_le (two_zpow_pos e) hb.1
  have hlog : F.ulpExponent x = u := by
    unfold Format.ulpExponent
    rw [abs_of_pos hx0, log_two_eq x e hb.1 hb.2, max_eq_left he, hu]
  unfold Format.round
  rw [hlog, hx, roundHalfEven_tie_even n hn, hv]

end ieee

namespace longdouble

open roots (SolverState kMaxIterations Consistent swapIfCounterCloser prepare initialState
  methods_available relative_to_solution_e Bracketing lineThrough Inside)
open mirr (DriverState stillSearching SharesOneEndpoint)

theorem ld_driverBody_count (A : Arithmetic) (f : ℚ → ℚ) (s : DriverState) :
    (driverBody A f s).count = s.count := by
  unfold driverBody
  cases SearchForRoot A s.low_estimate s.high_estimate f with
  | ok r => rfl
  | error d =>
    simp only
    split <;> rfl

theorem ld_driverBody_attempts (A : Arithmetic) (f : ℚ → ℚ) (s : DriverState) :
    (driverBody A f s).attempts = s.attempts ++ [(s.low_estimate, s.high_estimate)] := by
  unfold driverBody
  cases SearchForRoot A s.low_estimate s.high_estimate f with
  | ok r => rfl
  | error d =>
    simp only
    split <;> rfl

theorem ld_driverBody_ok (A : Arithmetic) (f : ℚ → ℚ) (s : DriverState) (r : ℚ)
    (hc : s.count = 0)
    (h : SearchForRoot A s.low_estimate s.high_estimate f = Except.ok r) :
    (driverBody A f s).searching = false ∧ (driverBody A f s).result = r
      ∧ (driverBody A f s).low_estimate = s.low_estimate
      ∧ (driverBody A f s).high_estimate = s.high_estimate := by
  unfold driverBody
  rw [h]
  simp [hc, stillSearching]

theorem ld_driverBody_too_low (A : Arithmetic) (f : ℚ → ℚ) (s : DriverState)
    (hc : s.count = 0)
    (h : SearchForRoot A s.low_estimate s.high_estimate f
      = Except.error relative_to_solution_e.too_low) :
    (driverBody A f s).searching = true ∧ (driverBody A f s).result = s.result
      ∧ (driverBody A f s).low_estimate = s.high_estimate
      ∧ (driverBody A f s).high_estimate
          = A.add s.high_estimate |A.sub s.high_estimate s.low_estimate| := by
  unfold driverBody
  rw [h]
  simp [hc, stillSearching, mirr.kMaxIterations]

theorem ld_driverBody_too_high (A : Arithmetic) (f : ℚ → ℚ) (s : DriverState)
    (hc : s.count = 0)
    (h : SearchForRoot A s.low_estimate s.high_estimate f
      = Except.error relative_to_solution_e.too_high) :
    (driverBody A f s).searching = true ∧ (driverBody A f s).result = s.result
      ∧ (driverBody A f s).high_estimate = s.low_estimate
      ∧ (driverBody A f s).low_estimate
          = A.sub s.low_estimate |A.sub s.high_estimate s.low_estimate| := by
  unfold driverBody
  rw [h]
  simp [hc, stillSearching, mirr.kMaxIterations]

/-- The solver raises with no direction other than `too_low` and `too_high`. -/
theorem ld_SearchForRoot_error_cases (A : Arithmetic) (f : ℚ → ℚ) (a b : ℚ)
    (d : relative_to_solution_e) (h : SearchForRoot A a b f = Except.error d) :
    d = relative_to_solution_e.too_low ∨ d = relative_to_solution_e.too_high := by
  rw [ld_SearchForRoot_eq] at h
  by_cases hb : A.mul (f b) (f a) ≥ 0
  · rw [ld_SearchForRootTrace_error A a b f hb] at h
    by_cases ha : f a < 0
    · simp only [ha, if_true] at h
      left; cases h; rfl
    · simp only [ha, if_false] at h
      right; cases h; rfl
  · rw [ld_SearchForRootTrace_ok A a b f (not_le.mp hb)] at h
    cases h

theorem ld_driverRun_count (A : Arithmetic) (f : ℚ → ℚ) (n : Nat) (s : DriverState) :
    (driverRun A f n s).count = s.count := by
  induction n generalizing s with
  | zero => rfl
  | succ n ih =>
    unfold driverRun
    split
    · rw [ih, ld_driverBody_count]
    · rfl

theorem ld_driverRun_stopped (A : Arithmetic) (f : ℚ → ℚ) (n : Nat) (s : DriverState)
    (h : s.searching = false) : driverRun A f n s = s := by
  cases n with
  | zero => rfl
  | succ n =>
    show (if s.searching then driverRun A f n (driverBody A f s) else s) = s
    rw [h]; rfl

theorem ld_driverRun_succ (A : Arithmetic) (f : ℚ → ℚ) (n : Nat) (s : DriverState) :
    driverRun A f (n + 1) s
      = if (driverRun A f n s).searching then driverBody A f (driverRun A f n s)
        else driverRun A f n s := by
  induction n generalizing s with
  | zero =>
    show (if s.searching then driverRun A f 0 (driverBody A f s) else s) = _
    rfl
  | succ n ih =>
    show (if s.searching then driverRun A f (n + 1) (driverBody A f s) else s) = _
    by_cases hs : s.searching = true
    · rw [if_pos hs, ih (driverBody A f s)]
      have e : driverRun A f (n + 1) s = driverRun A f n (driverBody A f s) := by
        show (if s.searching then driverRun A f n (driverBody A f s) else s) = _
        rw [if_pos hs]
      rw [e]
    · rw [if_neg hs]
      have e : driverRun A f (n + 1) s = s := by
        show (if s.searching then driverRun A f n (driverBody A f s) else s) = _
        rw [if_neg hs]
      rw [e, if_neg hs]

/-- One more pass of the loop while it is searching. -/
theorem ld_GetRateTrace_succ (A : Arithmetic) (f : ℚ → ℚ) (n : Nat)
    (hs : (GetRateTrace A f n).searching = true) :
    GetRateTrace A f (n + 1) = driverBody A f (GetRateTrace A f n) := by
  unfold GetRateTrace at hs ⊢
  rw [ld_driverRun_succ, if_pos hs]

theorem ld_GetRateTrace_count (A : Arithmetic) (f : ℚ → ℚ) (n : Nat) :
    (GetRateTrace A f n).count = 0 := by
  unfold GetRateTrace
  rw [ld_driverRun_count]
  rfl

theorem ld_driverRun_attempts_append (A : Arithmetic) (f : ℚ → ℚ) (m : Nat) (s : DriverState) :
    ∃ rest, (driverRun A f m s).attempts = s.attempts ++ rest := by
  induction m generalizing s with
  | zero => exact ⟨[], (List.append_nil _).symm⟩
  | succ m ih =>
    show ∃ rest, (if s.searching then driverRun A f m (driverBody A f s) else s).attempts = _
    by_cases hs : s.searching = true
    · rw [if_pos hs]
      obtain ⟨rest, hrest⟩ := ih (driverBody A f s)
      refine ⟨(s.low_estimate, s.high_estimate) :: rest, ?_⟩
      rw [hrest, ld_driverBody_attempts, List.append_assoc]
      rfl
    · rw [if_neg hs]
      exact ⟨[], (List.append_nil _).symm⟩

/-- The first window handed to the solver. -/
theorem ld_GetRateTrace_head (A : Arithmetic) (f : ℚ → ℚ) (n : Nat) :
    (GetRateTrace A f (n + 1)).attempts.head? = some (-A.literal_0_99999, 1) := by
  have e : GetRateTrace A f (n + 1) = driverRun A f n (driverBody A f (driverStart A)) := by
    show (if (driverStart A).searching then driverRun A f n (driverBody A f (driverStart A))
      else driverStart A) = _
    rfl
  obtain ⟨rest, hrest⟩ := ld_driverRun_attempts_append A f n (driverBody A f (driverStart A))
  rw [e, hrest, ld_driverBody_attempts]
  rfl

/-- After a rejection the loop continues on the shifted window: the state
after the pass, and the window recorded by the pass after it. -/
theorem ld_GetRateTrace_rejected (A : Arithmetic) (f : ℚ → ℚ) (n : Nat)
    (hs : (GetRateTrace A f n).searching = true) (d : relative_to_solution_e)
    (hr : SearchForRoot A (GetRateTrace A f n).low_estimate (GetRateTrace A f n).high_estimate f
      = Except.error d) :
    (GetRateTrace A f (n + 1)).searching = true
      ∧ (GetRateTrace A f (n + 1)).attempts
          = (GetRateTrace A f n).attempts
            ++ [((GetRateTrace A f n).low_estimate, (GetRateTrace A f n).high_estimate)]
      ∧ (GetRateTrace A f (n + 2)).attempts
          = (GetRateTrace A f n).attempts
            ++ [((GetRateTrace A f n).low_estimate, (GetRateTrace A f n).high_estimate),
                ((GetRateTrace A f (n + 1)).low_estimate,
                  (GetRateTrace A f (n + 1)).high_estimate)]
      ∧ (d = relative_to_solution_e.too_low →
          (GetRateTrace A f (n + 1)).low_estimate = (GetRateTrace A f n).high_estimate
            ∧ (GetRateTrace A f (n + 1)).high_estimate
                = A.add (GetRateTrace A f n).high_estimate
                    |A.sub (GetRateTrace A f n).high_estimate
                      (GetRateTrace A f n).low_estimate|)
      ∧ (d ≠ relative_to_solution_e.too_low →
          (GetRateTrace A f (n + 1)).high_estimate = (GetRateTrace A f n).low_estimate
            ∧ (GetRateTrace A f (n + 1)).low_estimate
                = A.sub (GetRateTrace A f n).low_estimate
                    |A.sub (GetRateTrace A f n).high_estimate
                      (GetRateTrace A f n).low_estimate|) := by
  have hc := ld_GetRateTrace_count A f n
  have e1 := ld_GetRateTrace_succ A f n hs
  have hsearch : (GetRateTrace A f (n + 1)).searching = true := by
    rw [e1]
    rcases ld_SearchForRoot_error_cases A f _ _ d hr with hd | hd
    · rw [hd] at hr; exact (ld_driverBody_too_low A f _ hc hr).1
    · rw [hd] at hr; exact (ld_driverBody_too_high A f _ hc hr).1
  have ha1 : (GetRateTrace A f (n + 1)).attempts
      = (GetRateTrace A f n).attempts
        ++ [((GetRateTrace A f n).low_estimate, (GetRateTrace A f n).high_estimate)] := by
    rw [e1, ld_driverBody_attempts]
  refine ⟨hsearch, ha1, ?_, ?_, ?_⟩
  · rw [ld_GetRateTrace_succ A f (n + 1) hsearch, ld_driverBody_attempts, ha1,
      List.append_assoc]
    rfl
  · intro hd
    rw [hd] at hr
    rw [e1]
    exact ⟨(ld_driverBody_too_low A f _ hc hr).2.2.1, (ld_driverBody_too_low A f _ hc hr).2.2.2⟩
  · intro hd
    rcases ld_SearchForRoot_error_cases A f _ _ d hr with hd2 | hd2
    · exact absurd hd2 hd
    · rw [hd2] at hr
      rw [e1]
      exact ⟨(ld_driverBody_too_high A f _ hc hr).2.2.1,
        (ld_driverBody_too_high A f _ hc hr).2.2.2⟩

/-- Each window tried after the first follows a rejected one by the rounded
shift, and while the loop is searching the window it will try next follows the
last one tried in the same way. -/
theorem ld_GetRateTrace_chain (A : Arithmetic) (f : ℚ → ℚ) (n : Nat) :
    List.Chain' (fun w w' => NextWindow A f w w') (GetRateTrace A f n).attempts
      ∧ ((GetRateTrace A f n).searching = true →
          ∀ w ∈ (GetRateTrace A f n).attempts.getLast?,
            NextWindow A f w
              ((GetRateTrace A f n).low_estimate, (GetRateTrace A f n).high_estimate)) := by
  induction n with
  | zero =>
    refine ⟨List.chain'_nil, ?_⟩
    intro _ w hw
    cases hw
  | succ n ih =>
    by_cases hs : (GetRateTrace A f n).searching = true
    · have e1 := ld_GetRateTrace_succ A f n hs
      have hc := ld_GetRateTrace_count A f n
      obtain ⟨hchain, hlast⟩ := ih
      constructor
      · rw [e1, ld_driverBody_attempts, List.chain'_append]
        refine ⟨hchain, List.chain'_singleton _, ?_⟩
        intro x hx y hy
        simp only [List.head?_cons, Option.mem_def, Option.some.injEq] at hy
        rw [← hy]
        exact hlast hs x hx
      · intro hsearch w hmem
        rw [e1, ld_driverBody_attempts, List.getLast?_concat] at hmem
        simp only [Option.mem_def, Option.some.injEq] at hmem
        rw [← hmem]
        cases hr : SearchForRoot A (GetRateTrace A f n).low_estimate
            (GetRateTrace A f n).high_estimate f with
        | ok r =>
          rw [e1, (ld_driverBody_ok A f _ r hc hr).1] at hsearch
          cases hsearch
        | error d =>
          obtain ⟨-, -, -, hlow, hother⟩ := ld_GetRateTrace_rejected A f n hs d hr
          by_cases hd : d = relative_to_solution_e.too_low
          · rw [(hlow hd).1, (hlow hd).2]
            rw [hd] at hr
            exact Or.inl ⟨hr, rfl⟩
          · rw [(hother hd).1, (hother hd).2]
            exact Or.inr ⟨d, hd, hr, rfl⟩
    · have e1 : GetRateTrace A f (n + 1) = GetRateTrace A f n := by
        unfold GetRateTrace at hs ⊢
        rw [ld_driverRun_succ, if_neg hs]
      rw [e1]
      exact ih

/-- An exact shift of a window with `low < high` gives a window with
`low < high` of the same width that shares exactly one endpoint with it. -/
theorem ld_NextWindow_exact (A : Arithmetic) (f : ℚ → ℚ) (w w' : ℚ × ℚ)
    (hn : NextWindow A f w w') (hlt : w.1 < w.2) (hex : ShiftExact A w) :
    w'.1 < w'.2 ∧ w'.2 - w'.1 = w.2 - w.1 ∧ SharesOneEndpoint w w' := by
  obtain ⟨e1, e2, e3⟩ := hex
  have hpos : 0 < w.2 - w.1 := by linarith
  have habs : |w.2 - w.1| = w.2 - w.1 := abs_of_pos hpos
  rcases hn with ⟨-, hw⟩ | ⟨d, -, -, hw⟩
  · rw [e1, e2, habs] at hw
    rw [hw]
    refine ⟨?_, ?_, Or.inl ⟨Or.inr rfl, ?_⟩⟩
    · show w.2 < w.2 + (w.2 - w.1)
      linarith
    · show w.2 + (w.2 - w.1) - w.2 = w.2 - w.1
      ring
    · show ¬ (w.2 + (w.2 - w.1) = w.1 ∨ w.2 + (w.2 - w.1) = w.2)
      rintro (h5 | h5) <;> linarith
  · rw [e1, e3, habs] at hw
    rw [hw]
    refine ⟨?_, ?_, Or.inr ⟨?_, Or.inl rfl⟩⟩
    · show w.1 - (w.2 - w.1) < w.1
      linarith
    · show w.1 - (w.1 - (w.2 - w.1)) = w.2 - w.1
      ring
    · show ¬ (w.1 - (w.2 - w.1) = w.1 ∨ w.1 - (w.2 - w.1) = w.2)
      rintro (h5 | h5) <;> linarith

/-- While every shift so far has been exact, every window tried, and the
window to be tried next, has the width of the first. -/
theorem ld_GetRateTrace_width (A : Arithmetic) (f : ℚ → ℚ) (hlit : 0 < 1 + A.literal_0_99999)
    (n : Nat) (hex : ∀ w ∈ (GetRateTrace A f n).attempts, ShiftExact A w) :
    (∀ w ∈ (GetRateTrace A f n).attempts,
        w.1 < w.2 ∧ w.2 - w.1 = 1 + A.literal_0_99999)
      ∧ ((GetRateTrace A f n).searching = true →
          (GetRateTrace A f n).high_estimate - (GetRateTrace A f n).low_estimate
            = 1 + A.literal_0_99999) := by
  induction n with
  | zero =>
    refine ⟨fun w hw => (by cases hw), fun _ => ?_⟩
    show (1 : ℚ) - (-A.literal_0_99999) = 1 + A.literal_0_99999
    ring
  | succ n ih =>
    by_cases hs : (GetRateTrace A f n).searching = true
    · have e1 := ld_GetRateTrace_succ A f n hs
      have hc := ld_GetRateTrace_count A f n
      have ha1 : (GetRateTrace A f (n + 1)).attempts
          = (GetRateTrace A f n).attempts
            ++ [((GetRateTrace A f n).low_estimate, (GetRateTrace A f n).high_estimate)] := by
        rw [e1, ld_driverBody_attempts]
      rw [ha1] at hex
      obtain ⟨hall, hcur⟩ := ih (fun w hw => hex w (List.mem_append_left _ hw))
      have hw0 := hcur hs
      have hlt : (GetRateTrace A f n).low_estimate < (GetRateTrace A f n).high_estimate := by
        linarith
      have hexc := hex ((GetRateTrace A f n).low_estimate, (GetRateTrace A f n).high_estimate)
        (List.mem_append_right _ (List.mem_singleton.mpr rfl))
      constructor
      · rw [ha1]
        intro w hw
        rcases List.mem_append.mp hw with h1 | h1
        · exact hall w h1
        · rw [List.mem_singleton] at h1
          rw [h1]
          exact ⟨hlt, hw0⟩
      · intro hsearch
        have hnext := (ld_GetRateTrace_chain A f (n + 1)).2 hsearch
          ((GetRateTrace A f n).low_estimate, (GetRateTrace A f n).high_estimate)
          (by rw [ha1, List.getLast?_concat]; rfl)
        have h3 := (ld_NextWindow_exact A f _ _ hnext hlt hexc).2.1
        show (GetRateTrace A f (n + 1)).high_estimate - (GetRateTrace A f (n + 1)).low_estimate
          = 1 + A.literal_0_99999
        rw [← hw0]
        exact h3
    · have e1 : GetRateTrace A f (n + 1) = GetRateTrace A f n := by
        unfold GetRateTrace at hs ⊢
        rw [ld_driverRun_succ, if_neg hs]
      rw [e1] at hex ⊢
      exact ih hex

end longdouble

namespace longdouble

open roots (SolverState kMaxIterations Consistent swapIfCounterCloser prepare initialState
  methods_available relative_to_solution_e Bracketing lineThrough Inside)
open mirr (DriverState stillSearching SharesOneEndpoint)

/-- The `double` literal `0.99999` is `9007109182748445 / 2^53`. -/
theorem ofFormat_literal_0_99999 (F : ieee.Format) :
    (Arithmetic.ofFormat F).literal_0_99999 = 9007109182748445 / 9007199254740992 := by
  have h : (Arithmetic.ofFormat F).literal_0_99999
      = 9007109182748445 * (2 : ℚ) ^ (-53 : Int) := ieee.binary64_literal_0_99999
  rw [h]
  norm_num [zpow_neg]

/-- When rounding keeps non-negative numbers non-negative, the solver rejects
every pair of estimates for the constant objective `1`, with direction
`too_high`. -/
theorem const_one_rejected (A : Arithmetic) (hpos : ∀ x : ℚ, 0 ≤ x → 0 ≤ A.rnd x) (a b : ℚ) :
    SearchForRoot A a b (fun _ => 1) = Except.error relative_to_solution_e.too_high := by
  have h : A.mul ((fun _ : ℚ => (1 : ℚ)) b) ((fun _ : ℚ => (1 : ℚ)) a) ≥ 0 :=
    hpos _ (by norm_num)
  rw [ld_SearchForRoot_eq, ld_SearchForRootTrace_error A a b (fun _ => 1) h]
  show Except.error (if (1 : ℚ) < 0 then relative_to_solution_e.too_low
    else relative_to_solution_e.too_high) = _
  rw [if_neg (by norm_num)]

/-- The first two windows tried for the constant objective `1`. -/
theorem const_one_two_windows (A : Arithmetic) (hpos : ∀ x : ℚ, 0 ≤ x → 0 ≤ A.rnd x) :
    (GetRateTrace A (fun _ => 1) 2).attempts
      = [(-A.literal_0_99999, 1),
          (A.sub (-A.literal_0_99999) |A.sub 1 (-A.literal_0_99999)|, -A.literal_0_99999)] := by
  have hs : (GetRateTrace A (fun _ => 1) 0).searching = true := rfl
  obtain ⟨-, -, h2, -, h4⟩ := ld_GetRateTrace_rejected A (fun _ => 1) 0 hs
    relative_to_solution_e.too_high (const_one_rejected A hpos _ _)
  rw [h2, (h4 (by decide)).1, (h4 (by decide)).2]
  rfl

/-- In binary64 the width `1 + 0.99999` of the first window is halfway between
two numbers of the format and rounds to the even one, and the lower end of the
second window is rounded as well. -/
theorem binary64_second_window :
    (Arithmetic.ofFormat ieee.binary64).sub (-(9007109182748445 / 9007199254740992))
        |(Arithmetic.ofFormat ieee.binary64).sub 1 (-(9007109182748445 / 9007199254740992))|
      = -3377677202529735 / 1125899906842624 := by
  have h1 : (Arithmetic.ofFormat ieee.binary64).sub 1 (-(9007109182748445 / 9007199254740992))
      = 4503577109372359 / 2251799813685248 :=
    ieee.Format.round_tie_eq ieee.binary64 _ _ 0 (-52) 9007154218744718
      (by constructor <;> norm_num [zpow_neg]) (by norm_num [ieee.binary64])
      (by norm_num [ieee.binary64]) (by norm_num [zpow_neg]) (by norm_num [zpow_neg])
      (by decide)
  rw [h1, abs_of_pos (by norm_num)]
  exact ieee.Format.round_nearest_eq ieee.binary64 _ _ 1 (-51) (-6755354405059470)
    (Or.inr (by constructor <;> norm_num [zpow_neg])) (by norm_num [ieee.binary64])
    (by norm_num [ieee.binary64]) (by norm_num [zpow_neg])
    (by constructor <;> norm_num [zpow_neg])

/-- C7, counterexample: the literal `0.99999` is a `double`, so both in binary64
and in the x87 extended format the first window is
`(-9007109182748445 / 2^53, 1)`, whose lower end is not `-0.99999` and whose
width is not `1.99999`.  In binary64, for the constant objective `1` the solver
rejects that window and the second window is
`(-3377677202529735 / 2^50, -9007109182748445 / 2^53)`, whose width differs
from that of the first window: the shift does not preserve the width. -/
theorem GetRate_window_width_not_preserved :
    (∀ A : Arithmetic,
        A = Arithmetic.ofFormat ieee.binary64 ∨ A = Arithmetic.ofFormat ieee.x87extended →
        (GetRateTrace A (fun _ => 1) 1).attempts.head?
          = some (-(9007109182748445 / 9007199254740992), 1))
      ∧ (-(9007109182748445 / 9007199254740992) : ℚ) ≠ -(99999 / 100000)
      ∧ (1 : ℚ) - (-(9007109182748445 / 9007199254740992)) ≠ 199999 / 100000
      ∧ (GetRateTrace (Arithmetic.ofFormat ieee.binary64) (fun _ => 1) 2).attempts
          = [(-(9007109182748445 / 9007199254740992), 1),
              (-3377677202529735 / 1125899906842624, -(9007109182748445 / 9007199254740992))]
      ∧ (-(9007109182748445 / 9007199254740992) : ℚ) - -3377677202529735 / 1125899906842624
          ≠ 1 - (-(9007109182748445 / 9007199254740992))
      ∧ (-(9007109182748445 / 9007199254740992) : ℚ) - -3377677202529735 / 1125899906842624
          ≠ 199999 / 100000 := by
  refine ⟨?_, by norm_num, by norm_num, ?_, by norm_num, by norm_num⟩
  · rintro A (rfl | rfl)
    · rw [ld_GetRateTrace_head, ofFormat_literal_0_99999]
    · rw [ld_GetRateTrace_head, ofFormat_literal_0_99999]
  · rw [const_one_two_windows _ (fun x hx => ieee.Format.round_nonneg ieee.binary64 x hx),
      ofFormat_literal_0_99999, binary64_second_window]

/-- C7, amended: in `Calculator::GetRate` the first window is `(-c, 1.0)` with
`c` the value of the `double` literal `0.99999`.  After a `RangeException` on
the window `(low, high)` the loop goes on, and the window of its next pass is
`(high, high + |high - low|)` for `too_low` and `(low - |high - low|, low)` for
any other direction, where the difference, the sum and the outer difference are
each rounded to `long double`.  Every attempted window after the first follows
the one before it in this way and so has an endpoint in common with it.  When
the three operations of a shift are exact and `low < high`, the new window has
`low < high`, the same width, and exactly one endpoint in common with the old
one; and while every shift so far has been exact, every attempted window has
`low < high` and width `1 + c`. -/
theorem GetRate_windows_rounded (A : Arithmetic) (f : ℚ → ℚ) (n : Nat) :
    (GetRateTrace A f (n + 1)).attempts.head? = some (-A.literal_0_99999, 1)
      ∧ (∀ d : relative_to_solution_e, (GetRateTrace A f n).searching = true →
          SearchForRoot A (GetRateTrace A f n).low_estimate
              (GetRateTrace A f n).high_estimate f = Except.error d →
          (GetRateTrace A f (n + 1)).searching = true
            ∧ (GetRateTrace A f (n + 1)).attempts
                = (GetRateTrace A f n).attempts
                  ++ [((GetRateTrace A f n).low_estimate, (GetRateTrace A f n).high_estimate)]
            ∧ (GetRateTrace A f (n + 2)).attempts
                = (GetRateTrace A f n).attempts
                  ++ [((GetRateTrace A f n).low_estimate, (GetRateTrace A f n).high_estimate),
                      ((GetRateTrace A f (n + 1)).low_estimate,
                        (GetRateTrace A f (n + 1)).high_estimate)]
            ∧ (d = relative_to_solution_e.too_low →
                (GetRateTrace A f (n + 1)).low_estimate = (GetRateTrace A f n).high_estimate
                  ∧ (GetRateTrace A f (n + 1)).high_estimate
                      = A.add (GetRateTrace A f n).high_estimate
                          |A.sub (GetRateTrace A f n).high_estimate
                            (GetRateTrace A f n).low_estimate|)
            ∧ (d ≠ relative_to_solution_e.too_low →
                (GetRateTrace A f (n + 1)).high_estimate = (GetRateTrace A f n).low_estimate
                  ∧ (GetRateTrace A f (n + 1)).low_estimate
                      = A.sub (GetRateTrace A f n).low_estimate
                          |A.sub (GetRateTrace A f n).high_estimate
                            (GetRateTrace A f n).low_estimate|))
      ∧ List.Chain' (fun w w' => NextWindow A f w w') (GetRateTrace A f n).attempts
      ∧ (∀ w w' : ℚ × ℚ, NextWindow A f w w' → w'.1 = w.2 ∨ w'.2 = w.1)
      ∧ (∀ w w' : ℚ × ℚ, NextWindow A f w w' → w.1 < w.2 → ShiftExact A w →
          w'.1 < w'.2 ∧ w'.2 - w'.1 = w.2 - w.1 ∧ SharesOneEndpoint w w')
      ∧ (0 < 1 + A.literal_0_99999 →
          (∀ w ∈ (GetRateTrace A f n).attempts, ShiftExact A w) →
          ∀ w ∈ (GetRateTrace A f n).attempts,
            w.1 < w.2 ∧ w.2 - w.1 = 1 + A.literal_0_99999) := by
  refine ⟨ld_GetRateTrace_head A f n, fun d hs hr => ld_GetRateTrace_rejected A f n hs d hr,
    (ld_GetRateTrace_chain A f n).1, ?_, fun w w' hn hlt hex => ld_NextWindow_exact A f w w' hn hlt hex,
    fun hlit hex => (ld_GetRateTrace_width A f hlit n hex).1⟩
  intro w w' hn
  rcases hn with ⟨-, hw⟩ | ⟨d, -, -, hw⟩
  · left; rw [hw]
  · right; rw [hw]

/-- Witness for C7 (amended): in binary64, for the constant objective `1` the
solver rejects the first window with `too_high`; the loop goes on and its
second pass tries the window shifted down, whose upper end is the lower end of
the first. -/
theorem GetRate_windows_rounded_witness :
    (GetRateTrace (Arithmetic.ofFormat ieee.binary64) (fun _ => 1) 0).searching = true
      ∧ SearchForRoot (Arithmetic.ofFormat ieee.binary64)
          (GetRateTrace (Arithmetic.ofFormat ieee.binary64) (fun _ => 1) 0).low_estimate
          (GetRateTrace (Arithmetic.ofFormat ieee.binary64) (fun _ => 1) 0).high_estimate
          (fun _ => 1) = Except.error relative_to_solution_e.too_high
      ∧ (GetRateTrace (Arithmetic.ofFormat ieee.binary64) (fun _ => 1) 1).searching = true
      ∧ (GetRateTrace (Arithmetic.ofFormat ieee.binary64) (fun _ => 1) 2).attempts
          = (GetRateTrace (Arithmetic.ofFormat ieee.binary64) (fun _ => 1) 0).attempts
            ++ [((GetRateTrace (Arithmetic.ofFormat ieee.binary64) (fun _ => 1) 0).low_estimate,
                  (GetRateTrace (Arithmetic.ofFormat ieee.binary64) (fun _ => 1) 0).high_estimate),
                ((GetRateTrace (Arithmetic.ofFormat ieee.binary64) (fun _ => 1) 1).low_estimate,
                  (GetRateTrace (Arithmetic.ofFormat ieee.binary64) (fun _ => 1) 1).high_estimate)]
      ∧ (GetRateTrace (Arithmetic.ofFormat ieee.binary64) (fun _ => 1) 1).high_estimate
          = (GetRateTrace (Arithmetic.ofFormat ieee.binary64) (fun _ => 1) 0).low_estimate :=
  have hr := const_one_rejected (Arithmetic.ofFormat ieee.binary64)
    (fun x hx => ieee.Format.round_nonneg ieee.binary64 x hx)
    (GetRateTrace (Arithmetic.ofFormat ieee.binary64) (fun _ => 1) 0).low_estimate
    (GetRateTrace (Arithmetic.ofFormat ieee.binary64) (fun _ => 1) 0).high_estimate
  have h := (GetRate_windows_rounded (Arithmetic.ofFormat ieee.binary64) (fun _ => 1) 0).2.1
    relative_to_solution_e.too_high rfl hr
  ⟨rfl, hr, h.1, h.2.2.1, (h.2.2.2.2 (by decide)).1⟩

end longdouble

namespace longdouble

open mirr (CashFlow CashFlowList max_element)

theorem ld_finite_ne_zero (y : ℚ) : Extended.finite y ≠ Extended.finite 0 ↔ y ≠ 0 := by
  constructor
  · intro h hy
    exact h (by rw [hy])
  · intro h he
    exact h (Extended.finite.inj he)

/-- With divisor zero the quotient of two `long` values is never a number, and
`0 / 0` is a NaN. -/
theorem ld_quotient_zero (A : Arithmetic) (days : Int) :
    (∀ y : ℚ, quotient A days 0 ≠ Extended.finite y)
      ∧ (days = 0 → quotient A days 0 = Extended.nan) := by
  unfold quotient
  rw [if_pos rfl]
  constructor
  · intro y
    split_ifs <;> exact fun h => by cases h
  · intro h
    rw [if_pos h]

/-- The power of `1` is `1` whatever the exponent with divisor zero is. -/
theorem ld_pow_one_zero_divisor (A : Arithmetic) (pw : ℚ → ℚ → ℚ) (days : Int) :
    pow pw 1 (quotient A days 0) = Extended.finite 1 := by
  unfold quotient
  rw [if_pos rfl]
  split_ifs <;> simp [pow]

/-- With divisor zero and base `1`, every entry is added undiscounted. -/
theorem ld_fold_base_one (A : Arithmetic) (pw : ℚ → ℚ → ℚ) (cs : List CashFlow) (init : ℚ) :
    cs.foldl
        (fun result cash_flow =>
          if pow pw 1 (quotient A cash_flow.days_from_start_ 0) ≠ Extended.finite 0 then
            accumulate A result
              (discounted A cash_flow.amount_ (pow pw 1 (quotient A cash_flow.days_from_start_ 0)))
          else result) (some init)
      = some (cs.foldl (fun r c => A.add r (A.div c.amount_ 1)) init) := by
  induction cs generalizing init with
  | nil => rfl
  | cons c cs ih =>
    rw [List.foldl_cons, List.foldl_cons, ld_pow_one_zero_divisor,
      if_pos ((ld_finite_ne_zero 1).mpr one_ne_zero)]
    exact ih _

/-- The timeline with the single flow `(1420070400, 100)`. -/
theorem single_flow_entries :
    (CashFlowList.empty.push_back (CashFlow.make 1420070400 100)).entries
        = [CashFlow.make 1420070400 100]
      ∧ max_element (CashFlowList.empty.push_back (CashFlow.make 1420070400 100)).entries
        = some (CashFlow.make 1420070400 100)
      ∧ (CashFlow.make 1420070400 100).days_from_start_ = 0 :=
  ⟨rfl, rfl, rfl⟩

/-- C18, failing input: the timeline with the single flow `(2015-01-01, 100)`
is not empty and its latest entry has `days_from_start = 0`; at the rate `0`,
which is not `-1`, the exponent is `0 / 0`, a NaN, but `pow(1, NaN)` is `1`, so
`calculateNPV` returns the finite number `100` and not a NaN, both in binary64
and in the x87 extended format. -/
theorem calculateNPV_finite_at_rate_zero :
    ((CashFlowList.empty.push_back (CashFlow.make 1420070400 100)).entries ≠ []
        ∧ max_element (CashFlowList.empty.push_back (CashFlow.make 1420070400 100)).entries
            = some (CashFlow.make 1420070400 100)
        ∧ (CashFlow.make 1420070400 100).days_from_start_ = 0
        ∧ (0 : ℚ) ≠ -1)
      ∧ ∀ A : Arithmetic,
          A = Arithmetic.ofFormat ieee.binary64 ∨ A = Arithmetic.ofFormat ieee.x87extended →
          ∀ pw : ℚ → ℚ → ℚ,
            quotient A (CashFlow.make 1420070400 100).days_from_start_
                (CashFlow.make 1420070400 100).days_from_start_ = Extended.nan
              ∧ calculateNPV A pw (CashFlowList.empty.push_back (CashFlow.make 1420070400 100)) 0
                = some 100 := by
  have key : ∀ F : ieee.Format, 8 ≤ F.precision → F.emin ≤ 0 → ∀ pw : ℚ → ℚ → ℚ,
      calculateNPV (Arithmetic.ofFormat F) pw
        (CashFlowList.empty.push_back (CashFlow.make 1420070400 100)) 0 = some 100 := by
    intro F hp hemin pw
    have hpq : (2 : ℚ) ^ (8 : Int) ≤ (2 : ℚ) ^ (F.precision : Int) :=
      zpow_le_zpow_right₀ (by norm_num) (by exact_mod_cast hp)
    have hk : F.emin - ((F.precision : Int) - 1) ≤ 0 := by
      have : (8 : Int) ≤ (F.precision : Int) := by exact_mod_cast hp
      omega
    have h1 : (Arithmetic.ofFormat F).add 1 0 = 1 :=
      ieee.Format.round_exact_eq F _ _ 1 0 (by norm_num) (by norm_num)
        (by
          have e : (2 : ℚ) ^ (8 : Int) = 256 := by norm_num
          rw [e] at hpq
          have : |((1 : Int) : ℚ)| = 1 := by norm_num
          rw [this]; linarith) hk
    have h2 : (Arithmetic.ofFormat F).div 100 1 = 100 :=
      ieee.Format.round_exact_eq F _ _ 100 0 (by norm_num) (by norm_num)
        (by
          have e : (2 : ℚ) ^ (8 : Int) = 256 := by norm_num
          rw [e] at hpq
          have : |((100 : Int) : ℚ)| = 100 := by norm_num
          rw [this]; linarith) hk
    have h3 : (Arithmetic.ofFormat F).add 0 100 = 100 :=
      ieee.Format.round_exact_eq F _ _ 100 0 (by norm_num) (by norm_num)
        (by
          have e : (2 : ℚ) ^ (8 : Int) = 256 := by norm_num
          rw [e] at hpq
          have : |((100 : Int) : ℚ)| = 100 := by norm_num
          rw [this]; linarith) hk
    have hm : max_element [CashFlow.make 1420070400 100]
        = some (CashFlow.make 1420070400 100) := rfl
    unfold calculateNPV
    simp only [single_flow_entries.1, hm]
    rw [if_neg (by norm_num), h1]
    have hf := ld_fold_base_one (Arithmetic.ofFormat F) pw [CashFlow.make 1420070400 100] 0
    have hd : (CashFlow.make 1420070400 100).days_from_start_ = 0 := rfl
    rw [hd]
    rw [hf]
    show some ((Arithmetic.ofFormat F).add 0 ((Arithmetic.ofFormat F).div 100 1)) = some 100
    rw [h2, h3]
  refine ⟨⟨fun h => (by cases h), rfl, rfl, by norm_num⟩, ?_⟩
  rintro A (rfl | rfl) pw
  · exact ⟨(ld_quotient_zero _ 0).2 rfl,
      key ieee.binary64 (by norm_num [ieee.binary64]) (by norm_num [ieee.binary64]) pw⟩
  · exact ⟨(ld_quotient_zero _ 0).2 rfl,
      key ieee.x87extended (by norm_num [ieee.x87extended]) (by norm_num [ieee.x87extended]) pw⟩

end longdouble

namespace longdouble

open roots (SolverState kMaxIterations)

/-- Without rounding, and with the decimal value of the tolerance literal, one
pass of the loop is that of the model over the rationals. -/
theorem ld_exact_iterate (f : ℚ → ℚ) (s : SolverState) :
    iterate Arithmetic.exact f s = roots.iterate f s
      ∧ nextEstimate Arithmetic.exact s = roots.nextEstimate s
      ∧ candidate Arithmetic.exact s = roots.candidate s
      ∧ converged Arithmetic.exact s = roots.converged s :=
  ⟨rfl, rfl, rfl, rfl⟩

/-- Without rounding the loop is that of the model over the rationals. -/
theorem ld_exact_whileLoop (f : ℚ → ℚ) (fuel : Nat) (s : SolverState) :
    whileLoop Arithmetic.exact f fuel s = roots.whileLoop f fuel s := by
  induction fuel generalizing s with
  | zero => rfl
  | succ n ih =>
    unfold whileLoop roots.whileLoop
    by_cases hc : s.count < kMaxIterations
    · simp only [hc, if_true]
      rw [(ld_exact_iterate f s).1, (ld_exact_iterate f _).2.2.2, ih]
    · simp only [hc, if_false]

/-- Without rounding the solver is that of the model over the rationals. -/
theorem ld_exact_SearchForRoot (a b : ℚ) (f : ℚ → ℚ) :
    SearchForRootTrace Arithmetic.exact a b f = roots.SearchForRootTrace a b f
      ∧ SearchForRoot Arithmetic.exact a b f = roots.SearchForRoot a b f := by
  have h : SearchForRootTrace Arithmetic.exact a b f = roots.SearchForRootTrace a b f := by
    unfold SearchForRootTrace roots.SearchForRootTrace
    simp only [ld_exact_whileLoop]
    rfl
  refine ⟨h, ?_⟩
  unfold SearchForRoot roots.SearchForRoot
  rw [h]

/-- Without rounding the driver of `GetRate` is that of the model over the
rationals. -/
theorem ld_exact_driverBody (f : ℚ → ℚ) (s : mirr.DriverState) :
    driverBody Arithmetic.exact f s = mirr.driverBody f s := by
  unfold driverBody mirr.driverBody
  rw [(ld_exact_SearchForRoot _ _ f).2]
  rfl

theorem ld_exact_driverRun (f : ℚ → ℚ) (n : Nat) (s : mirr.DriverState) :
    driverRun Arithmetic.exact f n s = mirr.driverRun f n s := by
  induction n generalizing s with
  | zero => rfl
  | succ n ih =>
    unfold driverRun mirr.driverRun
    rw [ld_exact_driverBody, ih]

/-- Without rounding `GetRate` is that of the model over the rationals. -/
theorem ld_exact_GetRateTrace (f : ℚ → ℚ) (n : Nat) :
    GetRateTrace Arithmetic.exact f n = mirr.GetRateTrace f n := by
  have hs : driverStart Arithmetic.exact = mirr.driverStart := by
    unfold driverStart mirr.driverStart
    have e : -Arithmetic.exact.literal_0_99999 = (-99999 / 100000 : ℚ) := by
      show -(99999 / 100000 : ℚ) = -99999 / 100000
      norm_num
    rw [e]
  unfold GetRateTrace mirr.GetRateTrace
  rw [ld_exact_driverRun, hs]

end longdouble
